import Mathlib

/-!
# DEOS: ready queues, scheduler tick and radio framing

A shallow embedding of the kernel and framing code of DEOS (ATmega2560).
Bytes and indices are natural numbers; arrays are total functions from the
index to the element; `os_error` never returns and is modelled by the
`Except.error` outcome; a loop that can fail to terminate carries fuel and
yields `none` when the fuel is used up.
-/

namespace DEOS

/-! ## Definitions -/

/-- Ways in which control does not come back: `os_error` ends in an endless
loop, and each constructor but `hang` stands for one of its call sites; `hang`
stands for any other loop that never ends. -/
inductive Fault where
  | rq_push_full
  | rq_pop_empty
  | stack_overflow
  | stack_corruption
  | hang
  | crit_section_overflow
  | crit_section_underflow
  | exec_priority
  | idle_not_registered
  deriving DecidableEq, Repr

/-- Array store `a[i] = v`. -/
def write {α : Type} (a : Nat → α) (i : Nat) (v : α) : Nat → α :=
  fun j => if j = i then v else a j

/-- Constant MAX_NUMBER_OF_PROCESSES of `defines.h`. -/
def MAX_NUMBER_OF_PROCESSES : Nat := 8

/-- Constant READY_QUEUE_CAPACITY of `ready_queue.h`. -/
def READY_QUEUE_CAPACITY : Nat := MAX_NUMBER_OF_PROCESSES

/-- Constant READY_QUEUE_SIZE of `ready_queue.h`. -/
def READY_QUEUE_SIZE : Nat := READY_QUEUE_CAPACITY + 1

/-- Macro `next(index)` of `ready_queue.c`. -/
def next (index : Nat) : Nat :=
  if index + 1 < READY_QUEUE_SIZE then index + 1 else 0

/-- Macro `prev(index)` of `ready_queue.c`. -/
def prev (index : Nat) : Nat :=
  if index > 0 then index - 1 else READY_QUEUE_SIZE - 1

/-- Struct `ready_queue_t`: the array `processes[READY_QUEUE_SIZE]` and the
two indices. -/
structure ready_queue_t where
  processes : Nat → Nat
  head : Nat
  tail : Nat

/-- Function `rq_isEmpty`. -/
def rq_isEmpty (queue : ready_queue_t) : Bool :=
  queue.head == queue.tail

/-- Function `rq_isFull`. -/
def rq_isFull (queue : ready_queue_t) : Bool :=
  next queue.tail == queue.head

/-- Function `rq_clear` (and `rq_init`): the array keeps its old bytes. -/
def rq_clear (queue : ready_queue_t) : ready_queue_t :=
  { queue with head := 0, tail := 0 }

/-- Function `rq_push`: fatal error on a full queue, otherwise store at the
tail and advance the tail. -/
def rq_push (queue : ready_queue_t) (process : Nat) : Except Fault ready_queue_t :=
  if rq_isFull queue then .error .rq_push_full
  else .ok { queue with
    processes := write queue.processes queue.tail process
    tail := next queue.tail }

/-- Function `rq_pop`: fatal error on an empty queue, otherwise read at the
head and advance the head. -/
def rq_pop (queue : ready_queue_t) : Except Fault (Nat × ready_queue_t) :=
  if rq_isEmpty queue then .error .rq_pop_empty
  else .ok (queue.processes queue.head, { queue with head := next queue.head })

/-- Inner loop of `rq_remove`: `for (j = i; j != tail; j = next(j))
processes[j] = processes[next(j)]`. -/
def rq_remove_shift (tail : Nat) : Nat → (Nat → Nat) → Nat → Option (Nat → Nat)
  | 0, _, _ => none
  | fuel + 1, processes, j =>
    if j = tail then some processes
    else rq_remove_shift tail fuel (write processes j (processes (next j))) (next j)

/-- Outer loop of `rq_remove`, from index `i`. -/
def rq_remove_scan (queue : ready_queue_t) (process : Nat) :
    Nat → Nat → Option (Bool × ready_queue_t)
  | 0, _ => none
  | fuel + 1, i =>
    if i = queue.tail then some (false, queue)
    else if queue.processes i = process then
      match rq_remove_shift queue.tail (READY_QUEUE_SIZE + 1) queue.processes i with
      | none => none
      | some ps => some (true, { queue with processes := ps, tail := prev queue.tail })
    else rq_remove_scan queue process fuel (next i)

/-- Function `rq_remove`. An index leaves the range `0..8` after at most one
step and then cycles through it, so `READY_QUEUE_SIZE + 1` iterations decide
each loop; `none` stands for a loop that never meets the tail. -/
def rq_remove (queue : ready_queue_t) (process : Nat) : Option (Bool × ready_queue_t) :=
  rq_remove_scan queue process (READY_QUEUE_SIZE + 1) queue.head

/-- Traversal of `rq_print` and `rq_count`: the entries met from index `i`
until the tail, following `next`. -/
def rq_walk (processes : Nat → Nat) (tail : Nat) : Nat → Nat → List Nat
  | 0, _ => []
  | fuel + 1, i =>
    if i = tail then [] else processes i :: rq_walk processes tail fuel (next i)

/-- Contents of a queue: the entries from the head to the tail, the entry
popped first on the left. -/
def rq_contents (queue : ready_queue_t) : List Nat :=
  rq_walk queue.processes queue.tail READY_QUEUE_SIZE queue.head

/-- Well-formed queue: both indices address the array. -/
def rq_wf (queue : ready_queue_t) : Prop :=
  queue.head < READY_QUEUE_SIZE ∧ queue.tail < READY_QUEUE_SIZE

instance (queue : ready_queue_t) : Decidable (rq_wf queue) := by
  unfold rq_wf; infer_instance

/-- One caller action on a ready queue. -/
inductive RqOp where
  | push (pid : Nat)
  | pop
  deriving DecidableEq, Repr

/-- The pids pushed by a sequence of actions, in order. -/
def rq_pushed : List RqOp → List Nat
  | [] => []
  | .push pid :: ops => pid :: rq_pushed ops
  | .pop :: ops => rq_pushed ops

/-- Runs a sequence of pushes and pops; returns the popped pids in order. -/
def rq_run : List RqOp → ready_queue_t → Except Fault (List Nat × ready_queue_t)
  | [], queue => .ok ([], queue)
  | .push pid :: ops, queue =>
    match rq_push queue pid with
    | .error e => .error e
    | .ok queue1 => rq_run ops queue1
  | .pop :: ops, queue =>
    match rq_pop queue with
    | .error e => .error e
    | .ok (pid, queue1) =>
      match rq_run ops queue1 with
      | .error e => .error e
      | .ok (popped, queue2) => .ok (pid :: popped, queue2)

/-- The interleaving never holds more than 8 entries and never pops an empty
queue, starting from `count` held entries. -/
def rq_admissible : List RqOp → Nat → Bool
  | [], _ => true
  | .push _ :: ops, count => decide (count < READY_QUEUE_CAPACITY) && rq_admissible ops (count + 1)
  | .pop :: ops, count => decide (0 < count) && rq_admissible ops (count - 1)

/-- Loop of `rq_count`: `for (i = head; i != tail; i = next(i)) count++`, with
the 8-bit counter. -/
def rq_count_loop (tail : Nat) : Nat → Nat → Nat → Option Nat
  | 0, _, _ => none
  | fuel + 1, i, count =>
    if i = tail then some count else rq_count_loop tail fuel (next i) ((count + 1) % 256)

/-- Function `rq_count`; `none` stands for a loop that never meets the tail. -/
def rq_count (queue : ready_queue_t) : Option Nat :=
  rq_count_loop queue.tail (READY_QUEUE_SIZE + 1) queue.head 0

/-- An empty queue whose indices stand at 7, so that three pushes wrap around
the end of the array. -/
def rq_sample_empty : ready_queue_t :=
  { processes := fun _ => 0, head := 7, tail := 7 }

/-- A queue holding 5, 6, 5, 4 across the end of the array, with an old entry
left in the slot at the tail. -/
def rq_sample_wrapped : ready_queue_t :=
  { processes := fun i =>
      if i = 7 then 5 else if i = 8 then 6 else if i = 0 then 5 else if i = 1 then 4 else 9
    head := 7, tail := 2 }

/-! ### Radio framing: `rfAdapter.c`, `serialAdapter.c`, `xbee.c` and the
receive side of UART1 -/

/-- Global `serialAdapter_startFlag` of `rfAdapter.c`: the ASCII letters RF. -/
def serialAdapter_startFlag : Nat := 0x5246

/-- Macro `ADDRESS(teamId, subId)` of `rfAdapter.h`. -/
def ADDRESS (teamId subId : Nat) : Nat :=
  ((((teamId <<< 3) &&& 0b11111000) % 256) ||| (subId &&& 0b00000111))

/-- Initial value of the global `serialAdapter_address`; the functions below
take the current value of that global as their argument `addr`. -/
def serialAdapter_address : Nat := ADDRESS 1 0

/-- Constant ADDRESS_BROADCAST of `serialAdapter.h`. -/
def ADDRESS_BROADCAST : Nat := 255

/-- Constant INITIAL_CHECKSUM_VALUE of `rfAdapter.h`. -/
def INITIAL_CHECKSUM_VALUE : Nat := 0

/-- Constant COMM_MAX_PAYLOAD_LENGTH of `serialAdapter.h`. -/
def COMM_MAX_PAYLOAD_LENGTH : Nat := 48

/-- Constant COMM_MAX_INNER_FRAME_LENGTH: `sizeof(checksum_t)` is 1. -/
def COMM_MAX_INNER_FRAME_LENGTH : Nat := 1 + COMM_MAX_PAYLOAD_LENGTH

/-- Constant COMM_FOOTER_LENGTH: `sizeof(checksum_t)`. -/
def COMM_FOOTER_LENGTH : Nat := 1

def CMD_SET_LED : Nat := 0x01
def CMD_TOGGLE_LED : Nat := 0x02
def CMD_LCD_CLEAR : Nat := 0x10
def CMD_LCD_GOTO : Nat := 0x11
def CMD_LCD_PRINT : Nat := 0x12
def CMD_SENSOR_DATA : Nat := 0x20

def XBEE_SUCCESS : Nat := 0
def XBEE_BUFFER_INCONSISTENCY : Nat := 1
def XBEE_READ_ERROR : Nat := 2
def XBEE_DATA_MISSING : Nat := 4

def UART_FRAME_ERROR : Nat := 0x1000
def UART_OVERRUN_ERROR : Nat := 0x0800
def UART_BUFFER_OVERFLOW : Nat := 0x0200
def UART_NO_DATA : Nat := 0x0100

/-- Constant UART1_RX_BUFFER_SIZE of `uart.h`. -/
def UART1_RX_BUFFER_SIZE : Nat := 256

/-- Struct `frame_header_t`. -/
structure frame_header_t where
  startFlag : Nat
  srcAddr : Nat
  destAddr : Nat
  length : Nat

/-- Struct `frame_footer_t`. -/
structure frame_footer_t where
  checksum : Nat

/-- Struct `frame_t`. The inner frame (struct `inner_frame_t`) is its 49
bytes: index 0 is `command`, index `1 + i` is `payload[i]`. -/
structure frame_t where
  header : frame_header_t
  innerFrame : Nat → Nat
  footer : frame_footer_t

/-- The five bytes of a `frame_header_t` in memory: the AVR stores the 16-bit
start flag low byte first and lays the fields out without padding. -/
def frame_header_bytes (header : frame_header_t) : Nat → Nat :=
  fun i =>
    if i = 0 then header.startFlag % 256
    else if i = 1 then (header.startFlag >>> 8) % 256
    else if i = 2 then header.srcAddr
    else if i = 3 then header.destAddr
    else header.length

/-- Constant COMM_HEADER_LENGTH: `sizeof(frame_header_t)`. -/
def COMM_HEADER_LENGTH : Nat := 2 + 1 * 2 + 1

/-- Library function `memcpy(dst, src, n)`. -/
def memcpy (dst src : Nat → Nat) (n : Nat) : Nat → Nat :=
  fun i => if i < n then src i else dst i

/-- Function `serialAdapter_calculateChecksum`: XORs `length` bytes of `data`
into the checksum. -/
def serialAdapter_calculateChecksum (checksum : Nat) (data : Nat → Nat) (length : Nat) : Nat :=
  (List.range length).foldl (fun c i => c ^^^ data i) checksum

/-- Function `serialAdapter_calculateFrameChecksum`. -/
def serialAdapter_calculateFrameChecksum (frame : frame_t) : Nat :=
  let checksum := INITIAL_CHECKSUM_VALUE
  let checksum := serialAdapter_calculateChecksum checksum (frame_header_bytes frame.header)
    COMM_HEADER_LENGTH
  serialAdapter_calculateChecksum checksum frame.innerFrame frame.header.length

/-- Function `xbee_writeData`: the bytes handed to `xbee_write`, in order. -/
def xbee_writeData (data : Nat → Nat) (length : Nat) : List Nat :=
  (List.range length).map data

/-- Function `serialAdapter_writeFrame`; the result is the sequence of bytes
handed to the transport. `frame` is the uninitialised local, `addr` the value
of `serialAdapter_address`. -/
def serialAdapter_writeFrame (addr : Nat) (frame : frame_t) (destAddr length : Nat)
    (innerFrame : Nat → Nat) : List Nat :=
  let header : frame_header_t :=
    { startFlag := serialAdapter_startFlag, srcAddr := addr, destAddr := destAddr,
      length := length }
  let frame : frame_t :=
    { frame with header := header, innerFrame := memcpy frame.innerFrame innerFrame length }
  let checksum := serialAdapter_calculateFrameChecksum frame
  xbee_writeData (frame_header_bytes frame.header) 2
    ++ xbee_writeData (fun _ => frame.header.srcAddr) 1
    ++ xbee_writeData (fun _ => frame.header.destAddr) 1
    ++ xbee_writeData (fun _ => frame.header.length) 1
    ++ xbee_writeData innerFrame length
    ++ xbee_writeData (fun _ => checksum) 1

/-- Library function `strlen` on the bytes stored at the pointer: the number
of bytes before the first NUL. -/
def strlen (message : List Nat) : Nat :=
  (message.takeWhile (fun c => c != 0)).length

/-- Function `rfAdapter_sendSetLed`; `innerFrame` is the uninitialised local. -/
def rfAdapter_sendSetLed (addr : Nat) (frame : frame_t) (innerFrame : Nat → Nat)
    (destAddr : Nat) (enable : Bool) : List Nat :=
  let innerFrame := write innerFrame 0 CMD_SET_LED
  let payload : Nat → Nat := fun _ => if enable then 1 else 0
  let innerFrame : Nat → Nat := fun i => if 1 ≤ i ∧ i < 1 + 1 then payload (i - 1) else innerFrame i
  let length := 1 + 1
  serialAdapter_writeFrame addr frame destAddr length innerFrame

/-- Function `rfAdapter_sendLcdPrint`; `message` holds the bytes at the
pointer, `innerFrame` and `payload` are the uninitialised locals. The cast
`(uint8_t)strlen(message)` keeps the low 8 bits of the length. -/
def rfAdapter_sendLcdPrint (addr : Nat) (frame : frame_t) (innerFrame payload : Nat → Nat)
    (destAddr : Nat) (message : List Nat) : List Nat :=
  let innerFrame := write innerFrame 0 CMD_LCD_PRINT
  let msgLength := strlen message % 256
  let msgLength := if msgLength > 32 then 32 else msgLength
  let payload := write payload 0 msgLength
  let payload : Nat → Nat :=
    fun i => if 1 ≤ i ∧ i < 1 + msgLength then message.getD (i - 1) 0 else payload i
  let innerFrame : Nat → Nat :=
    fun i => if 1 ≤ i ∧ i < 1 + (1 + msgLength) then payload (i - 1) else innerFrame i
  let length := 1 + 1 + msgLength
  serialAdapter_writeFrame addr frame destAddr length innerFrame

/-- A call of one of the receive handlers of `rfAdapter.c`, with the data the
handler reads through its argument. -/
inductive HandlerCall where
  | receiveSetLed (enable : Nat)
  | receiveToggleLed
  | receiveLcdClear
  | receiveLcdGoto (x y : Nat)
  | receiveLcdPrint (length : Nat) (message : List Nat)
  deriving DecidableEq, Repr

/-- Function `serialAdapter_processFrame`: the handler calls it makes. -/
def serialAdapter_processFrame (frame : frame_t) : List HandlerCall :=
  if frame.header.length < 1 then []
  else
    let cmd := frame.innerFrame 0
    let payload : Nat → Nat := fun i => frame.innerFrame (1 + i)
    if cmd = CMD_SET_LED then
      if frame.header.length = 1 + 1 then [.receiveSetLed (payload 0)] else []
    else if cmd = CMD_TOGGLE_LED then
      if frame.header.length = 1 then [.receiveToggleLed] else []
    else if cmd = CMD_LCD_CLEAR then
      if frame.header.length = 1 then [.receiveLcdClear] else []
    else if cmd = CMD_LCD_GOTO then
      if frame.header.length = 1 + 2 then [.receiveLcdGoto (payload 0) (payload 1)] else []
    else if cmd = CMD_LCD_PRINT then
      if frame.header.length ≥ 1 + 1 then
        let length := payload 0
        if frame.header.length = 1 + 1 + length then
          if length ≤ 32 then
            [.receiveLcdPrint length ((List.range length).map (fun i => payload (1 + i)))]
          else []
        else []
      else []
    else if cmd = CMD_SENSOR_DATA then []
    else []

/-- Receive side of UART1 as the code above it sees it: `pending` holds the
bytes of `UART1_RxBuf` between `UART1_RxTail` and `UART1_RxHead`, oldest
first (at most 255 fit the ring), `lastRxError` is `UART1_LastRxError`. -/
structure Uart1Rx where
  pending : List Nat
  lastRxError : Nat

/-- Interrupt routine `ISR(UART1_RECEIVE_INTERRUPT)` for a byte `data` that
arrives with the status register value `usr`, of which the frame-error,
overrun and parity bits (4, 3, 2) are kept: a byte that meets a full ring is
dropped and flagged as an overflow. -/
def UART1_RECEIVE_INTERRUPT (u : Uart1Rx) (data usr : Nat) : Uart1Rx :=
  if u.pending.length + 1 = UART1_RX_BUFFER_SIZE then
    { u with lastRxError := u.lastRxError ||| (UART_BUFFER_OVERFLOW >>> 8) }
  else
    { pending := u.pending ++ [data % 256],
      lastRxError := u.lastRxError ||| (usr &&& 0b00011100) }

/-- Function `uart1_getc`: low byte the data, high byte the last error. -/
def uart1_getc (u : Uart1Rx) : Nat × Uart1Rx :=
  match u.pending with
  | [] => (UART_NO_DATA, u)
  | data :: rest => (((u.lastRxError <<< 8) + data) % 65536, { pending := rest, lastRxError := 0 })

/-- Function `uart1_getrxcount` (`BUFFER_FILLING` of the ring indices). -/
def uart1_getrxcount (u : Uart1Rx) : Nat :=
  u.pending.length

/-- Function `xbee_getNumberOfBytesReceived`. -/
def xbee_getNumberOfBytesReceived (u : Uart1Rx) : Nat :=
  uart1_getrxcount u

/-- Function `xbee_read`, storing through the pointer `&buffer[i]`. -/
def xbee_read (u : Uart1Rx) (buffer : Nat → Nat) (i : Nat) : Nat × (Nat → Nat) × Uart1Rx :=
  let (uart_data, u1) := uart1_getc u
  let status := uart_data &&& 0xFF00
  let data := uart_data &&& 0x00FF
  if status = 0 then (XBEE_SUCCESS, write buffer i data, u1)
  else if status &&& UART_FRAME_ERROR ≠ 0 then (XBEE_READ_ERROR, buffer, u1)
  else if status &&& (UART_OVERRUN_ERROR ||| UART_BUFFER_OVERFLOW) ≠ 0 then
    (XBEE_BUFFER_INCONSISTENCY, write buffer i data, u1)
  else if status &&& UART_NO_DATA ≠ 0 then (XBEE_DATA_MISSING, buffer, u1)
  else (XBEE_READ_ERROR, buffer, u1)

/-- Loop of `xbee_readBuffer`: `remaining` bytes are still to be read into
`buffer[i]`, `buffer[i+1]`, ... -/
def xbee_readBuffer_loop : Nat → Nat → (Nat → Nat) → Uart1Rx → Nat × (Nat → Nat) × Uart1Rx
  | 0, _, buffer, u => (XBEE_SUCCESS, buffer, u)
  | remaining + 1, i, buffer, u =>
    match xbee_read u buffer i with
    | (result, buffer1, u1) =>
      if result ≠ XBEE_SUCCESS then (result, buffer1, u1)
      else xbee_readBuffer_loop remaining (i + 1) buffer1 u1

/-- Function `xbee_readBuffer`. -/
def xbee_readBuffer (u : Uart1Rx) (buffer : Nat → Nat) (length : Nat) :
    Nat × (Nat → Nat) × Uart1Rx :=
  if xbee_getNumberOfBytesReceived u < length then (XBEE_DATA_MISSING, buffer, u)
  else xbee_readBuffer_loop length 0 buffer u

/-- What happens while the receiving process is switched away in one
`os_yield`: `dt` milliseconds pass and the bytes of `received` arrive, each
with the value of the status register at its arrival. -/
structure EnvStep where
  dt : Nat
  received : List (Nat × Nat)

/-- What the receiver works on: the receive ring, the millisecond clock
`os_coarseSystemTime` and the steps the environment takes at the coming
yields. -/
structure World where
  rx : Uart1Rx
  now : Nat
  script : List EnvStep

/-- Constant SERIAL_ADAPTER_READ_TIMEOUT_MS. -/
def SERIAL_ADAPTER_READ_TIMEOUT_MS : Nat := 500

/-- Modelled from the spec: the type `time_t` of the missing `lib/util.h` is
the 32-bit unsigned millisecond count of `now_ms() -> u32`. Function
`serialAdapter_hasTimeout` on the clock value `now`. -/
def serialAdapter_hasTimeout (now timestamp timeoutMs : Nat) : Bool :=
  decide ((now + 2 ^ 32 - timestamp % 2 ^ 32) % 2 ^ 32 ≥ timeoutMs)

/-- One `os_yield` seen from the waiting receiver. -/
def applyEnvStep (step : EnvStep) (rx : Uart1Rx) (now : Nat) : Uart1Rx × Nat :=
  (step.received.foldl (fun u b => UART1_RECEIVE_INTERRUPT u b.1 b.2) rx,
    (now + step.dt) % 2 ^ 32)

/-- Loop of `serialAdapter_waitForData`; every iteration that yields takes
one step of the script. The result is `none` when the script ends while the
loop is still waiting: the model is then silent about the outcome. -/
def serialAdapter_waitForData_loop (byteCount frameTimestamp : Nat) :
    List EnvStep → Uart1Rx → Nat → Option (Bool × World)
  | [], rx, now =>
    if xbee_getNumberOfBytesReceived rx < byteCount then
      if serialAdapter_hasTimeout now frameTimestamp SERIAL_ADAPTER_READ_TIMEOUT_MS then
        some (false, { rx := rx, now := now, script := [] })
      else none
    else some (true, { rx := rx, now := now, script := [] })
  | step :: rest, rx, now =>
    if xbee_getNumberOfBytesReceived rx < byteCount then
      if serialAdapter_hasTimeout now frameTimestamp SERIAL_ADAPTER_READ_TIMEOUT_MS then
        some (false, { rx := rx, now := now, script := step :: rest })
      else
        serialAdapter_waitForData_loop byteCount frameTimestamp rest
          (applyEnvStep step rx now).1 (applyEnvStep step rx now).2
    else some (true, { rx := rx, now := now, script := step :: rest })

/-- Function `serialAdapter_waitForData`. -/
def serialAdapter_waitForData (byteCount frameTimestamp : Nat) (w : World) :
    Option (Bool × World) :=
  serialAdapter_waitForData_loop byteCount frameTimestamp w.script w.rx w.now

/-- Outcome of one `serialAdapter_worker` call: the world it leaves, the
frame it handed to `serialAdapter_processFrame` (if it got that far) and the
handler calls made. -/
structure WorkerResult where
  world : World
  passed : Option frame_t
  calls : List HandlerCall

/-- Function `serialAdapter_worker`. `addr` is the value of
`serialAdapter_address`; `low`, `high` and `frame` are the uninitialised
locals. -/
def serialAdapter_worker (addr low high : Nat) (frame : frame_t) (w : World) :
    Option WorkerResult :=
  let timestamp := w.now
  match serialAdapter_waitForData 2 timestamp w with
  | none => none
  | some (false, w1) => some { world := w1, passed := none, calls := [] }
  | some (true, w1) =>
    match xbee_readBuffer w1.rx (fun _ => low) 1 with
    | (_, lowBuf, rx2) =>
    if lowBuf 0 ≠ serialAdapter_startFlag % 256 then
      some { world := { w1 with rx := rx2 }, passed := none, calls := [] }
    else
    match xbee_readBuffer rx2 (fun _ => high) 1 with
    | (_, highBuf, rx3) =>
    if highBuf 0 ≠ serialAdapter_startFlag >>> 8 then
      some { world := { w1 with rx := rx3 }, passed := none, calls := [] }
    else
    let startTime := w1.now
    match xbee_readBuffer rx3 (fun _ => frame.header.srcAddr) 1 with
    | (status4, srcBuf, rx4) =>
    if status4 ≠ XBEE_SUCCESS then
      some { world := { w1 with rx := rx4 }, passed := none, calls := [] }
    else
    match xbee_readBuffer rx4 (fun _ => frame.header.destAddr) 1 with
    | (status5, destBuf, rx5) =>
    if status5 ≠ XBEE_SUCCESS then
      some { world := { w1 with rx := rx5 }, passed := none, calls := [] }
    else
    match xbee_readBuffer rx5 (fun _ => frame.header.length) 1 with
    | (status6, lengthBuf, rx6) =>
    if status6 ≠ XBEE_SUCCESS then
      some { world := { w1 with rx := rx6 }, passed := none, calls := [] }
    else
    let header : frame_header_t :=
      { startFlag := serialAdapter_startFlag, srcAddr := srcBuf 0, destAddr := destBuf 0,
        length := lengthBuf 0 }
    if header.length > COMM_MAX_INNER_FRAME_LENGTH then
      some { world := { w1 with rx := rx6 }, passed := none, calls := [] }
    else
    let totalNeeded := (header.length + COMM_FOOTER_LENGTH) % 256
    match serialAdapter_waitForData totalNeeded startTime { w1 with rx := rx6 } with
    | none => none
    | some (false, w7) => some { world := w7, passed := none, calls := [] }
    | some (true, w7) =>
      match xbee_readBuffer w7.rx frame.innerFrame header.length with
      | (status8, innerBuf, rx8) =>
      if status8 ≠ XBEE_SUCCESS then
        some { world := { w7 with rx := rx8 }, passed := none, calls := [] }
      else
      match xbee_readBuffer rx8 (fun _ => frame.footer.checksum) 1 with
      | (status9, footerBuf, rx9) =>
      if status9 ≠ XBEE_SUCCESS then
        some { world := { w7 with rx := rx9 }, passed := none, calls := [] }
      else
      let frame : frame_t :=
        { header := header, innerFrame := innerBuf, footer := { checksum := footerBuf 0 } }
      let calcCheck := serialAdapter_calculateFrameChecksum frame
      if calcCheck ≠ frame.footer.checksum then
        some { world := { w7 with rx := rx9 }, passed := none, calls := [] }
      else if frame.header.destAddr ≠ addr ∧ frame.header.destAddr ≠ ADDRESS_BROADCAST then
        some { world := { w7 with rx := rx9 }, passed := none, calls := [] }
      else
        some { world := { w7 with rx := rx9 }, passed := some frame,
               calls := serialAdapter_processFrame frame }

/-- The frame the receiver holds after reading the header fields `src`,
`dst`, the inner bytes `inner` and the footer byte `footer` into its local
`frame`: bytes of the local beyond the inner length keep their old value. -/
def received_frame (frame : frame_t) (src dst : Nat) (inner : List Nat) (footer : Nat) :
    frame_t :=
  { header := { startFlag := serialAdapter_startFlag, srcAddr := src, destAddr := dst,
                length := inner.length }
    innerFrame := fun j => if j < inner.length then inner.getD j 0 else frame.innerFrame j
    footer := { checksum := footer } }

/-- The bytes of a complete frame on the wire. -/
def wire_frame (src dst : Nat) (inner : List Nat) (footer : Nat) : List Nat :=
  0x46 :: 0x52 :: src :: dst :: inner.length :: (inner ++ [footer])

/-- XOR of a byte sequence, starting from 0. -/
def xor_bytes (bytes : List Nat) : Nat :=
  bytes.foldl (fun c b => c ^^^ b) 0

/-- A local frame variable holding zeros, for the examples. -/
def frame_zero : frame_t :=
  { header := { startFlag := 0, srcAddr := 0, destAddr := 0, length := 0 }
    innerFrame := fun _ => 0, footer := { checksum := 0 } }

/-! ### Process table, scheduling strategies and the scheduler tick:
`os_process.h`, `os_scheduling_strategies.c`, `os_scheduler.c` -/

/-- Enum `process_state_t`. -/
inductive process_state_t where
  | OS_PS_UNUSED
  | OS_PS_READY
  | OS_PS_RUNNING
  deriving DecidableEq, Repr

/-- Enum `priority_t`, in the order of its values 0, 1, 2. -/
inductive priority_t where
  | OS_PRIO_HIGH
  | OS_PRIO_NORMAL
  | OS_PRIO_LOW
  deriving DecidableEq, Repr

/-- Enum `scheduling_strategy_t`. -/
inductive scheduling_strategy_t where
  | OS_SS_ROUND_ROBIN
  | OS_SS_DYNAMIC_PRIORITY_ROUND_ROBIN
  deriving DecidableEq, Repr

open process_state_t priority_t scheduling_strategy_t

/-- Struct `process_t`. -/
structure process_t where
  progID : Nat
  state : process_state_t
  sp : Nat
  priority : priority_t
  checksum : Nat

/-- Struct `scheduling_information_t`: the array `queues_ready`, indexed by
priority. -/
structure scheduling_information_t where
  queues_ready : priority_t → ready_queue_t

/-- The globals of `os_scheduler.c` and `os_scheduling_strategies.c`, with the
two register bits that the critical sections use: the interrupt enable bit of
`SREG` and the bit `OCIE2A` of `TIMSK2` (the tick source). A program pointer
is a number, 0 for `NULL`. -/
structure Kernel where
  os_processes : Nat → process_t
  currentProc : Nat
  currSchedStrat : scheduling_strategy_t
  schedulingInfo : scheduling_information_t
  os_programs : Nat → Nat := fun _ => 0
  criticalSectionCount : Nat := 0
  os_autostart : Nat := 0
  SREG_I : Bool := true
  TIMSK2_OCIE2A : Bool := true

/-- Constant INVALID_PROCESS of `defines.h`. -/
def INVALID_PROCESS : Nat := 255

def AVR_MEMORY_SRAM : Nat := 1 <<< 13
def AVR_SRAM_START : Nat := 0x0200
def AVR_SRAM_END : Nat := AVR_SRAM_START + AVR_MEMORY_SRAM
def AVR_SRAM_LAST : Nat := AVR_SRAM_END - 1
def STACK_OFFSET : Nat := 1000
def STACK_SIZE_MAIN : Nat := 32
def STACK_SIZE_ISR : Nat := 192

/-- Constant STACK_SIZE_PROC of `defines.h`. -/
def STACK_SIZE_PROC : Nat :=
  (AVR_MEMORY_SRAM - STACK_OFFSET - STACK_SIZE_MAIN - STACK_SIZE_ISR) / MAX_NUMBER_OF_PROCESSES

def BOTTOM_OF_MAIN_STACK : Nat := AVR_SRAM_LAST
def BOTTOM_OF_ISR_STACK : Nat := BOTTOM_OF_MAIN_STACK - STACK_SIZE_MAIN
def BOTTOM_OF_PROCS_STACK : Nat := BOTTOM_OF_ISR_STACK - STACK_SIZE_ISR

/-- Macro `PROCESS_STACK_BOTTOM(PID)` of `defines.h`. -/
def PROCESS_STACK_BOTTOM (pid : Nat) : Nat :=
  BOTTOM_OF_PROCS_STACK - pid * STACK_SIZE_PROC

/-- Function `os_getProcessSlot`. -/
def os_getProcessSlot (k : Kernel) (pid : Nat) : process_t :=
  k.os_processes pid

/-- Store into one queue of `schedulingInfo.queues_ready`. -/
def set_queue (info : scheduling_information_t) (priority : priority_t) (queue : ready_queue_t) :
    scheduling_information_t :=
  { queues_ready := fun p => if p = priority then queue else info.queues_ready p }

/-- Function `isAnyProcReady`: the loop over the slots 1 to 7. -/
def isAnyProcReady (processes : Nat → process_t) : Bool :=
  (List.range' 1 (MAX_NUMBER_OF_PROCESSES - 1)).any
    (fun i => decide ((processes i).state = OS_PS_READY))

/-- The do-while loop of `os_scheduler_RoundRobin`; the result is `nextProc`
and `found`. After 8 iterations `nextProc` has taken every value 0..7, so the
loop has ended unless it never ends (`none`). -/
def os_scheduler_RoundRobin_loop (processes : Nat → process_t) (current : Nat) :
    Nat → Nat → Option (Nat × Bool)
  | 0, _ => none
  | fuel + 1, nextProc =>
    if (processes ((nextProc + 1) % MAX_NUMBER_OF_PROCESSES)).state = OS_PS_READY
        ∧ (processes ((nextProc + 1) % MAX_NUMBER_OF_PROCESSES)).progID ≠ 0 then
      some ((nextProc + 1) % MAX_NUMBER_OF_PROCESSES, true)
    else if (nextProc + 1) % MAX_NUMBER_OF_PROCESSES ≠ current then
      os_scheduler_RoundRobin_loop processes current fuel
        ((nextProc + 1) % MAX_NUMBER_OF_PROCESSES)
    else some ((nextProc + 1) % MAX_NUMBER_OF_PROCESSES, false)

/-- Function `os_scheduler_RoundRobin`; `none` stands for a loop that never
ends. -/
def os_scheduler_RoundRobin (processes : Nat → process_t) (current : Nat) : Option Nat :=
  if !isAnyProcReady processes then some 0
  else
    match os_scheduler_RoundRobin_loop processes current MAX_NUMBER_OF_PROCESSES current with
    | none => none
    | some (nextProc, found) =>
      if found then some nextProc
      else if (processes current).state = OS_PS_READY ∧ (processes current).progID ≠ 0 then
        some current
      else some 0

/-- The loop of `os_resetSchedulingInformation` over the pids still to be
visited: every Ready process is pushed onto the queue of its priority. -/
def os_resetSchedulingInformation_loop (k : Kernel) :
    List Nat → scheduling_information_t → Except Fault scheduling_information_t
  | [], info => .ok info
  | pid :: rest, info =>
    if (os_getProcessSlot k pid).state = OS_PS_READY then
      match rq_push (info.queues_ready (os_getProcessSlot k pid).priority) pid with
      | .error e => .error e
      | .ok queue =>
        os_resetSchedulingInformation_loop k rest
          (set_queue info (os_getProcessSlot k pid).priority queue)
    else os_resetSchedulingInformation_loop k rest info

/-- Function `os_resetSchedulingInformation`. -/
def os_resetSchedulingInformation (strategy : scheduling_strategy_t) (k : Kernel) :
    Except Fault Kernel :=
  if strategy = OS_SS_DYNAMIC_PRIORITY_ROUND_ROBIN then
    let info : scheduling_information_t :=
      { queues_ready := fun p => rq_clear (k.schedulingInfo.queues_ready p) }
    match os_resetSchedulingInformation_loop k (List.range' 1 (MAX_NUMBER_OF_PROCESSES - 1))
        info with
    | .error e => .error e
    | .ok info1 => .ok { k with schedulingInfo := info1 }
  else .ok k

/-- Function `os_setSchedulingStrategy`, run from its first to its last
statement with no interrupt in between. The function holds no critical
section; `os_setSchedulingStrategy_preempted` is the call with the timer
interrupt enabled. -/
def os_setSchedulingStrategy (strategy : scheduling_strategy_t) (k : Kernel) :
    Except Fault Kernel :=
  match os_resetSchedulingInformation strategy k with
  | .error e => .error e
  | .ok k1 => .ok { k1 with currSchedStrat := strategy }

/-- Function `os_enterCriticalSection`. The macros `gbi`, `cbi` and `sbi` of
the missing `lib/util.h` read, clear and set one bit of a register. -/
def os_enterCriticalSection (k : Kernel) : Except Fault Kernel :=
  let ie := k.SREG_I
  let k1 : Kernel := { k with SREG_I := false }
  if k1.criticalSectionCount = 255 then .error .crit_section_overflow
  else
    let k2 : Kernel :=
      { k1 with criticalSectionCount := (k1.criticalSectionCount + 1) % 256
                TIMSK2_OCIE2A := false }
    .ok (if ie then { k2 with SREG_I := true } else k2)

/-- Function `os_leaveCriticalSection`. -/
def os_leaveCriticalSection (k : Kernel) : Except Fault Kernel :=
  let ie := k.SREG_I
  let k1 : Kernel := { k with SREG_I := false }
  if k1.criticalSectionCount = 0 then .error .crit_section_underflow
  else
    let k2 : Kernel := { k1 with criticalSectionCount := k1.criticalSectionCount - 1 }
    let k3 : Kernel := if k2.criticalSectionCount = 0 then { k2 with TIMSK2_OCIE2A := true } else k2
    .ok (if ie then { k3 with SREG_I := true } else k3)

/-- Function `terminal_writeProgString` of `terminal.c`, which is
`usb2_writeProgString`, as far as the globals go: the characters are written
to the USB port between `os_enterCriticalSection` and
`os_leaveCriticalSection`. -/
def terminal_writeProgString (k : Kernel) : Except Fault Kernel :=
  match os_enterCriticalSection k with
  | .error e => .error e
  | .ok k1 => os_leaveCriticalSection k1

/-- Step 1 of `os_scheduler_DynamicPriorityRoundRobin` for one level: if the
queue `lower` is not empty, its head is pushed onto the queue `upper`. -/
def promote (info : scheduling_information_t) (lower upper : priority_t) :
    Except Fault scheduling_information_t :=
  if !rq_isEmpty (info.queues_ready lower) then
    match rq_pop (info.queues_ready lower) with
    | .error e => .error e
    | .ok (pid, queue) =>
      match rq_push ((set_queue info lower queue).queues_ready upper) pid with
      | .error e => .error e
      | .ok queue1 => .ok (set_queue (set_queue info lower queue) upper queue1)
  else .ok info

/-- Step 3 of `os_scheduler_DynamicPriorityRoundRobin`: the head of the first
non-empty queue in the order High, Normal, Low; with three empty queues the
text " IDLE " goes to the terminal and 0 is returned. -/
def select_head (k : Kernel) : Except Fault (Nat × Kernel) :=
  if !rq_isEmpty (k.schedulingInfo.queues_ready OS_PRIO_HIGH) then
    match rq_pop (k.schedulingInfo.queues_ready OS_PRIO_HIGH) with
    | .error e => .error e
    | .ok (pid, queue) =>
      .ok (pid, { k with schedulingInfo := set_queue k.schedulingInfo OS_PRIO_HIGH queue })
  else if !rq_isEmpty (k.schedulingInfo.queues_ready OS_PRIO_NORMAL) then
    match rq_pop (k.schedulingInfo.queues_ready OS_PRIO_NORMAL) with
    | .error e => .error e
    | .ok (pid, queue) =>
      .ok (pid, { k with schedulingInfo := set_queue k.schedulingInfo OS_PRIO_NORMAL queue })
  else if !rq_isEmpty (k.schedulingInfo.queues_ready OS_PRIO_LOW) then
    match rq_pop (k.schedulingInfo.queues_ready OS_PRIO_LOW) with
    | .error e => .error e
    | .ok (pid, queue) =>
      .ok (pid, { k with schedulingInfo := set_queue k.schedulingInfo OS_PRIO_LOW queue })
  else
    match terminal_writeProgString k with
    | .error e => .error e
    | .ok k1 => .ok (0, k1)

/-- Step 2 of `os_scheduler_DynamicPriorityRoundRobin`: a non-idle `current`
that is Ready in `processes` is pushed onto the queue of its priority, which
is read from the global table through `os_getProcessSlot`. -/
def requeue_current (k : Kernel) (processes : Nat → process_t) (current : Nat)
    (info : scheduling_information_t) : Except Fault scheduling_information_t :=
  if current ≠ 0 ∧ (processes current).state = OS_PS_READY then
    match rq_push (info.queues_ready (os_getProcessSlot k current).priority) current with
    | .error e => .error e
    | .ok queue => .ok (set_queue info (os_getProcessSlot k current).priority queue)
  else .ok info

/-- Function `os_scheduler_DynamicPriorityRoundRobin`; the result is the
chosen pid and the globals it leaves: the new `schedulingInfo` and, when the
text " IDLE " is written, what the critical section of that call does to the
two register bits. -/
def os_scheduler_DynamicPriorityRoundRobin (k : Kernel) (processes : Nat → process_t)
    (current : Nat) : Except Fault (Nat × Kernel) :=
  match promote k.schedulingInfo OS_PRIO_NORMAL OS_PRIO_HIGH with
  | .error e => .error e
  | .ok info1 =>
    match promote info1 OS_PRIO_LOW OS_PRIO_NORMAL with
    | .error e => .error e
    | .ok info2 =>
      match requeue_current k processes current info2 with
      | .error e => .error e
      | .ok info3 => select_head { k with schedulingInfo := info3 }

/-- The strategy call of the tick: the chosen pid and the globals the
strategy leaves; a round-robin loop that never ends is a `hang`. -/
def os_callStrategy (k : Kernel) : Except Fault (Nat × Kernel) :=
  if k.currSchedStrat = OS_SS_DYNAMIC_PRIORITY_ROUND_ROBIN then
    os_scheduler_DynamicPriorityRoundRobin k k.os_processes k.currentProc
  else
    match os_scheduler_RoundRobin k.os_processes k.currentProc with
    | none => .error .hang
    | some pid => .ok (pid, k)

/-- Sampling loop of `os_getStackChecksum`, with `samples` bytes still to be
read. -/
def os_getStackChecksum_loop (mem : Nat → Nat) (stack_bottom step : Nat) : Nat → Nat → Nat → Nat
  | 0, _, checksum => checksum
  | samples + 1, addr, checksum =>
    os_getStackChecksum_loop mem stack_bottom step samples
      (if (addr + step) % 65536 > stack_bottom then stack_bottom else (addr + step) % 65536)
      (checksum ^^^ (mem addr % 256))

/-- Function `os_getStackChecksum` on the SRAM content `mem`. -/
def os_getStackChecksum (mem : Nat → Nat) (k : Kernel) (pid : Nat) : Nat :=
  if pid ≥ MAX_NUMBER_OF_PROCESSES then 0
  else
    let stack_pointer := (k.os_processes pid).sp
    let stack_bottom := PROCESS_STACK_BOTTOM pid % 65536
    if stack_pointer > stack_bottom then 0
    else
      let stack_size := (stack_bottom - stack_pointer + 1) % 65536
      let num_samples := if stack_size < 16 then stack_size else 16
      let step := if num_samples > 1 then (stack_size - 1) / (num_samples - 1) else 0
      os_getStackChecksum_loop mem stack_bottom step num_samples stack_pointer 0

/-- Function `os_isStackInBounds`. -/
def os_isStackInBounds (k : Kernel) (pid : Nat) : Bool :=
  if pid ≥ MAX_NUMBER_OF_PROCESSES then false
  else
    let stack_pointer := (k.os_processes pid).sp
    let stack_bottom := PROCESS_STACK_BOTTOM pid % 65536
    let stack_limit := (stack_bottom + 65536 - STACK_SIZE_PROC + 1) % 65536
    if stack_pointer ≥ stack_limit ∧ stack_pointer ≤ stack_bottom then true else false

/-- Steps 4 to 6 of the tick: the interrupted process goes from Running to
Ready, the active strategy picks the next process (pid 255 is replaced by 0),
and that process becomes Running. -/
def os_selectNext (k : Kernel) : Except Fault Kernel :=
  let k1 : Kernel :=
    if (k.os_processes k.currentProc).state = OS_PS_RUNNING then
      { k with os_processes := (write k.os_processes k.currentProc
          { (k.os_processes k.currentProc) with state := OS_PS_READY }) }
    else k
  match os_callStrategy k1 with
  | .error e => .error e
  | .ok (pid, k2) =>
    let next := if pid = INVALID_PROCESS then 0 else pid
    .ok { k2 with
      currentProc := next
      os_processes := (write k2.os_processes next
        { (k2.os_processes next) with state := OS_PS_RUNNING }) }

/-- Interrupt routine `ISR(TIMER2_COMPA_vect)`. Modelled from the spec: the
macros `saveContext` and `restoreContext` of the missing `lib/util.h` push
and pop the register file on the stack of the process; `SP` and `mem` are the
stack pointer and the SRAM content right after `saveContext`. The stack
pointer handed to `restoreContext` is the `sp` of the new current process. -/
def TIMER2_COMPA_vect (SP : Nat) (mem : Nat → Nat) (k : Kernel) : Except Fault Kernel :=
  let k1 : Kernel :=
    { k with os_processes := (write k.os_processes k.currentProc
        { (k.os_processes k.currentProc) with sp := SP % 65536 }) }
  if !os_isStackInBounds k1 k1.currentProc then .error .stack_overflow
  else
    let k2 : Kernel :=
      { k1 with os_processes := (write k1.os_processes k1.currentProc
          { (k1.os_processes k1.currentProc) with
            checksum := os_getStackChecksum mem k1 k1.currentProc }) }
    match os_selectNext k2 with
    | .error e => .error e
    | .ok k3 =>
      if os_getStackChecksum mem k3 k3.currentProc ≠ (k3.os_processes k3.currentProc).checksum
      then .error .stack_corruption
      else if !os_isStackInBounds k3 k3.currentProc then .error .stack_overflow
      else .ok k3

/-- The capture loop of `ttScheduling.c` (`performStrategyTest` and
`testProgram`): the running process records its id and calls the tick,
`count` times; `hw i` is the stack pointer and SRAM content at the tick
number `i`. -/
def capture_run (hw : Nat → Nat × (Nat → Nat)) : Nat → Nat → Kernel →
    Except Fault (List Nat × Kernel)
  | 0, _, k => .ok ([], k)
  | count + 1, i, k =>
    match TIMER2_COMPA_vect (hw i).1 (hw i).2 k with
    | .error e => .error e
    | .ok k1 =>
      match capture_run hw count (i + 1) k1 with
      | .error e => .error e
      | .ok (captured, k2) => .ok (k.currentProc :: captured, k2)

/-- Row 1 of the table `scheduling` of `ttScheduling.c`. -/
def scheduling_dprr : List Nat :=
  [1, 2, 1, 3, 2, 1, 3, 1, 2, 1, 3, 2, 1, 3, 1, 2, 1, 3, 2, 1, 3, 1, 2, 1, 3, 2, 1, 3, 1, 2, 1, 3]

/-- Row 0 of the table `scheduling` of `ttScheduling.c`. -/
def scheduling_rr : List Nat :=
  [1, 2, 3, 1, 2, 3, 1, 2, 3, 1, 2, 3, 1, 2, 3, 1, 2, 3, 1, 2, 3, 1, 2, 3, 1, 2, 3, 1, 2, 3, 1, 2]

/-- The queue `upper` after the head of `lower`, if there is one, has been
appended to it. -/
def append_head (upper lower : List Nat) : List Nat :=
  match lower with
  | [] => upper
  | x :: _ => upper ++ [x]

/-- One decision of the priority strategy on the contents `H`, `N`, `L` of
the three queues: the head of `N` moves to the end of `H`, then the head of
`L` to the end of `N`; `current` is appended to the queue named by `requeue`
(if any); the head of the first non-empty queue is removed and returned, or 0
if all are empty. -/
def dprr_abs (H N L : List Nat) (requeue : Option priority_t) (current : Nat) :
    Nat × List Nat × List Nat × List Nat :=
  let H1 := append_head H N
  let N1 := N.tail
  let N2 := append_head N1 L
  let L2 := L.tail
  let H3 := if requeue = some OS_PRIO_HIGH then H1 ++ [current] else H1
  let N3 := if requeue = some OS_PRIO_NORMAL then N2 ++ [current] else N2
  let L3 := if requeue = some OS_PRIO_LOW then L2 ++ [current] else L2
  match H3, N3, L3 with
  | x :: H4, N4, L4 => (x, H4, N4, L4)
  | [], x :: N4, L4 => (x, [], N4, L4)
  | [], [], x :: L4 => (x, [], [], L4)
  | [], [], [] => (0, [], [], [])

/-- Outcome of a capture run that agrees with the table row `expected`: the
run ends with exactly that capture, or one of the stack checks of the tick
stops it. -/
def run_conforms (result : Except Fault (List Nat × Kernel)) (expected : List Nat) : Prop :=
  match result with
  | .ok (captured, _) => captured = expected
  | .error e => e = .stack_overflow ∨ e = .stack_corruption

/-- Priorities of the three test processes of `ttScheduling.c`: process 1
High, process 2 Normal, process 3 Low. -/
def tt_priority (pid : Nat) : priority_t :=
  if pid = 1 then OS_PRIO_HIGH else if pid = 2 then OS_PRIO_NORMAL else OS_PRIO_LOW

/-- The scheduling test under the priority strategy, as seen between two
ticks: `cur` is the running process, the queues are well formed and hold `H`,
`N`, `L`, and the processes 1, 2, 3 have their test priorities and are Ready
except for the running one. -/
def tt_dprr_inv (k : Kernel) (cur : Nat) (H N L : List Nat) : Prop :=
  k.currentProc = cur ∧ k.currSchedStrat = OS_SS_DYNAMIC_PRIORITY_ROUND_ROBIN ∧
  (∀ p, rq_wf (k.schedulingInfo.queues_ready p)) ∧
  rq_contents (k.schedulingInfo.queues_ready OS_PRIO_HIGH) = H ∧
  rq_contents (k.schedulingInfo.queues_ready OS_PRIO_NORMAL) = N ∧
  rq_contents (k.schedulingInfo.queues_ready OS_PRIO_LOW) = L ∧
  (∀ pid, 1 ≤ pid → pid ≤ 3 →
    (k.os_processes pid).priority = tt_priority pid ∧
    (k.os_processes pid).state = if pid = cur then OS_PS_RUNNING else OS_PS_READY)

/-- The capture of `count` decisions of the priority strategy on the queue
contents, the running process being requeued at its test priority each time;
`none` if a pid outside 1..3 would run or the queues would hold more than 7
pids. -/
def tt_dprr_trace : Nat → Nat → List Nat → List Nat → List Nat → Option (List Nat)
  | 0, _, _, _, _ => some []
  | count + 1, cur, H, N, L =>
    if 1 ≤ cur ∧ cur ≤ 3 ∧ H.length + N.length + L.length ≤ 7
        ∧ 1 ≤ (dprr_abs H N L (some (tt_priority cur)) cur).1
        ∧ (dprr_abs H N L (some (tt_priority cur)) cur).1 ≤ 3 then
      match tt_dprr_trace count (dprr_abs H N L (some (tt_priority cur)) cur).1
          (dprr_abs H N L (some (tt_priority cur)) cur).2.1
          (dprr_abs H N L (some (tt_priority cur)) cur).2.2.1
          (dprr_abs H N L (some (tt_priority cur)) cur).2.2.2 with
      | none => none
      | some captured => some (cur :: captured)
    else none

/-- The scheduling test under round-robin, as seen between two ticks: slot 0
holds the idle program, the slots 1, 2, 3 hold other programs and are Ready
except for the running one, the slots 4 to 7 are Unused. -/
def tt_rr_inv (k : Kernel) (cur : Nat) : Prop :=
  k.currentProc = cur ∧ k.currSchedStrat = OS_SS_ROUND_ROBIN ∧
  (k.os_processes 0).progID = 0 ∧
  (∀ pid, 1 ≤ pid → pid ≤ 3 →
    (k.os_processes pid).progID ≠ 0 ∧
    (k.os_processes pid).state = if pid = cur then OS_PS_RUNNING else OS_PS_READY) ∧
  (∀ i, i < 8 → 4 ≤ i → (k.os_processes i).state = OS_PS_UNUSED)

/-- The capture of `count` round-robin decisions among the processes 1, 2, 3
starting with `cur`. -/
def tt_rr_trace : Nat → Nat → List Nat
  | 0, _ => []
  | count + 1, cur => cur :: tt_rr_trace count (cur % 3 + 1)

/-- Process table and globals of the scheduling test when process 1 starts
the capture loop: process `i` runs program `i` for `i` up to 3, with 36 bytes
on its stack; the queues hold old indices. -/
def tt_kernel (strategy : scheduling_strategy_t) : Kernel :=
  { os_processes := fun i =>
      { progID := if i < 4 then i else 0
        state := if i = 1 then OS_PS_RUNNING else if i < 4 then OS_PS_READY else OS_PS_UNUSED
        sp := PROCESS_STACK_BOTTOM i - 36
        priority := tt_priority i
        checksum := 0 }
    currentProc := 1
    currSchedStrat := strategy
    schedulingInfo :=
      { queues_ready := fun _ => { processes := fun _ => 7, head := 8, tail := 3 } } }

/-- Stack pointer and SRAM content at the ticks of a run that follows `row`:
72 bytes on the stack of the interrupted process, every byte of SRAM zero. -/
def tt_hw (row : List Nat) : Nat → Nat × (Nat → Nat) :=
  fun i => (PROCESS_STACK_BOTTOM (row.getD i 0) - 72, fun _ => 0)

/-- The capture of the scheduling test for `strategy` on `tt_kernel` and
`tt_hw`, if no fatal error stops it. -/
def tt_capture (strategy : scheduling_strategy_t) (row : List Nat) : Option (List Nat) :=
  match os_setSchedulingStrategy strategy (tt_kernel strategy) with
  | .error _ => none
  | .ok k =>
    match capture_run (tt_hw row) 32 0 k with
    | .error _ => none
    | .ok (captured, _) => some captured

/-! ### Critical sections, process creation and termination, boot:
`os_scheduler.c` -/

/-- Constant MAX_NUMBER_OF_PROGRAMS of `defines.h`. -/
def MAX_NUMBER_OF_PROGRAMS : Nat := 16

/-- Constant INVALID_PROGRAM of `defines.h`. -/
def INVALID_PROGRAM : Nat := 255

/-- Constant INITIAL_SCHEDULING_STRATEGY of `defines.h`. -/
def INITIAL_SCHEDULING_STRATEGY : scheduling_strategy_t := OS_SS_ROUND_ROBIN

/-- Value of an enumerator of `priority_t`. -/
def priority_value : priority_t → Nat
  | OS_PRIO_HIGH => 0
  | OS_PRIO_NORMAL => 1
  | OS_PRIO_LOW => 2

/-- The enumerator of `priority_t` with the value `priority`, if there is
one: the range test `priority < OS_PRIO_HIGH || priority > OS_PRIO_LOW` of
`os_exec` fails for exactly these values. -/
def priority_of_value : Nat → Option priority_t
  | 0 => some OS_PRIO_HIGH
  | 1 => some OS_PRIO_NORMAL
  | 2 => some OS_PRIO_LOW
  | _ => none

/-- Constant DEFAULT_PRIORITY of `defines.h`. -/
def DEFAULT_PRIORITY : Nat := priority_value OS_PRIO_LOW

/-- Function `os_lookupProgramFunction`; 0 is `NULL`. -/
def os_lookupProgramFunction (k : Kernel) (programID : Nat) : Nat :=
  if programID ≥ MAX_NUMBER_OF_PROGRAMS then 0 else k.os_programs programID

/-- Function `os_checkAutostartProgram`: the bit `programID` of
`os_autostart`. -/
def os_checkAutostartProgram (k : Kernel) (programID : Nat) : Bool :=
  (k.os_autostart % 65536) &&& ((1 <<< programID) % 65536) != 0

/-- The loop of `os_resetProcessSchedulingInformation` over the queues still
to be visited: `id` is removed from each of them; an `rq_remove` that never
ends is a `hang`. -/
def os_resetProcessSchedulingInformation_loop (id : Nat) :
    List priority_t → scheduling_information_t → Except Fault scheduling_information_t
  | [], info => .ok info
  | p :: rest, info =>
    match rq_remove (info.queues_ready p) id with
    | none => .error .hang
    | some (_, queue) =>
      os_resetProcessSchedulingInformation_loop id rest (set_queue info p queue)

/-- Function `os_resetProcessSchedulingInformation`. -/
def os_resetProcessSchedulingInformation (strategy : scheduling_strategy_t) (id : Nat)
    (k : Kernel) : Except Fault Kernel :=
  if strategy = OS_SS_DYNAMIC_PRIORITY_ROUND_ROBIN then
    match os_resetProcessSchedulingInformation_loop id
        [OS_PRIO_HIGH, OS_PRIO_NORMAL, OS_PRIO_LOW] k.schedulingInfo with
    | .error e => .error e
    | .ok info =>
      if (os_getProcessSlot k id).state = OS_PS_READY then
        match rq_push (info.queues_ready (os_getProcessSlot k id).priority) id with
        | .error e => .error e
        | .ok queue =>
          .ok { k with
            schedulingInfo := set_queue info (os_getProcessSlot k id).priority queue }
      else .ok { k with schedulingInfo := info }
  else .ok k

/-- The search loop of `os_exec` with `slots` slots still to be looked at:
the first Unused slot from `pid` on, or the index after the last one. -/
def os_exec_loop (processes : Nat → process_t) : Nat → Nat → Nat
  | 0, pid => pid
  | slots + 1, pid =>
    if (processes pid).state = OS_PS_UNUSED then pid
    else os_exec_loop processes slots (pid + 1)

/-- The store `*(sp.as_ptr--) = byte` of `os_exec` on the SRAM content and the
16-bit stack pointer. -/
def os_exec_store (s : (Nat → Nat) × Nat) (byte : Nat) : (Nat → Nat) × Nat :=
  (write s.1 s.2 byte, (s.2 + 65535) % 65536)

/-- The loop of `os_exec` that stores `count` zero bytes. -/
def os_exec_zero : Nat → (Nat → Nat) × Nat → (Nat → Nat) × Nat
  | 0, s => s
  | count + 1, s => os_exec_zero count (os_exec_store s 0)

/-- The initial stack of `os_exec` from the stack bottom `sp` down: the three
bytes of `dispatcherAddress`, low byte first, and 33 zero bytes. -/
def os_exec_stack (dispatcherAddress : Nat) (mem : Nat → Nat) (sp : Nat) : (Nat → Nat) × Nat :=
  os_exec_zero 33
    (os_exec_store
      (os_exec_store
        (os_exec_store (mem, sp) (dispatcherAddress &&& 0xFF))
        ((dispatcherAddress >>> 8) &&& 0xFF))
      ((dispatcherAddress >>> 16) &&& 0xFF))

/-- Function `os_exec` on the SRAM content `mem`; `dispatcherAddress` is the
value of `addressOfProgram(os_dispatcher)` and `priority` the value of the
enum argument. The result is the returned id, the new SRAM content and the
new globals. -/
def os_exec (dispatcherAddress programID priority : Nat) (mem : Nat → Nat) (k : Kernel) :
    Except Fault (Nat × (Nat → Nat) × Kernel) :=
  match os_enterCriticalSection k with
  | .error e => .error e
  | .ok k1 =>
    let pid := os_exec_loop k1.os_processes MAX_NUMBER_OF_PROCESSES 0
    if pid = MAX_NUMBER_OF_PROCESSES then
      match os_leaveCriticalSection k1 with
      | .error e => .error e
      | .ok k2 => .ok (INVALID_PROCESS, mem, k2)
    else if os_lookupProgramFunction k1 programID = 0 then
      match os_leaveCriticalSection k1 with
      | .error e => .error e
      | .ok k2 => .ok (INVALID_PROGRAM, mem, k2)
    else
      match priority_of_value priority with
      | none => .error .exec_priority
      | some prio =>
        let stack := os_exec_stack dispatcherAddress mem (PROCESS_STACK_BOTTOM pid % 65536)
        let k2 : Kernel :=
          { k1 with os_processes := (write k1.os_processes pid
              { (k1.os_processes pid) with
                progID := programID, state := OS_PS_READY, priority := prio, sp := stack.2 }) }
        let k3 : Kernel :=
          { k2 with os_processes := (write k2.os_processes pid
              { (k2.os_processes pid) with checksum := os_getStackChecksum stack.1 k2 pid }) }
        match os_resetProcessSchedulingInformation k3.currSchedStrat pid k3 with
        | .error e => .error e
        | .ok k4 =>
          match os_leaveCriticalSection k4 with
          | .error e => .error e
          | .ok k5 => .ok (pid, stack.1, k5)

/-- Function `os_yield`: nothing inside a critical section, otherwise `cli`
and the tick; `SP` and `mem` are the stack pointer and SRAM content seen by
the tick. -/
def os_yield (SP : Nat) (mem : Nat → Nat) (k : Kernel) : Except Fault Kernel :=
  if k.criticalSectionCount > 0 then .ok k
  else TIMER2_COMPA_vect SP mem { k with SREG_I := false }

/-- The loop `while (criticalSectionCount > 0) os_leaveCriticalSection()` of
`os_kill`; the 8-bit counter reaches 0 within 255 rounds. -/
def os_kill_loop : Nat → Kernel → Except Fault Kernel
  | 0, _ => .error .hang
  | fuel + 1, k =>
    if k.criticalSectionCount > 0 then
      match os_leaveCriticalSection k with
      | .error e => .error e
      | .ok k1 => os_kill_loop fuel k1
    else .ok k

/-- Function `os_kill`. The result is the returned value and the new globals;
no value is returned when the current process kills itself: the tick inside
`os_yield` hands the processor to the next process. -/
def os_kill (pid : Nat) (SP : Nat) (mem : Nat → Nat) (k : Kernel) :
    Except Fault (Option Bool × Kernel) :=
  if pid ≥ MAX_NUMBER_OF_PROCESSES ∨ pid = 0 then .ok (some false, k)
  else
    match os_enterCriticalSection k with
    | .error e => .error e
    | .ok k1 =>
      if (k1.os_processes pid).state = OS_PS_UNUSED then
        match os_leaveCriticalSection k1 with
        | .error e => .error e
        | .ok k2 => .ok (some false, k2)
      else
        let k2 : Kernel :=
          { k1 with os_processes := (write k1.os_processes pid
              { (k1.os_processes pid) with state := OS_PS_UNUSED }) }
        match os_resetProcessSchedulingInformation k2.currSchedStrat pid k2 with
        | .error e => .error e
        | .ok k3 =>
          if pid = k3.currentProc then
            match os_kill_loop 256 k3 with
            | .error e => .error e
            | .ok k4 =>
              match os_yield SP mem { k4 with SREG_I := true } with
              | .error e => .error e
              | .ok k5 => .ok (none, k5)
          else
            match os_leaveCriticalSection k3 with
            | .error e => .error e
            | .ok k4 => .ok (some true, k4)

/-- The autostart loop of `os_initScheduler` over the program ids still to be
visited. -/
def os_initScheduler_loop (dispatcherAddress : Nat) :
    List Nat → (Nat → Nat) → Kernel → Except Fault ((Nat → Nat) × Kernel)
  | [], mem, k => .ok (mem, k)
  | progID :: rest, mem, k =>
    if os_checkAutostartProgram k progID then
      match os_exec dispatcherAddress progID DEFAULT_PRIORITY mem k with
      | .error e => .error e
      | .ok (_, mem1, k1) => os_initScheduler_loop dispatcherAddress rest mem1 k1
    else os_initScheduler_loop dispatcherAddress rest mem k

/-- Function `os_initScheduler`. Modelled from the spec: the macro `assert`
of the missing `lib/util.h` ends in the fatal error when its condition is
false. -/
def os_initScheduler (dispatcherAddress : Nat) (mem : Nat → Nat) (k : Kernel) :
    Except Fault ((Nat → Nat) × Kernel) :=
  let k1 : Kernel :=
    { k with os_processes := fun pid =>
        if pid < MAX_NUMBER_OF_PROCESSES then { (k.os_processes pid) with state := OS_PS_UNUSED }
        else k.os_processes pid }
  if k1.os_programs 0 = 0 then .error .idle_not_registered
  else
    match os_exec dispatcherAddress 0 (priority_value OS_PRIO_LOW) mem k1 with
    | .error e => .error e
    | .ok (_, mem1, k2) =>
      match os_initScheduler_loop dispatcherAddress
          (List.range' 1 (MAX_NUMBER_OF_PROGRAMS - 1)) mem1 k2 with
      | .error e => .error e
      | .ok (mem2, k3) =>
        match os_resetSchedulingInformation k3.currSchedStrat k3 with
        | .error e => .error e
        | .ok k4 => .ok (mem2, k4)

/-- Function `os_startScheduler` up to `restoreContext`, which hands the
processor to the idle process. -/
def os_startScheduler (k : Kernel) : Kernel :=
  { k with
    currentProc := 0
    os_processes := (write k.os_processes 0 { (k.os_processes 0) with state := OS_PS_RUNNING }) }

/-- One call into the kernel or one timer interrupt. The running processes
write to SRAM between two calls, so each call comes with the stack pointer
and the SRAM content that it sees. -/
inductive KernelCall where
  | tick (SP : Nat) (mem : Nat → Nat)
  | yield (SP : Nat) (mem : Nat → Nat)
  | exec (dispatcherAddress programID priority : Nat) (mem : Nat → Nat)
  | kill (pid SP : Nat) (mem : Nat → Nat)
  | setStrategy (strategy : scheduling_strategy_t)

/-- The globals after one call. -/
def os_call : KernelCall → Kernel → Except Fault Kernel
  | .tick SP mem, k => TIMER2_COMPA_vect SP mem k
  | .yield SP mem, k => os_yield SP mem k
  | .exec dispatcherAddress programID priority mem, k =>
    match os_exec dispatcherAddress programID priority mem k with
    | .error e => .error e
    | .ok (_, _, k1) => .ok k1
  | .kill pid SP mem, k =>
    match os_kill pid SP mem k with
    | .error e => .error e
    | .ok (_, k1) => .ok k1
  | .setStrategy strategy, k => os_setSchedulingStrategy strategy k

/-- The globals after a sequence of calls, if no fatal error stops it. -/
def os_calls : List KernelCall → Kernel → Except Fault Kernel
  | [], k => .ok k
  | call :: rest, k =>
    match os_call call k with
    | .error e => .error e
    | .ok k1 => os_calls rest k1

/-- Step 2 of the tick: `os_processes[currentProc].sp.as_int = SP`. -/
def tick_storeSP (SP : Nat) (k : Kernel) : Kernel :=
  { k with os_processes := (write k.os_processes k.currentProc
      { (k.os_processes k.currentProc) with sp := SP % 65536 }) }

/-- The tick from the stored stack pointer to the stored checksum of the
interrupted process, on a table whose first bounds check has passed. -/
def tick_storeChecksum (mem : Nat → Nat) (k1 : Kernel) : Kernel :=
  { k1 with os_processes := (write k1.os_processes k1.currentProc
      { (k1.os_processes k1.currentProc) with
        checksum := os_getStackChecksum mem k1 k1.currentProc }) }

/-- The interval of stack pointers allowed for the slot `pid`. -/
def sp_in_slot (pid sp : Nat) : Prop :=
  PROCESS_STACK_BOTTOM pid - STACK_SIZE_PROC + 1 ≤ sp ∧ sp ≤ PROCESS_STACK_BOTTOM pid

instance (pid sp : Nat) : Decidable (sp_in_slot pid sp) := by
  unfold sp_in_slot; infer_instance

/-- Step 4 of the tick: the interrupted process goes from Running to Ready. -/
def tick_deschedule (k : Kernel) : Kernel :=
  if (k.os_processes k.currentProc).state = OS_PS_RUNNING then
    { k with os_processes := (write k.os_processes k.currentProc
        { (k.os_processes k.currentProc) with state := OS_PS_READY }) }
  else k

/-- A table for the stack checks under round-robin: process 1 runs, process
2 is Ready, its saved stack pointer stands one above its stack bottom and its
stored checksum is 5. -/
def sc_kernel : Kernel :=
  { os_processes := fun i =>
      { progID := i
        state := if i = 1 then OS_PS_RUNNING else if i = 0 ∨ i = 2 then OS_PS_READY
          else OS_PS_UNUSED
        sp := if i = 2 then PROCESS_STACK_BOTTOM 2 + 1 else PROCESS_STACK_BOTTOM i - 36
        priority := OS_PRIO_LOW
        checksum := if i = 2 then 5 else 0 }
    currentProc := 1
    currSchedStrat := OS_SS_ROUND_ROBIN
    schedulingInfo := { queues_ready := fun _ => { processes := fun _ => 0, head := 0, tail := 0 } } }

/-- The part of `os_exec` that fills the slot `pid` and its stack: program
id, state, priority, stack pointer, initial stack and checksum. The result is
the new SRAM content and the new globals. -/
def os_exec_init (dispatcherAddress programID : Nat) (prio : priority_t) (pid : Nat)
    (mem : Nat → Nat) (k1 : Kernel) : (Nat → Nat) × Kernel :=
  let stack := os_exec_stack dispatcherAddress mem (PROCESS_STACK_BOTTOM pid % 65536)
  let k2 : Kernel :=
    { k1 with os_processes := (write k1.os_processes pid
        { (k1.os_processes pid) with
          progID := programID, state := OS_PS_READY, priority := prio, sp := stack.2 }) }
  (stack.1,
    { k2 with os_processes := (write k2.os_processes pid
        { (k2.os_processes pid) with checksum := os_getStackChecksum stack.1 k2 pid }) })

/-- The scheduling test table with the programs 0 to 3 registered and the
critical-section depth 2. -/
def tt_kernel_registered (strategy : scheduling_strategy_t) : Kernel :=
  { (tt_kernel strategy) with
    os_programs := fun i => if i < 4 then 0x100 + i else 0
    criticalSectionCount := 2
    TIMSK2_OCIE2A := false }

/-- The table of `tt_kernel_registered` with the slots 4 to 7 Ready as well,
so that no slot is Unused. -/
def tt_kernel_full : Kernel :=
  { (tt_kernel_registered OS_SS_ROUND_ROBIN) with
    os_processes := fun i =>
      { ((tt_kernel OS_SS_ROUND_ROBIN).os_processes i) with
        state := if i = 1 then OS_PS_RUNNING else OS_PS_READY } }

/-- The table of `tt_kernel_registered` under round-robin with process 3
running instead of process 1. -/
def tt_kernel_third : Kernel :=
  { (tt_kernel_registered OS_SS_ROUND_ROBIN) with
    currentProc := 3
    os_processes := fun i =>
      { ((tt_kernel OS_SS_ROUND_ROBIN).os_processes i) with
        state := if i = 3 then OS_PS_RUNNING else if i < 3 then OS_PS_READY else OS_PS_UNUSED } }

/-- The result of `os_exec` of program 3 with priority Normal on
`tt_kernel_third` and an SRAM of zeros. -/
def tt_exec : Nat × (Nat → Nat) × Kernel :=
  match os_exec 0x123456 3 1 (fun _ => 0) tt_kernel_third with
  | .ok result => result
  | .error _ => (INVALID_PROCESS, fun _ => 0, tt_kernel_third)

/-- The pids held by the three ready queues, High first. -/
def rq_all (k : Kernel) : List Nat :=
  rq_contents (k.schedulingInfo.queues_ready OS_PRIO_HIGH)
    ++ rq_contents (k.schedulingInfo.queues_ready OS_PRIO_NORMAL)
    ++ rq_contents (k.schedulingInfo.queues_ready OS_PRIO_LOW)

/-- The ready queues under the priority strategy agree with the process
table: the queues are well formed, no pid is held twice, every pid held is
below 8 and Ready, every Ready pid from 1 to 7 is held, and a pid held by the
queue of a level has that level or a lower one as its priority. -/
def dprr_inv (k : Kernel) : Prop :=
  k.currSchedStrat = OS_SS_DYNAMIC_PRIORITY_ROUND_ROBIN ∧
  (∀ p, rq_wf (k.schedulingInfo.queues_ready p)) ∧
  (∀ y, (rq_all k).count y ≤ 1) ∧
  (∀ y, y ∈ rq_all k → y < 8 ∧ (k.os_processes y).state = OS_PS_READY) ∧
  (∀ y, 1 ≤ y → y < 8 → (k.os_processes y).state = OS_PS_READY → y ∈ rq_all k) ∧
  (∀ p y, y ∈ rq_contents (k.schedulingInfo.queues_ready p) →
    priority_value p ≤ priority_value (k.os_processes y).priority)

/-- One call of `os_exec`, `os_kill` or the tick. -/
def KernelCall.isExecKillTick : KernelCall → Bool
  | .tick _ _ => true
  | .exec _ _ _ _ => true
  | .kill _ _ _ => true
  | _ => false

/-- A run of the scheduling test under the priority strategy: a tick, the
start of program 3 with priority Normal in slot 4, a tick, the end of process
3, a tick that selects process 4, and process 4 ending itself. -/
def tt_calls : List KernelCall :=
  [.tick (PROCESS_STACK_BOTTOM 1 - 72) (fun _ => 0),
   .exec 0x123456 3 1 (fun _ => 0),
   .tick (PROCESS_STACK_BOTTOM 2 - 72) (fun _ => 0),
   .kill 3 (PROCESS_STACK_BOTTOM 1 - 36) (fun _ => 0),
   .tick (PROCESS_STACK_BOTTOM 1 - 72) (fun _ => 0),
   .kill 4 (PROCESS_STACK_BOTTOM 4 - 72) (fun _ => 0)]

/-- The globals after `os_setSchedulingStrategy` for `strategy` and the calls
`calls` on the scheduling test table, if no fatal error stops the run. -/
def tt_run (strategy : scheduling_strategy_t) (calls : List KernelCall) : Option Kernel :=
  match os_setSchedulingStrategy strategy (tt_kernel_registered OS_SS_ROUND_ROBIN) with
  | .error _ => none
  | .ok k1 =>
    match os_calls calls k1 with
    | .error _ => none
    | .ok k => some k

/-- Slot 0 holds the idle process: it is Ready or Running and its program id
is 0. -/
def idle_ok (k : Kernel) : Prop :=
  ((k.os_processes 0).state = OS_PS_READY ∨ (k.os_processes 0).state = OS_PS_RUNNING) ∧
  (k.os_processes 0).progID = 0

/-- Exactly one of the slots 0 to 7 is Running, and `currentProc` names it. -/
def single_running (k : Kernel) : Prop :=
  k.currentProc < 8 ∧ (k.os_processes k.currentProc).state = OS_PS_RUNNING ∧
  ∀ pid, pid < 8 → (k.os_processes pid).state = OS_PS_RUNNING → pid = k.currentProc

/-- The boot sequence of `main`: `os_initScheduler`, then `os_startScheduler`;
the result is the globals when the idle process takes over. -/
def os_boot (dispatcherAddress : Nat) (mem : Nat → Nat) (k : Kernel) : Except Fault Kernel :=
  match os_initScheduler dispatcherAddress mem k with
  | .error e => .error e
  | .ok (_, k1) => .ok (os_startScheduler k1)

/-- The globals before `os_init` on a board whose image registers the
programs 0 to 3 and marks the programs 0, 1 and 2 for autostart; the process
table holds old bytes. -/
def boot_kernel : Kernel :=
  { os_processes := fun i =>
      { progID := 9, state := if i % 2 = 0 then OS_PS_RUNNING else OS_PS_READY
        sp := 0, priority := OS_PRIO_HIGH, checksum := 0xAA }
    currentProc := 0
    currSchedStrat := INITIAL_SCHEDULING_STRATEGY
    schedulingInfo := { queues_ready := fun _ => { processes := fun _ => 0, head := 0, tail := 0 } }
    os_programs := fun i => if i < 4 then 0x100 + i else 0
    os_autostart := 0b0111 }

/-- A run after boot: a tick, the start of program 3 with priority Normal,
the switch to the priority strategy, a tick, the running process ending
itself, and a yield. -/
def boot_calls : List KernelCall :=
  [.tick (PROCESS_STACK_BOTTOM 0 - 72) (fun _ => 0),
   .exec 0x123456 3 1 (fun _ => 0),
   .setStrategy OS_SS_DYNAMIC_PRIORITY_ROUND_ROBIN,
   .tick (PROCESS_STACK_BOTTOM 1 - 72) (fun _ => 0),
   .kill 3 (PROCESS_STACK_BOTTOM 3 - 72) (fun _ => 0),
   .yield (PROCESS_STACK_BOTTOM 2 - 72) (fun _ => 0)]

/-- The globals after boot on `boot_kernel` and the calls `calls`, if no
fatal error stops the run. -/
def boot_run (calls : List KernelCall) : Option Kernel :=
  match os_boot 0x123456 (fun _ => 0) boot_kernel with
  | .error _ => none
  | .ok k1 =>
    match os_calls calls k1 with
    | .error _ => none
    | .ok k => some k

/-- One round of the second loop of `os_resetSchedulingInformation` on the
globals: the slot `pid` is read and, if it is Ready, `pid` is pushed onto the
queue of its priority. -/
def os_resetSchedulingInformation_round (pid : Nat) (k : Kernel) : Except Fault Kernel :=
  if (os_getProcessSlot k pid).state = OS_PS_READY then
    match rq_push (k.schedulingInfo.queues_ready (os_getProcessSlot k pid).priority) pid with
    | .error e => .error e
    | .ok queue =>
      .ok { k with
        schedulingInfo := set_queue k.schedulingInfo (os_getProcessSlot k pid).priority queue }
  else .ok k

/-- The second loop of `os_resetSchedulingInformation` with the timer
interrupt enabled, over the pids still to be visited. `away pid` are the calls
that the kernel serves between the round before and the round for `pid`,
while the caller is not running: the tick that takes the processor from the
caller, the calls of the processes that run then and further ticks, the last
of which gives the processor back to the caller. -/
def os_resetSchedulingInformation_preempted (away : Nat → List KernelCall) :
    List Nat → Kernel → Except Fault Kernel
  | [], k => .ok k
  | pid :: rest, k =>
    match os_calls (away pid) k with
    | .error e => .error e
    | .ok k1 =>
      match os_resetSchedulingInformation_round pid k1 with
      | .error e => .error e
      | .ok k2 => os_resetSchedulingInformation_preempted away rest k2

/-- Function `os_setSchedulingStrategy` as a process calls it. Neither it nor
`os_resetSchedulingInformation` enters a critical section, so the timer
interrupt stays enabled during the call: the three queues are cleared, the
rounds of the second loop run with the calls `away pid` before the round for
`pid`, and `currSchedStrat` is written last. -/
def os_setSchedulingStrategy_preempted (away : Nat → List KernelCall)
    (strategy : scheduling_strategy_t) (k : Kernel) : Except Fault Kernel :=
  if strategy = OS_SS_DYNAMIC_PRIORITY_ROUND_ROBIN then
    match os_resetSchedulingInformation_preempted away
        (List.range' 1 (MAX_NUMBER_OF_PROCESSES - 1))
        { k with schedulingInfo :=
            { queues_ready := fun p => rq_clear (k.schedulingInfo.queues_ready p) } } with
    | .error e => .error e
    | .ok k1 => .ok { k1 with currSchedStrat := strategy }
  else .ok { k with currSchedStrat := strategy }

/-- The calls served while process 2 is inside `os_setSchedulingStrategy`, all
before the round for pid 2: a tick takes the processor from process 2, and
process 1, which runs then, ends: its dispatcher calls `os_kill(1)`, whose
tick gives the processor back to process 2. -/
def away_kill (pid : Nat) : List KernelCall :=
  if pid = 2 then
    [.tick (PROCESS_STACK_BOTTOM 2 - 72) (fun _ => 0),
     .kill 1 (PROCESS_STACK_BOTTOM 1 - 72) (fun _ => 0)]
  else []

/-- The calls served while process 1 is inside `os_setSchedulingStrategy`, all
before the round for pid 7: a tick takes the processor from process 1,
process 2 starts program 3 with priority High, and two ticks hand the
processor to the new process 3 and back to process 1. -/
def away_exec (pid : Nat) : List KernelCall :=
  if pid = 7 then
    [.tick (PROCESS_STACK_BOTTOM 1 - 72) (fun _ => 0),
     .exec 0x123456 3 0 (fun _ => 0),
     .tick (PROCESS_STACK_BOTTOM 2 - 72) (fun _ => 0),
     .tick (PROCESS_STACK_BOTTOM 3 - 72) (fun _ => 0)]
  else []

/-- The calls served while process 1 is inside `os_setSchedulingStrategy`, all
before the round for pid 3: a tick takes the processor from process 1,
process 2 starts program 3 five times with priority Low, and a tick gives the
processor back to process 1. -/
def away_spawn (pid : Nat) : List KernelCall :=
  if pid = 3 then
    [.tick (PROCESS_STACK_BOTTOM 1 - 72) (fun _ => 0),
     .exec 0x123456 3 2 (fun _ => 0),
     .exec 0x123456 3 2 (fun _ => 0),
     .exec 0x123456 3 2 (fun _ => 0),
     .exec 0x123456 3 2 (fun _ => 0),
     .exec 0x123456 3 2 (fun _ => 0),
     .tick (PROCESS_STACK_BOTTOM 2 - 72) (fun _ => 0)]
  else []

/-- The calls served while process 2 is inside `os_setSchedulingStrategy`, all
before the round for pid 2: a tick hands the processor to process 1, which
starts program 3 with priority High in slot 3 and ends through `os_kill(1)`;
the tick of that call gives the processor back to process 2; the next tick
hands it to process 3, which starts program 3 with priority High in the free
slot 1, and two ticks pass it on to the new process 1 and back to process
2. -/
def away_respawn (pid : Nat) : List KernelCall :=
  if pid = 2 then
    [.tick (PROCESS_STACK_BOTTOM 2 - 72) (fun _ => 0),
     .exec 0x123456 3 0 (fun _ => 0),
     .kill 1 (PROCESS_STACK_BOTTOM 1 - 72) (fun _ => 0),
     .tick (PROCESS_STACK_BOTTOM 2 - 72) (fun _ => 0),
     .exec 0x123456 3 0 (fun _ => 0),
     .tick (PROCESS_STACK_BOTTOM 3 - 72) (fun _ => 0),
     .tick (PROCESS_STACK_BOTTOM 1 - 72) (fun _ => 0)]
  else []

/-- The three ready queues are well formed and every pid they hold satisfies
`P`. -/
def queues_all (info : scheduling_information_t) (P : Nat → Prop) : Prop :=
  (∀ p, rq_wf (info.queues_ready p)) ∧
  ∀ p y, y ∈ rq_contents (info.queues_ready p) → P y

/-- The saved stack pointers of a table that the kernel has built: the ready
queues are well formed, every pid held by a ready queue is below 8 and has its
saved stack pointer inside its own slot, and so has every slot below 8 that is
not Unused. -/
def stack_inv (k : Kernel) : Prop :=
  queues_all k.schedulingInfo (fun y => y < 8 ∧ sp_in_slot y (k.os_processes y).sp) ∧
  ∀ pid, pid < 8 → (k.os_processes pid).state ≠ OS_PS_UNUSED →
    sp_in_slot pid (k.os_processes pid).sp

/-- The first loop of `os_initScheduler`: every slot becomes Unused. -/
def os_initScheduler_clear (k : Kernel) : Kernel :=
  { k with os_processes := fun pid =>
      if pid < MAX_NUMBER_OF_PROCESSES then { (k.os_processes pid) with state := OS_PS_UNUSED }
      else k.os_processes pid }

/-! ### Program registry, strategy getter, runs of critical-section calls:
`os_scheduler.c` -/

/-- The first loop of `os_registerProgram` with `slots` entries still to be
compared, from the index `i` on: the first index that holds `program`. -/
def os_registerProgram_find (programs : Nat → Nat) (program : Nat) : Nat → Nat → Option Nat
  | 0, _ => none
  | slots + 1, i =>
    if program = programs i then some i
    else os_registerProgram_find programs program slots (i + 1)

/-- The second loop of `os_registerProgram` with `slots` entries still to be
looked at, from the index `i` on: the first index that holds `NULL`. -/
def os_registerProgram_free (programs : Nat → Nat) : Nat → Nat → Option Nat
  | 0, _ => none
  | slots + 1, i =>
    if programs i = 0 then some i
    else os_registerProgram_free programs slots (i + 1)

/-- Function `os_registerProgram`; the result is the returned id and the new
globals. Modelled from the spec: the macro `assert` of the missing
`lib/util.h` ends in the fatal error when its condition is false. -/
def os_registerProgram (program : Nat) (k : Kernel) : Except Fault (Nat × Kernel) :=
  if k.os_programs 0 = 0 then .error .idle_not_registered
  else
    match os_registerProgram_find k.os_programs program MAX_NUMBER_OF_PROGRAMS 0 with
    | some i => .ok (i, k)
    | none =>
      match os_registerProgram_free k.os_programs (MAX_NUMBER_OF_PROGRAMS - 1) 1 with
      | some i => .ok (i, { k with os_programs := write k.os_programs i program })
      | none => .ok (INVALID_PROGRAM, k)

/-- Function `os_getSchedulingStrategy`. -/
def os_getSchedulingStrategy (k : Kernel) : scheduling_strategy_t :=
  k.currSchedStrat

/-- One call of `os_enterCriticalSection` or `os_leaveCriticalSection`. -/
inductive CriticalSectionCall where
  | enter
  | leave
  deriving DecidableEq, Repr

/-- The globals after one critical-section call. -/
def os_criticalSection_call : CriticalSectionCall → Kernel → Except Fault Kernel
  | .enter, k => os_enterCriticalSection k
  | .leave, k => os_leaveCriticalSection k

/-- The globals after a sequence of critical-section calls, if no fatal error
stops it. -/
def os_criticalSection_calls : List CriticalSectionCall → Kernel → Except Fault Kernel
  | [], k => .ok k
  | call :: rest, k =>
    match os_criticalSection_call call k with
    | .error e => .error e
    | .ok k1 => os_criticalSection_calls rest k1

/-- One timer tick or one call of `os_yield`. -/
def KernelCall.isTickYield : KernelCall → Bool
  | .tick _ _ => true
  | .yield _ _ => true
  | _ => false

/-- The cyclic order in which `os_scheduler_RoundRobin` looks at the slots:
`current + 1`, `current + 2`, up to `current` again, modulo 8. -/
def rr_order (current : Nat) : List Nat :=
  (List.range' 1 MAX_NUMBER_OF_PROCESSES).map
    (fun j => (current + j) % MAX_NUMBER_OF_PROCESSES)

/-- The slot `i` is Ready and holds a program other than the idle program. -/
def rr_eligible (processes : Nat → process_t) (i : Nat) : Bool :=
  decide ((processes i).state = OS_PS_READY ∧ (processes i).progID ≠ 0)

/-- The first slot in the cyclic order after `current` that is Ready with a
non-zero program id, or 0 if there is none. -/
def rr_first (processes : Nat → process_t) (current : Nat) : Nat :=
  ((rr_order current).find? (rr_eligible processes)).getD 0

/-- A run after the end of process 3 in the scheduling test: a tick that
interrupts process 1, a tick that interrupts process 2, and a yield of
process 1. -/
def tt_ticks : List KernelCall :=
  [.tick (PROCESS_STACK_BOTTOM 1 - 72) (fun _ => 0),
   .tick (PROCESS_STACK_BOTTOM 2 - 72) (fun _ => 0),
   .yield (PROCESS_STACK_BOTTOM 1 - 72) (fun _ => 0)]

/-! ### Samples and reference definitions for the scheduler decisions, the
dispatcher and runs of the receiver -/

/-- A table in which only the idle process is left: slot 0 is Ready with the
idle program, every other slot is Unused, and the current process 3 has just
ended; the queues are empty. -/
def idle_only_kernel (strategy : scheduling_strategy_t) : Kernel :=
  { os_processes := fun i =>
      { progID := 0, state := if i = 0 then OS_PS_READY else OS_PS_UNUSED
        sp := PROCESS_STACK_BOTTOM i - 36, priority := OS_PRIO_LOW, checksum := 0 }
    currentProc := 3
    currSchedStrat := strategy
    schedulingInfo := { queues_ready := fun _ => { processes := fun _ => 0, head := 0, tail := 0 } } }

/-- Reference for one priority decision, step 1 in the words of the spec, on
the contents (High, Normal, Low) of the queues: if the Normal queue is not
empty its head moves to the tail of the High queue; then, if the Low queue is
not empty, its head moves to the tail of the Normal queue. -/
def dprr_reference_aging (q : List Nat × List Nat × List Nat) :
    List Nat × List Nat × List Nat :=
  let q1 : List Nat × List Nat × List Nat :=
    match q.2.1 with
    | [] => q
    | x :: N1 => (q.1 ++ [x], N1, q.2.2)
  match q1.2.2 with
  | [] => q1
  | y :: L1 => (q1.1, q1.2.1 ++ [y], L1)

/-- Reference, step 2: the interrupted process is appended to the queue of
its priority; `requeue` is that priority if the process is not the idle
process and its slot is Ready, and `none` otherwise. -/
def dprr_reference_requeue (requeue : Option priority_t) (current : Nat)
    (q : List Nat × List Nat × List Nat) : List Nat × List Nat × List Nat :=
  match requeue with
  | none => q
  | some OS_PRIO_HIGH => (q.1 ++ [current], q.2.1, q.2.2)
  | some OS_PRIO_NORMAL => (q.1, q.2.1 ++ [current], q.2.2)
  | some OS_PRIO_LOW => (q.1, q.2.1, q.2.2 ++ [current])

/-- Reference, step 3: the head of the first non-empty queue in the order
High, Normal, Low is removed and returned; with three empty queues 0 is
returned. -/
def dprr_reference_select (q : List Nat × List Nat × List Nat) :
    Nat × List Nat × List Nat × List Nat :=
  match q.1, q.2.1, q.2.2 with
  | x :: H, N, L => (x, H, N, L)
  | [], x :: N, L => (x, [], N, L)
  | [], [], x :: L => (x, [], [], L)
  | [], [], [] => (0, [], [], [])

/-- Reference for one priority decision: aging, requeue, select. -/
def dprr_reference (H N L : List Nat) (requeue : Option priority_t) (current : Nat) :
    Nat × List Nat × List Nat × List Nat :=
  dprr_reference_select (dprr_reference_requeue requeue current (dprr_reference_aging (H, N, L)))

/-- Reference for the fingerprint in the words of the spec: the addresses of
the `min 16 size` equally spaced samples of a stack from `sp` to `bottom`,
with `size = bottom - sp + 1` and the spacing `(size - 1) / (samples - 1)`, or
0 for a single sample. -/
def checksum_samples (sp bottom : Nat) : List Nat :=
  (List.range (min 16 (bottom - sp + 1))).map
    (fun i => sp + i * (if min 16 (bottom - sp + 1) > 1
      then (bottom - sp + 1 - 1) / (min 16 (bottom - sp + 1) - 1) else 0))

/-- XOR of the bytes of `mem` at the addresses `addrs`, starting from 0. -/
def checksum_xor (mem : Nat → Nat) (addrs : List Nat) : Nat :=
  addrs.foldl (fun c a => c ^^^ (mem a % 256)) 0

/-- The ways in which `os_dispatcher` goes on without a fatal error; it never
returns to a caller. -/
inductive DispatcherEnd where
  | program_running
  | handed_over
  | null_call
  | endless_loop
  deriving DecidableEq, Repr

/-- Function `os_dispatcher`, entered with the globals `k`. The program
function is application code: `run` is `none` if the call `program()` does not
return and the globals at its return otherwise. `SP` and `mem` are what the
tick inside an `os_kill` of the own process sees. The result names where
control stays: inside the program (`program_running`), with the next process
after `os_kill(pid)` handed the processor over (`handed_over`), in a call
through the `NULL` pointer after `os_kill(pid)` has returned (`null_call`), or
in the final `while (1)` after `os_kill(pid)` has returned (`endless_loop`). -/
def os_dispatcher (SP : Nat) (mem : Nat → Nat) (run : Option Kernel) (k : Kernel) :
    Except Fault (DispatcherEnd × Kernel) :=
  let pid := k.currentProc
  let program := os_lookupProgramFunction k (k.os_processes pid).progID
  if program = 0 then
    match os_kill pid SP mem k with
    | .error e => .error e
    | .ok (none, k1) => .ok (.handed_over, k1)
    | .ok (some _, k1) => .ok (.null_call, k1)
  else
    match run with
    | none => .ok (.program_running, k)
    | some k1 =>
      match os_kill pid SP mem k1 with
      | .error e => .error e
      | .ok (none, k2) => .ok (.handed_over, k2)
      | .ok (some _, k2) => .ok (.endless_loop, k2)

/-- The globals when the idle process of `boot_kernel` starts to run: the
result of `os_boot`. -/
def boot_idle : Kernel :=
  match os_boot 0x123456 (fun _ => 0) boot_kernel with
  | .ok k => k
  | .error _ => boot_kernel

/-- A run of `n` calls of `serialAdapter_worker`, one after the other: the
handler calls made, in order, and the world left by the last call; `low`,
`high` and `frame` are the uninitialised locals of every call. -/
def serialAdapter_worker_run (addr low high : Nat) (frame : frame_t) :
    Nat → World → Option (List HandlerCall × World)
  | 0, w => some ([], w)
  | n + 1, w =>
    match serialAdapter_worker addr low high frame w with
    | none => none
    | some r =>
      match serialAdapter_worker_run addr low high frame n r.world with
      | none => none
      | some (calls, w1) => some (r.calls ++ calls, w1)

/-! ## Theorems -/

theorem next_lt (i : Nat) : next i < READY_QUEUE_SIZE := by
  unfold next READY_QUEUE_SIZE READY_QUEUE_CAPACITY MAX_NUMBER_OF_PROCESSES
  split <;> omega

theorem next_eq_mod (i : Nat) (h : i < 9) : next i = (i + 1) % 9 := by
  unfold next READY_QUEUE_SIZE READY_QUEUE_CAPACITY MAX_NUMBER_OF_PROCESSES
  split <;> omega

/-- Closed form of the traversal: `(tail - i) mod 9` entries at the indices
`i, i+1, ...` modulo 9. -/
theorem rq_walk_eq (p : Nat → Nat) (t : Nat) (ht : t < 9) :
    ∀ (fuel i : Nat), i < 9 → (t + 9 - i) % 9 ≤ fuel →
      rq_walk p t fuel i
        = (List.range ((t + 9 - i) % 9)).map (fun k => p ((i + k) % 9)) := by
  intro fuel
  induction fuel with
  | zero =>
    intro i hi hd
    have h0 : (t + 9 - i) % 9 = 0 := by omega
    simp [rq_walk, h0]
  | succ n ih =>
    intro i hi hd
    unfold rq_walk
    by_cases hit : i = t
    · subst hit
      have h0 : (i + 9 - i) % 9 = 0 := by omega
      simp [h0]
    · have hn : next i = (i + 1) % 9 := next_eq_mod i hi
      have hlt : (i + 1) % 9 < 9 := by omega
      have hd1 : (t + 9 - (i + 1) % 9) % 9 + 1 = (t + 9 - i) % 9 := by omega
      rw [if_neg hit, hn, ih ((i + 1) % 9) hlt (by omega), ← hd1, List.range_succ_eq_map]
      simp only [List.map_cons, List.map_map, Nat.add_zero]
      congr 1
      · congr 1; omega
      · apply List.map_congr_left
        intro k _
        simp only [Function.comp]
        congr 1
        omega

theorem rq_contents_eq (q : ready_queue_t) (h : rq_wf q) :
    rq_contents q
      = (List.range ((q.tail + 9 - q.head) % 9)).map (fun k => q.processes ((q.head + k) % 9)) := by
  obtain ⟨hh, ht⟩ := h
  have hh9 : q.head < 9 := hh
  have ht9 : q.tail < 9 := ht
  unfold rq_contents
  exact rq_walk_eq q.processes q.tail ht9 READY_QUEUE_SIZE q.head hh9
    (by unfold READY_QUEUE_SIZE READY_QUEUE_CAPACITY MAX_NUMBER_OF_PROCESSES; omega)

theorem rq_contents_length (q : ready_queue_t) (h : rq_wf q) :
    (rq_contents q).length = (q.tail + 9 - q.head) % 9 := by
  rw [rq_contents_eq q h]; simp

theorem rq_push_contents (q : ready_queue_t) (pid : Nat) (h : rq_wf q)
    (hc : (rq_contents q).length < 8) :
    ∃ q1, rq_push q pid = .ok q1 ∧ rq_wf q1 ∧ rq_contents q1 = rq_contents q ++ [pid] := by
  have hlen := rq_contents_length q h
  obtain ⟨hh, ht⟩ := h
  have hh9 : q.head < 9 := hh
  have ht9 : q.tail < 9 := ht
  have hn : next q.tail = (q.tail + 1) % 9 := next_eq_mod q.tail ht9
  have hnf : rq_isFull q = false := by
    unfold rq_isFull
    rw [hn]
    simp only [beq_eq_false_iff_ne, ne_eq]
    omega
  have hwf1 : rq_wf { q with processes := write q.processes q.tail pid, tail := next q.tail } :=
    ⟨hh, next_lt q.tail⟩
  refine ⟨{ q with processes := write q.processes q.tail pid, tail := next q.tail }, ?_, hwf1, ?_⟩
  · simp [rq_push, hnf]
  · rw [rq_contents_eq _ hwf1, rq_contents_eq q ⟨hh, ht⟩]
    simp only [hn]
    have hd : ((q.tail + 1) % 9 + 9 - q.head) % 9 = (q.tail + 9 - q.head) % 9 + 1 := by omega
    rw [hd, List.range_succ, List.map_append]
    congr 1
    · apply List.map_congr_left
      intro k hk
      have hk1 : k < (q.tail + 9 - q.head) % 9 := List.mem_range.mp hk
      have hne : (q.head + k) % 9 ≠ q.tail := by omega
      simp [write, hne]
    · have he : (q.head + (q.tail + 9 - q.head) % 9) % 9 = q.tail := by omega
      simp [write, he]

theorem rq_pop_contents (q : ready_queue_t) (h : rq_wf q) (hc : rq_contents q ≠ []) :
    ∃ pid q1, rq_pop q = .ok (pid, q1) ∧ rq_wf q1 ∧ rq_contents q = pid :: rq_contents q1 := by
  have hlen := rq_contents_length q h
  have hpos : 0 < (rq_contents q).length := List.length_pos.mpr hc
  obtain ⟨hh, ht⟩ := h
  have hh9 : q.head < 9 := hh
  have ht9 : q.tail < 9 := ht
  have hn : next q.head = (q.head + 1) % 9 := next_eq_mod q.head hh9
  have hne : q.head ≠ q.tail := by omega
  have hwf1 : rq_wf { q with head := next q.head } := ⟨next_lt q.head, ht⟩
  refine ⟨q.processes q.head, { q with head := next q.head }, ?_, hwf1, ?_⟩
  · simp [rq_pop, rq_isEmpty, hne]
  · rw [rq_contents_eq _ hwf1, rq_contents_eq q ⟨hh, ht⟩]
    simp only [hn]
    have hd : (q.tail + 9 - q.head) % 9 = (q.tail + 9 - (q.head + 1) % 9) % 9 + 1 := by omega
    rw [hd, List.range_succ_eq_map]
    simp only [List.map_cons, List.map_map, Nat.add_zero]
    congr 1
    · congr 1; omega
    · apply List.map_congr_left
      intro k _
      simp only [Function.comp]
      congr 1
      omega

theorem rq_run_contents : ∀ (ops : List RqOp) (q : ready_queue_t), rq_wf q →
    rq_admissible ops (rq_contents q).length = true →
    ∃ popped q1, rq_run ops q = .ok (popped, q1) ∧ rq_wf q1 ∧
      popped ++ rq_contents q1 = rq_contents q ++ rq_pushed ops := by
  intro ops
  induction ops with
  | nil =>
    intro q h _
    exact ⟨[], q, rfl, h, by simp [rq_pushed]⟩
  | cons op ops ih =>
    intro q h hadm
    cases op with
    | push pid =>
      simp only [rq_admissible, Bool.and_eq_true, decide_eq_true_eq] at hadm
      obtain ⟨hlt, hrest⟩ := hadm
      obtain ⟨q1, hp, hwf1, hc1⟩ := rq_push_contents q pid h hlt
      have hrest1 : rq_admissible ops (rq_contents q1).length = true := by
        rw [hc1]; simpa using hrest
      obtain ⟨popped, q2, hr, hwf2, hc2⟩ := ih q1 hwf1 hrest1
      refine ⟨popped, q2, ?_, hwf2, ?_⟩
      · simp [rq_run, hp, hr]
      · rw [hc2, hc1]; simp [rq_pushed]
    | pop =>
      simp only [rq_admissible, Bool.and_eq_true, decide_eq_true_eq] at hadm
      obtain ⟨hpos, hrest⟩ := hadm
      have hne : rq_contents q ≠ [] := List.length_pos.mp hpos
      obtain ⟨pid, q1, hp, hwf1, hc1⟩ := rq_pop_contents q h hne
      have hrest1 : rq_admissible ops (rq_contents q1).length = true := by
        rw [hc1] at hrest; simpa using hrest
      obtain ⟨popped, q2, hr, hwf2, hc2⟩ := ih q1 hwf1 hrest1
      refine ⟨pid :: popped, q2, ?_, hwf2, ?_⟩
      · simp [rq_run, hp, hr]
      · rw [hc1]; simp [rq_pushed, hc2]

/-- Result of the shifting loop of `rq_remove` started at index `j`: every
slot from `j` up to, not including, the tail takes the value of its
successor. -/
theorem rq_remove_shift_eq (t : Nat) (ht : t < 9) :
    ∀ (fuel : Nat) (p : Nat → Nat) (j : Nat), j < 9 → (t + 9 - j) % 9 < fuel →
      rq_remove_shift t fuel p j
        = some (fun x => if x < 9 ∧ (x + 9 - j) % 9 < (t + 9 - j) % 9
                          then p ((x + 1) % 9) else p x) := by
  intro fuel
  induction fuel with
  | zero => intro p j _ hf; omega
  | succ n ih =>
    intro p j hj hf
    unfold rq_remove_shift
    by_cases hjt : j = t
    · subst hjt
      rw [if_pos rfl]
      congr 1
      funext x
      have : ¬ (x < 9 ∧ (x + 9 - j) % 9 < (j + 9 - j) % 9) := by omega
      rw [if_neg this]
    · have hn : next j = (j + 1) % 9 := next_eq_mod j hj
      rw [if_neg hjt, hn, ih _ ((j + 1) % 9) (by omega) (by omega)]
      congr 1
      funext x
      by_cases hx : x < 9
      · by_cases hxj : x = j
        · subst hxj
          have h1 : ¬ (x < 9 ∧ (x + 9 - (x + 1) % 9) % 9 < (t + 9 - (x + 1) % 9) % 9) := by omega
          have h2 : x < 9 ∧ (x + 9 - x) % 9 < (t + 9 - x) % 9 := by omega
          rw [if_neg h1, if_pos h2]
          simp [write]
        · by_cases hc : (x + 9 - j) % 9 < (t + 9 - j) % 9
          · have h1 : x < 9 ∧ (x + 9 - (j + 1) % 9) % 9 < (t + 9 - (j + 1) % 9) % 9 := by omega
            have h2 : x < 9 ∧ (x + 9 - j) % 9 < (t + 9 - j) % 9 := ⟨hx, hc⟩
            have h3 : (x + 1) % 9 ≠ j := by omega
            rw [if_pos h1, if_pos h2]
            simp [write, h3]
          · have h1 : ¬ (x < 9 ∧ (x + 9 - (j + 1) % 9) % 9 < (t + 9 - (j + 1) % 9) % 9) := by omega
            have h2 : ¬ (x < 9 ∧ (x + 9 - j) % 9 < (t + 9 - j) % 9) := by omega
            rw [if_neg h1, if_neg h2]
            simp [write, hxj]
      · have h1 : ¬ (x < 9 ∧ (x + 9 - (j + 1) % 9) % 9 < (t + 9 - (j + 1) % 9) % 9) := by omega
        have h2 : ¬ (x < 9 ∧ (x + 9 - j) % 9 < (t + 9 - j) % 9) := by omega
        have h3 : x ≠ j := by omega
        rw [if_neg h1, if_neg h2]
        simp [write, h3]

/-- Erasing the first occurrence from an indexed list: the entries after the
first match move one position forward. -/
theorem erase_map_range (pid : Nat) :
    ∀ (k n : Nat) (f : Nat → Nat), k < n → f k = pid → (∀ m, m < k → f m ≠ pid) →
      ((List.range n).map f).erase pid
        = (List.range (n - 1)).map (fun m => if m < k then f m else f (m + 1)) := by
  intro k
  induction k with
  | zero =>
    intro n f hn hk _
    obtain ⟨n1, rfl⟩ : ∃ n1, n = n1 + 1 := ⟨n - 1, by omega⟩
    rw [List.range_succ_eq_map]
    simp [hk, Function.comp]
  | succ k ih =>
    intro n f hn hk hpre
    obtain ⟨n1, rfl⟩ : ∃ n1, n = n1 + 1 := ⟨n - 1, by omega⟩
    obtain ⟨n2, rfl⟩ : ∃ n2, n1 = n2 + 1 := ⟨n1 - 1, by omega⟩
    have h0 : f 0 ≠ pid := hpre 0 (by omega)
    have hih := ih (n2 + 1) (fun m => f (m + 1)) (by omega) hk
      (fun m hm => hpre (m + 1) (by omega))
    rw [List.range_succ_eq_map (n2 + 1)]
    simp only [List.map_cons, List.map_map]
    rw [List.erase_cons_tail (by simpa using h0)]
    have hcomp : (f ∘ Nat.succ) = (fun m => f (m + 1)) := rfl
    rw [hcomp, hih]
    simp only [Nat.add_sub_cancel]
    rw [List.range_succ_eq_map n2]
    simp [Function.comp]

/-- The scanning loop of `rq_remove` started at offset `k` from the head,
with no match before `k`: either no entry matches and the queue is returned
as it is, or the first match at offset `k1` is shifted out. -/
theorem rq_remove_scan_eq (q : ready_queue_t) (pid : Nat) (hwf : rq_wf q) :
    ∀ (fuel k : Nat), k ≤ (q.tail + 9 - q.head) % 9 →
      (q.tail + 9 - q.head) % 9 - k < fuel →
      (∀ m, m < k → q.processes ((q.head + m) % 9) ≠ pid) →
      ((∀ m, m < (q.tail + 9 - q.head) % 9 → q.processes ((q.head + m) % 9) ≠ pid) ∧
          rq_remove_scan q pid fuel ((q.head + k) % 9) = some (false, q))
      ∨ (∃ k1, k1 < (q.tail + 9 - q.head) % 9 ∧ q.processes ((q.head + k1) % 9) = pid ∧
          (∀ m, m < k1 → q.processes ((q.head + m) % 9) ≠ pid) ∧
          rq_remove_scan q pid fuel ((q.head + k) % 9)
            = some (true, { q with
                processes := fun x =>
                  if x < 9 ∧ (x + 9 - (q.head + k1) % 9) % 9
                      < (q.tail + 9 - (q.head + k1) % 9) % 9
                  then q.processes ((x + 1) % 9) else q.processes x
                tail := prev q.tail })) := by
  obtain ⟨hh, ht⟩ := hwf
  have hh9 : q.head < 9 := hh
  have ht9 : q.tail < 9 := ht
  intro fuel
  induction fuel with
  | zero => intro k _ hf _; omega
  | succ f ih =>
    intro k hk hf hpre
    unfold rq_remove_scan
    by_cases hit : (q.head + k) % 9 = q.tail
    · left
      have hkn : k = (q.tail + 9 - q.head) % 9 := by omega
      refine ⟨?_, by rw [if_pos hit]⟩
      intro m hm
      exact hpre m (by omega)
    · rw [if_neg hit]
      have hklt : k < (q.tail + 9 - q.head) % 9 := by omega
      by_cases hp : q.processes ((q.head + k) % 9) = pid
      · right
        refine ⟨k, hklt, hp, hpre, ?_⟩
        rw [if_pos hp, rq_remove_shift_eq q.tail ht9 (READY_QUEUE_SIZE + 1) q.processes
          ((q.head + k) % 9) (by omega)
          (by unfold READY_QUEUE_SIZE READY_QUEUE_CAPACITY MAX_NUMBER_OF_PROCESSES; omega)]
      · rw [if_neg hp]
        have hn : next ((q.head + k) % 9) = (q.head + (k + 1)) % 9 := by
          rw [next_eq_mod _ (by omega)]; omega
        rw [hn]
        apply ih (k + 1) (by omega) (by omega)
        intro m hm
        by_cases hmk : m = k
        · subst hmk; exact hp
        · exact hpre m (by omega)

/-- Correctness of `rq_remove` on a well-formed queue, by cases on whether the
pid occurs in the contents. -/
theorem rq_remove_contents (q : ready_queue_t) (pid : Nat) (hwf : rq_wf q) :
    (pid ∈ rq_contents q →
      ∃ q1, rq_remove q pid = some (true, q1) ∧ rq_wf q1 ∧ q1.head = q.head ∧
        rq_contents q1 = (rq_contents q).erase pid) ∧
    (pid ∉ rq_contents q → rq_remove q pid = some (false, q)) := by
  have hceq := rq_contents_eq q hwf
  have hscan := rq_remove_scan_eq q pid hwf (READY_QUEUE_SIZE + 1) 0 (by omega)
    (by unfold READY_QUEUE_SIZE READY_QUEUE_CAPACITY MAX_NUMBER_OF_PROCESSES; omega)
    (by intro m hm; omega)
  obtain ⟨hh, ht⟩ := hwf
  have hh9 : q.head < 9 := hh
  have ht9 : q.tail < 9 := ht
  have h0 : (q.head + 0) % 9 = q.head := by omega
  rw [h0] at hscan
  have hmem : pid ∈ rq_contents q ↔
      ∃ m, m < (q.tail + 9 - q.head) % 9 ∧ q.processes ((q.head + m) % 9) = pid := by
    rw [hceq]; simp [List.mem_map, List.mem_range]
  rcases hscan with ⟨hno, hres⟩ | ⟨k1, hk1, hpk, hpre, hres⟩
  · constructor
    · intro hin
      obtain ⟨m, hm, hpm⟩ := hmem.mp hin
      exact absurd hpm (hno m hm)
    · intro _; exact hres
  · constructor
    · intro _
      have hprev : prev q.tail = (q.tail + 8) % 9 := by
        unfold prev READY_QUEUE_SIZE READY_QUEUE_CAPACITY MAX_NUMBER_OF_PROCESSES
        split <;> omega
      have hwf1 : rq_wf { q with
          processes := fun x =>
            if x < 9 ∧ (x + 9 - (q.head + k1) % 9) % 9 < (q.tail + 9 - (q.head + k1) % 9) % 9
            then q.processes ((x + 1) % 9) else q.processes x
          tail := prev q.tail } := by
        refine ⟨hh, ?_⟩
        show prev q.tail < READY_QUEUE_SIZE
        rw [hprev]
        unfold READY_QUEUE_SIZE READY_QUEUE_CAPACITY MAX_NUMBER_OF_PROCESSES
        omega
      refine ⟨_, hres, hwf1, rfl, ?_⟩
      rw [rq_contents_eq _ hwf1, hceq,
        erase_map_range pid k1 _ (fun k => q.processes ((q.head + k) % 9)) hk1 hpk hpre]
      simp only [hprev]
      have hd : ((q.tail + 8) % 9 + 9 - q.head) % 9 = (q.tail + 9 - q.head) % 9 - 1 := by omega
      rw [hd]
      apply List.map_congr_left
      intro m hm
      have hm1 : m < (q.tail + 9 - q.head) % 9 - 1 := List.mem_range.mp hm
      by_cases hmk : m < k1
      · have hc : ¬ ((q.head + m) % 9 < 9 ∧
            ((q.head + m) % 9 + 9 - (q.head + k1) % 9) % 9
              < (q.tail + 9 - (q.head + k1) % 9) % 9) := by omega
        rw [if_neg hc, if_pos hmk]
      · have hc : (q.head + m) % 9 < 9 ∧
            ((q.head + m) % 9 + 9 - (q.head + k1) % 9) % 9
              < (q.tail + 9 - (q.head + k1) % 9) % 9 := by omega
        rw [if_pos hc, if_neg hmk]
        congr 1
        omega
    · intro hnin
      exact absurd (hmem.mpr ⟨k1, hk1, hpk⟩) hnin

theorem rq_count_loop_eq (t : Nat) (ht : t < 9) :
    ∀ (fuel i c : Nat), i < 9 → (t + 9 - i) % 9 < fuel → c + (t + 9 - i) % 9 < 256 →
      rq_count_loop t fuel i c = some (c + (t + 9 - i) % 9) := by
  intro fuel
  induction fuel with
  | zero => intro i c _ hf _; omega
  | succ f ih =>
    intro i c hi hf hc
    unfold rq_count_loop
    by_cases hit : i = t
    · subst hit
      rw [if_pos rfl]
      congr 1
      omega
    · rw [if_neg hit, next_eq_mod i hi, ih ((i + 1) % 9) ((c + 1) % 256) (by omega) (by omega)
        (by omega)]
      congr 1
      omega

theorem rq_count_eq (q : ready_queue_t) (hwf : rq_wf q) :
    rq_count q = some (rq_contents q).length := by
  rw [rq_contents_length q hwf]
  obtain ⟨hh, ht⟩ := hwf
  have hh9 : q.head < 9 := hh
  have ht9 : q.tail < 9 := ht
  unfold rq_count
  rw [rq_count_loop_eq q.tail ht9 (READY_QUEUE_SIZE + 1) q.head 0 hh9
    (by unfold READY_QUEUE_SIZE READY_QUEUE_CAPACITY MAX_NUMBER_OF_PROCESSES; omega) (by omega)]
  simp

/-- C9: on a well-formed queue read from head to tail, `rq_push` with fewer
than 8 entries held appends the pid at the end, `rq_pop` on a non-empty queue
returns and removes the first entry, and every interleaving of pushes and pops
that stays within 0..8 held entries runs without a fatal error with
popped ++ remaining = initial ++ pushed; from an empty queue the popped pids
are a prefix of the pushed pids. -/
theorem C9_rq_fifo (q : ready_queue_t) (hwf : rq_wf q) :
    (∀ pid, (rq_contents q).length < 8 →
      ∃ q1, rq_push q pid = .ok q1 ∧ rq_wf q1 ∧ rq_contents q1 = rq_contents q ++ [pid]) ∧
    (rq_contents q ≠ [] →
      ∃ pid q1, rq_pop q = .ok (pid, q1) ∧ rq_wf q1 ∧ rq_contents q = pid :: rq_contents q1) ∧
    (∀ ops, rq_admissible ops (rq_contents q).length = true →
      ∃ popped q1, rq_run ops q = .ok (popped, q1) ∧ rq_wf q1 ∧
        popped ++ rq_contents q1 = rq_contents q ++ rq_pushed ops ∧
        (rq_contents q = [] → popped <+: rq_pushed ops)) := by
  refine ⟨fun pid hlt => rq_push_contents q pid hwf hlt, fun hne => rq_pop_contents q hwf hne, ?_⟩
  intro ops hadm
  obtain ⟨popped, q1, hrun, hwf1, hc⟩ := rq_run_contents ops q hwf hadm
  refine ⟨popped, q1, hrun, hwf1, hc, ?_⟩
  intro hempty
  rw [hempty, List.nil_append] at hc
  exact ⟨rq_contents q1, hc⟩

/-- Witness of C9: from the empty queue with both indices at 7, the run
push 1, push 2, push 3, pop, pop, push 4, pop wraps around the array end and
pops a prefix of the pushed pids. -/
theorem C9_rq_fifo_witness :
    rq_wf rq_sample_empty ∧
    rq_admissible [.push 1, .push 2, .push 3, .pop, .pop, .push 4, .pop]
      (rq_contents rq_sample_empty).length = true ∧
    ∃ popped q1,
      rq_run [.push 1, .push 2, .push 3, .pop, .pop, .push 4, .pop] rq_sample_empty
        = .ok (popped, q1) ∧ rq_wf q1 ∧
      popped ++ rq_contents q1
        = rq_contents rq_sample_empty
          ++ rq_pushed [.push 1, .push 2, .push 3, .pop, .pop, .push 4, .pop] ∧
      (rq_contents rq_sample_empty = [] →
        popped <+: rq_pushed [.push 1, .push 2, .push 3, .pop, .pop, .push 4, .pop]) :=
  ⟨by decide, by decide,
    (C9_rq_fifo rq_sample_empty (by decide)).2.2
      [.push 1, .push 2, .push 3, .pop, .pop, .push 4, .pop] (by decide)⟩

/-- C10: on a well-formed queue, `rq_remove` of a pid that occurs returns
true, deletes the first occurrence and keeps the other entries in order, with
the count one less and the head unchanged; for a pid that does not occur it
returns false and leaves the queue as it is. -/
theorem C10_rq_remove (q : ready_queue_t) (pid : Nat) (hwf : rq_wf q) :
    (pid ∈ rq_contents q →
      ∃ q1 n, rq_remove q pid = some (true, q1) ∧ rq_wf q1 ∧ q1.head = q.head ∧
        rq_contents q1 = (rq_contents q).erase pid ∧
        rq_count q1 = some n ∧ rq_count q = some (n + 1)) ∧
    (pid ∉ rq_contents q → rq_remove q pid = some (false, q)) := by
  obtain ⟨hin, hout⟩ := rq_remove_contents q pid hwf
  refine ⟨?_, hout⟩
  intro hmem
  obtain ⟨q1, hr, hwf1, hhead, hc⟩ := hin hmem
  refine ⟨q1, (rq_contents q1).length, hr, hwf1, hhead, hc, rq_count_eq q1 hwf1, ?_⟩
  rw [rq_count_eq q hwf, hc, List.length_erase_of_mem hmem]
  congr 1
  have : 0 < (rq_contents q).length := List.length_pos_of_mem hmem
  omega

/-- Witness of C10: removing 5 from the wrapped queue 5, 6, 5, 4 yields
6, 5, 4, and removing the absent pid 7 returns false. -/
theorem C10_rq_remove_witness :
    rq_wf rq_sample_wrapped ∧
    ((5 ∈ rq_contents rq_sample_wrapped →
      ∃ q1 n, rq_remove rq_sample_wrapped 5 = some (true, q1) ∧ rq_wf q1 ∧
        q1.head = rq_sample_wrapped.head ∧
        rq_contents q1 = (rq_contents rq_sample_wrapped).erase 5 ∧
        rq_count q1 = some n ∧ rq_count rq_sample_wrapped = some (n + 1)) ∧
     (5 ∉ rq_contents rq_sample_wrapped →
      rq_remove rq_sample_wrapped 5 = some (false, rq_sample_wrapped))) ∧
    rq_contents rq_sample_wrapped = [5, 6, 5, 4] :=
  ⟨by decide, C10_rq_remove rq_sample_wrapped 5 (by decide), by decide⟩

set_option maxRecDepth 100000 in
theorem byte_and_high : ∀ b, b < 256 → b &&& 0xFF00 = 0 := by decide

set_option maxRecDepth 100000 in
theorem byte_and_low : ∀ b, b < 256 → b &&& 0x00FF = b := by decide

/-- Reading one byte from a ring without a pending error stores that byte. -/
theorem xbee_read_clean (b : Nat) (hb : b < 256) (rest : List Nat) (buffer : Nat → Nat)
    (i : Nat) :
    xbee_read { pending := b :: rest, lastRxError := 0 } buffer i
      = (XBEE_SUCCESS, write buffer i b, { pending := rest, lastRxError := 0 }) := by
  have h1 : b % 65536 = b := by omega
  simp [xbee_read, uart1_getc, h1, byte_and_high b hb, byte_and_low b hb]

/-- Reading a buffered run of bytes from a ring without a pending error
succeeds and stores the bytes in order. -/
theorem xbee_readBuffer_loop_clean :
    ∀ (bs : List Nat) (i : Nat) (buffer : Nat → Nat) (rest : List Nat),
      (∀ b ∈ bs, b < 256) →
      xbee_readBuffer_loop bs.length i buffer { pending := bs ++ rest, lastRxError := 0 }
        = (XBEE_SUCCESS,
           fun j => if i ≤ j ∧ j < i + bs.length then bs.getD (j - i) 0 else buffer j,
           { pending := rest, lastRxError := 0 }) := by
  intro bs
  induction bs with
  | nil =>
    intro i buffer rest _
    simp only [List.length_nil, xbee_readBuffer_loop, List.nil_append]
    congr 2
    funext j
    have : ¬ (i ≤ j ∧ j < i + 0) := by omega
    rw [if_neg this]
  | cons b bs ih =>
    intro i buffer rest hb
    have hb0 : b < 256 := hb b (List.mem_cons_self _ _)
    have hbs : ∀ x ∈ bs, x < 256 := fun x hx => hb x (List.mem_cons_of_mem _ hx)
    simp only [List.length_cons, List.cons_append, xbee_readBuffer_loop,
      xbee_read_clean b hb0, ne_eq, not_true_eq_false, if_false]
    rw [ih (i + 1) (write buffer i b) rest hbs]
    congr 2
    funext j
    by_cases hj : j = i
    · subst hj
      simp [write]
    · by_cases hlt : i + 1 ≤ j ∧ j < i + 1 + bs.length
      · have h2 : i ≤ j ∧ j < i + (bs.length + 1) := by omega
        obtain ⟨d, hd⟩ : ∃ d, j - i = d + 1 := ⟨j - i - 1, by omega⟩
        have hd1 : j - (i + 1) = d := by omega
        rw [if_pos hlt, if_pos h2, hd, hd1]
        simp
      · have h2 : ¬ (i ≤ j ∧ j < i + (bs.length + 1)) := by omega
        rw [if_neg hlt, if_neg h2]
        simp [write, hj]

theorem xbee_readBuffer_clean (bs : List Nat) (buffer : Nat → Nat) (rest : List Nat)
    (hb : ∀ b ∈ bs, b < 256) :
    xbee_readBuffer { pending := bs ++ rest, lastRxError := 0 } buffer bs.length
      = (XBEE_SUCCESS, fun j => if j < bs.length then bs.getD j 0 else buffer j,
         { pending := rest, lastRxError := 0 }) := by
  unfold xbee_readBuffer xbee_getNumberOfBytesReceived uart1_getrxcount
  have hn : ¬ ((bs ++ rest).length < bs.length) := by simp
  rw [if_neg hn, xbee_readBuffer_loop_clean bs 0 buffer rest hb]
  congr 2
  funext j
  simp

theorem xbee_readBuffer_one (b : Nat) (hb : b < 256) (buffer : Nat → Nat) (rest : List Nat) :
    xbee_readBuffer { pending := b :: rest, lastRxError := 0 } buffer 1
      = (XBEE_SUCCESS, fun j => if j < 1 then b else buffer j,
         { pending := rest, lastRxError := 0 }) := by
  have h := xbee_readBuffer_clean [b] buffer rest (by simpa using hb)
  simp only [List.length_singleton, List.singleton_append] at h
  rw [h]
  congr 2
  funext j
  by_cases hj : j < 1
  · have : j = 0 := by omega
    subst this
    simp
  · simp [hj]

/-- With enough bytes buffered `serialAdapter_waitForData` returns at once,
without a yield. -/
theorem serialAdapter_waitForData_ready (byteCount ts : Nat) (w : World)
    (h : byteCount ≤ w.rx.pending.length) :
    serialAdapter_waitForData byteCount ts w = some (true, w) := by
  obtain ⟨rx, now, script⟩ := w
  have hn : ¬ (xbee_getNumberOfBytesReceived rx < byteCount) := by
    unfold xbee_getNumberOfBytesReceived uart1_getrxcount
    simp at h
    omega
  cases script <;> simp [serialAdapter_waitForData, serialAdapter_waitForData_loop, hn]

/-- One `serialAdapter_worker` call on a ring that holds a complete frame
(inner length at most 49) and has no pending error: the worker reads exactly
the frame, without a yield, and hands it to `serialAdapter_processFrame` iff
the footer is the checksum and the destination is this node or broadcast. -/
theorem serialAdapter_worker_buffered (addr low high : Nat) (frame : frame_t)
    (src dst footer : Nat) (inner rest : List Nat) (now : Nat) (script : List EnvStep)
    (hsrc : src < 256) (hdst : dst < 256) (hfooter : footer < 256)
    (hinner : ∀ b ∈ inner, b < 256) (hlen : inner.length ≤ 49) :
    serialAdapter_worker addr low high frame
        { rx := { pending := wire_frame src dst inner footer ++ rest, lastRxError := 0 },
          now := now, script := script }
      = some
          (if serialAdapter_calculateFrameChecksum (received_frame frame src dst inner footer)
                = footer ∧ (dst = addr ∨ dst = ADDRESS_BROADCAST) then
            { world := { rx := { pending := rest, lastRxError := 0 }, now := now,
                         script := script }
              passed := some (received_frame frame src dst inner footer)
              calls := serialAdapter_processFrame (received_frame frame src dst inner footer) }
          else
            { world := { rx := { pending := rest, lastRxError := 0 }, now := now,
                         script := script }
              passed := none, calls := [] }) := by
  have hl256 : inner.length < 256 := by omega
  have hw1 : serialAdapter_waitForData 2 now
      { rx := { pending := wire_frame src dst inner footer ++ rest, lastRxError := 0 },
        now := now, script := script }
      = some (true, { rx := { pending := wire_frame src dst inner footer ++ rest,
                              lastRxError := 0 }, now := now, script := script }) :=
    serialAdapter_waitForData_ready 2 now _ (by simp [wire_frame])
  have hw2 : serialAdapter_waitForData ((inner.length + COMM_FOOTER_LENGTH) % 256) now
      { rx := { pending := inner ++ footer :: rest, lastRxError := 0 },
        now := now, script := script }
      = some (true, { rx := { pending := inner ++ footer :: rest, lastRxError := 0 },
                      now := now, script := script }) := by
    apply serialAdapter_waitForData_ready
    show (inner.length + COMM_FOOTER_LENGTH) % 256 ≤ (inner ++ footer :: rest).length
    rw [List.length_append, List.length_cons]
    unfold COMM_FOOTER_LENGTH
    omega
  have hmax : ¬ (inner.length > COMM_MAX_INNER_FRAME_LENGTH) := by
    simp only [COMM_MAX_INNER_FRAME_LENGTH, COMM_MAX_PAYLOAD_LENGTH]; omega
  unfold serialAdapter_worker
  dsimp only
  rw [hw1]
  dsimp only
  have hwire : wire_frame src dst inner footer ++ rest
      = 0x46 :: 0x52 :: src :: dst :: inner.length :: (inner ++ footer :: rest) := by
    simp [wire_frame]
  rw [hwire, xbee_readBuffer_one 0x46 (by omega)]
  dsimp only
  rw [xbee_readBuffer_one 0x52 (by omega)]
  dsimp only
  rw [xbee_readBuffer_one src hsrc]
  dsimp only
  rw [xbee_readBuffer_one dst hdst]
  dsimp only
  rw [xbee_readBuffer_one inner.length hl256]
  dsimp only
  simp only [Nat.zero_lt_one, if_true, hmax, if_false]
  rw [hw2]
  dsimp only
  rw [xbee_readBuffer_clean inner _ _ hinner]
  dsimp only
  rw [xbee_readBuffer_one footer hfooter]
  dsimp only
  have hflag1 : ¬ (70 ≠ serialAdapter_startFlag % 256) := by decide
  have hflag2 : ¬ (82 ≠ serialAdapter_startFlag >>> 8) := by decide
  simp only [Nat.zero_lt_one, if_true, hflag1, hflag2, ne_eq, not_true_eq_false, if_false]
  unfold received_frame
  generalize ({ header := { startFlag := serialAdapter_startFlag, srcAddr := src, destAddr := dst,
                            length := inner.length }
                innerFrame := fun j => if j < inner.length then inner.getD j 0
                                       else frame.innerFrame j
                footer := { checksum := footer } } : frame_t) = F
  by_cases hck : serialAdapter_calculateFrameChecksum F = footer
  · by_cases hd : dst = addr ∨ dst = ADDRESS_BROADCAST
    · have hd2 : ¬ (¬ dst = addr ∧ ¬ dst = ADDRESS_BROADCAST) := by tauto
      simp [hck, hd, hd2]
    · have hd2 : ¬ dst = addr ∧ ¬ dst = ADDRESS_BROADCAST := by tauto
      simp [hck, hd, hd2]
  · simp [hck]

theorem map_range_getD (l : List Nat) (g : Nat → Nat) :
    (List.range l.length).map (fun j => if j < l.length then l.getD j 0 else g j) = l := by
  apply List.ext_getElem
  · simp
  · intro n h1 h2
    simp at h1
    simp [h1]

theorem serialAdapter_calculateChecksum_eq (c : Nat) (data : Nat → Nat) (n : Nat) :
    serialAdapter_calculateChecksum c data n
      = ((List.range n).map data).foldl (fun c b => c ^^^ b) c := by
  unfold serialAdapter_calculateChecksum
  rw [List.foldl_map]

/-- The frame checksum is the XOR, from 0, of the five header bytes followed
by the first `length` bytes of the inner frame. -/
theorem serialAdapter_calculateFrameChecksum_eq (f : frame_t) :
    serialAdapter_calculateFrameChecksum f
      = xor_bytes ([f.header.startFlag % 256, (f.header.startFlag >>> 8) % 256,
                    f.header.srcAddr, f.header.destAddr, f.header.length]
                   ++ (List.range f.header.length).map f.innerFrame) := by
  unfold serialAdapter_calculateFrameChecksum xor_bytes
  simp only [serialAdapter_calculateChecksum_eq, INITIAL_CHECKSUM_VALUE, COMM_HEADER_LENGTH]
  rw [List.foldl_append]
  congr 1

theorem received_frame_checksum (frame : frame_t) (src dst footer : Nat) (inner : List Nat) :
    serialAdapter_calculateFrameChecksum (received_frame frame src dst inner footer)
      = xor_bytes ([0x46, 0x52, src, dst, inner.length] ++ inner) := by
  rw [serialAdapter_calculateFrameChecksum_eq]
  simp only [received_frame, map_range_getD]
  rfl

/-- What `serialAdapter_writeFrame` hands to the transport: header, inner
bytes, and the XOR of all of them as the footer. -/
theorem serialAdapter_writeFrame_eq (addr : Nat) (frame : frame_t) (destAddr length : Nat)
    (innerFrame : Nat → Nat) :
    serialAdapter_writeFrame addr frame destAddr length innerFrame
      = wire_frame addr destAddr ((List.range length).map innerFrame)
          (xor_bytes ([0x46, 0x52, addr, destAddr, length]
            ++ (List.range length).map innerFrame)) := by
  unfold serialAdapter_writeFrame
  simp only [serialAdapter_calculateFrameChecksum_eq]
  have hm : (List.range length).map (memcpy frame.innerFrame innerFrame length)
      = (List.range length).map innerFrame := by
    apply List.map_congr_left
    intro i hi
    simp [memcpy, List.mem_range.mp hi]
  have h1 : List.range 1 = [0] := rfl
  have h2 : List.range 2 = [0, 1] := rfl
  have hf1 : serialAdapter_startFlag % 256 = 0x46 := rfl
  have hf2 : serialAdapter_startFlag >>> 8 % 256 = 0x52 := rfl
  simp only [hm, wire_frame, xbee_writeData, List.length_map, List.length_range, h1, h2,
    List.map_cons, List.map_nil, frame_header_bytes, hf1, hf2]
  simp

theorem strlen_le (message : List Nat) : strlen message ≤ message.length := by
  unfold strlen
  exact (List.takeWhile_sublist _).length_le

theorem strlen_of_nul_free (message : List Nat) (h : ∀ c ∈ message, c ≠ 0) :
    strlen message = message.length := by
  unfold strlen
  congr 1
  rw [List.takeWhile_eq_self_iff]
  intro c hc
  simpa using h c hc

/-- The length byte `rfAdapter_sendLcdPrint` puts in the frame: the low 8
bits of `strlen(message)`, then clamped to 32. -/
theorem rfAdapter_sendLcdPrint_eq (addr : Nat) (frame : frame_t) (innerFrame payload : Nat → Nat)
    (destAddr : Nat) (message : List Nat) (L : Nat)
    (hL : L = if strlen message % 256 > 32 then 32 else strlen message % 256) :
    rfAdapter_sendLcdPrint addr frame innerFrame payload destAddr message
      = wire_frame addr destAddr (CMD_LCD_PRINT :: L :: message.take L)
          (xor_bytes ([0x46, 0x52, addr, destAddr, 1 + 1 + L]
            ++ CMD_LCD_PRINT :: L :: message.take L)) := by
  have hLle : L ≤ message.length := by
    have := strlen_le message
    rw [hL]; split <;> omega
  unfold rfAdapter_sendLcdPrint
  simp only [← hL]
  rw [serialAdapter_writeFrame_eq]
  have hmap : (List.range (1 + 1 + L)).map
      (fun i => if 1 ≤ i ∧ i < 1 + (1 + L) then
          (fun i => if 1 ≤ i ∧ i < 1 + L then message.getD (i - 1) 0
                    else write payload 0 L i) (i - 1)
        else write innerFrame 0 CMD_LCD_PRINT i)
      = CMD_LCD_PRINT :: L :: message.take L := by
    apply List.ext_getElem
    · simp; omega
    · intro n h1 h2
      simp only [List.length_map, List.length_range] at h1
      simp only [List.getElem_map, List.getElem_range]
      match n, h1, h2 with
      | 0, _, _ => simp [write]
      | 1, _, _ => simp [write]
      | n + 2, h1, h2 =>
        have c1 : 1 ≤ n + 2 ∧ n + 2 < 1 + (1 + L) := by omega
        have c2 : 1 ≤ n + 2 - 1 ∧ n + 2 - 1 < 1 + L := by omega
        have c3 : n + 2 - 1 - 1 = n := by omega
        have hn : n < message.length := by omega
        simp only [if_pos c1, if_pos c2, c3, List.getElem_cons_succ, List.getElem_take]
        simp [List.getD_eq_getElem?_getD, hn]
  rw [hmap]

/-- Whatever the ring holds and whatever arrives during the waits, a frame
reaches `serialAdapter_processFrame` only with a footer equal to its
checksum, and no handler runs on any other path. -/
theorem serialAdapter_worker_sound (addr low high : Nat) (frame : frame_t) (w : World)
    (r : WorkerResult) (h : serialAdapter_worker addr low high frame w = some r) :
    (∀ f, r.passed = some f →
      f.footer.checksum = serialAdapter_calculateFrameChecksum f ∧
      f.header.startFlag = serialAdapter_startFlag ∧
      f.header.length ≤ COMM_MAX_INNER_FRAME_LENGTH ∧
      (f.header.destAddr = addr ∨ f.header.destAddr = ADDRESS_BROADCAST) ∧
      r.calls = serialAdapter_processFrame f) ∧
    (r.passed = none → r.calls = []) := by
  unfold serialAdapter_worker at h
  dsimp only at h
  split at h
  · simp at h
  · simp only [Option.some.injEq] at h
    subst h
    simp
  · rename_i w1 _
    generalize xbee_readBuffer w1.rx (fun _ => low) 1 = rb1 at h
    generalize xbee_readBuffer rb1.2.2 (fun _ => high) 1 = rb2 at h
    generalize xbee_readBuffer rb2.2.2 (fun _ => frame.header.srcAddr) 1 = rb3 at h
    generalize xbee_readBuffer rb3.2.2 (fun _ => frame.header.destAddr) 1 = rb4 at h
    generalize xbee_readBuffer rb4.2.2 (fun _ => frame.header.length) 1 = rb5 at h
    by_cases h1 : rb1.2.1 0 ≠ serialAdapter_startFlag % 256
    · rw [if_pos h1] at h; simp only [Option.some.injEq] at h; subst h; simp
    rw [if_neg h1] at h
    by_cases h2 : rb2.2.1 0 ≠ serialAdapter_startFlag >>> 8
    · rw [if_pos h2] at h; simp only [Option.some.injEq] at h; subst h; simp
    rw [if_neg h2] at h
    by_cases h3 : rb3.1 ≠ XBEE_SUCCESS
    · rw [if_pos h3] at h; simp only [Option.some.injEq] at h; subst h; simp
    rw [if_neg h3] at h
    by_cases h4 : rb4.1 ≠ XBEE_SUCCESS
    · rw [if_pos h4] at h; simp only [Option.some.injEq] at h; subst h; simp
    rw [if_neg h4] at h
    by_cases h5 : rb5.1 ≠ XBEE_SUCCESS
    · rw [if_pos h5] at h; simp only [Option.some.injEq] at h; subst h; simp
    rw [if_neg h5] at h
    by_cases h6 : rb5.2.1 0 > COMM_MAX_INNER_FRAME_LENGTH
    · rw [if_pos h6] at h; simp only [Option.some.injEq] at h; subst h; simp
    rw [if_neg h6] at h
    split at h
    · simp at h
    · simp only [Option.some.injEq] at h; subst h; simp
    · rename_i w7 _
      generalize xbee_readBuffer w7.rx frame.innerFrame (rb5.2.1 0) = rb6 at h
      generalize xbee_readBuffer rb6.2.2 (fun _ => frame.footer.checksum) 1 = rb7 at h
      by_cases h7 : rb6.1 ≠ XBEE_SUCCESS
      · rw [if_pos h7] at h; simp only [Option.some.injEq] at h; subst h; simp
      rw [if_neg h7] at h
      by_cases h8 : rb7.1 ≠ XBEE_SUCCESS
      · rw [if_pos h8] at h; simp only [Option.some.injEq] at h; subst h; simp
      rw [if_neg h8] at h
      split_ifs at h with h9 h10
      · simp only [Option.some.injEq] at h; subst h; simp
      · simp only [Option.some.injEq] at h; subst h; simp
      · simp only [Option.some.injEq] at h
        subst h
        refine ⟨?_, by simp⟩
        intro f hf
        simp only [Option.some.injEq] at hf
        subst hf
        refine ⟨?_, rfl, ?_, ?_, rfl⟩
        · simp only [ne_eq, not_not] at h9
          exact h9.symm
        · simpa using h6
        · simp only [ne_eq] at h10
          dsimp only
          tauto

/-- A buffered header whose length byte exceeds 49: the worker returns right
after the length byte, without a yield, leaving the following bytes in the
ring. -/
theorem serialAdapter_worker_long (addr low high : Nat) (frame : frame_t)
    (src dst len : Nat) (tail : List Nat) (now : Nat) (script : List EnvStep)
    (hsrc : src < 256) (hdst : dst < 256) (hlen : 49 < len) (hl256 : len < 256) :
    serialAdapter_worker addr low high frame
        { rx := { pending := 0x46 :: 0x52 :: src :: dst :: len :: tail, lastRxError := 0 },
          now := now, script := script }
      = some { world := { rx := { pending := tail, lastRxError := 0 }, now := now,
                          script := script }
               passed := none, calls := [] } := by
  have hw1 : serialAdapter_waitForData 2 now
      { rx := { pending := 0x46 :: 0x52 :: src :: dst :: len :: tail, lastRxError := 0 },
        now := now, script := script }
      = some (true, { rx := { pending := 0x46 :: 0x52 :: src :: dst :: len :: tail,
                              lastRxError := 0 }, now := now, script := script }) :=
    serialAdapter_waitForData_ready 2 now _ (by simp)
  have hmax : len > COMM_MAX_INNER_FRAME_LENGTH := by
    simp only [COMM_MAX_INNER_FRAME_LENGTH, COMM_MAX_PAYLOAD_LENGTH]; omega
  unfold serialAdapter_worker
  dsimp only
  rw [hw1]
  dsimp only
  rw [xbee_readBuffer_one 0x46 (by omega)]
  dsimp only
  rw [xbee_readBuffer_one 0x52 (by omega)]
  dsimp only
  rw [xbee_readBuffer_one src hsrc]
  dsimp only
  rw [xbee_readBuffer_one dst hdst]
  dsimp only
  rw [xbee_readBuffer_one len hl256]
  dsimp only
  have hflag1 : ¬ (70 ≠ serialAdapter_startFlag % 256) := by decide
  have hflag2 : ¬ (82 ≠ serialAdapter_startFlag >>> 8) := by decide
  simp only [Nat.zero_lt_one, if_true, hmax, hflag1, hflag2, ne_eq, not_true_eq_false, if_false]

/-- C3: with node address 0x08, `rfAdapter_sendLcdPrint(0xFF, "OK")` hands the
transport the ten bytes 46 52 08 FF 04 12 02 4F 4B F3, and F3 is the XOR of
the nine bytes before it; 0x08 is the initial `serialAdapter_address`. -/
theorem C3_reference_frame (frame : frame_t) (innerFrame payload : Nat → Nat) :
    serialAdapter_address = 0x08 ∧
    rfAdapter_sendLcdPrint 0x08 frame innerFrame payload 0xFF [0x4F, 0x4B]
      = [0x46, 0x52, 0x08, 0xFF, 0x04, 0x12, 0x02, 0x4F, 0x4B, 0xF3] ∧
    xor_bytes [0x46, 0x52, 0x08, 0xFF, 0x04, 0x12, 0x02, 0x4F, 0x4B] = 0xF3 := by
  refine ⟨by decide, ?_, by decide⟩
  rw [rfAdapter_sendLcdPrint_eq 0x08 frame innerFrame payload 0xFF [0x4F, 0x4B] 2 (by decide)]
  decide

/-- C4: for an inner length `n` of at most 49, `serialAdapter_writeFrame`
writes exactly `n + 6` bytes: 0x46, 0x52, the own address, the destination,
`n`, the first `n` inner bytes and the XOR, from 0, of those `n + 5` bytes. -/
theorem C4_writeFrame_layout (addr : Nat) (frame : frame_t) (destAddr n : Nat)
    (innerFrame : Nat → Nat) (hn : n ≤ 49) :
    serialAdapter_writeFrame addr frame destAddr n innerFrame
      = [0x46, 0x52, addr, destAddr, n] ++ (List.range n).map innerFrame
          ++ [xor_bytes ([0x46, 0x52, addr, destAddr, n] ++ (List.range n).map innerFrame)] ∧
    (serialAdapter_writeFrame addr frame destAddr n innerFrame).length = n + 6 ∧
    n ≤ COMM_MAX_INNER_FRAME_LENGTH := by
  rw [serialAdapter_writeFrame_eq]
  refine ⟨?_, ?_, hn⟩
  · simp [wire_frame]
  · simp [wire_frame]

/-- Witness of C4: a three-byte inner frame 11 01 07 sent from node 0x08 to
node 0x09. -/
theorem C4_writeFrame_layout_witness :
    (3 ≤ 49) ∧
    (serialAdapter_writeFrame 0x08
        { header := { startFlag := 0, srcAddr := 0, destAddr := 0, length := 0 }
          innerFrame := fun _ => 0, footer := { checksum := 0 } }
        0x09 3 (fun i => if i = 0 then 0x11 else if i = 1 then 1 else 7)
      = [0x46, 0x52, 0x08, 0x09, 3]
          ++ (List.range 3).map (fun i => if i = 0 then 0x11 else if i = 1 then 1 else 7)
          ++ [xor_bytes ([0x46, 0x52, 0x08, 0x09, 3]
                ++ (List.range 3).map (fun i => if i = 0 then 0x11 else if i = 1 then 1 else 7))] ∧
     (serialAdapter_writeFrame 0x08
        { header := { startFlag := 0, srcAddr := 0, destAddr := 0, length := 0 }
          innerFrame := fun _ => 0, footer := { checksum := 0 } }
        0x09 3 (fun i => if i = 0 then 0x11 else if i = 1 then 1 else 7)).length = 3 + 6 ∧
     3 ≤ COMM_MAX_INNER_FRAME_LENGTH) :=
  ⟨by decide, C4_writeFrame_layout 0x08 _ 0x09 3 _ (by decide)⟩

theorem xor_foldl_lt (l : List Nat) (hl : ∀ b ∈ l, b < 256) :
    ∀ c, c < 256 → l.foldl (fun c b => c ^^^ b) c < 256 := by
  induction l with
  | nil => intro c hc; simpa using hc
  | cons b l ih =>
    intro c hc
    simp only [List.foldl_cons]
    apply ih (fun x hx => hl x (List.mem_cons_of_mem _ hx))
    exact Nat.xor_lt_two_pow (n := 8) hc (hl b (List.mem_cons_self _ _))

theorem xor_bytes_lt (l : List Nat) (hl : ∀ b ∈ l, b < 256) : xor_bytes l < 256 :=
  xor_foldl_lt l hl 0 (by omega)

theorem rfAdapter_sendSetLed_eq (addr : Nat) (frame : frame_t) (innerFrame : Nat → Nat)
    (destAddr : Nat) (enable : Bool) :
    rfAdapter_sendSetLed addr frame innerFrame destAddr enable
      = wire_frame addr destAddr [CMD_SET_LED, if enable then 1 else 0]
          (xor_bytes ([0x46, 0x52, addr, destAddr, 1 + 1]
            ++ [CMD_SET_LED, if enable then 1 else 0])) := by
  unfold rfAdapter_sendSetLed
  dsimp only
  rw [serialAdapter_writeFrame_eq]
  have h2 : List.range (1 + 1) = [0, 1] := rfl
  simp [h2, write]

theorem processFrame_setLed (frame : frame_t) (src dst v footer : Nat) :
    serialAdapter_processFrame (received_frame frame src dst [CMD_SET_LED, v] footer)
      = [.receiveSetLed v] := by
  simp [serialAdapter_processFrame, received_frame, CMD_SET_LED]

theorem processFrame_lcdPrint (frame : frame_t) (src dst footer L : Nat) (msg : List Nat)
    (hlen : msg.length = L) (hL : L ≤ 32) :
    serialAdapter_processFrame (received_frame frame src dst (CMD_LCD_PRINT :: L :: msg) footer)
      = [.receiveLcdPrint L msg] := by
  have hmap : (List.range L).map
      (fun i => if 1 + (1 + i) < L + 1 + 1 then (CMD_LCD_PRINT :: L :: msg).getD (1 + (1 + i)) 0
                else frame.innerFrame (1 + (1 + i))) = msg := by
    apply List.ext_getElem
    · simp [hlen]
    · intro n h1 h2
      simp only [List.length_map, List.length_range] at h1
      have c : 1 + (1 + n) < L + 1 + 1 := by omega
      have e : 1 + (1 + n) = n + 1 + 1 := by omega
      simp only [List.getElem_map, List.getElem_range]
      rw [if_pos c, e]
      simp [h2]
  have hlen2 : 1 ≤ L + 1 + 1 := by omega
  have hlen3 : L + 1 + 1 = 1 + 1 + L := by omega
  have h1lt : 1 < 2 + L := by omega
  simp [serialAdapter_processFrame, received_frame, CMD_LCD_PRINT, CMD_SET_LED, CMD_TOGGLE_LED,
    CMD_LCD_CLEAR, CMD_LCD_GOTO, hlen, hL, hlen3, h1lt]
  simpa [hlen, CMD_LCD_PRINT, hlen3] using hmap

/-- Round trip of `rfAdapter_sendLcdPrint` for any message, the frame being
buffered in a ring without a pending receive error: the receiver (the
addressed node, or any node for broadcast) calls the LCD_PRINT handler once
with the length byte `L` of the frame and the first `L` message bytes, where
`L` is `strlen(message)` modulo 256, clamped to 32. -/
theorem lcdPrint_roundtrip (addrS addrR low high : Nat) (frameS frameR : frame_t)
    (innerS payloadS : Nat → Nat) (a : Nat) (s rest : List Nat) (now : Nat)
    (script : List EnvStep) (L : Nat)
    (hL : L = if strlen s % 256 > 32 then 32 else strlen s % 256)
    (haS : addrS < 256) (ha : a < 256) (hs : ∀ c ∈ s, c < 256)
    (hdest : a = addrR ∨ a = ADDRESS_BROADCAST) :
    serialAdapter_worker addrR low high frameR
        { rx := { pending := rfAdapter_sendLcdPrint addrS frameS innerS payloadS a s ++ rest,
                  lastRxError := 0 }, now := now, script := script }
      = some { world := { rx := { pending := rest, lastRxError := 0 }, now := now,
                          script := script }
               passed := some (received_frame frameR addrS a (CMD_LCD_PRINT :: L :: s.take L)
                 (xor_bytes ([0x46, 0x52, addrS, a, 1 + 1 + L]
                   ++ CMD_LCD_PRINT :: L :: s.take L)))
               calls := [.receiveLcdPrint L (s.take L)] } := by
  have hL32 : L ≤ 32 := by rw [hL]; split <;> omega
  have hLle : L ≤ s.length := by
    have := strlen_le s
    rw [hL]; split <;> omega
  have htake : (s.take L).length = L := by simp [hLle]
  have hinner : ∀ b ∈ CMD_LCD_PRINT :: L :: s.take L, b < 256 := by
    intro b hb
    simp only [List.mem_cons] at hb
    rcases hb with rfl | rfl | hb
    · decide
    · omega
    · exact hs b (List.mem_of_mem_take hb)
  have hilen : (CMD_LCD_PRINT :: L :: s.take L).length = 1 + 1 + L := by
    simp [htake]; omega
  have hfooter : xor_bytes ([0x46, 0x52, addrS, a, 1 + 1 + L]
      ++ CMD_LCD_PRINT :: L :: s.take L) < 256 := by
    apply xor_bytes_lt
    intro b hb
    simp only [List.mem_append, List.mem_cons, List.mem_singleton] at hb
    rcases hb with (rfl | rfl | rfl | rfl | rfl | hb) | hb
    · omega
    · omega
    · exact haS
    · exact ha
    · omega
    · simp at hb
    · exact hinner b (by simpa using hb)
  rw [rfAdapter_sendLcdPrint_eq addrS frameS innerS payloadS a s L hL,
    serialAdapter_worker_buffered addrR low high frameR addrS a _ _ rest now script haS ha
      hfooter hinner (by rw [hilen]; omega),
    received_frame_checksum, hilen,
    processFrame_lcdPrint frameR addrS a _ L (s.take L) htake hL32]
  simp [hdest]

/-- Round trip of `rfAdapter_sendSetLed`. -/
theorem setLed_roundtrip (addrS addrR low high : Nat) (frameS frameR : frame_t)
    (innerS : Nat → Nat) (a : Nat) (e : Bool) (rest : List Nat) (now : Nat)
    (script : List EnvStep) (haS : addrS < 256) (ha : a < 256)
    (hdest : a = addrR ∨ a = ADDRESS_BROADCAST) :
    ∃ r, serialAdapter_worker addrR low high frameR
        { rx := { pending := rfAdapter_sendSetLed addrS frameS innerS a e ++ rest,
                  lastRxError := 0 }, now := now, script := script } = some r ∧
      r.calls = [.receiveSetLed (if e then 1 else 0)] ∧
      r.world = { rx := { pending := rest, lastRxError := 0 }, now := now, script := script } := by
  have hv : (if e then 1 else 0 : Nat) < 256 := by split <;> omega
  have hinner : ∀ b ∈ [CMD_SET_LED, if e then 1 else 0], b < 256 := by
    intro b hb
    simp only [List.mem_cons, List.mem_singleton, List.not_mem_nil, or_false] at hb
    rcases hb with rfl | rfl
    · decide
    · exact hv
  have hfooter : xor_bytes ([0x46, 0x52, addrS, a, 1 + 1]
      ++ [CMD_SET_LED, if e then 1 else 0]) < 256 := by
    apply xor_bytes_lt
    intro b hb
    simp only [List.mem_append, List.mem_cons, List.mem_singleton, List.not_mem_nil,
      or_false] at hb
    rcases hb with (rfl | rfl | rfl | rfl | rfl) | rfl | rfl
    · omega
    · omega
    · exact haS
    · exact ha
    · omega
    · decide
    · exact hv
  rw [rfAdapter_sendSetLed_eq,
    serialAdapter_worker_buffered addrR low high frameR addrS a _ _ rest now script haS ha
      hfooter hinner (by simp),
    received_frame_checksum, processFrame_setLed]
  simp [hdest]

/-- C5: `serialAdapter_worker` hands a frame to `serialAdapter_processFrame`
only if the footer it read equals the XOR, from 0, of 0x46, 0x52, source,
destination, length and the `length` inner bytes, and without that no handler
runs; in particular every buffered frame with a differing footer, in a ring
without a pending receive error, is dropped without a handler call. -/
theorem C5_checksum_gate (addr low high : Nat) (frame : frame_t) :
    (∀ w r, serialAdapter_worker addr low high frame w = some r →
      (∀ f, r.passed = some f →
        f.footer.checksum
          = xor_bytes ([0x46, 0x52, f.header.srcAddr, f.header.destAddr, f.header.length]
              ++ (List.range f.header.length).map f.innerFrame)) ∧
      (r.passed = none → r.calls = [])) ∧
    (∀ src dst footer inner rest now script,
      src < 256 → dst < 256 → footer < 256 → (∀ b ∈ inner, b < 256) → inner.length < 256 →
      footer ≠ xor_bytes ([0x46, 0x52, src, dst, inner.length] ++ inner) →
      ∃ r, serialAdapter_worker addr low high frame
          { rx := { pending := wire_frame src dst inner footer ++ rest, lastRxError := 0 },
            now := now, script := script } = some r ∧
        r.passed = none ∧ r.calls = []) := by
  constructor
  · intro w r h
    obtain ⟨hs, hn⟩ := serialAdapter_worker_sound addr low high frame w r h
    refine ⟨?_, hn⟩
    intro f hf
    obtain ⟨hck, hflag, _, _, _⟩ := hs f hf
    rw [hck, serialAdapter_calculateFrameChecksum_eq, hflag]
    rfl
  · intro src dst footer inner rest now script hsrc hdst hfooter hinner hl256 hne
    by_cases hlen : inner.length ≤ 49
    · refine ⟨_, serialAdapter_worker_buffered addr low high frame src dst footer inner rest now
        script hsrc hdst hfooter hinner hlen, ?_⟩
      rw [received_frame_checksum]
      have hne2 : ¬ (xor_bytes ([0x46, 0x52, src, dst, inner.length] ++ inner) = footer
          ∧ (dst = addr ∨ dst = ADDRESS_BROADCAST)) := fun h => hne h.1.symm
      rw [if_neg hne2]
      exact ⟨rfl, rfl⟩
    · have hw : wire_frame src dst inner footer ++ rest
          = 0x46 :: 0x52 :: src :: dst :: inner.length :: (inner ++ footer :: rest) := by
        simp [wire_frame]
      rw [hw]
      exact ⟨_, serialAdapter_worker_long addr low high frame src dst inner.length _ now script
        hsrc hdst (by omega) hl256, rfl, rfl⟩

/-- Witness of C5: the reference frame with payload byte 4F flipped to 4E,
46 52 08 FF 04 12 02 4E 4B F3, is dropped by node 0x08 without a handler
call. -/
theorem C5_checksum_gate_witness :
    ∃ r, serialAdapter_worker 0x08 0 0 frame_zero
        { rx := { pending := wire_frame 0x08 0xFF [0x12, 0x02, 0x4E, 0x4B] 0xF3 ++ [],
                  lastRxError := 0 },
          now := 0, script := [] } = some r ∧
      r.passed = none ∧ r.calls = [] :=
  (C5_checksum_gate 0x08 0 0 frame_zero).2 0x08 0xFF 0xF3 [0x12, 0x02, 0x4E, 0x4B] [] 0 []
    (by decide) (by decide) (by decide) (by decide) (by decide) (by decide)

/-- C6, evaluated at a 256-character message: `(uint8_t)strlen` wraps to 0
before the clamp to 32, so the frame carries length 0 and the receiver calls
the LCD_PRINT handler with length 0 and no text, not with the first 32
characters. -/
theorem C6_lcdPrint_length_wraps (addrR low high : Nat) (frameS frameR : frame_t)
    (innerS payloadS : Nat → Nat) (now : Nat) (script : List EnvStep) :
    strlen (List.replicate 256 0x41) = 256 ∧
    ∃ r, serialAdapter_worker addrR low high frameR
        { rx := { pending := rfAdapter_sendLcdPrint 0x08 frameS innerS payloadS 0xFF
                    (List.replicate 256 0x41) ++ [],
                  lastRxError := 0 },
          now := now, script := script } = some r ∧
      r.calls = [.receiveLcdPrint 0 []] ∧
      r.calls ≠ [.receiveLcdPrint (min 256 32) ((List.replicate 256 0x41).take (min 256 32))] := by
  have hlen : strlen (List.replicate 256 0x41) = 256 := by
    rw [strlen_of_nul_free _ (by intro c hc; rw [List.eq_of_mem_replicate hc]; decide)]
    exact List.length_replicate _ _
  refine ⟨hlen, _, lcdPrint_roundtrip 0x08 addrR low high frameS frameR innerS payloadS 0xFF
    (List.replicate 256 0x41) [] now script 0 (by rw [hlen]; decide) (by decide) (by decide)
    (by intro c hc; rw [List.eq_of_mem_replicate hc]; decide) (Or.inr rfl), ?_, ?_⟩
  · show [HandlerCall.receiveLcdPrint 0 ((List.replicate 256 0x41).take 0)] = _
    rw [List.take_zero]
  · intro h
    have h1 := (HandlerCall.receiveLcdPrint.inj (List.cons.inj h).1).1
    exact absurd h1 (by decide)

/-- C7 (as amended): the bytes of `rfAdapter_sendSetLed(a, e)`, unchanged and
complete in the ring of the node with address `a` while no receive error is
pending in `UART1_LastRxError`, make one worker call invoke the SET_LED
handler exactly once, with enable 1 for true and 0 for false, and no other
handler; the call reads exactly the frame. -/
theorem C7_setLed_roundtrip (addrS low high : Nat) (frameS frameR : frame_t)
    (innerS : Nat → Nat) (a : Nat) (e : Bool) (now : Nat) (script : List EnvStep)
    (haS : addrS < 256) (ha : a < 256) :
    ∃ r, serialAdapter_worker a low high frameR
        { rx := { pending := rfAdapter_sendSetLed addrS frameS innerS a e ++ [],
                  lastRxError := 0 }, now := now, script := script } = some r ∧
      r.calls = [.receiveSetLed (if e then 1 else 0)] ∧
      r.world = { rx := { pending := [], lastRxError := 0 }, now := now, script := script } :=
  setLed_roundtrip addrS a low high frameS frameR innerS a e [] now script haS ha (Or.inl rfl)

/-- Witness of C7: node 0x08 switches the LED of node 0x09 on. -/
theorem C7_setLed_roundtrip_witness :
    (0x08 < 256 ∧ 0x09 < 256) ∧
    ∃ r, serialAdapter_worker 0x09 0 0 frame_zero
        { rx := { pending := rfAdapter_sendSetLed 0x08 frame_zero (fun _ => 0) 0x09 true ++ [],
                  lastRxError := 0 }, now := 0, script := [] } = some r ∧
      r.calls = [.receiveSetLed (if true then 1 else 0)] ∧
      r.world = { rx := { pending := [], lastRxError := 0 }, now := 0, script := [] } :=
  ⟨by decide, C7_setLed_roundtrip 0x08 0 0 frame_zero frame_zero (fun _ => 0) 0x09 true 0 []
    (by decide) (by decide)⟩

set_option maxRecDepth 100000 in
/-- Counterexample to C7 as stated: the bytes `46 52 08 09 02 01 01 17` of
`rfAdapter_sendSetLed(0x09, true)` from node 0x08 stand unchanged and complete
in the ring of node 0x09, but a frame error is flagged in `UART1_LastRxError`
(status bit 4), as the receive interrupt leaves it when the last byte arrives
with that status, and the local `low` holds 0. The read of the first byte
takes the byte and fails, the call returns without a handler, and the six
calls that follow drop one byte each: the SET_LED handler is never invoked. -/
theorem C7_setLed_roundtrip_counterexample :
    rfAdapter_sendSetLed 0x08 frame_zero (fun _ => 0) 0x09 true
      = [0x46, 0x52, 0x08, 0x09, 0x02, 0x01, 0x01, 0x17] ∧
    UART1_RECEIVE_INTERRUPT
        { pending := [0x46, 0x52, 0x08, 0x09, 0x02, 0x01, 0x01], lastRxError := 0 } 0x17 0x10
      = { pending := rfAdapter_sendSetLed 0x08 frame_zero (fun _ => 0) 0x09 true,
          lastRxError := 0x10 } ∧
    serialAdapter_worker 0x09 0 0 frame_zero
        { rx := { pending := rfAdapter_sendSetLed 0x08 frame_zero (fun _ => 0) 0x09 true,
                  lastRxError := 0x10 }, now := 0, script := [] }
      = some { world := { rx := { pending := [0x52, 0x08, 0x09, 0x02, 0x01, 0x01, 0x17],
                                  lastRxError := 0 }, now := 0, script := [] }
               passed := none, calls := [] } ∧
    serialAdapter_worker_run 0x09 0 0 frame_zero 7
        { rx := { pending := rfAdapter_sendSetLed 0x08 frame_zero (fun _ => 0) 0x09 true,
                  lastRxError := 0x10 }, now := 0, script := [] }
      = some ([], { rx := { pending := [0x17], lastRxError := 0 }, now := 0, script := [] }) :=
  ⟨by decide, rfl, rfl, rfl⟩

/-- C8 (as amended): a completely buffered frame with the right start flag, an
inner length of at most 49 and the right checksum, in a ring without a
pending receive error, reaches `serialAdapter_processFrame` iff its
destination is this node's address or 0xFF: broadcast is delivered by every
node, and a frame for another node is dropped without a handler call. -/
theorem C8_address_filter (addr low high : Nat) (frame : frame_t) (src dst : Nat)
    (inner rest : List Nat) (now : Nat) (script : List EnvStep)
    (hsrc : src < 256) (hdst : dst < 256) (hinner : ∀ b ∈ inner, b < 256)
    (hlen : inner.length ≤ 49) :
    ∃ r, serialAdapter_worker addr low high frame
        { rx := { pending := wire_frame src dst inner
                    (xor_bytes ([0x46, 0x52, src, dst, inner.length] ++ inner)) ++ rest,
                  lastRxError := 0 }, now := now, script := script } = some r ∧
      (r.passed.isSome = true ↔ dst = addr ∨ dst = 0xFF) ∧
      (dst = 0xFF → r.passed.isSome = true) ∧
      (dst ≠ 0xFF → addr ≠ dst → r.passed = none ∧ r.calls = []) := by
  have hfooter : xor_bytes ([0x46, 0x52, src, dst, inner.length] ++ inner) < 256 := by
    apply xor_bytes_lt
    intro b hb
    simp only [List.mem_append, List.mem_cons, List.mem_singleton, List.not_mem_nil,
      or_false] at hb
    rcases hb with (rfl | rfl | rfl | rfl | rfl) | hb
    · omega
    · omega
    · exact hsrc
    · exact hdst
    · omega
    · exact hinner b hb
  refine ⟨_, serialAdapter_worker_buffered addr low high frame src dst _ inner rest now script
    hsrc hdst hfooter hinner hlen, ?_⟩
  rw [received_frame_checksum]
  by_cases hd : dst = addr ∨ dst = ADDRESS_BROADCAST
  · rw [if_pos ⟨rfl, hd⟩]
    refine ⟨?_, ?_, ?_⟩
    · simpa [ADDRESS_BROADCAST] using hd
    · intro _; rfl
    · intro h1 h2
      rcases hd with hd | hd
      · exact absurd hd.symm h2
      · exact absurd hd h1
  · have hn : ¬ (xor_bytes ([0x46, 0x52, src, dst, inner.length] ++ inner)
        = xor_bytes ([0x46, 0x52, src, dst, inner.length] ++ inner)
        ∧ (dst = addr ∨ dst = ADDRESS_BROADCAST)) := fun h => hd h.2
    rw [if_neg hn]
    refine ⟨?_, ?_, ?_⟩
    · simpa [ADDRESS_BROADCAST] using hd
    · intro h; exact absurd (Or.inr h) hd
    · intro _ _; exact ⟨rfl, rfl⟩

/-- Witness of C8: a TOGGLE_LED frame from node 0x08 to node 0x09 is not
delivered at node 0x0A. -/
theorem C8_address_filter_witness :
    (0x08 < 256 ∧ 0x09 < 256 ∧ (∀ b ∈ [0x02], b < 256) ∧ [0x02].length ≤ 49) ∧
    ∃ r, serialAdapter_worker 0x0A 0 0 frame_zero
        { rx := { pending := wire_frame 0x08 0x09 [0x02]
                    (xor_bytes ([0x46, 0x52, 0x08, 0x09, [0x02].length] ++ [0x02])) ++ [],
                  lastRxError := 0 }, now := 0, script := [] } = some r ∧
      (r.passed.isSome = true ↔ 0x09 = 0x0A ∨ 0x09 = 0xFF) ∧
      (0x09 = 0xFF → r.passed.isSome = true) ∧
      (0x09 ≠ 0xFF → 0x0A ≠ 0x09 → r.passed = none ∧ r.calls = []) :=
  ⟨by decide, C8_address_filter 0x0A 0 0 frame_zero 0x08 0x09 [0x02] [] 0 []
    (by decide) (by decide) (by decide) (by decide)⟩

set_option maxRecDepth 100000 in
/-- Counterexample to C8 as stated: the broadcast TOGGLE_LED frame
`46 52 08 FF 01 02 E0` is complete in the ring of node 0x0A with the right
start flag, length and checksum, but a frame error is flagged in
`UART1_LastRxError` (status bit 4), as the receive interrupt leaves it when
the last byte arrives with that status, and the local `low` holds 0. The
worker call drops the first byte and passes nothing to
`serialAdapter_processFrame`, although the destination is 0xFF; the five
calls that follow drop one byte each and invoke no handler. -/
theorem C8_address_filter_counterexample :
    wire_frame 0x08 0xFF [0x02] (xor_bytes ([0x46, 0x52, 0x08, 0xFF, [0x02].length] ++ [0x02]))
      = [0x46, 0x52, 0x08, 0xFF, 0x01, 0x02, 0xE0] ∧
    UART1_RECEIVE_INTERRUPT
        { pending := [0x46, 0x52, 0x08, 0xFF, 0x01, 0x02], lastRxError := 0 } 0xE0 0x10
      = { pending := [0x46, 0x52, 0x08, 0xFF, 0x01, 0x02, 0xE0], lastRxError := 0x10 } ∧
    serialAdapter_worker 0x0A 0 0 frame_zero
        { rx := { pending := [0x46, 0x52, 0x08, 0xFF, 0x01, 0x02, 0xE0], lastRxError := 0x10 },
          now := 0, script := [] }
      = some { world := { rx := { pending := [0x52, 0x08, 0xFF, 0x01, 0x02, 0xE0],
                                  lastRxError := 0 }, now := 0, script := [] }
               passed := none, calls := [] } ∧
    serialAdapter_worker_run 0x0A 0 0 frame_zero 6
        { rx := { pending := [0x46, 0x52, 0x08, 0xFF, 0x01, 0x02, 0xE0], lastRxError := 0x10 },
          now := 0, script := [] }
      = some ([], { rx := { pending := [0xE0], lastRxError := 0 }, now := 0, script := [] }) :=
  ⟨by decide, rfl, rfl, rfl⟩

theorem rq_isEmpty_iff (q : ready_queue_t) (hwf : rq_wf q) :
    rq_isEmpty q = true ↔ rq_contents q = [] := by
  have hlen := rq_contents_length q hwf
  obtain ⟨hh, ht⟩ := hwf
  have hh9 : q.head < 9 := hh
  have ht9 : q.tail < 9 := ht
  unfold rq_isEmpty
  rw [beq_iff_eq, ← List.length_eq_zero, hlen]
  omega

theorem set_queue_same (info : scheduling_information_t) (p : priority_t) (q : ready_queue_t) :
    (set_queue info p q).queues_ready p = q := by
  simp [set_queue]

theorem set_queue_other (info : scheduling_information_t) (p p1 : priority_t)
    (q : ready_queue_t) (h : p1 ≠ p) :
    (set_queue info p q).queues_ready p1 = info.queues_ready p1 := by
  simp [set_queue, h]

/-- Step 1 of the priority strategy on the queue contents: the head of a
non-empty lower queue moves to the end of the upper queue. -/
theorem promote_contents (info : scheduling_information_t) (lower upper : priority_t)
    (hne : lower ≠ upper) (hwf : ∀ p, rq_wf (info.queues_ready p))
    (hlen : (rq_contents (info.queues_ready upper)).length < 8) :
    ∃ info1, promote info lower upper = .ok info1 ∧ (∀ p, rq_wf (info1.queues_ready p)) ∧
      (∀ p, rq_contents (info1.queues_ready p)
        = match rq_contents (info.queues_ready lower) with
          | [] => rq_contents (info.queues_ready p)
          | x :: xs =>
            if p = upper then rq_contents (info.queues_ready upper) ++ [x]
            else if p = lower then xs
            else rq_contents (info.queues_ready p)) := by
  unfold promote
  by_cases hemp : rq_isEmpty (info.queues_ready lower) = true
  · have hc := (rq_isEmpty_iff _ (hwf lower)).mp hemp
    refine ⟨info, by simp [hemp], hwf, ?_⟩
    intro p
    rw [hc]
  · have hc : rq_contents (info.queues_ready lower) ≠ [] :=
      fun h => hemp ((rq_isEmpty_iff _ (hwf lower)).mpr h)
    obtain ⟨x, q1, hpop, hwf1, hc1⟩ := rq_pop_contents _ (hwf lower) hc
    have hup : (set_queue info lower q1).queues_ready upper = info.queues_ready upper :=
      set_queue_other info lower upper q1 (Ne.symm hne)
    obtain ⟨q2, hpush, hwf2, hc2⟩ := rq_push_contents (info.queues_ready upper) x (hwf upper) hlen
    refine ⟨set_queue (set_queue info lower q1) upper q2, ?_, ?_, ?_⟩
    · simp [hemp, hpop, hup, hpush]
    · intro p
      by_cases hpu : p = upper
      · subst hpu; rw [set_queue_same]; exact hwf2
      · rw [set_queue_other _ _ _ _ hpu]
        by_cases hpl : p = lower
        · subst hpl; rw [set_queue_same]; exact hwf1
        · rw [set_queue_other _ _ _ _ hpl]; exact hwf p
    · intro p
      rw [hc1]
      dsimp only
      by_cases hpu : p = upper
      · subst hpu; rw [set_queue_same, if_pos rfl]; exact hc2
      · rw [set_queue_other _ _ _ _ hpu, if_neg hpu]
        by_cases hpl : p = lower
        · subst hpl; rw [set_queue_same, if_pos rfl]
        · rw [set_queue_other _ _ _ _ hpl, if_neg hpl]

/-- Step 2 of the priority strategy on the queue contents. -/
theorem requeue_current_contents (k : Kernel) (processes : Nat → process_t) (current : Nat)
    (info : scheduling_information_t) (hwf : ∀ p, rq_wf (info.queues_ready p))
    (hlen : ∀ p, (rq_contents (info.queues_ready p)).length < 8) :
    ∃ info1, requeue_current k processes current info = .ok info1 ∧
      (∀ p, rq_wf (info1.queues_ready p)) ∧
      (∀ p, rq_contents (info1.queues_ready p)
        = if (current ≠ 0 ∧ (processes current).state = OS_PS_READY)
              ∧ p = (os_getProcessSlot k current).priority
          then rq_contents (info.queues_ready p) ++ [current]
          else rq_contents (info.queues_ready p)) := by
  unfold requeue_current
  by_cases hc : current ≠ 0 ∧ (processes current).state = OS_PS_READY
  · obtain ⟨q1, hpush, hwf1, hc1⟩ := rq_push_contents
      (info.queues_ready (os_getProcessSlot k current).priority) current (hwf _) (hlen _)
    refine ⟨set_queue info (os_getProcessSlot k current).priority q1, ?_, ?_, ?_⟩
    · rw [if_pos hc, hpush]
    · intro p
      by_cases hp : p = (os_getProcessSlot k current).priority
      · subst hp; rw [set_queue_same]; exact hwf1
      · rw [set_queue_other _ _ _ _ hp]; exact hwf p
    · intro p
      by_cases hp : p = (os_getProcessSlot k current).priority
      · subst hp; rw [set_queue_same, if_pos ⟨hc, rfl⟩]; exact hc1
      · rw [set_queue_other _ _ _ _ hp, if_neg (fun h => hp h.2)]
  · refine ⟨info, by rw [if_neg hc], hwf, ?_⟩
    intro p
    rw [if_neg (fun h => hc h.1)]

/-- Function `terminal_writeProgString` below the depth 255: it returns, the
depth and the interrupt flag are as before, and the tick source is enabled
exactly at depth 0. -/
theorem terminal_writeProgString_ok (k : Kernel) (h : k.criticalSectionCount < 255) :
    terminal_writeProgString k
      = .ok { k with TIMSK2_OCIE2A := decide (k.criticalSectionCount = 0) } := by
  obtain ⟨pr, cur, st, si, pg, c, au, sr, oc⟩ := k
  have h1 : c < 255 := h
  have h2 : ¬ (c = 255) := by omega
  have h3 : (c + 1) % 256 = c + 1 := Nat.mod_eq_of_lt (by omega)
  have h4 : ¬ (c + 1 = 0) := by omega
  unfold terminal_writeProgString os_enterCriticalSection
  dsimp only
  rw [if_neg h2, h3]
  cases sr
  · dsimp only [Bool.false_eq_true, if_false]
    simp only [Bool.false_eq_true, if_false]
    unfold os_leaveCriticalSection
    dsimp only
    rw [if_neg h4]
    simp only [Bool.false_eq_true, if_false, Nat.add_sub_cancel]
    by_cases hc : c = 0
    · simp [hc]
    · simp [hc]
  · simp only [if_true]
    unfold os_leaveCriticalSection
    dsimp only
    rw [if_neg h4]
    simp only [if_true, Nat.add_sub_cancel]
    by_cases hc : c = 0
    · simp [hc]
    · simp [hc]

/-- Function `terminal_writeProgString` at the depth 255: the critical section
of `usb2_writeProgString` cannot be entered. -/
theorem terminal_writeProgString_overflow (k : Kernel) (h : k.criticalSectionCount = 255) :
    terminal_writeProgString k = .error .crit_section_overflow := by
  unfold terminal_writeProgString os_enterCriticalSection
  dsimp only
  rw [if_pos h]

/-- What a returning `terminal_writeProgString` leaves alone. -/
theorem terminal_writeProgString_frame (k k1 : Kernel)
    (h : terminal_writeProgString k = .ok k1) :
    k1.os_processes = k.os_processes ∧ k1.currentProc = k.currentProc ∧
    k1.currSchedStrat = k.currSchedStrat ∧ k1.schedulingInfo = k.schedulingInfo ∧
    k1.os_programs = k.os_programs ∧ k1.os_autostart = k.os_autostart ∧
    k1.SREG_I = k.SREG_I ∧
    (k.criticalSectionCount ≤ 255 → k1.criticalSectionCount = k.criticalSectionCount ∧
      k1.TIMSK2_OCIE2A = decide (k.criticalSectionCount = 0)) := by
  by_cases h8 : k.criticalSectionCount < 255
  · rw [terminal_writeProgString_ok k h8] at h
    have := Except.ok.inj h
    subst this
    exact ⟨rfl, rfl, rfl, rfl, rfl, rfl, rfl, fun _ => ⟨rfl, rfl⟩⟩
  · obtain ⟨pr, cur, st, si, pg, c, au, sr, oc⟩ := k
    have h9 : ¬ (c < 255) := h8
    unfold terminal_writeProgString os_enterCriticalSection at h
    dsimp only at h
    by_cases h2 : c = 255
    · rw [if_pos h2] at h
      cases h
    · rw [if_neg h2] at h
      dsimp only at h
      unfold os_leaveCriticalSection at h
      cases sr
      · simp only [Bool.false_eq_true, if_false] at h
        split at h
        · cases h
        · have := Except.ok.inj h
          subst this
          refine ⟨?_, ?_, ?_, ?_, ?_, ?_, ?_, fun h8 => absurd h8 (by dsimp only; omega)⟩ <;>
            (try split) <;> rfl
      · simp only [if_true] at h
        split at h
        · cases h
        · have := Except.ok.inj h
          subst this
          refine ⟨?_, ?_, ?_, ?_, ?_, ?_, ?_, fun h8 => absurd h8 (by dsimp only; omega)⟩ <;>
            (try split) <;> rfl

/-- The only fatal errors of `terminal_writeProgString` are those of its
critical section. -/
theorem terminal_writeProgString_error (k : Kernel) (e : Fault)
    (h : terminal_writeProgString k = .error e) :
    e = .crit_section_overflow ∨ e = .crit_section_underflow := by
  unfold terminal_writeProgString at h
  cases he : os_enterCriticalSection k with
  | error e1 =>
    rw [he] at h
    have h1 := Except.error.inj h
    subst h1
    unfold os_enterCriticalSection at he
    dsimp only at he
    split at he
    · exact Or.inl (Except.error.inj he).symm
    · cases he
  | ok k1 =>
    rw [he] at h
    dsimp only at h
    unfold os_leaveCriticalSection at h
    dsimp only at h
    split at h
    · exact Or.inr (Except.error.inj h).symm
    · cases h

/-- Step 3 of the priority strategy on the queue contents: with three empty
queues it is the terminal call followed by the result 0, otherwise the head
of the first non-empty queue leaves its queue and nothing else changes. -/
theorem select_head_contents (k : Kernel)
    (hwf : ∀ p, rq_wf (k.schedulingInfo.queues_ready p)) :
    ((rq_contents (k.schedulingInfo.queues_ready OS_PRIO_HIGH) = [] ∧
        rq_contents (k.schedulingInfo.queues_ready OS_PRIO_NORMAL) = [] ∧
        rq_contents (k.schedulingInfo.queues_ready OS_PRIO_LOW) = []) →
      select_head k = (terminal_writeProgString k).map (fun k1 => ((0 : Nat), k1))) ∧
    (¬ (rq_contents (k.schedulingInfo.queues_ready OS_PRIO_HIGH) = [] ∧
        rq_contents (k.schedulingInfo.queues_ready OS_PRIO_NORMAL) = [] ∧
        rq_contents (k.schedulingInfo.queues_ready OS_PRIO_LOW) = []) →
      ∃ pid info1, select_head k = .ok (pid, { k with schedulingInfo := info1 }) ∧
        (∀ p, rq_wf (info1.queues_ready p)) ∧
        (pid, rq_contents (info1.queues_ready OS_PRIO_HIGH),
              rq_contents (info1.queues_ready OS_PRIO_NORMAL),
              rq_contents (info1.queues_ready OS_PRIO_LOW))
          = match rq_contents (k.schedulingInfo.queues_ready OS_PRIO_HIGH),
                  rq_contents (k.schedulingInfo.queues_ready OS_PRIO_NORMAL),
                  rq_contents (k.schedulingInfo.queues_ready OS_PRIO_LOW) with
            | x :: H, N, L => (x, H, N, L)
            | [], x :: N, L => (x, [], N, L)
            | [], [], x :: L => (x, [], [], L)
            | [], [], [] => (0, [], [], [])) := by
  generalize hinfo : k.schedulingInfo = info at hwf ⊢
  have sel : ∀ p, rq_contents (info.queues_ready p) ≠ [] →
      ∃ x q1, rq_pop (info.queues_ready p) = .ok (x, q1) ∧
        (∀ p1, rq_wf ((set_queue info p q1).queues_ready p1)) ∧
        rq_contents (info.queues_ready p) = x :: rq_contents ((set_queue info p q1).queues_ready p) ∧
        (∀ p1, p1 ≠ p → (set_queue info p q1).queues_ready p1 = info.queues_ready p1) := by
    intro p hne
    obtain ⟨x, q1, hpop, hwf1, hc1⟩ := rq_pop_contents _ (hwf p) hne
    refine ⟨x, q1, hpop, ?_, ?_, ?_⟩
    · intro p1
      by_cases hp : p1 = p
      · subst hp; rw [set_queue_same]; exact hwf1
      · rw [set_queue_other _ _ _ _ hp]; exact hwf p1
    · rw [set_queue_same]; exact hc1
    · intro p1 hp; exact set_queue_other _ _ _ _ hp
  unfold select_head
  rw [hinfo]
  by_cases hH : rq_isEmpty (info.queues_ready OS_PRIO_HIGH) = true
  · have cH := (rq_isEmpty_iff _ (hwf _)).mp hH
    by_cases hN : rq_isEmpty (info.queues_ready OS_PRIO_NORMAL) = true
    · have cN := (rq_isEmpty_iff _ (hwf _)).mp hN
      by_cases hL : rq_isEmpty (info.queues_ready OS_PRIO_LOW) = true
      · have cL := (rq_isEmpty_iff _ (hwf _)).mp hL
        refine ⟨fun _ => ?_, fun h => absurd ⟨cH, cN, cL⟩ h⟩
        simp only [hH, hN, hL, Bool.not_true, Bool.false_eq_true, if_false]
        cases terminal_writeProgString k <;> rfl
      · have cL : rq_contents (info.queues_ready OS_PRIO_LOW) ≠ [] :=
          fun h => hL ((rq_isEmpty_iff _ (hwf _)).mpr h)
        obtain ⟨x, q1, hpop, hwf1, hc1, hoth⟩ := sel OS_PRIO_LOW cL
        refine ⟨fun h => absurd h.2.2 cL, fun _ => ⟨x, _, by simp [hH, hN, hL, hpop], hwf1, ?_⟩⟩
        rw [hoth OS_PRIO_HIGH (by decide), hoth OS_PRIO_NORMAL (by decide), cH, cN, hc1]
    · have cN : rq_contents (info.queues_ready OS_PRIO_NORMAL) ≠ [] :=
        fun h => hN ((rq_isEmpty_iff _ (hwf _)).mpr h)
      obtain ⟨x, q1, hpop, hwf1, hc1, hoth⟩ := sel OS_PRIO_NORMAL cN
      refine ⟨fun h => absurd h.2.1 cN, fun _ => ⟨x, _, by simp [hH, hN, hpop], hwf1, ?_⟩⟩
      rw [hoth OS_PRIO_HIGH (by decide), hoth OS_PRIO_LOW (by decide), cH, hc1]
  · have cH : rq_contents (info.queues_ready OS_PRIO_HIGH) ≠ [] :=
      fun h => hH ((rq_isEmpty_iff _ (hwf _)).mpr h)
    obtain ⟨x, q1, hpop, hwf1, hc1, hoth⟩ := sel OS_PRIO_HIGH cH
    refine ⟨fun h => absurd h.1 cH, fun _ => ⟨x, _, by simp [hH, hpop], hwf1, ?_⟩⟩
    rw [hoth OS_PRIO_NORMAL (by decide), hoth OS_PRIO_LOW (by decide), hc1]

/-- One call of `os_scheduler_DynamicPriorityRoundRobin` on well-formed
queues that hold at most 7 pids in total. With three empty queues and nothing
to requeue it is the terminal call followed by the result 0; otherwise it
returns without a fatal error, only `schedulingInfo` changes, and the chosen
pid and the new queue contents are those of `dprr_abs`. -/
theorem dprr_contents (k : Kernel) (processes : Nat → process_t) (current : Nat)
    (hwf : ∀ p, rq_wf (k.schedulingInfo.queues_ready p))
    (hlen : (rq_contents (k.schedulingInfo.queues_ready OS_PRIO_HIGH)).length
          + (rq_contents (k.schedulingInfo.queues_ready OS_PRIO_NORMAL)).length
          + (rq_contents (k.schedulingInfo.queues_ready OS_PRIO_LOW)).length ≤ 7) :
    (((∀ p, rq_contents (k.schedulingInfo.queues_ready p) = []) ∧
        ¬ (current ≠ 0 ∧ (processes current).state = OS_PS_READY)) →
      os_scheduler_DynamicPriorityRoundRobin k processes current
        = (terminal_writeProgString k).map (fun k1 => ((0 : Nat), k1))) ∧
    (¬ ((∀ p, rq_contents (k.schedulingInfo.queues_ready p) = []) ∧
        ¬ (current ≠ 0 ∧ (processes current).state = OS_PS_READY)) →
      ∃ pid info1, os_scheduler_DynamicPriorityRoundRobin k processes current
          = .ok (pid, { k with schedulingInfo := info1 }) ∧
        (∀ p, rq_wf (info1.queues_ready p)) ∧
        (pid, rq_contents (info1.queues_ready OS_PRIO_HIGH),
              rq_contents (info1.queues_ready OS_PRIO_NORMAL),
              rq_contents (info1.queues_ready OS_PRIO_LOW))
          = dprr_abs (rq_contents (k.schedulingInfo.queues_ready OS_PRIO_HIGH))
              (rq_contents (k.schedulingInfo.queues_ready OS_PRIO_NORMAL))
              (rq_contents (k.schedulingInfo.queues_ready OS_PRIO_LOW))
              (if current ≠ 0 ∧ (processes current).state = OS_PS_READY
                then some (os_getProcessSlot k current).priority else none) current) := by
  constructor
  · rintro ⟨hall, hreq⟩
    have eH := (rq_isEmpty_iff _ (hwf OS_PRIO_HIGH)).mpr (hall _)
    have eN := (rq_isEmpty_iff _ (hwf OS_PRIO_NORMAL)).mpr (hall _)
    have eL := (rq_isEmpty_iff _ (hwf OS_PRIO_LOW)).mpr (hall _)
    have p1 : promote k.schedulingInfo OS_PRIO_NORMAL OS_PRIO_HIGH = .ok k.schedulingInfo := by
      unfold promote
      simp [eN]
    have p2 : promote k.schedulingInfo OS_PRIO_LOW OS_PRIO_NORMAL = .ok k.schedulingInfo := by
      unfold promote
      simp [eL]
    have p3 : requeue_current k processes current k.schedulingInfo = .ok k.schedulingInfo := by
      unfold requeue_current
      rw [if_neg hreq]
    have hk : ({ k with schedulingInfo := k.schedulingInfo } : Kernel) = k := rfl
    unfold os_scheduler_DynamicPriorityRoundRobin
    rw [p1]
    dsimp only
    rw [p2]
    dsimp only
    rw [p3]
    dsimp only
    rw [hk]
    exact (select_head_contents k hwf).1 ⟨hall _, hall _, hall _⟩
  · intro hne
    obtain ⟨i1, h1, w1, c1⟩ := promote_contents k.schedulingInfo OS_PRIO_NORMAL OS_PRIO_HIGH
      (by decide) hwf (by omega)
    have c1H := c1 OS_PRIO_HIGH
    have c1N := c1 OS_PRIO_NORMAL
    have c1L := c1 OS_PRIO_LOW
    have hall : (∀ p, rq_contents (k.schedulingInfo.queues_ready p) = []) ↔
        (rq_contents (k.schedulingInfo.queues_ready OS_PRIO_HIGH) = [] ∧
         rq_contents (k.schedulingInfo.queues_ready OS_PRIO_NORMAL) = [] ∧
         rq_contents (k.schedulingInfo.queues_ready OS_PRIO_LOW) = []) :=
      ⟨fun h => ⟨h _, h _, h _⟩, fun h p => by cases p; exact h.1; exact h.2.1; exact h.2.2⟩
    rw [hall] at hne
    generalize rq_contents (k.schedulingInfo.queues_ready OS_PRIO_HIGH) = H at *
    generalize rq_contents (k.schedulingInfo.queues_ready OS_PRIO_NORMAL) = N at *
    generalize rq_contents (k.schedulingInfo.queues_ready OS_PRIO_LOW) = L at *
    have e1H : rq_contents (i1.queues_ready OS_PRIO_HIGH) = append_head H N := by
      rw [c1H]; cases N <;> simp [append_head]
    have e1N : rq_contents (i1.queues_ready OS_PRIO_NORMAL) = N.tail := by
      rw [c1N]; cases N <;> simp
    have e1L : rq_contents (i1.queues_ready OS_PRIO_LOW) = L := by
      rw [c1L]; cases N <;> simp
    have l1N : (rq_contents (i1.queues_ready OS_PRIO_NORMAL)).length < 8 := by
      rw [e1N, List.length_tail]; omega
    obtain ⟨i2, h2, w2, c2⟩ := promote_contents i1 OS_PRIO_LOW OS_PRIO_NORMAL (by decide) w1 l1N
    have e2H : rq_contents (i2.queues_ready OS_PRIO_HIGH) = append_head H N := by
      rw [c2 OS_PRIO_HIGH, e1L, e1H]; cases L <;> simp
    have e2N : rq_contents (i2.queues_ready OS_PRIO_NORMAL) = append_head N.tail L := by
      rw [c2 OS_PRIO_NORMAL, e1L, e1N]; cases L <;> simp [append_head]
    have e2L : rq_contents (i2.queues_ready OS_PRIO_LOW) = L.tail := by
      rw [c2 OS_PRIO_LOW, e1L]; cases L <;> simp
    have l2 : ∀ p, (rq_contents (i2.queues_ready p)).length < 8 := by
      intro p
      cases p
      · rw [e2H]; cases N <;> simp [append_head] at hlen ⊢ <;> omega
      · rw [e2N]; cases L <;> cases N <;> simp [append_head] at hlen ⊢ <;> omega
      · rw [e2L, List.length_tail]; omega
    obtain ⟨i3, h3, w3, c3⟩ := requeue_current_contents k processes current i2 w2 l2
    have hd : os_scheduler_DynamicPriorityRoundRobin k processes current
        = select_head { k with schedulingInfo := i3 } := by
      simp [os_scheduler_DynamicPriorityRoundRobin, h1, h2, h3]
    have s2 := (select_head_contents { k with schedulingInfo := i3 } w3).2
    have e3 : ∀ p, rq_contents
        (({ k with schedulingInfo := i3 } : Kernel).schedulingInfo.queues_ready p)
        = rq_contents (i3.queues_ready p) := fun _ => rfl
    rw [e3, e3, e3, c3 OS_PRIO_HIGH, c3 OS_PRIO_NORMAL, c3 OS_PRIO_LOW, e2H, e2N, e2L] at s2
    have hnonempty : ¬ ((if (current ≠ 0 ∧ (processes current).state = OS_PS_READY)
            ∧ OS_PRIO_HIGH = (os_getProcessSlot k current).priority
          then append_head H N ++ [current] else append_head H N) = [] ∧
        (if (current ≠ 0 ∧ (processes current).state = OS_PS_READY)
            ∧ OS_PRIO_NORMAL = (os_getProcessSlot k current).priority
          then append_head N.tail L ++ [current] else append_head N.tail L) = [] ∧
        (if (current ≠ 0 ∧ (processes current).state = OS_PS_READY)
            ∧ OS_PRIO_LOW = (os_getProcessSlot k current).priority
          then L.tail ++ [current] else L.tail) = []) := by
      intro hemp
      apply hne
      by_cases hc : current ≠ 0 ∧ (processes current).state = OS_PS_READY
      · exfalso
        cases hp : (os_getProcessSlot k current).priority <;> simp [hc, hp] at hemp
      · refine ⟨?_, hc⟩
        simp only [hc, false_and, if_false] at hemp
        obtain ⟨a1, a2, a3⟩ := hemp
        cases H <;> cases N <;> cases L <;> simp [append_head] at a1 a2 a3 ⊢
    obtain ⟨pid, i4, h4, w4, c4⟩ := s2 hnonempty
    refine ⟨pid, i4, by rw [hd, h4], w4, ?_⟩
    rw [c4]
    unfold dprr_abs
    by_cases hc : current ≠ 0 ∧ (processes current).state = OS_PS_READY
    · cases hp : (os_getProcessSlot k current).priority <;> simp [hc, hp]
    · simp [hc]

/-- A returning call of `os_scheduler_DynamicPriorityRoundRobin` on well-formed
queues that hold at most 7 pids in total: the queues stay well formed and the
chosen pid and the new queue contents are those of `dprr_abs`. -/
theorem dprr_contents_ok (k kS : Kernel) (processes : Nat → process_t) (current pid : Nat)
    (hwf : ∀ p, rq_wf (k.schedulingInfo.queues_ready p))
    (hlen : (rq_contents (k.schedulingInfo.queues_ready OS_PRIO_HIGH)).length
          + (rq_contents (k.schedulingInfo.queues_ready OS_PRIO_NORMAL)).length
          + (rq_contents (k.schedulingInfo.queues_ready OS_PRIO_LOW)).length ≤ 7)
    (h : os_scheduler_DynamicPriorityRoundRobin k processes current = .ok (pid, kS)) :
    (∀ p, rq_wf (kS.schedulingInfo.queues_ready p)) ∧
    (pid, rq_contents (kS.schedulingInfo.queues_ready OS_PRIO_HIGH),
          rq_contents (kS.schedulingInfo.queues_ready OS_PRIO_NORMAL),
          rq_contents (kS.schedulingInfo.queues_ready OS_PRIO_LOW))
      = dprr_abs (rq_contents (k.schedulingInfo.queues_ready OS_PRIO_HIGH))
          (rq_contents (k.schedulingInfo.queues_ready OS_PRIO_NORMAL))
          (rq_contents (k.schedulingInfo.queues_ready OS_PRIO_LOW))
          (if current ≠ 0 ∧ (processes current).state = OS_PS_READY
            then some (os_getProcessSlot k current).priority else none) current := by
  obtain ⟨d1, d2⟩ := dprr_contents k processes current hwf hlen
  by_cases hidle : (∀ p, rq_contents (k.schedulingInfo.queues_ready p) = []) ∧
      ¬ (current ≠ 0 ∧ (processes current).state = OS_PS_READY)
  · rw [d1 hidle] at h
    cases ht : terminal_writeProgString k with
    | error e => rw [ht] at h; cases h
    | ok k1 =>
      rw [ht] at h
      have hp := Prod.mk.inj (Except.ok.inj h)
      have hpid : pid = 0 := hp.1.symm
      have hk : kS = k1 := hp.2.symm
      subst hpid hk
      have hinfo := (terminal_writeProgString_frame k kS ht).2.2.2.1
      rw [hinfo, hidle.1 OS_PRIO_HIGH, hidle.1 OS_PRIO_NORMAL, hidle.1 OS_PRIO_LOW,
        if_neg hidle.2]
      exact ⟨hwf, rfl⟩
  · obtain ⟨pid1, info1, h1, hw1, hc1⟩ := d2 hidle
    rw [h1] at h
    have hp := Prod.mk.inj (Except.ok.inj h)
    have hpid : pid1 = pid := hp.1
    have hk : kS = { k with schedulingInfo := info1 } := hp.2.symm
    subst hpid hk
    exact ⟨hw1, hc1⟩

/-- On well-formed queues that hold at most 7 pids in total the call of
`os_scheduler_DynamicPriorityRoundRobin` returns, unless the queues are empty,
nothing is requeued and the critical section of the terminal call cannot be
entered at the depth 255. -/
theorem dprr_contents_returns (k : Kernel) (processes : Nat → process_t) (current : Nat)
    (hwf : ∀ p, rq_wf (k.schedulingInfo.queues_ready p))
    (hlen : (rq_contents (k.schedulingInfo.queues_ready OS_PRIO_HIGH)).length
          + (rq_contents (k.schedulingInfo.queues_ready OS_PRIO_NORMAL)).length
          + (rq_contents (k.schedulingInfo.queues_ready OS_PRIO_LOW)).length ≤ 7)
    (h : k.criticalSectionCount < 255 ∨
      ¬ ((∀ p, rq_contents (k.schedulingInfo.queues_ready p) = []) ∧
        ¬ (current ≠ 0 ∧ (processes current).state = OS_PS_READY))) :
    ∃ pid kS, os_scheduler_DynamicPriorityRoundRobin k processes current = .ok (pid, kS) := by
  obtain ⟨d1, d2⟩ := dprr_contents k processes current hwf hlen
  by_cases hidle : (∀ p, rq_contents (k.schedulingInfo.queues_ready p) = []) ∧
      ¬ (current ≠ 0 ∧ (processes current).state = OS_PS_READY)
  · rcases h with h | h
    · rw [d1 hidle, terminal_writeProgString_ok k h]
      exact ⟨_, _, rfl⟩
    · exact absurd hidle h
  · obtain ⟨pid1, info1, h1, _, _⟩ := d2 hidle
    exact ⟨_, _, h1⟩

theorem write_same {α : Type} (a : Nat → α) (i : Nat) (v : α) : write a i v i = v := by
  simp [write]

theorem write_other {α : Type} (a : Nat → α) (i j : Nat) (v : α) (h : j ≠ i) :
    write a i v j = a j := by
  simp [write, h]

/-- Steps 4 to 6 of the tick in the scheduling test under the priority
strategy: the queues and the running process follow `dprr_abs`. -/
theorem os_selectNext_tt_dprr (k : Kernel) (cur : Nat) (H N L : List Nat)
    (hinv : tt_dprr_inv k cur H N L) (hc1 : 1 ≤ cur) (hc3 : cur ≤ 3)
    (hlen : H.length + N.length + L.length ≤ 7)
    (hn1 : 1 ≤ (dprr_abs H N L (some (tt_priority cur)) cur).1)
    (hn3 : (dprr_abs H N L (some (tt_priority cur)) cur).1 ≤ 3) :
    ∃ k1, os_selectNext k = .ok k1 ∧
      tt_dprr_inv k1 (dprr_abs H N L (some (tt_priority cur)) cur).1
        (dprr_abs H N L (some (tt_priority cur)) cur).2.1
        (dprr_abs H N L (some (tt_priority cur)) cur).2.2.1
        (dprr_abs H N L (some (tt_priority cur)) cur).2.2.2 := by
  obtain ⟨hcur, hstrat, hwf, hH, hN, hL, hproc⟩ := hinv
  have hrun : (k.os_processes k.currentProc).state = OS_PS_RUNNING := by
    rw [hcur]; have := (hproc cur hc1 hc3).2; simpa using this
  -- the kernel after step 4
  obtain ⟨ka, hka⟩ : ∃ ka : Kernel, ka = { k with os_processes := (write k.os_processes
      k.currentProc { (k.os_processes k.currentProc) with state := OS_PS_READY }) } := ⟨_, rfl⟩
  have hka_cur : ka.currentProc = cur := by rw [hka]; exact hcur
  have hka_info : ka.schedulingInfo = k.schedulingInfo := by rw [hka]
  have hka_strat : ka.currSchedStrat = OS_SS_DYNAMIC_PRIORITY_ROUND_ROBIN := by
    rw [hka]; exact hstrat
  have hka_proc : ∀ pid, 1 ≤ pid → pid ≤ 3 →
      (ka.os_processes pid).priority = tt_priority pid ∧
      (ka.os_processes pid).state = OS_PS_READY := by
    intro pid h1 h3
    obtain ⟨hp, hs⟩ := hproc pid h1 h3
    rw [hka, hcur]
    dsimp only
    by_cases hpc : pid = cur
    · subst hpc
      rw [write_same]
      exact ⟨hp, rfl⟩
    · rw [write_other _ _ _ _ hpc]
      exact ⟨hp, by simpa [hpc] using hs⟩
  have hwfa : ∀ p, rq_wf (ka.schedulingInfo.queues_ready p) := by rw [hka_info]; exact hwf
  have hlena : (rq_contents (ka.schedulingInfo.queues_ready OS_PRIO_HIGH)).length
      + (rq_contents (ka.schedulingInfo.queues_ready OS_PRIO_NORMAL)).length
      + (rq_contents (ka.schedulingInfo.queues_ready OS_PRIO_LOW)).length ≤ 7 := by
    rw [hka_info, hH, hN, hL]; exact hlen
  have hreq0 : ka.currentProc ≠ 0 ∧ (ka.os_processes ka.currentProc).state = OS_PS_READY := by
    rw [hka_cur]
    exact ⟨by omega, (hka_proc cur hc1 hc3).2⟩
  obtain ⟨pid, info1, hd, hwf1, hc⟩ :=
    (dprr_contents ka ka.os_processes ka.currentProc hwfa hlena).2 (fun h => h.2 hreq0)
  have hreq : (if ka.currentProc ≠ 0 ∧ (ka.os_processes ka.currentProc).state = OS_PS_READY
      then some (os_getProcessSlot ka ka.currentProc).priority else none)
      = some (tt_priority cur) := by
    rw [hka_cur]
    have hne : cur ≠ 0 := by omega
    rw [if_pos ⟨hne, (hka_proc cur hc1 hc3).2⟩]
    unfold os_getProcessSlot
    rw [(hka_proc cur hc1 hc3).1]
  rw [hreq, hka_info, hH, hN, hL, hka_cur] at hc
  have hpid : pid = (dprr_abs H N L (some (tt_priority cur)) cur).1 := by rw [← hc]
  have hcH : rq_contents (info1.queues_ready OS_PRIO_HIGH)
      = (dprr_abs H N L (some (tt_priority cur)) cur).2.1 := by rw [← hc]
  have hcN : rq_contents (info1.queues_ready OS_PRIO_NORMAL)
      = (dprr_abs H N L (some (tt_priority cur)) cur).2.2.1 := by rw [← hc]
  have hcL : rq_contents (info1.queues_ready OS_PRIO_LOW)
      = (dprr_abs H N L (some (tt_priority cur)) cur).2.2.2 := by rw [← hc]
  have hcall : os_callStrategy ka = .ok (pid, { ka with schedulingInfo := info1 }) := by
    unfold os_callStrategy
    rw [if_pos hka_strat, hd]
  have hnot255 : ¬ (pid = INVALID_PROCESS) := by
    rw [hpid]; unfold INVALID_PROCESS; omega
  refine ⟨{ ka with
      schedulingInfo := info1
      currentProc := pid
      os_processes := (write ka.os_processes pid
        { (ka.os_processes pid) with state := OS_PS_RUNNING }) }, ?_, ?_⟩
  · subst hka
    unfold os_selectNext
    simp only [if_pos hrun]
    rw [hcall]
    simp only [if_neg hnot255]
  · rw [← hpid]
    refine ⟨rfl, hka_strat, hwf1, hcH, hcN, hcL, ?_⟩
    intro q h1 h3
    obtain ⟨hp, hs⟩ := hka_proc q h1 h3
    show (write ka.os_processes pid _ q).priority = _ ∧ (write ka.os_processes pid _ q).state = _
    by_cases hqp : q = pid
    · subst hqp
      rw [write_same, if_pos rfl]
      exact ⟨hp, rfl⟩
    · rw [write_other _ _ _ _ hqp, if_neg hqp]
      exact ⟨hp, hs⟩

/-- The test invariant does not depend on the saved stack pointers and
checksums. -/
theorem tt_dprr_inv_congr (k k1 : Kernel) (cur : Nat) (H N L : List Nat)
    (hinv : tt_dprr_inv k cur H N L) (hcur : k1.currentProc = k.currentProc)
    (hstrat : k1.currSchedStrat = k.currSchedStrat)
    (hinfo : k1.schedulingInfo = k.schedulingInfo)
    (hproc : ∀ pid, (k1.os_processes pid).priority = (k.os_processes pid).priority ∧
      (k1.os_processes pid).state = (k.os_processes pid).state) :
    tt_dprr_inv k1 cur H N L := by
  obtain ⟨h1, h2, h3, h4, h5, h6, h7⟩ := hinv
  refine ⟨by rw [hcur]; exact h1, by rw [hstrat]; exact h2, by rw [hinfo]; exact h3,
    by rw [hinfo]; exact h4, by rw [hinfo]; exact h5, by rw [hinfo]; exact h6, ?_⟩
  intro pid hp1 hp3
  rw [(hproc pid).1, (hproc pid).2]
  exact h7 pid hp1 hp3

/-- One tick in the scheduling test under the priority strategy: either a
stack check stops it, or the queues and the running process follow
`dprr_abs`. -/
theorem TIMER2_COMPA_vect_tt_dprr (SP : Nat) (mem : Nat → Nat) (k : Kernel) (cur : Nat)
    (H N L : List Nat) (hinv : tt_dprr_inv k cur H N L) (hc1 : 1 ≤ cur) (hc3 : cur ≤ 3)
    (hlen : H.length + N.length + L.length ≤ 7)
    (hn1 : 1 ≤ (dprr_abs H N L (some (tt_priority cur)) cur).1)
    (hn3 : (dprr_abs H N L (some (tt_priority cur)) cur).1 ≤ 3) :
    TIMER2_COMPA_vect SP mem k = .error .stack_overflow ∨
    TIMER2_COMPA_vect SP mem k = .error .stack_corruption ∨
    ∃ k1, TIMER2_COMPA_vect SP mem k = .ok k1 ∧
      tt_dprr_inv k1 (dprr_abs H N L (some (tt_priority cur)) cur).1
        (dprr_abs H N L (some (tt_priority cur)) cur).2.1
        (dprr_abs H N L (some (tt_priority cur)) cur).2.2.1
        (dprr_abs H N L (some (tt_priority cur)) cur).2.2.2 := by
  unfold TIMER2_COMPA_vect
  dsimp only
  split
  · left; rfl
  · have hinv2 : tt_dprr_inv
        { k with os_processes := (write (write k.os_processes k.currentProc
            { (k.os_processes k.currentProc) with sp := SP % 65536 }) k.currentProc
            { (write k.os_processes k.currentProc
                { (k.os_processes k.currentProc) with sp := SP % 65536 } k.currentProc) with
              checksum := os_getStackChecksum mem
                { k with os_processes := (write k.os_processes k.currentProc
                    { (k.os_processes k.currentProc) with sp := SP % 65536 }) }
                k.currentProc }) } cur H N L := by
      refine tt_dprr_inv_congr k _ cur H N L hinv rfl rfl rfl ?_
      intro pid
      by_cases hp : pid = k.currentProc
      · subst hp; simp [write]
      · simp [write, hp]
    obtain ⟨k3, hsel, hinv3⟩ := os_selectNext_tt_dprr _ cur H N L hinv2 hc1 hc3 hlen hn1 hn3
    rw [hsel]
    dsimp only
    split
    · right; left; rfl
    · split
      · left; rfl
      · right; right; exact ⟨k3, rfl, hinv3⟩

/-- A capture run of the scheduling test under the priority strategy follows
the capture computed on the queue contents. -/
theorem capture_run_tt_dprr (hw : Nat → Nat × (Nat → Nat)) :
    ∀ (count i : Nat) (k : Kernel) (cur : Nat) (H N L captured : List Nat),
      tt_dprr_inv k cur H N L → tt_dprr_trace count cur H N L = some captured →
      run_conforms (capture_run hw count i k) captured := by
  intro count
  induction count with
  | zero =>
    intro i k cur H N L captured _ htr
    simp only [tt_dprr_trace, Option.some.injEq] at htr
    subst htr
    simp [capture_run, run_conforms]
  | succ n ih =>
    intro i k cur H N L captured hinv htr
    unfold tt_dprr_trace at htr
    split_ifs at htr with hcond
    obtain ⟨hc1, hc3, hlen, hn1, hn3⟩ := hcond
    cases htail : tt_dprr_trace n (dprr_abs H N L (some (tt_priority cur)) cur).1
        (dprr_abs H N L (some (tt_priority cur)) cur).2.1
        (dprr_abs H N L (some (tt_priority cur)) cur).2.2.1
        (dprr_abs H N L (some (tt_priority cur)) cur).2.2.2 with
    | none => rw [htail] at htr; simp at htr
    | some c1 =>
      rw [htail] at htr
      simp only [Option.some.injEq] at htr
      subst htr
      have hcur : k.currentProc = cur := hinv.1
      unfold capture_run
      rcases TIMER2_COMPA_vect_tt_dprr (hw i).1 (hw i).2 k cur H N L hinv hc1 hc3 hlen hn1 hn3
        with he | he | ⟨k1, hk1, hinv1⟩
      · rw [he]; simp [run_conforms]
      · rw [he]; simp [run_conforms]
      · rw [hk1]
        dsimp only
        have hrec := ih (i + 1) k1 _ _ _ _ c1 hinv1 htail
        cases hres : capture_run hw n (i + 1) k1 with
        | error e =>
          rw [hres] at hrec
          simpa [run_conforms] using hrec
        | ok v =>
          obtain ⟨r, k2⟩ := v
          rw [hres] at hrec
          simp only [run_conforms] at hrec ⊢
          rw [hrec, hcur]

theorem rq_clear_wf (q : ready_queue_t) : rq_wf (rq_clear q) := by
  simp [rq_wf, rq_clear, READY_QUEUE_SIZE, READY_QUEUE_CAPACITY, MAX_NUMBER_OF_PROCESSES]

theorem rq_clear_contents (q : ready_queue_t) : rq_contents (rq_clear q) = [] := by
  simp [rq_contents, rq_clear, READY_QUEUE_SIZE, rq_walk]

/-- The queues `os_setSchedulingStrategy` builds for the scheduling test:
High empty, Normal holding 2, Low holding 3. -/
theorem os_setSchedulingStrategy_tt (k0 : Kernel) (hcur : k0.currentProc = 1)
    (h1 : (k0.os_processes 1).state = OS_PS_RUNNING ∧
      (k0.os_processes 1).priority = OS_PRIO_HIGH)
    (h2 : (k0.os_processes 2).state = OS_PS_READY ∧
      (k0.os_processes 2).priority = OS_PRIO_NORMAL)
    (h3 : (k0.os_processes 3).state = OS_PS_READY ∧
      (k0.os_processes 3).priority = OS_PRIO_LOW)
    (h4 : ∀ i, i < 8 → 4 ≤ i → (k0.os_processes i).state = OS_PS_UNUSED) :
    ∃ k, os_setSchedulingStrategy OS_SS_DYNAMIC_PRIORITY_ROUND_ROBIN k0 = .ok k ∧
      tt_dprr_inv k 1 [] [2] [3] := by
  have s4 := h4 4 (by omega) (by omega)
  have s5 := h4 5 (by omega) (by omega)
  have s6 := h4 6 (by omega) (by omega)
  have s7 := h4 7 (by omega) (by omega)
  have hr : List.range' 1 (MAX_NUMBER_OF_PROCESSES - 1) = [1, 2, 3, 4, 5, 6, 7] := by decide
  obtain ⟨qN, hpN, hwfN, hcN⟩ := rq_push_contents
    (rq_clear (k0.schedulingInfo.queues_ready OS_PRIO_NORMAL)) 2 (rq_clear_wf _)
    (by rw [rq_clear_contents]; simp)
  obtain ⟨qL, hpL, hwfL, hcL⟩ := rq_push_contents
    (rq_clear (k0.schedulingInfo.queues_ready OS_PRIO_LOW)) 3 (rq_clear_wf _)
    (by rw [rq_clear_contents]; simp)
  rw [rq_clear_contents, List.nil_append] at hcN hcL
  refine ⟨{ k0 with
      schedulingInfo := set_queue (set_queue
        { queues_ready := fun p => rq_clear (k0.schedulingInfo.queues_ready p) }
        OS_PRIO_NORMAL qN) OS_PRIO_LOW qL
      currSchedStrat := OS_SS_DYNAMIC_PRIORITY_ROUND_ROBIN }, ?_, ?_⟩
  · unfold os_setSchedulingStrategy os_resetSchedulingInformation
    simp only [if_true, hr]
    have hL0 : (set_queue { queues_ready := fun p => rq_clear (k0.schedulingInfo.queues_ready p) }
        OS_PRIO_NORMAL qN).queues_ready OS_PRIO_LOW
        = rq_clear (k0.schedulingInfo.queues_ready OS_PRIO_LOW) :=
      set_queue_other _ _ _ _ (by decide)
    simp only [os_resetSchedulingInformation_loop, os_getProcessSlot, h1.1, h2.1, h2.2, h3.1,
      h3.2, s4, s5, s6, s7, if_true, hpN, hL0, hpL, reduceCtorEq, if_false]
  · refine ⟨hcur, rfl, ?_, ?_, ?_, ?_, ?_⟩
    · intro p
      cases p
      · rw [set_queue_other _ _ _ _ (by decide), set_queue_other _ _ _ _ (by decide)]
        exact rq_clear_wf _
      · rw [set_queue_other _ _ _ _ (by decide), set_queue_same]; exact hwfN
      · rw [set_queue_same]; exact hwfL
    · show rq_contents ((set_queue _ OS_PRIO_LOW qL).queues_ready OS_PRIO_HIGH) = []
      rw [set_queue_other _ _ _ _ (by decide), set_queue_other _ _ _ _ (by decide)]
      exact rq_clear_contents _
    · show rq_contents ((set_queue _ OS_PRIO_LOW qL).queues_ready OS_PRIO_NORMAL) = [2]
      rw [set_queue_other _ _ _ _ (by decide), set_queue_same]; exact hcN
    · show rq_contents ((set_queue _ OS_PRIO_LOW qL).queues_ready OS_PRIO_LOW) = [3]
      rw [set_queue_same]; exact hcL
    · intro pid hp1 hp3
      show (k0.os_processes pid).priority = _ ∧ (k0.os_processes pid).state = _
      have hcases : pid = 1 ∨ pid = 2 ∨ pid = 3 := by omega
      rcases hcases with rfl | rfl | rfl
      · exact ⟨h1.2, h1.1⟩
      · exact ⟨h2.2, h2.1⟩
      · exact ⟨h3.2, h3.1⟩

/-- C1: in the scheduling test (process 1 High and running, 2 Normal and 3
Low Ready, slots 4 to 7 Unused), starting from the queues built by
`os_setSchedulingStrategy(OS_SS_DYNAMIC_PRIORITY_ROUND_ROBIN)`, 32 rounds of
recording the running pid and executing one tick record
1,2,1,3,2,1,3,1,2,1,3,2,1,3,1,2,1,3,2,1,3,1,2,1,3,2,1,3,1,2,1,3; the only
other outcome is that a stack check of a tick stops the run. -/
theorem C1_dprr_aging (k0 : Kernel) (hw : Nat → Nat × (Nat → Nat))
    (hcur : k0.currentProc = 1)
    (h1 : (k0.os_processes 1).state = OS_PS_RUNNING ∧
      (k0.os_processes 1).priority = OS_PRIO_HIGH)
    (h2 : (k0.os_processes 2).state = OS_PS_READY ∧
      (k0.os_processes 2).priority = OS_PRIO_NORMAL)
    (h3 : (k0.os_processes 3).state = OS_PS_READY ∧
      (k0.os_processes 3).priority = OS_PRIO_LOW)
    (h4 : ∀ i, i < 8 → 4 ≤ i → (k0.os_processes i).state = OS_PS_UNUSED) :
    ∃ k, os_setSchedulingStrategy OS_SS_DYNAMIC_PRIORITY_ROUND_ROBIN k0 = .ok k ∧
      run_conforms (capture_run hw 32 0 k) scheduling_dprr := by
  obtain ⟨k, hk, hinv⟩ := os_setSchedulingStrategy_tt k0 hcur h1 h2 h3 h4
  exact ⟨k, hk, capture_run_tt_dprr hw 32 0 k 1 [] [2] [3] scheduling_dprr hinv (by decide)⟩

/-- Witness of C1: the test table with every stack in bounds and an SRAM of
zeros; there the run is not stopped and captures the whole row. -/
theorem C1_dprr_aging_witness :
    ((tt_kernel OS_SS_ROUND_ROBIN).currentProc = 1 ∧
     ((tt_kernel OS_SS_ROUND_ROBIN).os_processes 1).state = OS_PS_RUNNING ∧
     ((tt_kernel OS_SS_ROUND_ROBIN).os_processes 1).priority = OS_PRIO_HIGH) ∧
    (∃ k, os_setSchedulingStrategy OS_SS_DYNAMIC_PRIORITY_ROUND_ROBIN
        (tt_kernel OS_SS_ROUND_ROBIN) = .ok k ∧
      run_conforms (capture_run (tt_hw scheduling_dprr) 32 0 k) scheduling_dprr) ∧
    tt_capture OS_SS_DYNAMIC_PRIORITY_ROUND_ROBIN scheduling_dprr = some scheduling_dprr :=
  ⟨by decide,
   C1_dprr_aging (tt_kernel OS_SS_ROUND_ROBIN) (tt_hw scheduling_dprr) (by decide) (by decide)
     (by decide) (by decide) (by decide),
   by decide⟩

/-- The round-robin choice in the scheduling test. -/
theorem os_scheduler_RoundRobin_tt (processes : Nat → process_t) (cur : Nat)
    (hc1 : 1 ≤ cur) (hc3 : cur ≤ 3) (h0 : (processes 0).progID = 0)
    (h123 : ∀ pid, 1 ≤ pid → pid ≤ 3 →
      (processes pid).progID ≠ 0 ∧ (processes pid).state = OS_PS_READY)
    (h4 : ∀ i, i < 8 → 4 ≤ i → (processes i).state = OS_PS_UNUSED) :
    os_scheduler_RoundRobin processes cur = some (cur % 3 + 1) := by
  have s4 := h4 4 (by omega) (by omega)
  have s5 := h4 5 (by omega) (by omega)
  have s6 := h4 6 (by omega) (by omega)
  have s7 := h4 7 (by omega) (by omega)
  obtain ⟨p1, r1⟩ := h123 1 (by omega) (by omega)
  obtain ⟨p2, r2⟩ := h123 2 (by omega) (by omega)
  obtain ⟨p3, r3⟩ := h123 3 (by omega) (by omega)
  have hr : List.range' 1 (MAX_NUMBER_OF_PROCESSES - 1) = [1, 2, 3, 4, 5, 6, 7] := by decide
  have hany : isAnyProcReady processes = true := by
    unfold isAnyProcReady
    rw [hr]
    simp [r1]
  have hcases : cur = 1 ∨ cur = 2 ∨ cur = 3 := by omega
  unfold os_scheduler_RoundRobin
  rcases hcases with rfl | rfl | rfl
  · simp [hany, os_scheduler_RoundRobin_loop, MAX_NUMBER_OF_PROCESSES, r2, p2]
  · simp [hany, os_scheduler_RoundRobin_loop, MAX_NUMBER_OF_PROCESSES, r3, p3]
  · simp [hany, os_scheduler_RoundRobin_loop, MAX_NUMBER_OF_PROCESSES, s4, s5, s6, s7, h0, r1, p1]

/-- Steps 4 to 6 of the tick in the scheduling test under round-robin: the
process after `cur` in the cycle 1, 2, 3 becomes the running one. -/
theorem os_selectNext_tt_rr (k : Kernel) (cur : Nat) (hinv : tt_rr_inv k cur)
    (hc1 : 1 ≤ cur) (hc3 : cur ≤ 3) :
    ∃ k1, os_selectNext k = .ok k1 ∧ tt_rr_inv k1 (cur % 3 + 1) := by
  obtain ⟨hcur, hstrat, h0, hproc, h4⟩ := hinv
  have hrun : (k.os_processes k.currentProc).state = OS_PS_RUNNING := by
    rw [hcur]; have := (hproc cur hc1 hc3).2; simpa using this
  obtain ⟨ka, hka⟩ : ∃ ka : Kernel, ka = { k with os_processes := (write k.os_processes
      k.currentProc { (k.os_processes k.currentProc) with state := OS_PS_READY }) } := ⟨_, rfl⟩
  have hka_cur : ka.currentProc = cur := by rw [hka]; exact hcur
  have hka_strat : ka.currSchedStrat = OS_SS_ROUND_ROBIN := by rw [hka]; exact hstrat
  have hcne0 : (0 : Nat) ≠ cur := by omega
  have hka_0 : (ka.os_processes 0).progID = 0 := by
    rw [hka, hcur]
    dsimp only
    rw [write_other _ _ _ _ hcne0]
    exact h0
  have hka_proc : ∀ pid, 1 ≤ pid → pid ≤ 3 →
      (ka.os_processes pid).progID ≠ 0 ∧ (ka.os_processes pid).state = OS_PS_READY := by
    intro pid h1 h3
    obtain ⟨hp, hs⟩ := hproc pid h1 h3
    rw [hka, hcur]
    dsimp only
    by_cases hpc : pid = cur
    · subst hpc
      rw [write_same]
      exact ⟨hp, rfl⟩
    · rw [write_other _ _ _ _ hpc]
      exact ⟨hp, by simpa [hpc] using hs⟩
  have hka_4 : ∀ i, i < 8 → 4 ≤ i → (ka.os_processes i).state = OS_PS_UNUSED := by
    intro i hi8 hi4
    have hic : i ≠ cur := by omega
    rw [hka, hcur]
    dsimp only
    rw [write_other _ _ _ _ hic]
    exact h4 i hi8 hi4
  have hrr := os_scheduler_RoundRobin_tt ka.os_processes ka.currentProc
    (by rw [hka_cur]; exact hc1) (by rw [hka_cur]; exact hc3) hka_0 hka_proc hka_4
  rw [hka_cur] at hrr
  have hstratne : ¬ (ka.currSchedStrat = OS_SS_DYNAMIC_PRIORITY_ROUND_ROBIN) := by
    rw [hka_strat]; decide
  have hcall : os_callStrategy ka = .ok (cur % 3 + 1, ka) := by
    unfold os_callStrategy
    rw [if_neg hstratne, hka_cur, hrr]
  have hnot255 : ¬ (cur % 3 + 1 = INVALID_PROCESS) := by
    unfold INVALID_PROCESS; omega
  refine ⟨{ ka with
      schedulingInfo := ka.schedulingInfo
      currentProc := cur % 3 + 1
      os_processes := (write ka.os_processes (cur % 3 + 1)
        { (ka.os_processes (cur % 3 + 1)) with state := OS_PS_RUNNING }) }, ?_, ?_⟩
  · subst hka
    unfold os_selectNext
    simp only [if_pos hrun]
    rw [hcall]
    simp only [if_neg hnot255]
  · have hn0 : (0 : Nat) ≠ cur % 3 + 1 := by omega
    refine ⟨rfl, hka_strat, ?_, ?_, ?_⟩
    · dsimp only
      rw [write_other _ _ _ _ hn0]
      exact hka_0
    · intro q h1 h3
      obtain ⟨hp, hs⟩ := hka_proc q h1 h3
      dsimp only
      by_cases hqp : q = cur % 3 + 1
      · rw [hqp, write_same, if_pos rfl]
        rw [hqp] at hp
        exact ⟨hp, rfl⟩
      · rw [write_other _ _ _ _ hqp, if_neg hqp]
        exact ⟨hp, hs⟩
    · intro i hi8 hi4
      have hic : i ≠ cur % 3 + 1 := by omega
      dsimp only
      rw [write_other _ _ _ _ hic]
      exact hka_4 i hi8 hi4

/-- The round-robin test invariant does not depend on the saved stack
pointers and checksums. -/
theorem tt_rr_inv_congr (k k1 : Kernel) (cur : Nat)
    (hinv : tt_rr_inv k cur) (hcur : k1.currentProc = k.currentProc)
    (hstrat : k1.currSchedStrat = k.currSchedStrat)
    (hproc : ∀ pid, (k1.os_processes pid).progID = (k.os_processes pid).progID ∧
      (k1.os_processes pid).state = (k.os_processes pid).state) :
    tt_rr_inv k1 cur := by
  obtain ⟨h1, h2, h3, h4, h5⟩ := hinv
  refine ⟨by rw [hcur]; exact h1, by rw [hstrat]; exact h2, by rw [(hproc 0).1]; exact h3,
    ?_, ?_⟩
  · intro pid hp1 hp3
    rw [(hproc pid).1, (hproc pid).2]
    exact h4 pid hp1 hp3
  · intro i hi8 hi4
    rw [(hproc i).2]
    exact h5 i hi8 hi4

/-- One tick in the scheduling test under round-robin. -/
theorem TIMER2_COMPA_vect_tt_rr (SP : Nat) (mem : Nat → Nat) (k : Kernel) (cur : Nat)
    (hinv : tt_rr_inv k cur) (hc1 : 1 ≤ cur) (hc3 : cur ≤ 3) :
    TIMER2_COMPA_vect SP mem k = .error .stack_overflow ∨
    TIMER2_COMPA_vect SP mem k = .error .stack_corruption ∨
    ∃ k1, TIMER2_COMPA_vect SP mem k = .ok k1 ∧ tt_rr_inv k1 (cur % 3 + 1) := by
  unfold TIMER2_COMPA_vect
  dsimp only
  split
  · left; rfl
  · have hinv2 : tt_rr_inv
        { k with os_processes := (write (write k.os_processes k.currentProc
            { (k.os_processes k.currentProc) with sp := SP % 65536 }) k.currentProc
            { (write k.os_processes k.currentProc
                { (k.os_processes k.currentProc) with sp := SP % 65536 } k.currentProc) with
              checksum := os_getStackChecksum mem
                { k with os_processes := (write k.os_processes k.currentProc
                    { (k.os_processes k.currentProc) with sp := SP % 65536 }) }
                k.currentProc }) } cur := by
      refine tt_rr_inv_congr k _ cur hinv rfl rfl ?_
      intro pid
      by_cases hp : pid = k.currentProc
      · subst hp; simp [write]
      · simp [write, hp]
    obtain ⟨k3, hsel, hinv3⟩ := os_selectNext_tt_rr _ cur hinv2 hc1 hc3
    rw [hsel]
    dsimp only
    split
    · right; left; rfl
    · split
      · left; rfl
      · right; right; exact ⟨k3, rfl, hinv3⟩

/-- A capture run of the scheduling test under round-robin follows the cycle
1, 2, 3. -/
theorem capture_run_tt_rr (hw : Nat → Nat × (Nat → Nat)) :
    ∀ (count i : Nat) (k : Kernel) (cur : Nat), tt_rr_inv k cur → 1 ≤ cur → cur ≤ 3 →
      run_conforms (capture_run hw count i k) (tt_rr_trace count cur) := by
  intro count
  induction count with
  | zero =>
    intro i k cur _ _ _
    simp [capture_run, run_conforms, tt_rr_trace]
  | succ n ih =>
    intro i k cur hinv hc1 hc3
    have hcur : k.currentProc = cur := hinv.1
    unfold capture_run tt_rr_trace
    rcases TIMER2_COMPA_vect_tt_rr (hw i).1 (hw i).2 k cur hinv hc1 hc3
      with he | he | ⟨k1, hk1, hinv1⟩
    · rw [he]; simp [run_conforms]
    · rw [he]; simp [run_conforms]
    · rw [hk1]
      dsimp only
      have hrec := ih (i + 1) k1 (cur % 3 + 1) hinv1 (by omega) (by omega)
      cases hres : capture_run hw n (i + 1) k1 with
      | error e =>
        rw [hres] at hrec
        simpa [run_conforms] using hrec
      | ok v =>
        obtain ⟨r, k2⟩ := v
        rw [hres] at hrec
        simp only [run_conforms] at hrec ⊢
        rw [hrec, hcur]

/-- C2: in the scheduling test under round-robin (slot 0 idle, process 1
running, 2 and 3 Ready, all with non-idle programs, slots 4 to 7 Unused), 32
rounds of recording the running pid and executing one tick record 1,2,3
repeated, ending 1,2; the only other outcome is that a stack check of a tick
stops the run. -/
theorem C2_round_robin_order (k : Kernel) (hw : Nat → Nat × (Nat → Nat))
    (hcur : k.currentProc = 1) (hstrat : k.currSchedStrat = OS_SS_ROUND_ROBIN)
    (h0 : (k.os_processes 0).progID = 0)
    (h1 : (k.os_processes 1).progID ≠ 0 ∧ (k.os_processes 1).state = OS_PS_RUNNING)
    (h2 : (k.os_processes 2).progID ≠ 0 ∧ (k.os_processes 2).state = OS_PS_READY)
    (h3 : (k.os_processes 3).progID ≠ 0 ∧ (k.os_processes 3).state = OS_PS_READY)
    (h4 : ∀ i, i < 8 → 4 ≤ i → (k.os_processes i).state = OS_PS_UNUSED) :
    run_conforms (capture_run hw 32 0 k) scheduling_rr ∧
    scheduling_rr = (List.range 32).map (fun i => i % 3 + 1) := by
  have hinv : tt_rr_inv k 1 := by
    refine ⟨hcur, hstrat, h0, ?_, h4⟩
    intro pid hp1 hp3
    have hcases : pid = 1 ∨ pid = 2 ∨ pid = 3 := by omega
    rcases hcases with rfl | rfl | rfl
    · exact h1
    · exact h2
    · exact h3
  have htrace : tt_rr_trace 32 1 = scheduling_rr := by decide
  refine ⟨?_, by decide⟩
  rw [← htrace]
  exact capture_run_tt_rr hw 32 0 k 1 hinv (by omega) (by omega)

/-- Witness of C2: the test table with every stack in bounds and an SRAM of
zeros; there the run is not stopped and captures the whole row. -/
theorem C2_round_robin_order_witness :
    ((tt_kernel OS_SS_ROUND_ROBIN).currentProc = 1 ∧
     (tt_kernel OS_SS_ROUND_ROBIN).currSchedStrat = OS_SS_ROUND_ROBIN ∧
     ((tt_kernel OS_SS_ROUND_ROBIN).os_processes 0).progID = 0) ∧
    (run_conforms (capture_run (tt_hw scheduling_rr) 32 0 (tt_kernel OS_SS_ROUND_ROBIN))
        scheduling_rr ∧
      scheduling_rr = (List.range 32).map (fun i => i % 3 + 1)) ∧
    tt_capture OS_SS_ROUND_ROBIN scheduling_rr = some scheduling_rr :=
  ⟨by decide,
   C2_round_robin_order (tt_kernel OS_SS_ROUND_ROBIN) (tt_hw scheduling_rr) (by decide)
     (by decide) (by decide) (by decide) (by decide) (by decide) (by decide),
   by decide⟩

/-- The two emptiness and fullness tests of a well-formed queue in terms of
the number of entries it holds. -/
theorem rq_isFull_iff (q : ready_queue_t) (hwf : rq_wf q) :
    rq_isFull q = true ↔ (rq_contents q).length = 8 := by
  rw [rq_contents_length q hwf]
  unfold rq_wf READY_QUEUE_SIZE READY_QUEUE_CAPACITY MAX_NUMBER_OF_PROCESSES at hwf
  unfold rq_isFull next READY_QUEUE_SIZE READY_QUEUE_CAPACITY MAX_NUMBER_OF_PROCESSES
  simp only [beq_iff_eq]
  split_ifs <;> omega

theorem rq_contents_length_le (q : ready_queue_t) (hwf : rq_wf q) :
    (rq_contents q).length ≤ 8 := by
  rw [rq_contents_length q hwf]
  omega

/-- Pushing the pids of a list one after the other. -/
theorem rq_run_push_all (pids : List Nat) (q : ready_queue_t) (hwf : rq_wf q)
    (hlen : (rq_contents q).length + pids.length ≤ 8) :
    ∃ q1, rq_run (pids.map RqOp.push) q = .ok ([], q1) ∧ rq_wf q1 ∧
      rq_contents q1 = rq_contents q ++ pids := by
  induction pids generalizing q with
  | nil => exact ⟨q, rfl, hwf, by simp⟩
  | cons pid rest ih =>
    simp only [List.length_cons] at hlen
    obtain ⟨q1, hp, hwf1, hc1⟩ := rq_push_contents q pid hwf (by omega)
    obtain ⟨q2, hr, hwf2, hc2⟩ := ih q1 hwf1 (by rw [hc1]; simp; omega)
    refine ⟨q2, ?_, hwf2, ?_⟩
    · simp only [List.map_cons, rq_run, hp, hr]
    · rw [hc2, hc1]; simp

/-- C11: for a well-formed queue holding k entries, k is at most 8,
`rq_isEmpty` is true iff k = 0, `rq_isFull` is true iff k = 8, `rq_count`
returns k, `rq_push` ends in the fatal error iff k = 8 (and appends the pid
otherwise), `rq_pop` ends in the fatal error iff k = 0; any 8 pids pushed onto
a cleared queue are all stored, the queue is then full and not empty, and a
ninth push ends in the fatal error. -/
theorem C11_rq_capacity (q : ready_queue_t) (hwf : rq_wf q) :
    (rq_contents q).length ≤ 8 ∧
    (rq_isEmpty q = true ↔ (rq_contents q).length = 0) ∧
    (rq_isFull q = true ↔ (rq_contents q).length = 8) ∧
    rq_count q = some (rq_contents q).length ∧
    (∀ pid, (rq_push q pid = .error .rq_push_full ↔ (rq_contents q).length = 8) ∧
      ((rq_contents q).length ≠ 8 → ∃ q1, rq_push q pid = .ok q1 ∧ rq_wf q1 ∧
        rq_contents q1 = rq_contents q ++ [pid])) ∧
    (rq_pop q = .error .rq_pop_empty ↔ (rq_contents q).length = 0) ∧
    (rq_isFull q = true → rq_isEmpty q = false) ∧
    (∀ pids : List Nat, pids.length = 8 →
      ∃ q1, rq_run (pids.map RqOp.push) (rq_clear q) = .ok ([], q1) ∧ rq_wf q1 ∧
        rq_contents q1 = pids ∧ rq_isFull q1 = true ∧ rq_isEmpty q1 = false ∧
        ∀ pid, rq_push q1 pid = .error .rq_push_full) := by
  have hle := rq_contents_length_le q hwf
  have hE : rq_isEmpty q = true ↔ (rq_contents q).length = 0 := by
    rw [rq_isEmpty_iff q hwf, List.length_eq_zero]
  have hF := rq_isFull_iff q hwf
  have hpushF : ∀ (q0 : ready_queue_t) (pid : Nat),
      rq_push q0 pid = .error .rq_push_full ↔ rq_isFull q0 = true := by
    intro q0 pid
    unfold rq_push
    by_cases hf : rq_isFull q0 = true
    · simp [hf]
    · simp [hf]
  refine ⟨hle, hE, hF, rq_count_eq q hwf, ?_, ?_, ?_, ?_⟩
  · intro pid
    refine ⟨(hpushF q pid).trans hF, fun hne => rq_push_contents q pid hwf (by omega)⟩
  · unfold rq_pop
    by_cases he : rq_isEmpty q = true
    · simp [he, hE.mp he]
    · have : (rq_contents q).length ≠ 0 := fun h => he (hE.mpr h)
      simp [he, this]
  · intro hfull
    have h8 := hF.mp hfull
    by_cases he : rq_isEmpty q = true
    · have := hE.mp he; omega
    · simpa using he
  · intro pids hlen
    obtain ⟨q1, hr, hwf1, hc⟩ := rq_run_push_all pids (rq_clear q) (rq_clear_wf q)
      (by rw [rq_clear_contents]; simp [hlen])
    rw [rq_clear_contents, List.nil_append] at hc
    have hfull : rq_isFull q1 = true := (rq_isFull_iff q1 hwf1).mpr (by rw [hc, hlen])
    refine ⟨q1, hr, hwf1, hc, hfull, ?_, fun pid => (hpushF q1 pid).mpr hfull⟩
    by_cases he : rq_isEmpty q1 = true
    · have := (rq_isEmpty_iff q1 hwf1).mp he
      rw [hc] at this; rw [this] at hlen; simp at hlen
    · simpa using he

/-- Witness of C11: the wrapped queue 5, 6, 5, 4 is neither empty nor full,
and the pids 1 to 8 fill a cleared queue. -/
theorem C11_rq_capacity_witness :
    rq_wf rq_sample_wrapped ∧
    rq_count rq_sample_wrapped = some 4 ∧ rq_isEmpty rq_sample_wrapped = false ∧
    rq_isFull rq_sample_wrapped = false ∧
    (∃ q1, rq_run ([1, 2, 3, 4, 5, 6, 7, 8].map RqOp.push) (rq_clear rq_sample_wrapped)
        = .ok ([], q1) ∧ rq_wf q1 ∧
      rq_contents q1 = [1, 2, 3, 4, 5, 6, 7, 8] ∧ rq_isFull q1 = true ∧ rq_isEmpty q1 = false ∧
      ∀ pid, rq_push q1 pid = .error .rq_push_full) :=
  ⟨by decide, by decide, by decide, by decide,
   (C11_rq_capacity rq_sample_wrapped (by decide)).2.2.2.2.2.2.2 [1, 2, 3, 4, 5, 6, 7, 8] rfl⟩

theorem TIMER2_COMPA_vect_eq (SP : Nat) (mem : Nat → Nat) (k : Kernel) :
    TIMER2_COMPA_vect SP mem k
      = if !os_isStackInBounds (tick_storeSP SP k) k.currentProc then .error .stack_overflow
        else
          match os_selectNext (tick_storeChecksum mem (tick_storeSP SP k)) with
          | .error e => .error e
          | .ok k3 =>
            if os_getStackChecksum mem k3 k3.currentProc
                ≠ (k3.os_processes k3.currentProc).checksum
            then .error .stack_corruption
            else if !os_isStackInBounds k3 k3.currentProc then .error .stack_overflow
            else .ok k3 := rfl

theorem PROCESS_STACK_BOTTOM_bounds (pid : Nat) (h : pid < 8) :
    2382 ≤ PROCESS_STACK_BOTTOM pid ∧ PROCESS_STACK_BOTTOM pid ≤ 8479 ∧
      PROCESS_STACK_BOTTOM pid = 8479 - pid * 871 := by
  have hb : BOTTOM_OF_PROCS_STACK = 8479 := by decide
  have hs : STACK_SIZE_PROC = 871 := by decide
  unfold PROCESS_STACK_BOTTOM
  rw [hb, hs]
  omega

theorem STACK_SIZE_PROC_eq : STACK_SIZE_PROC = 871 := by decide

/-- The bounds test of `os_isStackInBounds` in plain arithmetic. -/
theorem os_isStackInBounds_iff (k : Kernel) (pid : Nat) :
    os_isStackInBounds k pid = true ↔ pid < 8 ∧ sp_in_slot pid (k.os_processes pid).sp := by
  unfold os_isStackInBounds sp_in_slot
  by_cases hp : pid ≥ MAX_NUMBER_OF_PROCESSES
  · have : ¬ pid < 8 := by unfold MAX_NUMBER_OF_PROCESSES at hp; omega
    simp [hp, this]
  · have hp8 : pid < 8 := by unfold MAX_NUMBER_OF_PROCESSES at hp; omega
    obtain ⟨h1, h2, _⟩ := PROCESS_STACK_BOTTOM_bounds pid hp8
    rw [if_neg hp, STACK_SIZE_PROC_eq]
    dsimp only
    have e1 : PROCESS_STACK_BOTTOM pid % 65536 = PROCESS_STACK_BOTTOM pid := by omega
    have e2 : (PROCESS_STACK_BOTTOM pid + 65536 - 871 + 1) % 65536
        = PROCESS_STACK_BOTTOM pid - 871 + 1 := by omega
    rw [e1, e2]
    by_cases hc : (k.os_processes pid).sp ≥ PROCESS_STACK_BOTTOM pid - 871 + 1 ∧
        (k.os_processes pid).sp ≤ PROCESS_STACK_BOTTOM pid
    · rw [if_pos hc]
      exact ⟨fun _ => ⟨hp8, hc.1, hc.2⟩, fun _ => rfl⟩
    · rw [if_neg hc]
      refine ⟨fun h => absurd h (by decide), fun h => absurd ⟨h.2.1, h.2.2⟩ hc⟩
theorem os_selectNext_eq (k : Kernel) :
    os_selectNext k
      = match os_callStrategy (tick_deschedule k) with
        | .error e => .error e
        | .ok (pid, k2) =>
          .ok { k2 with
            currentProc := if pid = INVALID_PROCESS then 0 else pid
            os_processes := (write k2.os_processes
              (if pid = INVALID_PROCESS then 0 else pid)
              { (k2.os_processes (if pid = INVALID_PROCESS then 0 else pid)) with
                state := OS_PS_RUNNING }) } := rfl

/-- What `tick_deschedule` leaves alone. -/
theorem tick_deschedule_frame (k : Kernel) :
    (tick_deschedule k).currentProc = k.currentProc ∧
    (tick_deschedule k).currSchedStrat = k.currSchedStrat ∧
    (tick_deschedule k).schedulingInfo = k.schedulingInfo ∧
    (tick_deschedule k).os_programs = k.os_programs ∧
    (tick_deschedule k).criticalSectionCount = k.criticalSectionCount ∧
    (tick_deschedule k).os_autostart = k.os_autostart ∧
    (tick_deschedule k).SREG_I = k.SREG_I ∧
    (tick_deschedule k).TIMSK2_OCIE2A = k.TIMSK2_OCIE2A := by
  unfold tick_deschedule
  split <;> simp

theorem tick_deschedule_slot (k : Kernel) (p : Nat) :
    ((tick_deschedule k).os_processes p).progID = (k.os_processes p).progID ∧
    ((tick_deschedule k).os_processes p).sp = (k.os_processes p).sp ∧
    ((tick_deschedule k).os_processes p).priority = (k.os_processes p).priority ∧
    ((tick_deschedule k).os_processes p).checksum = (k.os_processes p).checksum ∧
    ((tick_deschedule k).os_processes p).state
      = if p = k.currentProc ∧ (k.os_processes p).state = OS_PS_RUNNING then OS_PS_READY
        else (k.os_processes p).state := by
  unfold tick_deschedule
  by_cases hr : (k.os_processes k.currentProc).state = OS_PS_RUNNING
  · rw [if_pos hr]
    by_cases hp : p = k.currentProc
    · subst hp
      simp [write, hr]
    · simp [write, hp]
  · rw [if_neg hr]
    by_cases hp : p = k.currentProc
    · subst hp
      simp [hr]
    · simp [hp]

/-- The strategies end in no other fatal error than those of the ready
queues, of a loop without end and of the critical section of the terminal
call. -/
theorem os_callStrategy_error (k : Kernel) (e : Fault) (h : os_callStrategy k = .error e) :
    e = .rq_push_full ∨ e = .rq_pop_empty ∨ e = .hang ∨ e = .crit_section_overflow
      ∨ e = .crit_section_underflow := by
  have hpush : ∀ (q : ready_queue_t) (pid : Nat) (e : Fault), rq_push q pid = .error e →
      e = .rq_push_full := by
    intro q pid e h
    unfold rq_push at h
    split at h
    · exact (Except.error.inj h).symm
    · cases h
  have hpop : ∀ (q : ready_queue_t) (e : Fault), rq_pop q = .error e → e = .rq_pop_empty := by
    intro q e h
    unfold rq_pop at h
    split at h
    · exact (Except.error.inj h).symm
    · cases h
  have hprom : ∀ (info : scheduling_information_t) (lo up : priority_t) (e : Fault),
      promote info lo up = .error e → e = .rq_push_full ∨ e = .rq_pop_empty := by
    intro info lo up e h
    unfold promote at h
    split at h
    · cases hp : rq_pop (info.queues_ready lo) with
      | error e1 =>
        rw [hp] at h
        have := hpop _ _ hp
        cases h
        exact Or.inr this
      | ok r =>
        obtain ⟨pid, queue⟩ := r
        rw [hp] at h
        dsimp only at h
        cases hq : rq_push ((set_queue info lo queue).queues_ready up) pid with
        | error e1 =>
          rw [hq] at h
          have := hpush _ _ _ hq
          cases h
          exact Or.inl this
        | ok q1 => rw [hq] at h; cases h
    · cases h
  unfold os_callStrategy at h
  split at h
  · unfold os_scheduler_DynamicPriorityRoundRobin at h
    cases h1 : promote k.schedulingInfo OS_PRIO_NORMAL OS_PRIO_HIGH with
    | error e1 =>
      rw [h1] at h; cases h
      rcases hprom _ _ _ _ h1 with h | h
      · exact Or.inl h
      · exact Or.inr (Or.inl h)
    | ok info1 =>
      rw [h1] at h; dsimp only at h
      cases h2 : promote info1 OS_PRIO_LOW OS_PRIO_NORMAL with
      | error e1 =>
        rw [h2] at h; cases h
        rcases hprom _ _ _ _ h2 with h | h
        · exact Or.inl h
        · exact Or.inr (Or.inl h)
      | ok info2 =>
        rw [h2] at h; dsimp only at h
        cases h3 : requeue_current k k.os_processes k.currentProc info2 with
        | error e1 =>
          rw [h3] at h; cases h
          unfold requeue_current at h3
          split at h3
          · cases hq : rq_push (info2.queues_ready (os_getProcessSlot k k.currentProc).priority)
                k.currentProc with
            | error e2 => rw [hq] at h3; cases h3; exact Or.inl (hpush _ _ _ hq)
            | ok q1 => rw [hq] at h3; cases h3
          · cases h3
        | ok info3 =>
          rw [h3] at h; dsimp only at h
          unfold select_head at h
          dsimp only at h
          split at h
          · cases hq : rq_pop (info3.queues_ready OS_PRIO_HIGH) with
            | error e2 => rw [hq] at h; cases h; exact Or.inr (Or.inl (hpop _ _ hq))
            | ok r => rw [hq] at h; cases h
          · split at h
            · cases hq : rq_pop (info3.queues_ready OS_PRIO_NORMAL) with
              | error e2 => rw [hq] at h; cases h; exact Or.inr (Or.inl (hpop _ _ hq))
              | ok r => rw [hq] at h; cases h
            · split at h
              · cases hq : rq_pop (info3.queues_ready OS_PRIO_LOW) with
                | error e2 => rw [hq] at h; cases h; exact Or.inr (Or.inl (hpop _ _ hq))
                | ok r => rw [hq] at h; cases h
              · cases ht : terminal_writeProgString { k with schedulingInfo := info3 } with
                | error e2 =>
                  rw [ht] at h
                  cases h
                  exact Or.inr (Or.inr (Or.inr (terminal_writeProgString_error _ _ ht)))
                | ok r => rw [ht] at h; cases h
  · cases hr : os_scheduler_RoundRobin k.os_processes k.currentProc with
    | none => rw [hr] at h; cases h; exact Or.inr (Or.inr (Or.inl rfl))
    | some pid => rw [hr] at h; cases h

/-- What a returning `select_head` leaves alone. -/
theorem select_head_frame (k k2 : Kernel) (pid : Nat) (h : select_head k = .ok (pid, k2)) :
    k2.os_processes = k.os_processes ∧ k2.currentProc = k.currentProc ∧
    k2.currSchedStrat = k.currSchedStrat ∧ k2.os_programs = k.os_programs ∧
    k2.os_autostart = k.os_autostart ∧ k2.SREG_I = k.SREG_I ∧
    (k.criticalSectionCount ≤ 255 → k2.criticalSectionCount = k.criticalSectionCount ∧
      (k2.TIMSK2_OCIE2A = k.TIMSK2_OCIE2A
        ∨ k2.TIMSK2_OCIE2A = decide (k.criticalSectionCount = 0))) := by
  unfold select_head at h
  split at h
  · cases hq : rq_pop (k.schedulingInfo.queues_ready OS_PRIO_HIGH) with
    | error e2 => rw [hq] at h; cases h
    | ok r =>
      rw [hq] at h
      have := (Prod.mk.inj (Except.ok.inj h)).2
      subst this
      exact ⟨rfl, rfl, rfl, rfl, rfl, rfl, fun _ => ⟨rfl, Or.inl rfl⟩⟩
  · split at h
    · cases hq : rq_pop (k.schedulingInfo.queues_ready OS_PRIO_NORMAL) with
      | error e2 => rw [hq] at h; cases h
      | ok r =>
        rw [hq] at h
        have := (Prod.mk.inj (Except.ok.inj h)).2
        subst this
        exact ⟨rfl, rfl, rfl, rfl, rfl, rfl, fun _ => ⟨rfl, Or.inl rfl⟩⟩
    · split at h
      · cases hq : rq_pop (k.schedulingInfo.queues_ready OS_PRIO_LOW) with
        | error e2 => rw [hq] at h; cases h
        | ok r =>
          rw [hq] at h
          have := (Prod.mk.inj (Except.ok.inj h)).2
          subst this
          exact ⟨rfl, rfl, rfl, rfl, rfl, rfl, fun _ => ⟨rfl, Or.inl rfl⟩⟩
      · cases ht : terminal_writeProgString k with
        | error e2 => rw [ht] at h; cases h
        | ok r =>
          rw [ht] at h
          have := (Prod.mk.inj (Except.ok.inj h)).2
          subst this
          obtain ⟨t1, t2, t3, _, t5, t6, t7, t8⟩ := terminal_writeProgString_frame k r ht
          exact ⟨t1, t2, t3, t5, t6, t7, fun h8 => ⟨(t8 h8).1, Or.inr (t8 h8).2⟩⟩

/-- What a returning strategy call leaves alone: everything but
`schedulingInfo` and, when the terminal call is made, the bit OCIE2A. -/
theorem os_callStrategy_frame (k k2 : Kernel) (pid : Nat)
    (h : os_callStrategy k = .ok (pid, k2)) :
    k2.os_processes = k.os_processes ∧ k2.currentProc = k.currentProc ∧
    k2.currSchedStrat = k.currSchedStrat ∧ k2.os_programs = k.os_programs ∧
    k2.os_autostart = k.os_autostart ∧ k2.SREG_I = k.SREG_I ∧
    (k.criticalSectionCount ≤ 255 → k2.criticalSectionCount = k.criticalSectionCount ∧
      (k2.TIMSK2_OCIE2A = k.TIMSK2_OCIE2A
        ∨ k2.TIMSK2_OCIE2A = decide (k.criticalSectionCount = 0))) := by
  unfold os_callStrategy at h
  split at h
  · unfold os_scheduler_DynamicPriorityRoundRobin at h
    cases h1 : promote k.schedulingInfo OS_PRIO_NORMAL OS_PRIO_HIGH with
    | error e1 => rw [h1] at h; cases h
    | ok info1 =>
      rw [h1] at h; dsimp only at h
      cases h2 : promote info1 OS_PRIO_LOW OS_PRIO_NORMAL with
      | error e1 => rw [h2] at h; cases h
      | ok info2 =>
        rw [h2] at h; dsimp only at h
        cases h3 : requeue_current k k.os_processes k.currentProc info2 with
        | error e1 => rw [h3] at h; cases h
        | ok info3 =>
          rw [h3] at h; dsimp only at h
          exact select_head_frame { k with schedulingInfo := info3 } k2 pid h
  · cases hr : os_scheduler_RoundRobin k.os_processes k.currentProc with
    | none => rw [hr] at h; cases h
    | some pid1 =>
      rw [hr] at h
      have := (Prod.mk.inj (Except.ok.inj h)).2
      subst this
      exact ⟨rfl, rfl, rfl, rfl, rfl, rfl, fun _ => ⟨rfl, Or.inl rfl⟩⟩


theorem os_selectNext_error (k : Kernel) (e : Fault) (h : os_selectNext k = .error e) :
    e = .rq_push_full ∨ e = .rq_pop_empty ∨ e = .hang ∨ e = .crit_section_overflow
      ∨ e = .crit_section_underflow := by
  rw [os_selectNext_eq] at h
  cases hc : os_callStrategy (tick_deschedule k) with
  | error e1 => rw [hc] at h; cases h; exact os_callStrategy_error _ _ hc
  | ok r => obtain ⟨pid, info⟩ := r; rw [hc] at h; cases h

/-- What a successful `os_selectNext` leaves alone, and the states after it. -/
theorem os_selectNext_frame (k k1 : Kernel) (h : os_selectNext k = .ok k1) :
    k1.currSchedStrat = k.currSchedStrat ∧ k1.os_programs = k.os_programs ∧
    (k.criticalSectionCount ≤ 255 → k1.criticalSectionCount = k.criticalSectionCount) ∧
    k1.os_autostart = k.os_autostart ∧ k1.SREG_I = k.SREG_I ∧
    (k.criticalSectionCount ≤ 255 →
      (k1.TIMSK2_OCIE2A = k.TIMSK2_OCIE2A
        ∨ k1.TIMSK2_OCIE2A = decide (k.criticalSectionCount = 0))) ∧
    (∀ p, (k1.os_processes p).progID = (k.os_processes p).progID ∧
      (k1.os_processes p).sp = (k.os_processes p).sp ∧
      (k1.os_processes p).priority = (k.os_processes p).priority ∧
      (k1.os_processes p).checksum = (k.os_processes p).checksum ∧
      (k1.os_processes p).state
        = if p = k1.currentProc then OS_PS_RUNNING
          else if p = k.currentProc ∧ (k.os_processes p).state = OS_PS_RUNNING then OS_PS_READY
          else (k.os_processes p).state) := by
  rw [os_selectNext_eq] at h
  cases hc : os_callStrategy (tick_deschedule k) with
  | error e1 => rw [hc] at h; cases h
  | ok r =>
    obtain ⟨pid, k2⟩ := r
    rw [hc] at h
    dsimp only at h
    have hk := Except.ok.inj h
    obtain ⟨f1, f2, f3, f4, f5, f6, f7, f8⟩ := tick_deschedule_frame k
    obtain ⟨c1, c2, c3, c4, c5, c6, c7⟩ := os_callStrategy_frame _ _ _ hc
    subst hk
    refine ⟨c3.trans f2, c4.trans f4, fun h8 => ((c7 (by rw [f5]; exact h8)).1).trans f5,
      c5.trans f6, c6.trans f7, fun h8 => ?_, ?_⟩
    · have := (c7 (by rw [f5]; exact h8)).2
      rw [f8, f5] at this
      exact this
    intro p
    obtain ⟨s1, s2, s3, s4, s5⟩ := tick_deschedule_slot k p
    dsimp only
    rw [c1]
    by_cases hp : p = (if pid = INVALID_PROCESS then 0 else pid)
    · rw [hp, write_same]
      rw [hp] at s1 s2 s3 s4
      simp [s1, s2, s3, s4]
    · rw [write_other _ _ _ _ hp, if_neg hp]
      exact ⟨s1, s2, s3, s4, s5⟩
/-- The sampling loop reads SRAM only between the first sampled address and
the stack bottom. -/
theorem os_getStackChecksum_loop_congr (mem mem1 : Nat → Nat) (stack_bottom step lo : Nat)
    (hstep : stack_bottom + step < 65536)
    (hmem : ∀ a, lo ≤ a → a ≤ stack_bottom → mem a = mem1 a) :
    ∀ (samples addr checksum : Nat), lo ≤ addr → addr ≤ stack_bottom →
      os_getStackChecksum_loop mem stack_bottom step samples addr checksum
        = os_getStackChecksum_loop mem1 stack_bottom step samples addr checksum := by
  intro samples
  induction samples with
  | zero => intro addr checksum _ _; rfl
  | succ n ih =>
    intro addr checksum h1 h2
    unfold os_getStackChecksum_loop
    rw [hmem addr h1 h2]
    have e : (addr + step) % 65536 = addr + step := by omega
    rw [e]
    by_cases hgt : addr + step > stack_bottom
    · rw [if_pos hgt]
      exact ih _ _ (by omega) (le_refl _)
    · rw [if_neg hgt]
      exact ih _ _ (by omega) (by omega)

/-- The checksum of a slot depends on its saved stack pointer and on the SRAM
between that address and the stack bottom only. -/
theorem os_getStackChecksum_congr (mem mem1 : Nat → Nat) (k k1 : Kernel) (pid : Nat)
    (hsp : (k1.os_processes pid).sp = (k.os_processes pid).sp)
    (hmem : ∀ a, (k.os_processes pid).sp ≤ a → a ≤ PROCESS_STACK_BOTTOM pid →
      mem a = mem1 a) :
    os_getStackChecksum mem k pid = os_getStackChecksum mem1 k1 pid := by
  unfold os_getStackChecksum
  by_cases hp : pid ≥ MAX_NUMBER_OF_PROCESSES
  · rw [if_pos hp, if_pos hp]
  · rw [if_neg hp, if_neg hp, hsp]
    have hp8 : pid < 8 := by unfold MAX_NUMBER_OF_PROCESSES at hp; omega
    obtain ⟨h1, h2, _⟩ := PROCESS_STACK_BOTTOM_bounds pid hp8
    have e1 : PROCESS_STACK_BOTTOM pid % 65536 = PROCESS_STACK_BOTTOM pid := by omega
    dsimp only
    rw [e1]
    by_cases hgt : (k.os_processes pid).sp > PROCESS_STACK_BOTTOM pid
    · rw [if_pos hgt, if_pos hgt]
    · rw [if_neg hgt, if_neg hgt]
      generalize hsz : (PROCESS_STACK_BOTTOM pid - (k.os_processes pid).sp + 1) % 65536 = size
      have hsize : size ≤ 8480 := by omega
      generalize hn : (if size < 16 then size else 16) = n
      generalize hst : (if n > 1 then (size - 1) / (n - 1) else 0) = step
      have hstep : step ≤ 8480 := by
        rw [← hst]
        split
        · exact le_trans (Nat.div_le_self _ _) (by omega)
        · omega
      exact os_getStackChecksum_loop_congr mem mem1 _ step (k.os_processes pid).sp (by omega)
        hmem n _ 0 (le_refl _) (by omega)
/-- The saved stack pointers and checksums after the first half of the tick. -/
theorem tick_store_slot (SP : Nat) (mem : Nat → Nat) (k : Kernel) (p : Nat) :
    (tick_storeChecksum mem (tick_storeSP SP k)).currentProc = k.currentProc ∧
    ((tick_storeChecksum mem (tick_storeSP SP k)).os_processes p).sp
      = (if p = k.currentProc then SP % 65536 else (k.os_processes p).sp) ∧
    ((tick_storeChecksum mem (tick_storeSP SP k)).os_processes p).checksum
      = (if p = k.currentProc then os_getStackChecksum mem (tick_storeSP SP k) k.currentProc
         else (k.os_processes p).checksum) ∧
    ((tick_storeChecksum mem (tick_storeSP SP k)).os_processes p).state = (k.os_processes p).state ∧
    ((tick_storeChecksum mem (tick_storeSP SP k)).os_processes p).progID
      = (k.os_processes p).progID ∧
    ((tick_storeChecksum mem (tick_storeSP SP k)).os_processes p).priority
      = (k.os_processes p).priority ∧
    ((tick_storeSP SP k).os_processes p).sp
      = (if p = k.currentProc then SP % 65536 else (k.os_processes p).sp) := by
  unfold tick_storeChecksum tick_storeSP
  by_cases hp : p = k.currentProc
  · subst hp
    simp [write]
  · simp [write, hp]

/-- C20: a tick ends in the fatal stack-corruption error iff the bounds check
of the interrupted process passes, the strategy selects a process, and the
fingerprint recomputed for the selected process differs from the checksum in
its slot. For a selected process other than the interrupted one that checksum
and the saved stack pointer are the ones the slot held before the tick; when
the selected process is the interrupted one the two values are equal and the
check cannot fail. A tick without fatal error leaves in the slot of the
interrupted process the fingerprint of its stack at that tick. -/
theorem C20_stack_corruption (SP : Nat) (mem : Nat → Nat) (k : Kernel) :
    (TIMER2_COMPA_vect SP mem k = .error .stack_corruption ↔
      os_isStackInBounds (tick_storeSP SP k) k.currentProc = true ∧
      ∃ k3, os_selectNext (tick_storeChecksum mem (tick_storeSP SP k)) = .ok k3 ∧
        os_getStackChecksum mem k3 k3.currentProc
          ≠ (k3.os_processes k3.currentProc).checksum) ∧
    (∀ k3, os_selectNext (tick_storeChecksum mem (tick_storeSP SP k)) = .ok k3 →
      (k3.currentProc ≠ k.currentProc →
        (k3.os_processes k3.currentProc).checksum = (k.os_processes k3.currentProc).checksum ∧
        (k3.os_processes k3.currentProc).sp = (k.os_processes k3.currentProc).sp ∧
        os_getStackChecksum mem k3 k3.currentProc = os_getStackChecksum mem k k3.currentProc) ∧
      (k3.currentProc = k.currentProc →
        os_getStackChecksum mem k3 k3.currentProc
          = (k3.os_processes k3.currentProc).checksum)) ∧
    (∀ k1, TIMER2_COMPA_vect SP mem k = .ok k1 →
      (k1.os_processes k.currentProc).checksum = os_getStackChecksum mem k1 k.currentProc) := by
  have hfr : ∀ k3, os_selectNext (tick_storeChecksum mem (tick_storeSP SP k)) = .ok k3 →
      ∀ p, (k3.os_processes p).sp
          = (if p = k.currentProc then SP % 65536 else (k.os_processes p).sp) ∧
        (k3.os_processes p).checksum
          = (if p = k.currentProc then os_getStackChecksum mem (tick_storeSP SP k) k.currentProc
             else (k.os_processes p).checksum) := by
    intro k3 hs p
    obtain ⟨_, h2, _, h4, _⟩ := (os_selectNext_frame _ _ hs).2.2.2.2.2.2 p
    obtain ⟨_, t2, t3, _⟩ := tick_store_slot SP mem k p
    exact ⟨h2.trans t2, h4.trans t3⟩
  have hsame : ∀ k3, os_selectNext (tick_storeChecksum mem (tick_storeSP SP k)) = .ok k3 →
      os_getStackChecksum mem k3 k.currentProc = (k3.os_processes k.currentProc).checksum := by
    intro k3 hs
    obtain ⟨h1, h2⟩ := hfr k3 hs k.currentProc
    rw [if_pos rfl] at h1 h2
    rw [h2]
    refine (os_getStackChecksum_congr mem mem _ _ _ ?_ (fun _ _ _ => rfl)).symm
    rw [h1, (tick_store_slot SP mem k k.currentProc).2.2.2.2.2.2, if_pos rfl]
  refine ⟨?_, ?_, ?_⟩
  · rw [TIMER2_COMPA_vect_eq]
    by_cases h1 : os_isStackInBounds (tick_storeSP SP k) k.currentProc = true
    · simp only [h1, Bool.not_true, Bool.false_eq_true, if_false, true_and]
      cases hs : os_selectNext (tick_storeChecksum mem (tick_storeSP SP k)) with
      | error e =>
        dsimp only
        constructor
        · intro h
          have he := Except.error.inj h
          rcases os_selectNext_error _ _ hs with h | h | h | h | h <;> rw [h] at he <;> cases he
        · rintro ⟨k3, h, _⟩
          cases h
      | ok k3 =>
        dsimp only
        by_cases hck : os_getStackChecksum mem k3 k3.currentProc
            = (k3.os_processes k3.currentProc).checksum
        · rw [if_neg (not_not.mpr hck)]
          constructor
          · intro h
            split at h <;> cases h
          · rintro ⟨k4, h, hne⟩
            have := Except.ok.inj h
            subst this
            exact absurd hck hne
        · rw [if_pos hck]
          exact ⟨fun _ => ⟨k3, rfl, hck⟩, fun _ => rfl⟩
    · have h1f : os_isStackInBounds (tick_storeSP SP k) k.currentProc = false := by simpa using h1
      simp only [h1f, Bool.not_false, if_true, Bool.false_eq_true, false_and, iff_false]
      intro h
      cases h
  · intro k3 hs
    constructor
    · intro hne
      obtain ⟨h1, h2⟩ := hfr k3 hs k3.currentProc
      rw [if_neg hne] at h1 h2
      exact ⟨h2, h1, (os_getStackChecksum_congr mem mem _ _ _ h1 (fun _ _ _ => rfl)).symm⟩
    · intro heq
      rw [heq]
      exact hsame k3 hs
  · intro k1 hk1
    rw [TIMER2_COMPA_vect_eq] at hk1
    split at hk1
    · cases hk1
    · cases hs : os_selectNext (tick_storeChecksum mem (tick_storeSP SP k)) with
      | error e => rw [hs] at hk1; cases hk1
      | ok k3 =>
        rw [hs] at hk1
        dsimp only at hk1
        split at hk1
        · cases hk1
        · split at hk1
          · cases hk1
          · have := Except.ok.inj hk1
            subst this
            exact (hsame k3 hs).symm

/-- Witness of C20: on the table whose process 2 holds the stored checksum 5
the tick that selects process 2 ends in the stack-corruption error, and the
first tick of the scheduling test ends without fatal error. -/
theorem C20_stack_corruption_witness :
    TIMER2_COMPA_vect (PROCESS_STACK_BOTTOM 1 - 72) (fun _ => 0) sc_kernel
      = .error .stack_corruption ∧
    ∃ k1, TIMER2_COMPA_vect (PROCESS_STACK_BOTTOM 1 - 72) (fun _ => 0)
        (tt_kernel OS_SS_ROUND_ROBIN) = .ok k1 ∧
      (k1.os_processes (tt_kernel OS_SS_ROUND_ROBIN).currentProc).checksum
        = os_getStackChecksum (fun _ => 0) k1 (tt_kernel OS_SS_ROUND_ROBIN).currentProc := by
  have h1 : ∃ k3, os_selectNext (tick_storeChecksum (fun _ => 0)
      (tick_storeSP (PROCESS_STACK_BOTTOM 1 - 72) sc_kernel)) = .ok k3 ∧
      os_getStackChecksum (fun _ => 0) k3 k3.currentProc
        ≠ (k3.os_processes k3.currentProc).checksum := ⟨_, rfl, by decide⟩
  have h2 : ∃ k1, TIMER2_COMPA_vect (PROCESS_STACK_BOTTOM 1 - 72) (fun _ => 0)
      (tt_kernel OS_SS_ROUND_ROBIN) = .ok k1 := ⟨_, rfl⟩
  obtain ⟨k1, hk1⟩ := h2
  exact ⟨(C20_stack_corruption (PROCESS_STACK_BOTTOM 1 - 72) (fun _ => 0) sc_kernel).1.mpr
      ⟨by decide, h1⟩,
    k1, hk1, (C20_stack_corruption (PROCESS_STACK_BOTTOM 1 - 72) (fun _ => 0)
      (tt_kernel OS_SS_ROUND_ROBIN)).2.2 k1 hk1⟩

/-- Entering a critical section below the depth 255. -/
theorem os_enterCriticalSection_ok (k : Kernel) (h : k.criticalSectionCount < 255) :
    os_enterCriticalSection k
      = .ok { k with criticalSectionCount := k.criticalSectionCount + 1
                     TIMSK2_OCIE2A := false } := by
  unfold os_enterCriticalSection
  have h1 : ¬ k.criticalSectionCount = 255 := by omega
  have h2 : (k.criticalSectionCount + 1) % 256 = k.criticalSectionCount + 1 := by omega
  dsimp only
  rw [if_neg h1, h2]
  cases hi : k.SREG_I
  · simp only [Bool.false_eq_true, if_false]
  · simp only [if_true]

/-- Entering a critical section at the depth 255. -/
theorem os_enterCriticalSection_error (k : Kernel) (h : k.criticalSectionCount = 255) :
    os_enterCriticalSection k = .error .crit_section_overflow := by
  unfold os_enterCriticalSection
  dsimp only
  rw [if_pos h]

/-- Leaving a critical section above the depth 0. -/
theorem os_leaveCriticalSection_ok (k : Kernel) (h : 0 < k.criticalSectionCount) :
    os_leaveCriticalSection k
      = .ok { k with criticalSectionCount := k.criticalSectionCount - 1
                     TIMSK2_OCIE2A :=
                       if k.criticalSectionCount - 1 = 0 then true else k.TIMSK2_OCIE2A } := by
  unfold os_leaveCriticalSection
  have h1 : ¬ k.criticalSectionCount = 0 := by omega
  dsimp only
  rw [if_neg h1]
  cases hi : k.SREG_I <;> by_cases hc : k.criticalSectionCount - 1 = 0 <;>
    simp only [hc, if_true, if_false, Bool.false_eq_true]

/-- The search loop of `os_exec`: the index returned, the slots before it and
the slot at it. -/
theorem os_exec_loop_spec (processes : Nat → process_t) :
    ∀ (slots pid : Nat),
      pid ≤ os_exec_loop processes slots pid ∧ os_exec_loop processes slots pid ≤ pid + slots ∧
      (∀ j, pid ≤ j → j < os_exec_loop processes slots pid →
        (processes j).state ≠ OS_PS_UNUSED) ∧
      (os_exec_loop processes slots pid < pid + slots →
        (processes (os_exec_loop processes slots pid)).state = OS_PS_UNUSED) := by
  intro slots
  induction slots with
  | zero =>
    intro pid
    unfold os_exec_loop
    exact ⟨le_refl _, le_refl _, fun j h1 h2 => by omega, fun h => by omega⟩
  | succ n ih =>
    intro pid
    unfold os_exec_loop
    by_cases hu : (processes pid).state = OS_PS_UNUSED
    · rw [if_pos hu]
      exact ⟨le_refl _, by omega, fun j h1 h2 => by omega, fun _ => hu⟩
    · rw [if_neg hu]
      obtain ⟨h1, h2, h3, h4⟩ := ih (pid + 1)
      refine ⟨by omega, by omega, ?_, fun h => h4 (by omega)⟩
      intro j hj1 hj2
      by_cases hj : j = pid
      · rw [hj]; exact hu
      · exact h3 j (by omega) hj2

/-- The loop of `os_exec` that stores zero bytes, below a stack pointer that
does not wrap around. -/
theorem os_exec_zero_spec :
    ∀ (count : Nat) (s : (Nat → Nat) × Nat), count ≤ s.2 → s.2 < 65536 →
      (os_exec_zero count s).2 = s.2 - count ∧
      ∀ a, (os_exec_zero count s).1 a = if s.2 - count < a ∧ a ≤ s.2 then 0 else s.1 a := by
  intro count
  induction count with
  | zero =>
    intro s _ _
    unfold os_exec_zero
    refine ⟨rfl, fun a => ?_⟩
    rw [if_neg (by omega)]
  | succ n ih =>
    intro s h1 h2
    unfold os_exec_zero
    have e : (s.2 + 65535) % 65536 = s.2 - 1 := by omega
    obtain ⟨i1, i2⟩ := ih (os_exec_store s 0) (by unfold os_exec_store; dsimp only; omega)
      (by unfold os_exec_store; dsimp only; omega)
    have e2 : (os_exec_store s 0).2 = s.2 - 1 := by unfold os_exec_store; exact e
    have e1 : ∀ a, (os_exec_store s 0).1 a = if a = s.2 then 0 else s.1 a := by
      intro a; unfold os_exec_store write; rfl
    rw [e2] at i1 i2
    refine ⟨by rw [i1]; omega, fun a => ?_⟩
    rw [i2 a, e1 a]
    by_cases ha : a = s.2
    · rw [if_pos ha]
      simp only [ite_self]
      rw [if_pos (by omega)]
    · rw [if_neg ha]
      by_cases hb : s.2 - 1 - n < a ∧ a ≤ s.2 - 1
      · rw [if_pos hb, if_pos (by omega)]
      · rw [if_neg hb, if_neg (by omega)]

/-- The initial stack written by `os_exec` below a stack bottom `sp` of at
least 36: the stack pointer ends 36 below, the three address bytes stand at
`sp`, `sp - 1`, `sp - 2`, zeros at `sp - 35` to `sp - 3`, and no other address
is written. -/
theorem os_exec_stack_spec (dispatcherAddress : Nat) (mem : Nat → Nat) (sp : Nat)
    (h1 : 36 ≤ sp) (h2 : sp < 65536) :
    (os_exec_stack dispatcherAddress mem sp).2 = sp - 36 ∧
    ∀ a, (os_exec_stack dispatcherAddress mem sp).1 a
      = if a = sp then dispatcherAddress &&& 0xFF
        else if a = sp - 1 then (dispatcherAddress >>> 8) &&& 0xFF
        else if a = sp - 2 then (dispatcherAddress >>> 16) &&& 0xFF
        else if sp - 36 < a ∧ a ≤ sp - 3 then 0
        else mem a := by
  unfold os_exec_stack
  have e1 : (sp + 65535) % 65536 = sp - 1 := by omega
  have e2 : (sp - 1 + 65535) % 65536 = sp - 2 := by omega
  have e3 : (sp - 2 + 65535) % 65536 = sp - 3 := by omega
  simp only [os_exec_store, e1, e2, e3]
  obtain ⟨z1, z2⟩ := os_exec_zero_spec 33
    (write (write (write mem sp (dispatcherAddress &&& 0xFF)) (sp - 1)
      ((dispatcherAddress >>> 8) &&& 0xFF)) (sp - 2) ((dispatcherAddress >>> 16) &&& 0xFF),
      sp - 3) (by dsimp only; omega) (by dsimp only; omega)
  dsimp only at z1 z2
  refine ⟨by rw [z1]; omega, fun a => ?_⟩
  rw [z2 a]
  have e4 : sp - 3 - 33 = sp - 36 := by omega
  rw [e4]
  unfold write
  by_cases ha : a = sp
  · rw [if_neg (by omega), if_neg (by omega), if_neg (by omega), if_pos ha, if_pos ha]
  · by_cases hb : a = sp - 1
    · rw [if_neg (by omega), if_neg (by omega), if_pos hb, if_neg ha, if_pos hb]
    · by_cases hc : a = sp - 2
      · rw [if_neg (by omega), if_pos hc, if_neg ha, if_neg hb, if_pos hc]
      · by_cases hd : sp - 36 < a ∧ a ≤ sp - 3
        · rw [if_pos hd, if_neg ha, if_neg hb, if_neg hc, if_pos hd]
        · rw [if_neg hd, if_neg hc, if_neg hb, if_neg ha, if_neg ha, if_neg hb, if_neg hc,
            if_neg hd]

/-- One `rq_remove` on a well-formed queue: it ends, the queue stays well
formed and loses the first occurrence of the pid. -/
theorem rq_remove_erase (q : ready_queue_t) (pid : Nat) (hwf : rq_wf q) :
    ∃ b q1, rq_remove q pid = some (b, q1) ∧ rq_wf q1 ∧
      rq_contents q1 = (rq_contents q).erase pid := by
  obtain ⟨hin, hout⟩ := rq_remove_contents q pid hwf
  by_cases hm : pid ∈ rq_contents q
  · obtain ⟨q1, h1, h2, _, h4⟩ := hin hm
    exact ⟨true, q1, h1, h2, h4⟩
  · exact ⟨false, q, hout hm, hwf, (List.erase_of_not_mem hm).symm⟩

/-- The removal loop of `os_resetProcessSchedulingInformation` on well-formed
queues: every queue loses the first occurrence of the pid. -/
theorem os_resetProcessSchedulingInformation_loop_spec (id : Nat)
    (info : scheduling_information_t) (hwf : ∀ p, rq_wf (info.queues_ready p)) :
    ∃ info1, os_resetProcessSchedulingInformation_loop id
        [OS_PRIO_HIGH, OS_PRIO_NORMAL, OS_PRIO_LOW] info = .ok info1 ∧
      (∀ p, rq_wf (info1.queues_ready p)) ∧
      (∀ p, rq_contents (info1.queues_ready p) = (rq_contents (info.queues_ready p)).erase id) := by
  obtain ⟨b1, q1, r1, w1, c1⟩ := rq_remove_erase (info.queues_ready OS_PRIO_HIGH) id (hwf _)
  have e2 : (set_queue info OS_PRIO_HIGH q1).queues_ready OS_PRIO_NORMAL
      = info.queues_ready OS_PRIO_NORMAL := set_queue_other _ _ _ _ (by decide)
  obtain ⟨b2, q2, r2, w2, c2⟩ := rq_remove_erase (info.queues_ready OS_PRIO_NORMAL) id (hwf _)
  have e3 : (set_queue (set_queue info OS_PRIO_HIGH q1) OS_PRIO_NORMAL q2).queues_ready OS_PRIO_LOW
      = info.queues_ready OS_PRIO_LOW := by
    rw [set_queue_other _ _ _ _ (by decide), set_queue_other _ _ _ _ (by decide)]
  obtain ⟨b3, q3, r3, w3, c3⟩ := rq_remove_erase (info.queues_ready OS_PRIO_LOW) id (hwf _)
  refine ⟨set_queue (set_queue (set_queue info OS_PRIO_HIGH q1) OS_PRIO_NORMAL q2) OS_PRIO_LOW q3,
    ?_, ?_, ?_⟩
  · unfold os_resetProcessSchedulingInformation_loop
    rw [r1]
    dsimp only
    unfold os_resetProcessSchedulingInformation_loop
    rw [e2, r2]
    dsimp only
    unfold os_resetProcessSchedulingInformation_loop
    rw [e3, r3]
    dsimp only
    unfold os_resetProcessSchedulingInformation_loop
    rfl
  · intro p
    cases p
    · rw [set_queue_other _ _ _ _ (by decide), set_queue_other _ _ _ _ (by decide),
        set_queue_same]
      exact w1
    · rw [set_queue_other _ _ _ _ (by decide), set_queue_same]
      exact w2
    · rw [set_queue_same]
      exact w3
  · intro p
    cases p
    · rw [set_queue_other _ _ _ _ (by decide), set_queue_other _ _ _ _ (by decide),
        set_queue_same]
      exact c1
    · rw [set_queue_other _ _ _ _ (by decide), set_queue_same]
      exact c2
    · rw [set_queue_same]
      exact c3

/-- Function `os_resetProcessSchedulingInformation` under round-robin. -/
theorem os_resetProcessSchedulingInformation_rr (id : Nat) (k : Kernel) :
    os_resetProcessSchedulingInformation OS_SS_ROUND_ROBIN id k = .ok k := by
  unfold os_resetProcessSchedulingInformation
  rw [if_neg (by decide)]

/-- Function `os_resetProcessSchedulingInformation` under the priority
strategy on well-formed queues: the pid leaves every queue and, if its slot is
Ready, is appended to the queue of its priority, which must have room. -/
theorem os_resetProcessSchedulingInformation_dprr (id : Nat) (k : Kernel)
    (hwf : ∀ p, rq_wf (k.schedulingInfo.queues_ready p))
    (hroom : (k.os_processes id).state = OS_PS_READY →
      ((rq_contents (k.schedulingInfo.queues_ready (k.os_processes id).priority)).erase id).length
        < 8) :
    ∃ info, os_resetProcessSchedulingInformation OS_SS_DYNAMIC_PRIORITY_ROUND_ROBIN id k
        = .ok { k with schedulingInfo := info } ∧
      (∀ p, rq_wf (info.queues_ready p)) ∧
      (∀ p, rq_contents (info.queues_ready p)
        = if (k.os_processes id).state = OS_PS_READY ∧ p = (k.os_processes id).priority
          then (rq_contents (k.schedulingInfo.queues_ready p)).erase id ++ [id]
          else (rq_contents (k.schedulingInfo.queues_ready p)).erase id) := by
  obtain ⟨info1, hl, hw1, hc1⟩ := os_resetProcessSchedulingInformation_loop_spec id
    k.schedulingInfo hwf
  unfold os_resetProcessSchedulingInformation
  rw [if_pos rfl, hl]
  dsimp only
  unfold os_getProcessSlot
  by_cases hr : (k.os_processes id).state = OS_PS_READY
  · rw [if_pos hr]
    obtain ⟨q, hp, hwq, hcq⟩ := rq_push_contents (info1.queues_ready (k.os_processes id).priority)
      id (hw1 _) (by rw [hc1]; exact hroom hr)
    rw [hp]
    refine ⟨set_queue info1 (k.os_processes id).priority q, rfl, ?_, ?_⟩
    · intro p
      by_cases hpp : p = (k.os_processes id).priority
      · rw [hpp, set_queue_same]; exact hwq
      · rw [set_queue_other _ _ _ _ hpp]; exact hw1 p
    · intro p
      by_cases hpp : p = (k.os_processes id).priority
      · rw [if_pos ⟨hr, hpp⟩, hpp, set_queue_same, hcq, hc1]
      · rw [if_neg (fun h => hpp h.2), set_queue_other _ _ _ _ hpp, hc1]
  · rw [if_neg hr]
    refine ⟨info1, rfl, hw1, fun p => ?_⟩
    rw [if_neg (fun h => hr h.1), hc1]

theorem os_exec_eq (dispatcherAddress programID priority : Nat) (mem : Nat → Nat) (k : Kernel) :
    os_exec dispatcherAddress programID priority mem k
      = match os_enterCriticalSection k with
        | .error e => .error e
        | .ok k1 =>
          if os_exec_loop k1.os_processes MAX_NUMBER_OF_PROCESSES 0 = MAX_NUMBER_OF_PROCESSES then
            match os_leaveCriticalSection k1 with
            | .error e => .error e
            | .ok k2 => .ok (INVALID_PROCESS, mem, k2)
          else if os_lookupProgramFunction k1 programID = 0 then
            match os_leaveCriticalSection k1 with
            | .error e => .error e
            | .ok k2 => .ok (INVALID_PROGRAM, mem, k2)
          else
            match priority_of_value priority with
            | none => .error .exec_priority
            | some prio =>
              match os_resetProcessSchedulingInformation k1.currSchedStrat
                  (os_exec_loop k1.os_processes MAX_NUMBER_OF_PROCESSES 0)
                  (os_exec_init dispatcherAddress programID prio
                    (os_exec_loop k1.os_processes MAX_NUMBER_OF_PROCESSES 0) mem k1).2 with
              | .error e => .error e
              | .ok k4 =>
                match os_leaveCriticalSection k4 with
                | .error e => .error e
                | .ok k5 =>
                  .ok (os_exec_loop k1.os_processes MAX_NUMBER_OF_PROCESSES 0,
                    (os_exec_init dispatcherAddress programID prio
                      (os_exec_loop k1.os_processes MAX_NUMBER_OF_PROCESSES 0) mem k1).1, k5) := rfl

/-- The slot and the stack that `os_exec_init` leaves behind. -/
theorem os_exec_init_spec (dispatcherAddress programID : Nat) (prio : priority_t) (pid : Nat)
    (mem : Nat → Nat) (k1 : Kernel) :
    (os_exec_init dispatcherAddress programID prio pid mem k1).1
      = (os_exec_stack dispatcherAddress mem (PROCESS_STACK_BOTTOM pid % 65536)).1 ∧
    (os_exec_init dispatcherAddress programID prio pid mem k1).2
      = { k1 with os_processes := (write k1.os_processes pid
          { progID := programID, state := OS_PS_READY, priority := prio,
            sp := (os_exec_stack dispatcherAddress mem (PROCESS_STACK_BOTTOM pid % 65536)).2,
            checksum := os_getStackChecksum
              (os_exec_init dispatcherAddress programID prio pid mem k1).1
              (os_exec_init dispatcherAddress programID prio pid mem k1).2 pid }) } := by
  refine ⟨rfl, ?_⟩
  have hck : os_getStackChecksum (os_exec_init dispatcherAddress programID prio pid mem k1).1
      (os_exec_init dispatcherAddress programID prio pid mem k1).2 pid
      = os_getStackChecksum
          (os_exec_stack dispatcherAddress mem (PROCESS_STACK_BOTTOM pid % 65536)).1
          { k1 with os_processes := (write k1.os_processes pid
            { (k1.os_processes pid) with
              progID := programID, state := OS_PS_READY, priority := prio,
              sp := (os_exec_stack dispatcherAddress mem
                (PROCESS_STACK_BOTTOM pid % 65536)).2 }) } pid := by
    refine os_getStackChecksum_congr _ _ _ _ pid ?_ (fun _ _ _ => rfl)
    unfold os_exec_init
    dsimp only
    rw [write_same, write_same]
  rw [hck]
  unfold os_exec_init
  dsimp only
  congr 1
  funext j
  unfold write
  by_cases hj : j = pid
  · simp [hj]
  · simp [hj]

/-- Leaving the critical section that `os_exec` or `os_kill` has entered at
the depth `depth`. -/
theorem os_leaveCriticalSection_entered (k4 : Kernel) (depth : Nat)
    (h : k4.criticalSectionCount = depth + 1) :
    ∃ k5, os_leaveCriticalSection k4 = .ok k5 ∧
      k5.os_processes = k4.os_processes ∧ k5.currentProc = k4.currentProc ∧
      k5.currSchedStrat = k4.currSchedStrat ∧ k5.schedulingInfo = k4.schedulingInfo ∧
      k5.os_programs = k4.os_programs ∧ k5.criticalSectionCount = depth ∧
      k5.os_autostart = k4.os_autostart ∧ k5.SREG_I = k4.SREG_I ∧
      k5.TIMSK2_OCIE2A = (if depth = 0 then true else k4.TIMSK2_OCIE2A) := by
  refine ⟨_, os_leaveCriticalSection_ok k4 (by omega), rfl, rfl, rfl, rfl, rfl, ?_, rfl, rfl, ?_⟩
  · dsimp only; omega
  · dsimp only
    have e : k4.criticalSectionCount - 1 = depth := by omega
    rw [e]

/-- The failure paths of `os_exec` below the depth 255: the returned value,
the untouched SRAM and the globals, of which only the tick mask may differ. -/
theorem os_exec_failure (dispatcherAddress programID priority : Nat) (mem : Nat → Nat)
    (k : Kernel) (hcount : k.criticalSectionCount < 255)
    (hfail : os_exec_loop k.os_processes MAX_NUMBER_OF_PROCESSES 0 = MAX_NUMBER_OF_PROCESSES ∨
      os_lookupProgramFunction k programID = 0) :
    ∃ k1, os_exec dispatcherAddress programID priority mem k
        = .ok (if os_exec_loop k.os_processes MAX_NUMBER_OF_PROCESSES 0 = MAX_NUMBER_OF_PROCESSES
               then INVALID_PROCESS else INVALID_PROGRAM, mem, k1) ∧
      k1.os_processes = k.os_processes ∧ k1.currentProc = k.currentProc ∧
      k1.currSchedStrat = k.currSchedStrat ∧ k1.schedulingInfo = k.schedulingInfo ∧
      k1.os_programs = k.os_programs ∧ k1.criticalSectionCount = k.criticalSectionCount ∧
      k1.os_autostart = k.os_autostart ∧ k1.SREG_I = k.SREG_I ∧
      k1.TIMSK2_OCIE2A = (if k.criticalSectionCount = 0 then true else false) := by
  rw [os_exec_eq, os_enterCriticalSection_ok k hcount]
  dsimp only
  obtain ⟨k5, hl, g1, g2, g3, g4, g5, g6, g7, g8, g9⟩ := os_leaveCriticalSection_entered
    { k with criticalSectionCount := k.criticalSectionCount + 1, TIMSK2_OCIE2A := false }
    k.criticalSectionCount rfl
  by_cases h8 : os_exec_loop k.os_processes MAX_NUMBER_OF_PROCESSES 0 = MAX_NUMBER_OF_PROCESSES
  · rw [if_pos h8, if_pos h8, hl]
    exact ⟨k5, rfl, g1, g2, g3, g4, g5, g6, g7, g8, g9⟩
  · rw [if_neg h8, if_neg h8]
    have hp : os_lookupProgramFunction
        { k with criticalSectionCount := k.criticalSectionCount + 1, TIMSK2_OCIE2A := false }
        programID = 0 := by
      rcases hfail with h | h
      · exact absurd h h8
      · exact h
    rw [if_pos hp, hl]
    exact ⟨k5, rfl, g1, g2, g3, g4, g5, g6, g7, g8, g9⟩

/-- The success path of `os_exec` below the depth 255, for a registered
program, a priority value of the enum and a table with an Unused slot; under
the priority strategy the queues are well formed and the queue of the
priority has room. -/
theorem os_exec_success (dispatcherAddress programID priority : Nat) (mem : Nat → Nat)
    (k : Kernel) (prio : priority_t) (pid : Nat) (hcount : k.criticalSectionCount < 255)
    (hpid : os_exec_loop k.os_processes MAX_NUMBER_OF_PROCESSES 0 = pid)
    (hslot : pid ≠ MAX_NUMBER_OF_PROCESSES)
    (hprog : os_lookupProgramFunction k programID ≠ 0)
    (hprio : priority_of_value priority = some prio)
    (hq : k.currSchedStrat = OS_SS_DYNAMIC_PRIORITY_ROUND_ROBIN →
      (∀ p, rq_wf (k.schedulingInfo.queues_ready p)) ∧
      ((rq_contents (k.schedulingInfo.queues_ready prio)).erase pid).length < 8) :
    ∃ mem1 k1, os_exec dispatcherAddress programID priority mem k = .ok (pid, mem1, k1) ∧
      mem1 = (os_exec_stack dispatcherAddress mem (PROCESS_STACK_BOTTOM pid % 65536)).1 ∧
      k1.os_processes = write k.os_processes pid
        { progID := programID, state := OS_PS_READY, priority := prio
          sp := (os_exec_stack dispatcherAddress mem (PROCESS_STACK_BOTTOM pid % 65536)).2
          checksum := os_getStackChecksum mem1 k1 pid } ∧
      k1.currentProc = k.currentProc ∧ k1.currSchedStrat = k.currSchedStrat ∧
      k1.os_programs = k.os_programs ∧ k1.criticalSectionCount = k.criticalSectionCount ∧
      k1.os_autostart = k.os_autostart ∧ k1.SREG_I = k.SREG_I ∧
      k1.TIMSK2_OCIE2A = (if k.criticalSectionCount = 0 then true else false) ∧
      (k.currSchedStrat = OS_SS_ROUND_ROBIN → k1.schedulingInfo = k.schedulingInfo) ∧
      (k.currSchedStrat = OS_SS_DYNAMIC_PRIORITY_ROUND_ROBIN →
        (∀ p, rq_wf (k1.schedulingInfo.queues_ready p)) ∧
        (∀ p, rq_contents (k1.schedulingInfo.queues_ready p)
          = if p = prio
            then (rq_contents (k.schedulingInfo.queues_ready p)).erase pid ++ [pid]
            else (rq_contents (k.schedulingInfo.queues_ready p)).erase pid)) := by
  rw [os_exec_eq, os_enterCriticalSection_ok k hcount]
  dsimp only
  rw [hpid, if_neg hslot]
  have hp : ¬ os_lookupProgramFunction
      { k with criticalSectionCount := k.criticalSectionCount + 1, TIMSK2_OCIE2A := false }
      programID = 0 := hprog
  rw [if_neg hp, hprio]
  dsimp only
  obtain ⟨hs1, hs2⟩ := os_exec_init_spec dispatcherAddress programID prio pid mem
    { k with criticalSectionCount := k.criticalSectionCount + 1, TIMSK2_OCIE2A := false }
  generalize os_exec_init dispatcherAddress programID prio pid mem
    { k with criticalSectionCount := k.criticalSectionCount + 1, TIMSK2_OCIE2A := false } = R
    at hs1 hs2 ⊢
  have f1 : R.2.os_processes = write k.os_processes pid
      { progID := programID, state := OS_PS_READY, priority := prio
        sp := (os_exec_stack dispatcherAddress mem (PROCESS_STACK_BOTTOM pid % 65536)).2
        checksum := os_getStackChecksum R.1 R.2 pid } := by
    have h := congrArg Kernel.os_processes hs2
    exact h
  have f2 : R.2.currentProc = k.currentProc := by
    have h := congrArg Kernel.currentProc hs2
    exact h
  have f3 : R.2.currSchedStrat = k.currSchedStrat := by
    have h := congrArg Kernel.currSchedStrat hs2
    exact h
  have f4 : R.2.schedulingInfo = k.schedulingInfo := by
    have h := congrArg Kernel.schedulingInfo hs2
    exact h
  have f5 : R.2.os_programs = k.os_programs := by
    have h := congrArg Kernel.os_programs hs2
    exact h
  have f6 : R.2.criticalSectionCount = k.criticalSectionCount + 1 := by
    have h := congrArg Kernel.criticalSectionCount hs2
    exact h
  have f7 : R.2.os_autostart = k.os_autostart := by
    have h := congrArg Kernel.os_autostart hs2
    exact h
  have f8 : R.2.SREG_I = k.SREG_I := by
    have h := congrArg Kernel.SREG_I hs2
    exact h
  have f9 : R.2.TIMSK2_OCIE2A = false := by
    have h := congrArg Kernel.TIMSK2_OCIE2A hs2
    exact h
  have hck : ∀ (k1 : Kernel), k1.os_processes = R.2.os_processes →
      os_getStackChecksum R.1 R.2 pid = os_getStackChecksum R.1 k1 pid := by
    intro k1 h1
    exact os_getStackChecksum_congr _ _ _ _ pid (by rw [h1]) (fun _ _ _ => rfl)
  cases hstrat : k.currSchedStrat with
  | OS_SS_ROUND_ROBIN =>
    rw [os_resetProcessSchedulingInformation_rr]
    dsimp only
    obtain ⟨k5, hl, g1, g2, g3, g4, g5, g6, g7, g8, g9⟩ :=
      os_leaveCriticalSection_entered R.2 k.criticalSectionCount f6
    rw [hl]
    dsimp only
    refine ⟨R.1, k5, rfl, hs1, ?_, g2.trans f2, (g3.trans f3).trans hstrat, g5.trans f5, g6,
      g7.trans f7, g8.trans f8, ?_, fun _ => g4.trans f4, fun h => by cases h⟩
    · rw [g1, f1, hck k5 g1]
    · rw [g9, f9]
  | OS_SS_DYNAMIC_PRIORITY_ROUND_ROBIN =>
    obtain ⟨hwf, hroom⟩ := hq hstrat
    have hslotR : R.2.os_processes pid
        = { progID := programID, state := OS_PS_READY, priority := prio
            sp := (os_exec_stack dispatcherAddress mem (PROCESS_STACK_BOTTOM pid % 65536)).2
            checksum := os_getStackChecksum R.1 R.2 pid } := by
      rw [f1, write_same]
    obtain ⟨info, hr, hw1, hc1⟩ := os_resetProcessSchedulingInformation_dprr pid R.2
      (by rw [f4]; exact hwf) (by
        intro _
        rw [f4, hslotR]
        exact hroom)
    rw [hr]
    dsimp only
    obtain ⟨k5, hl, g1, g2, g3, g4, g5, g6, g7, g8, g9⟩ :=
      os_leaveCriticalSection_entered { R.2 with schedulingInfo := info } k.criticalSectionCount f6
    rw [hl]
    dsimp only
    refine ⟨R.1, k5, rfl, hs1, ?_, g2.trans f2, (g3.trans f3).trans hstrat, g5.trans f5, g6,
      g7.trans f7, g8.trans f8, ?_, (fun h => by cases h), fun _ => ?_⟩
    · rw [g1]
      dsimp only
      rw [f1, hck k5 g1]
    · rw [g9]
      dsimp only
      rw [f9]
    · rw [g4]
      dsimp only
      refine ⟨hw1, fun p => ?_⟩
      rw [hc1 p, f4, hslotR]
      dsimp only
      by_cases hpp : p = prio
      · rw [if_pos ⟨rfl, hpp⟩, if_pos hpp]
      · rw [if_neg (fun h => hpp h.2), if_neg hpp]

/-- What a successful `os_enterCriticalSection` leaves alone. -/
theorem os_enterCriticalSection_frame (k k1 : Kernel) (h : os_enterCriticalSection k = .ok k1) :
    k1.os_processes = k.os_processes ∧ k1.currentProc = k.currentProc ∧
    k1.currSchedStrat = k.currSchedStrat ∧ k1.schedulingInfo = k.schedulingInfo ∧
    k1.os_programs = k.os_programs ∧ k1.os_autostart = k.os_autostart := by
  unfold os_enterCriticalSection at h
  dsimp only at h
  split at h
  · cases h
  · have := Except.ok.inj h
    subst this
    split <;> exact ⟨rfl, rfl, rfl, rfl, rfl, rfl⟩

/-- What a successful `os_leaveCriticalSection` leaves alone. -/
theorem os_leaveCriticalSection_frame (k k1 : Kernel) (h : os_leaveCriticalSection k = .ok k1) :
    k1.os_processes = k.os_processes ∧ k1.currentProc = k.currentProc ∧
    k1.currSchedStrat = k.currSchedStrat ∧ k1.schedulingInfo = k.schedulingInfo ∧
    k1.os_programs = k.os_programs ∧ k1.os_autostart = k.os_autostart := by
  unfold os_leaveCriticalSection at h
  dsimp only at h
  split at h
  · cases h
  · have := Except.ok.inj h
    subst this
    split <;> split <;> exact ⟨rfl, rfl, rfl, rfl, rfl, rfl⟩

/-- What a successful `os_resetProcessSchedulingInformation` leaves alone. -/
theorem os_resetProcessSchedulingInformation_frame (strategy : scheduling_strategy_t) (id : Nat)
    (k k1 : Kernel) (h : os_resetProcessSchedulingInformation strategy id k = .ok k1) :
    k1.os_processes = k.os_processes ∧ k1.currentProc = k.currentProc ∧
    k1.currSchedStrat = k.currSchedStrat ∧ k1.os_programs = k.os_programs ∧
    k1.os_autostart = k.os_autostart ∧ k1.criticalSectionCount = k.criticalSectionCount ∧
    k1.SREG_I = k.SREG_I ∧ k1.TIMSK2_OCIE2A = k.TIMSK2_OCIE2A ∧
    (strategy ≠ OS_SS_DYNAMIC_PRIORITY_ROUND_ROBIN → k1.schedulingInfo = k.schedulingInfo) := by
  unfold os_resetProcessSchedulingInformation at h
  split at h
  · rename_i hs
    cases hl : os_resetProcessSchedulingInformation_loop id
        [OS_PRIO_HIGH, OS_PRIO_NORMAL, OS_PRIO_LOW] k.schedulingInfo with
    | error e => rw [hl] at h; cases h
    | ok info =>
      rw [hl] at h
      dsimp only at h
      split at h
      · cases hp : rq_push (info.queues_ready (os_getProcessSlot k id).priority) id with
        | error e => rw [hp] at h; cases h
        | ok q =>
          rw [hp] at h
          have := Except.ok.inj h
          subst this
          exact ⟨rfl, rfl, rfl, rfl, rfl, rfl, rfl, rfl, fun hn => absurd hs hn⟩
      · have := Except.ok.inj h
        subst this
        exact ⟨rfl, rfl, rfl, rfl, rfl, rfl, rfl, rfl, fun hn => absurd hs hn⟩
  · have := Except.ok.inj h
    subst this
    exact ⟨rfl, rfl, rfl, rfl, rfl, rfl, rfl, rfl, fun _ => rfl⟩

/-- The search loop of `os_exec` over the whole table. -/
theorem os_exec_loop_table (processes : Nat → process_t) :
    os_exec_loop processes MAX_NUMBER_OF_PROCESSES 0 ≤ 8 ∧
    (∀ j, j < os_exec_loop processes MAX_NUMBER_OF_PROCESSES 0 →
      (processes j).state ≠ OS_PS_UNUSED) ∧
    (os_exec_loop processes MAX_NUMBER_OF_PROCESSES 0 ≠ MAX_NUMBER_OF_PROCESSES →
      os_exec_loop processes MAX_NUMBER_OF_PROCESSES 0 < 8 ∧
      (processes (os_exec_loop processes MAX_NUMBER_OF_PROCESSES 0)).state = OS_PS_UNUSED) := by
  obtain ⟨_, h2, h3, h4⟩ := os_exec_loop_spec processes MAX_NUMBER_OF_PROCESSES 0
  unfold MAX_NUMBER_OF_PROCESSES at h2 h3 h4 ⊢
  refine ⟨by omega, fun j hj => h3 j (Nat.zero_le _) hj, fun hne => ?_⟩
  have hlt : os_exec_loop processes 8 0 < 8 := by omega
  exact ⟨hlt, h4 (by omega)⟩

/-- A returned `os_exec`: either a failure path, which returns 255 and
leaves SRAM, table and queues alone, or the success path, which returns the
first Unused slot, fills it and its stack and tells the strategy. -/
theorem os_exec_inv (dispatcherAddress programID priority : Nat) (mem mem1 : Nat → Nat)
    (k k1 : Kernel) (r : Nat)
    (h : os_exec dispatcherAddress programID priority mem k = .ok (r, mem1, k1)) :
    k1.currentProc = k.currentProc ∧ k1.currSchedStrat = k.currSchedStrat ∧
    k1.os_programs = k.os_programs ∧ k1.os_autostart = k.os_autostart ∧
    ((r = 255 ∧ mem1 = mem ∧ k1.os_processes = k.os_processes ∧
        k1.schedulingInfo = k.schedulingInfo ∧
        (os_exec_loop k.os_processes MAX_NUMBER_OF_PROCESSES 0 = MAX_NUMBER_OF_PROCESSES ∨
          os_lookupProgramFunction k programID = 0)) ∨
     (∃ prio kmid kres, r = os_exec_loop k.os_processes MAX_NUMBER_OF_PROCESSES 0 ∧ r < 8 ∧
        (k.os_processes r).state = OS_PS_UNUSED ∧
        os_lookupProgramFunction k programID ≠ 0 ∧
        priority_of_value priority = some prio ∧
        mem1 = (os_exec_stack dispatcherAddress mem (PROCESS_STACK_BOTTOM r % 65536)).1 ∧
        k1.os_processes = write k.os_processes r
          { progID := programID, state := OS_PS_READY, priority := prio
            sp := (os_exec_stack dispatcherAddress mem (PROCESS_STACK_BOTTOM r % 65536)).2
            checksum := os_getStackChecksum mem1 k1 r } ∧
        kmid.os_processes = k1.os_processes ∧ kmid.schedulingInfo = k.schedulingInfo ∧
        os_resetProcessSchedulingInformation k.currSchedStrat r kmid = .ok kres ∧
        k1.schedulingInfo = kres.schedulingInfo)) := by
  rw [os_exec_eq] at h
  cases he : os_enterCriticalSection k with
  | error e => rw [he] at h; cases h
  | ok kE =>
    rw [he] at h
    dsimp only at h
    obtain ⟨e1, e2, e3, e4, e5, e6⟩ := os_enterCriticalSection_frame k kE he
    have eL : os_lookupProgramFunction kE programID = os_lookupProgramFunction k programID := by
      unfold os_lookupProgramFunction
      rw [e5]
    rw [e1, eL, e3] at h
    obtain ⟨_, t2, t3⟩ := os_exec_loop_table k.os_processes
    generalize os_exec_loop k.os_processes MAX_NUMBER_OF_PROCESSES 0 = pid at h t2 t3 ⊢
    by_cases h8 : pid = MAX_NUMBER_OF_PROCESSES
    · rw [if_pos h8] at h
      cases hl : os_leaveCriticalSection kE with
      | error e => rw [hl] at h; cases h
      | ok kL =>
        rw [hl] at h
        obtain ⟨l1, l2, l3, l4, l5, l6⟩ := os_leaveCriticalSection_frame kE kL hl
        have hh := Except.ok.inj h
        obtain ⟨r1, r23⟩ := Prod.mk.inj hh
        obtain ⟨r2, r3⟩ := Prod.mk.inj r23
        subst r3
        exact ⟨l2.trans e2, l3.trans e3, l5.trans e5, l6.trans e6,
          Or.inl ⟨r1.symm, r2.symm, l1.trans e1, l4.trans e4, Or.inl h8⟩⟩
    · rw [if_neg h8] at h
      by_cases hp : os_lookupProgramFunction k programID = 0
      · rw [if_pos hp] at h
        cases hl : os_leaveCriticalSection kE with
        | error e => rw [hl] at h; cases h
        | ok kL =>
          rw [hl] at h
          obtain ⟨l1, l2, l3, l4, l5, l6⟩ := os_leaveCriticalSection_frame kE kL hl
          have hh := Except.ok.inj h
          obtain ⟨r1, r23⟩ := Prod.mk.inj hh
          obtain ⟨r2, r3⟩ := Prod.mk.inj r23
          subst r3
          exact ⟨l2.trans e2, l3.trans e3, l5.trans e5, l6.trans e6,
            Or.inl ⟨r1.symm, r2.symm, l1.trans e1, l4.trans e4, Or.inr hp⟩⟩
      · rw [if_neg hp] at h
        cases hpr : priority_of_value priority with
        | none => rw [hpr] at h; cases h
        | some prio =>
          rw [hpr] at h
          dsimp only at h
          obtain ⟨hs1, hs2⟩ := os_exec_init_spec dispatcherAddress programID prio pid mem kE
          generalize os_exec_init dispatcherAddress programID prio pid mem kE = R at hs1 hs2 h
          cases hr : os_resetProcessSchedulingInformation k.currSchedStrat pid R.2 with
          | error e => rw [hr] at h; cases h
          | ok kres =>
            rw [hr] at h
            dsimp only at h
            cases hl : os_leaveCriticalSection kres with
            | error e => rw [hl] at h; cases h
            | ok kL =>
              rw [hl] at h
              obtain ⟨l1, l2, l3, l4, l5, l6⟩ := os_leaveCriticalSection_frame kres kL hl
              obtain ⟨q1, q2, q3, q4, q5, _⟩ :=
                os_resetProcessSchedulingInformation_frame _ _ _ _ hr
              have hh := Except.ok.inj h
              obtain ⟨r1, r23⟩ := Prod.mk.inj hh
              obtain ⟨r2, r3⟩ := Prod.mk.inj r23
              subst r3 r1
              have f1 : R.2.os_processes = write k.os_processes pid
                  { progID := programID, state := OS_PS_READY, priority := prio
                    sp := (os_exec_stack dispatcherAddress mem
                      (PROCESS_STACK_BOTTOM pid % 65536)).2
                    checksum := os_getStackChecksum R.1 R.2 pid } := by
                have h := congrArg Kernel.os_processes hs2
                rw [← e1]
                exact h
              have f2 : R.2.currentProc = kE.currentProc := by
                have h := congrArg Kernel.currentProc hs2
                exact h
              have f3 : R.2.currSchedStrat = kE.currSchedStrat := by
                have h := congrArg Kernel.currSchedStrat hs2
                exact h
              have f4 : R.2.schedulingInfo = kE.schedulingInfo := by
                have h := congrArg Kernel.schedulingInfo hs2
                exact h
              have f5 : R.2.os_programs = kE.os_programs := by
                have h := congrArg Kernel.os_programs hs2
                exact h
              have f6 : R.2.os_autostart = kE.os_autostart := by
                have h := congrArg Kernel.os_autostart hs2
                exact h
              have hck : os_getStackChecksum R.1 R.2 pid = os_getStackChecksum mem1 kL pid := by
                rw [← r2]
                exact os_getStackChecksum_congr _ _ _ _ pid (by rw [l1, q1]) (fun _ _ _ => rfl)
              refine ⟨(l2.trans q2).trans (f2.trans e2), (l3.trans q3).trans (f3.trans e3),
                (l5.trans q4).trans (f5.trans e5), (l6.trans q5).trans (f6.trans e6), Or.inr ?_⟩
              refine ⟨prio, R.2, kres, rfl, (t3 h8).1, (t3 h8).2, hp, rfl, ?_, ?_, ?_,
                f4.trans e4, hr, l4⟩
              · rw [← r2, hs1]
              · rw [l1, q1, f1, hck]
              · rw [l1, q1]

theorem os_lookupProgramFunction_eq_zero (k : Kernel) (programID : Nat) :
    os_lookupProgramFunction k programID = 0 ↔ programID ≥ 16 ∨ k.os_programs programID = 0 := by
  unfold os_lookupProgramFunction MAX_NUMBER_OF_PROGRAMS
  by_cases h : programID ≥ 16
  · simp [h]
  · simp [h]

/-- C16: below the critical-section depth 255, `os_exec` on a table without
Unused slot returns INVALID_PROCESS (255), and on a table with an Unused slot
and a program id that is 16 or more or has no registered program it returns
INVALID_PROGRAM (255); in both cases SRAM, process table, ready queues,
current process and critical-section depth are the same after the call as
before. At the depth 255 the call ends in the fatal error of
`os_enterCriticalSection`. -/
theorem C16_exec_failure_atomic (dispatcherAddress programID priority : Nat) (mem : Nat → Nat)
    (k : Kernel) :
    INVALID_PROCESS = 255 ∧ INVALID_PROGRAM = 255 ∧
    (k.criticalSectionCount < 255 →
      (∀ pid, pid < 8 → (k.os_processes pid).state ≠ OS_PS_UNUSED) →
      ∃ k1, os_exec dispatcherAddress programID priority mem k = .ok (INVALID_PROCESS, mem, k1) ∧
        k1.os_processes = k.os_processes ∧ k1.schedulingInfo = k.schedulingInfo ∧
        k1.currentProc = k.currentProc ∧ k1.criticalSectionCount = k.criticalSectionCount) ∧
    (k.criticalSectionCount < 255 →
      (∃ pid, pid < 8 ∧ (k.os_processes pid).state = OS_PS_UNUSED) →
      (programID ≥ 16 ∨ k.os_programs programID = 0) →
      ∃ k1, os_exec dispatcherAddress programID priority mem k = .ok (INVALID_PROGRAM, mem, k1) ∧
        k1.os_processes = k.os_processes ∧ k1.schedulingInfo = k.schedulingInfo ∧
        k1.currentProc = k.currentProc ∧ k1.criticalSectionCount = k.criticalSectionCount) ∧
    (k.criticalSectionCount = 255 →
      os_exec dispatcherAddress programID priority mem k = .error .crit_section_overflow) := by
  obtain ⟨_, t2, t3⟩ := os_exec_loop_table k.os_processes
  refine ⟨rfl, rfl, ?_, ?_, ?_⟩
  · intro hcount hfull
    have h8 : os_exec_loop k.os_processes MAX_NUMBER_OF_PROCESSES 0 = MAX_NUMBER_OF_PROCESSES := by
      by_contra hne
      exact hfull _ (t3 hne).1 (t3 hne).2
    obtain ⟨k1, he, g1, g2, _, g4, _, g6, _⟩ :=
      os_exec_failure dispatcherAddress programID priority mem k hcount (Or.inl h8)
    rw [if_pos h8] at he
    exact ⟨k1, he, g1, g4, g2, g6⟩
  · intro hcount hfree hprog
    have h8 : os_exec_loop k.os_processes MAX_NUMBER_OF_PROCESSES 0 ≠ MAX_NUMBER_OF_PROCESSES := by
      intro h8
      obtain ⟨pid, hp, hu⟩ := hfree
      rw [h8] at t2
      exact t2 pid hp hu
    obtain ⟨k1, he, g1, g2, _, g4, _, g6, _⟩ :=
      os_exec_failure dispatcherAddress programID priority mem k hcount
        (Or.inr ((os_lookupProgramFunction_eq_zero k programID).mpr hprog))
    rw [if_neg h8] at he
    exact ⟨k1, he, g1, g4, g2, g6⟩
  · intro h255
    rw [os_exec_eq, os_enterCriticalSection_error k h255]

/-- Witness of C16: on the full table `os_exec` of the registered program 1
returns 255, and on the scheduling test table `os_exec` of the program id 9,
which has no registered program, returns 255. -/
theorem C16_exec_failure_atomic_witness :
    (∃ k1, os_exec 0x1234 1 2 (fun _ => 0) tt_kernel_full = .ok (INVALID_PROCESS, fun _ => 0, k1) ∧
      k1.os_processes = tt_kernel_full.os_processes ∧
      k1.schedulingInfo = tt_kernel_full.schedulingInfo ∧
      k1.currentProc = tt_kernel_full.currentProc ∧
      k1.criticalSectionCount = tt_kernel_full.criticalSectionCount) ∧
    (∃ k1, os_exec 0x1234 9 2 (fun _ => 0) (tt_kernel_registered OS_SS_ROUND_ROBIN)
        = .ok (INVALID_PROGRAM, fun _ => 0, k1) ∧
      k1.os_processes = (tt_kernel_registered OS_SS_ROUND_ROBIN).os_processes ∧
      k1.schedulingInfo = (tt_kernel_registered OS_SS_ROUND_ROBIN).schedulingInfo ∧
      k1.currentProc = (tt_kernel_registered OS_SS_ROUND_ROBIN).currentProc ∧
      k1.criticalSectionCount
        = (tt_kernel_registered OS_SS_ROUND_ROBIN).criticalSectionCount) :=
  ⟨(C16_exec_failure_atomic 0x1234 1 2 (fun _ => 0) tt_kernel_full).2.2.1 (by decide)
      (by decide),
   (C16_exec_failure_atomic 0x1234 9 2 (fun _ => 0)
      (tt_kernel_registered OS_SS_ROUND_ROBIN)).2.2.2.1 (by decide) ⟨4, by decide, by decide⟩
      (Or.inr (by decide))⟩

theorem byte_of_address (d : Nat) :
    d &&& 0xFF = d % 256 ∧ (d >>> 8) &&& 0xFF = d / 256 % 256 ∧
      (d >>> 16) &&& 0xFF = d / 65536 % 256 := by
  have h : ∀ x : Nat, x &&& 0xFF = x % 256 := fun x => Nat.and_pow_two_sub_one_eq_mod x 8
  refine ⟨h d, ?_, ?_⟩
  · rw [h, Nat.shiftRight_eq_div_pow]
  · rw [h, Nat.shiftRight_eq_div_pow]

/-- C17: below the critical-section depth 255, for a registered program id,
a priority value of High, Normal or Low and a table whose lowest-index Unused
slot is `pid` (under the priority strategy: well-formed ready queues, fewer
than 8 entries in the queue of the priority), `os_exec` returns `pid`, sets
the slot's program id, priority and state Ready, leaves every other slot, the
current process and the depth unchanged, writes the three bytes of the
dispatcher address (low, middle, high) at bottom, bottom-1, bottom-2 and zero
at bottom-35 .. bottom-3, writes no other address, and leaves the saved stack
pointer at bottom-36, where bottom = PROCESS_STACK_BOTTOM(pid). -/
theorem C17_exec_success (dispatcherAddress programID priority : Nat) (mem : Nat → Nat)
    (k : Kernel) (prio : priority_t) (pid : Nat) (hcount : k.criticalSectionCount < 255)
    (hreg : programID < 16 ∧ k.os_programs programID ≠ 0)
    (hprio : priority = priority_value prio)
    (hpid : pid < 8 ∧ (k.os_processes pid).state = OS_PS_UNUSED ∧
      ∀ j, j < pid → (k.os_processes j).state ≠ OS_PS_UNUSED)
    (hq : k.currSchedStrat = OS_SS_DYNAMIC_PRIORITY_ROUND_ROBIN →
      (∀ p, rq_wf (k.schedulingInfo.queues_ready p)) ∧
      (rq_contents (k.schedulingInfo.queues_ready prio)).length < 8) :
    ∃ mem1 k1, os_exec dispatcherAddress programID priority mem k = .ok (pid, mem1, k1) ∧
      (k1.os_processes pid).progID = programID ∧ (k1.os_processes pid).priority = prio ∧
      (k1.os_processes pid).state = OS_PS_READY ∧
      (k1.os_processes pid).sp = PROCESS_STACK_BOTTOM pid - 36 ∧
      (∀ p, p ≠ pid → k1.os_processes p = k.os_processes p) ∧
      mem1 (PROCESS_STACK_BOTTOM pid) = dispatcherAddress % 256 ∧
      mem1 (PROCESS_STACK_BOTTOM pid - 1) = dispatcherAddress / 256 % 256 ∧
      mem1 (PROCESS_STACK_BOTTOM pid - 2) = dispatcherAddress / 65536 % 256 ∧
      (∀ a, PROCESS_STACK_BOTTOM pid - 35 ≤ a → a ≤ PROCESS_STACK_BOTTOM pid - 3 → mem1 a = 0) ∧
      (∀ a, a < PROCESS_STACK_BOTTOM pid - 35 ∨ PROCESS_STACK_BOTTOM pid < a → mem1 a = mem a) ∧
      k1.currentProc = k.currentProc ∧ k1.criticalSectionCount = k.criticalSectionCount ∧
      k1.currSchedStrat = k.currSchedStrat ∧
      (k.currSchedStrat = OS_SS_ROUND_ROBIN → k1.schedulingInfo = k.schedulingInfo) := by
  obtain ⟨hp8, hun, hlow⟩ := hpid
  obtain ⟨_, t2, t3⟩ := os_exec_loop_table k.os_processes
  have hloop : os_exec_loop k.os_processes MAX_NUMBER_OF_PROCESSES 0 = pid := by
    by_cases h8 : os_exec_loop k.os_processes MAX_NUMBER_OF_PROCESSES 0 = MAX_NUMBER_OF_PROCESSES
    · rw [h8] at t2
      exact absurd hun (t2 pid hp8)
    · obtain ⟨_, hu⟩ := t3 h8
      rcases Nat.lt_trichotomy (os_exec_loop k.os_processes MAX_NUMBER_OF_PROCESSES 0) pid
        with h | h | h
      · exact absurd hu (hlow _ h)
      · exact h
      · exact absurd hun (t2 pid h)
  have hpv : priority_of_value priority = some prio := by
    rw [hprio]; cases prio <;> rfl
  have hprog : os_lookupProgramFunction k programID ≠ 0 := by
    intro h
    rcases (os_lookupProgramFunction_eq_zero k programID).mp h with h | h
    · omega
    · exact hreg.2 h
  obtain ⟨b1, b2, _⟩ := PROCESS_STACK_BOTTOM_bounds pid hp8
  have eb : PROCESS_STACK_BOTTOM pid % 65536 = PROCESS_STACK_BOTTOM pid := by omega
  obtain ⟨mem1, k1, he, hm, hproc, g1, g2, _, g4, _, _, _, g8, _⟩ :=
    os_exec_success dispatcherAddress programID priority mem k prio pid hcount hloop
      (by unfold MAX_NUMBER_OF_PROCESSES; omega) hprog hpv
      (fun hs => ⟨(hq hs).1, lt_of_le_of_lt (List.erase_sublist _ _).length_le (hq hs).2⟩)
  rw [eb] at hm hproc
  obtain ⟨s1, s2⟩ := os_exec_stack_spec dispatcherAddress mem (PROCESS_STACK_BOTTOM pid)
    (by omega) (by omega)
  obtain ⟨y1, y2, y3⟩ := byte_of_address dispatcherAddress
  have hslot := congrFun hproc pid
  rw [write_same] at hslot
  refine ⟨mem1, k1, he, by rw [hslot], by rw [hslot], by rw [hslot], by rw [hslot, s1], ?_,
    ?_, ?_, ?_, ?_, ?_, g1, g4, g2, g8⟩
  · intro p hp
    rw [hproc, write_other _ _ _ _ hp]
  · rw [hm, s2, if_pos rfl, y1]
  · rw [hm, s2, if_neg (by omega), if_pos rfl, y2]
  · rw [hm, s2, if_neg (by omega), if_neg (by omega), if_pos rfl, y3]
  · intro a ha1 ha2
    rw [hm, s2, if_neg (by omega), if_neg (by omega), if_neg (by omega), if_pos (by omega)]
  · intro a ha
    rw [hm, s2, if_neg (by omega), if_neg (by omega), if_neg (by omega), if_neg (by omega)]

/-- Witness of C17: `os_exec` of the registered program 3 with priority
Normal on the scheduling test table under round-robin returns the slot 4. -/
theorem C17_exec_success_witness :
    ∃ mem1 k1, os_exec 0x123456 3 1 (fun _ => 7) (tt_kernel_registered OS_SS_ROUND_ROBIN)
        = .ok (4, mem1, k1) ∧
      (k1.os_processes 4).progID = 3 ∧ (k1.os_processes 4).priority = OS_PRIO_NORMAL ∧
      (k1.os_processes 4).state = OS_PS_READY ∧
      (k1.os_processes 4).sp = PROCESS_STACK_BOTTOM 4 - 36 ∧
      (∀ p, p ≠ 4 → k1.os_processes p = (tt_kernel_registered OS_SS_ROUND_ROBIN).os_processes p) ∧
      mem1 (PROCESS_STACK_BOTTOM 4) = 0x123456 % 256 ∧
      mem1 (PROCESS_STACK_BOTTOM 4 - 1) = 0x123456 / 256 % 256 ∧
      mem1 (PROCESS_STACK_BOTTOM 4 - 2) = 0x123456 / 65536 % 256 ∧
      (∀ a, PROCESS_STACK_BOTTOM 4 - 35 ≤ a → a ≤ PROCESS_STACK_BOTTOM 4 - 3 → mem1 a = 0) ∧
      (∀ a, a < PROCESS_STACK_BOTTOM 4 - 35 ∨ PROCESS_STACK_BOTTOM 4 < a →
        mem1 a = (fun _ => 7) a) ∧
      k1.currentProc = (tt_kernel_registered OS_SS_ROUND_ROBIN).currentProc ∧
      k1.criticalSectionCount = (tt_kernel_registered OS_SS_ROUND_ROBIN).criticalSectionCount ∧
      k1.currSchedStrat = (tt_kernel_registered OS_SS_ROUND_ROBIN).currSchedStrat ∧
      ((tt_kernel_registered OS_SS_ROUND_ROBIN).currSchedStrat = OS_SS_ROUND_ROBIN →
        k1.schedulingInfo = (tt_kernel_registered OS_SS_ROUND_ROBIN).schedulingInfo) :=
  C17_exec_success 0x123456 3 1 (fun _ => 7) (tt_kernel_registered OS_SS_ROUND_ROBIN)
    OS_PRIO_NORMAL 4 (by decide) (by decide) (by decide) (by decide)
    (fun h => absurd h (by decide))

/-- The success path of `os_exec` under the priority strategy on the
scheduling test table, whose queues hold four old entries each. -/
theorem os_exec_success_dprr_sample :
    ∃ mem1 k1, os_exec 0x123456 3 1 (fun _ => 7)
        (tt_kernel_registered OS_SS_DYNAMIC_PRIORITY_ROUND_ROBIN) = .ok (4, mem1, k1) ∧
      rq_contents (k1.schedulingInfo.queues_ready OS_PRIO_NORMAL) = [7, 7, 7, 7, 4] :=
  ⟨_, _, rfl, by decide⟩

/-- The checksum and stack pointer of the process selected by the tick. -/
theorem tick_selected_slot (SP : Nat) (mem : Nat → Nat) (k k3 : Kernel)
    (hs : os_selectNext (tick_storeChecksum mem (tick_storeSP SP k)) = .ok k3) :
    (k3.currentProc ≠ k.currentProc →
      (k3.os_processes k3.currentProc).checksum = (k.os_processes k3.currentProc).checksum ∧
      (k3.os_processes k3.currentProc).sp = (k.os_processes k3.currentProc).sp ∧
      os_getStackChecksum mem k3 k3.currentProc = os_getStackChecksum mem k k3.currentProc) ∧
    (k3.currentProc = k.currentProc →
      os_getStackChecksum mem k3 k3.currentProc
        = (k3.os_processes k3.currentProc).checksum) ∧
    (∀ p, (k3.os_processes p).sp
      = if p = k.currentProc then SP % 65536 else (k.os_processes p).sp) := by
  have hfr : ∀ p, (k3.os_processes p).sp
          = (if p = k.currentProc then SP % 65536 else (k.os_processes p).sp) ∧
        (k3.os_processes p).checksum
          = (if p = k.currentProc then os_getStackChecksum mem (tick_storeSP SP k) k.currentProc
             else (k.os_processes p).checksum) := by
    intro p
    obtain ⟨_, h2, _, h4, _⟩ := (os_selectNext_frame _ _ hs).2.2.2.2.2.2 p
    obtain ⟨_, t2, t3, _⟩ := tick_store_slot SP mem k p
    exact ⟨h2.trans t2, h4.trans t3⟩
  refine ⟨?_, ?_, fun p => (hfr p).1⟩
  · intro hne
    obtain ⟨h1, h2⟩ := hfr k3.currentProc
    rw [if_neg hne] at h1 h2
    exact ⟨h2, h1, (os_getStackChecksum_congr mem mem _ _ _ h1 (fun _ _ _ => rfl)).symm⟩
  · intro heq
    rw [heq]
    obtain ⟨h1, h2⟩ := hfr k.currentProc
    rw [if_pos rfl] at h1 h2
    rw [h2]
    refine (os_getStackChecksum_congr mem mem _ _ _ ?_ (fun _ _ _ => rfl)).symm
    rw [h1, (tick_store_slot SP mem k k.currentProc).2.2.2.2.2.2, if_pos rfl]

/-- C18: after an `os_exec` that returns a process id `pid` below 8, the
checksum stored in the slot is `os_getStackChecksum(pid)` on the SRAM content
that `os_exec` left behind and `os_isStackInBounds(pid)` is true; at any later
tick at which the slot still holds that stack pointer and checksum (or `pid`
is the interrupted process itself) and the SRAM between the stack pointer and
the stack bottom is as `os_exec` left it, if the bounds check of the
interrupted process passes and the strategy selects `pid`, the tick ends
without fatal error. -/
theorem C18_exec_seeds_fingerprint (dispatcherAddress programID priority : Nat)
    (mem mem1 : Nat → Nat) (k k1 : Kernel) (pid : Nat)
    (hexec : os_exec dispatcherAddress programID priority mem k = .ok (pid, mem1, k1))
    (hpid : pid < 8) :
    (k1.os_processes pid).checksum = os_getStackChecksum mem1 k1 pid ∧
    os_isStackInBounds k1 pid = true ∧
    ∀ (SP : Nat) (memT : Nat → Nat) (kT k3 : Kernel),
      (kT.currentProc ≠ pid →
        (kT.os_processes pid).sp = (k1.os_processes pid).sp ∧
        (kT.os_processes pid).checksum = (k1.os_processes pid).checksum ∧
        ∀ a, (k1.os_processes pid).sp ≤ a → a ≤ PROCESS_STACK_BOTTOM pid → memT a = mem1 a) →
      os_isStackInBounds (tick_storeSP SP kT) kT.currentProc = true →
      os_selectNext (tick_storeChecksum memT (tick_storeSP SP kT)) = .ok k3 →
      k3.currentProc = pid →
      TIMER2_COMPA_vect SP memT kT = .ok k3 := by
  obtain ⟨_, _, _, _, hcase⟩ := os_exec_inv _ _ _ _ _ _ _ _ hexec
  rcases hcase with ⟨h255, _⟩ | ⟨prio, kmid, kres, _, _, _, _, _, hm, hproc, _⟩
  · omega
  · obtain ⟨b1, b2, _⟩ := PROCESS_STACK_BOTTOM_bounds pid hpid
    have eb : PROCESS_STACK_BOTTOM pid % 65536 = PROCESS_STACK_BOTTOM pid := by omega
    rw [eb] at hproc
    obtain ⟨s1, _⟩ := os_exec_stack_spec dispatcherAddress mem (PROCESS_STACK_BOTTOM pid)
      (by omega) (by omega)
    have hslot := congrFun hproc pid
    rw [write_same] at hslot
    have hsp : (k1.os_processes pid).sp = PROCESS_STACK_BOTTOM pid - 36 := by rw [hslot, s1]
    have hck : (k1.os_processes pid).checksum = os_getStackChecksum mem1 k1 pid := by
      rw [hslot]
    have hin : os_isStackInBounds k1 pid = true := by
      rw [os_isStackInBounds_iff, hsp]
      refine ⟨hpid, ?_⟩
      unfold sp_in_slot
      rw [STACK_SIZE_PROC_eq]
      omega
    refine ⟨hck, hin, ?_⟩
    intro SP memT kT k3 hkeep hfirst hsel hnext
    obtain ⟨c1, c2, c3⟩ := tick_selected_slot SP memT kT k3 hsel
    rw [TIMER2_COMPA_vect_eq]
    simp only [hfirst, Bool.not_true, Bool.false_eq_true, if_false, hsel]
    by_cases hcur : kT.currentProc = pid
    · have hsame : os_getStackChecksum memT k3 k3.currentProc
          = (k3.os_processes k3.currentProc).checksum := c2 (by rw [hnext, hcur])
      rw [if_neg (not_not.mpr hsame)]
      have hb : os_isStackInBounds k3 k3.currentProc = true := by
        rw [hnext, ← hcur]
        rw [os_isStackInBounds_iff] at hfirst ⊢
        rw [c3 kT.currentProc, if_pos rfl]
        rw [(tick_store_slot SP memT kT kT.currentProc).2.2.2.2.2.2, if_pos rfl] at hfirst
        exact hfirst
      simp only [hb, Bool.not_true, Bool.false_eq_true, if_false]
    · obtain ⟨k1sp, k1ck, hmem⟩ := hkeep hcur
      obtain ⟨d1, d2, d3⟩ := c1 (by rw [hnext]; exact fun h => hcur h.symm)
      rw [hnext] at d1 d2 d3
      have hsame : os_getStackChecksum memT k3 k3.currentProc
          = (k3.os_processes k3.currentProc).checksum := by
        rw [hnext, d1, d3, k1ck, hck]
        exact os_getStackChecksum_congr memT mem1 kT k1 pid k1sp.symm
          (fun a h1 h2 => hmem a (by rw [← k1sp]; exact h1) h2)
      rw [if_neg (not_not.mpr hsame)]
      have hb : os_isStackInBounds k3 k3.currentProc = true := by
        rw [hnext]
        rw [os_isStackInBounds_iff] at hin ⊢
        rw [d2, k1sp]
        exact hin
      simp only [hb, Bool.not_true, Bool.false_eq_true, if_false]

/-- Witness of C18: `os_exec` on the table with process 3 running returns the
slot 4 with its checksum seeded and its stack pointer in bounds, and the next
tick, which selects process 4 under round-robin, ends without fatal error. -/
theorem C18_exec_seeds_fingerprint_witness :
    os_exec 0x123456 3 1 (fun _ => 0) tt_kernel_third = .ok (4, tt_exec.2.1, tt_exec.2.2) ∧
    (tt_exec.2.2.os_processes 4).checksum = os_getStackChecksum tt_exec.2.1 tt_exec.2.2 4 ∧
    os_isStackInBounds tt_exec.2.2 4 = true ∧
    ∃ k3, TIMER2_COMPA_vect (PROCESS_STACK_BOTTOM 3 - 72) tt_exec.2.1 tt_exec.2.2 = .ok k3 ∧
      k3.currentProc = 4 := by
  have hexec : os_exec 0x123456 3 1 (fun _ => 0) tt_kernel_third
      = .ok (4, tt_exec.2.1, tt_exec.2.2) := rfl
  have hsel : ∃ k3, os_selectNext (tick_storeChecksum tt_exec.2.1
      (tick_storeSP (PROCESS_STACK_BOTTOM 3 - 72) tt_exec.2.2)) = .ok k3 ∧
      k3.currentProc = 4 := ⟨_, rfl, by decide⟩
  obtain ⟨k3, hk3, hcur⟩ := hsel
  obtain ⟨h1, h2, h3⟩ := C18_exec_seeds_fingerprint 0x123456 3 1 (fun _ => 0) tt_exec.2.1
    tt_kernel_third tt_exec.2.2 4 hexec (by decide)
  exact ⟨hexec, h1, h2, k3,
    h3 (PROCESS_STACK_BOTTOM 3 - 72) tt_exec.2.1 tt_exec.2.2 k3
      (fun _ => ⟨rfl, rfl, fun _ _ _ => rfl⟩) (by decide) hk3 hcur, hcur⟩

/-- The pids held by the queues after one decision of the priority strategy,
counted: what the queues held before, plus `current` if it was requeued,
minus the selected pid. -/
theorem dprr_abs_count (H N L : List Nat) (requeue : Option priority_t) (current y : Nat) :
    (dprr_abs H N L requeue current).2.1.count y
      + (dprr_abs H N L requeue current).2.2.1.count y
      + (dprr_abs H N L requeue current).2.2.2.count y
      + (if (H ≠ [] ∨ N ≠ [] ∨ L ≠ [] ∨ requeue ≠ none)
            ∧ y = (dprr_abs H N L requeue current).1 then 1 else 0)
    = H.count y + N.count y + L.count y + (if requeue ≠ none ∧ y = current then 1 else 0) := by
  cases H <;> cases N <;> cases L <;> cases requeue <;>
    (try rename_i p; cases p) <;>
    simp [dprr_abs, append_head, List.count_cons, List.count_append] <;>
    (try split_ifs) <;> (try omega)

/-- Where the pids held by each queue after one decision of the priority
strategy come from: from the same queue, from the head of the queue below, or
from the requeued `current`. -/
theorem dprr_abs_mem (H N L : List Nat) (requeue : Option priority_t) (current y : Nat) :
    (y ∈ (dprr_abs H N L requeue current).2.1 →
      y ∈ H ∨ y ∈ N ∨ (requeue = some OS_PRIO_HIGH ∧ y = current)) ∧
    (y ∈ (dprr_abs H N L requeue current).2.2.1 →
      y ∈ N ∨ y ∈ L ∨ (requeue = some OS_PRIO_NORMAL ∧ y = current)) ∧
    (y ∈ (dprr_abs H N L requeue current).2.2.2 →
      y ∈ L ∨ (requeue = some OS_PRIO_LOW ∧ y = current)) := by
  cases H <;> cases N <;> cases L <;> cases requeue <;>
    (try rename_i p; cases p) <;>
    simp [dprr_abs, append_head] <;> tauto

/-- The pid selected by one decision of the priority strategy when all queues
are empty and `current` is not requeued. -/
theorem dprr_abs_idle (current : Nat) : (dprr_abs [] [] [] none current).1 = 0 := rfl

/-- A list without repetition of pids below 8 that lacks one of them has at
most 7 entries. -/
theorem pids_length_le (l : List Nat) (c : Nat) (hc : c < 8) (hn : ∀ y, l.count y ≤ 1)
    (hm : ∀ y, y ∈ l → y < 8) (hcn : c ∉ l) : l.length ≤ 7 := by
  have hnd : l.Nodup := List.nodup_iff_count_le_one.mpr hn
  have hsub : l ⊆ (List.range 8).erase c := by
    intro y hy
    have hne : y ≠ c := fun h => hcn (h ▸ hy)
    exact (List.mem_erase_of_ne hne).mpr (List.mem_range.mpr (hm y hy))
  have h1 := (List.subperm_of_subset hnd hsub).length_le
  have h2 : ((List.range 8).erase c).length = 7 := by
    rw [List.length_erase_of_mem (List.mem_range.mpr hc)]
    rfl
  omega

theorem rq_all_length (k : Kernel) :
    (rq_all k).length
      = (rq_contents (k.schedulingInfo.queues_ready OS_PRIO_HIGH)).length
        + (rq_contents (k.schedulingInfo.queues_ready OS_PRIO_NORMAL)).length
        + (rq_contents (k.schedulingInfo.queues_ready OS_PRIO_LOW)).length := by
  unfold rq_all
  simp [List.length_append, Nat.add_assoc]

theorem rq_all_count (k : Kernel) (y : Nat) :
    (rq_all k).count y
      = (rq_contents (k.schedulingInfo.queues_ready OS_PRIO_HIGH)).count y
        + (rq_contents (k.schedulingInfo.queues_ready OS_PRIO_NORMAL)).count y
        + (rq_contents (k.schedulingInfo.queues_ready OS_PRIO_LOW)).count y := by
  unfold rq_all
  simp [List.count_append, Nat.add_assoc]

theorem rq_all_mem (k : Kernel) (y : Nat) :
    y ∈ rq_all k ↔ ∃ p, y ∈ rq_contents (k.schedulingInfo.queues_ready p) := by
  unfold rq_all
  simp only [List.mem_append]
  constructor
  · rintro ((h | h) | h)
    · exact ⟨_, h⟩
    · exact ⟨_, h⟩
    · exact ⟨_, h⟩
  · rintro ⟨p, h⟩
    cases p
    · exact Or.inl (Or.inl h)
    · exact Or.inl (Or.inr h)
    · exact Or.inr h

/-- The decision of `os_selectNext` under the priority strategy on
well-formed queues that hold at most 7 pids: the new current process and the
new queue contents are those of `dprr_abs`. -/
theorem os_selectNext_dprr (k k3 : Kernel)
    (hs : k.currSchedStrat = OS_SS_DYNAMIC_PRIORITY_ROUND_ROBIN)
    (hwf : ∀ p, rq_wf (k.schedulingInfo.queues_ready p)) (hlen : (rq_all k).length ≤ 7)
    (h : os_selectNext k = .ok k3) :
    (∀ p, rq_wf (k3.schedulingInfo.queues_ready p)) ∧
    (k3.currentProc,
      rq_contents (k3.schedulingInfo.queues_ready OS_PRIO_HIGH),
      rq_contents (k3.schedulingInfo.queues_ready OS_PRIO_NORMAL),
      rq_contents (k3.schedulingInfo.queues_ready OS_PRIO_LOW))
    = ((if (dprr_abs (rq_contents (k.schedulingInfo.queues_ready OS_PRIO_HIGH))
            (rq_contents (k.schedulingInfo.queues_ready OS_PRIO_NORMAL))
            (rq_contents (k.schedulingInfo.queues_ready OS_PRIO_LOW))
            (if k.currentProc ≠ 0 ∧ (k.os_processes k.currentProc).state ≠ OS_PS_UNUSED
              then some (k.os_processes k.currentProc).priority else none)
            k.currentProc).1 = INVALID_PROCESS then 0
        else (dprr_abs (rq_contents (k.schedulingInfo.queues_ready OS_PRIO_HIGH))
            (rq_contents (k.schedulingInfo.queues_ready OS_PRIO_NORMAL))
            (rq_contents (k.schedulingInfo.queues_ready OS_PRIO_LOW))
            (if k.currentProc ≠ 0 ∧ (k.os_processes k.currentProc).state ≠ OS_PS_UNUSED
              then some (k.os_processes k.currentProc).priority else none)
            k.currentProc).1),
      (dprr_abs (rq_contents (k.schedulingInfo.queues_ready OS_PRIO_HIGH))
            (rq_contents (k.schedulingInfo.queues_ready OS_PRIO_NORMAL))
            (rq_contents (k.schedulingInfo.queues_ready OS_PRIO_LOW))
            (if k.currentProc ≠ 0 ∧ (k.os_processes k.currentProc).state ≠ OS_PS_UNUSED
              then some (k.os_processes k.currentProc).priority else none)
            k.currentProc).2) := by
  rw [os_selectNext_eq] at h
  obtain ⟨f1, f2, f3, _⟩ := tick_deschedule_frame k
  obtain ⟨_, _, s3, _, s5⟩ := tick_deschedule_slot k k.currentProc
  have hcall : os_callStrategy (tick_deschedule k)
      = os_scheduler_DynamicPriorityRoundRobin (tick_deschedule k)
          (tick_deschedule k).os_processes (tick_deschedule k).currentProc := by
    unfold os_callStrategy
    rw [f2, if_pos hs]
  rw [hcall] at h
  cases hd : os_scheduler_DynamicPriorityRoundRobin (tick_deschedule k)
      (tick_deschedule k).os_processes (tick_deschedule k).currentProc with
  | error e => rw [hd] at h; cases h
  | ok r =>
  obtain ⟨pid, kS⟩ := r
  obtain ⟨hwf1, hc⟩ := dprr_contents_ok (tick_deschedule k) kS
    (tick_deschedule k).os_processes (tick_deschedule k).currentProc pid
    (by rw [f3]; exact hwf) (by rw [f3, ← rq_all_length]; exact hlen) hd
  rw [hd] at h
  dsimp only at h
  have hk := Except.ok.inj h
  subst hk
  dsimp only
  refine ⟨hwf1, ?_⟩
  have hrq : (if (tick_deschedule k).currentProc ≠ 0 ∧
        ((tick_deschedule k).os_processes (tick_deschedule k).currentProc).state = OS_PS_READY
      then some (os_getProcessSlot (tick_deschedule k) (tick_deschedule k).currentProc).priority
      else none)
      = (if k.currentProc ≠ 0 ∧ (k.os_processes k.currentProc).state ≠ OS_PS_UNUSED
          then some (k.os_processes k.currentProc).priority else none) := by
    unfold os_getProcessSlot
    rw [f1, s3, s5]
    have hst : (if k.currentProc = k.currentProc ∧
        (k.os_processes k.currentProc).state = OS_PS_RUNNING then OS_PS_READY
        else (k.os_processes k.currentProc).state) = OS_PS_READY
        ↔ (k.os_processes k.currentProc).state ≠ OS_PS_UNUSED := by
      cases hst : (k.os_processes k.currentProc).state <;> simp
    by_cases hq : k.currentProc ≠ 0 ∧ (k.os_processes k.currentProc).state ≠ OS_PS_UNUSED
    · rw [if_pos hq, if_pos ⟨hq.1, hst.mpr hq.2⟩]
    · rw [if_neg hq, if_neg (fun h => hq ⟨h.1, hst.mp h.2⟩)]
  rw [hrq, f3, f1] at hc
  rw [← hc]

/-- A tick that ends without fatal error: both processes are below 8 and the
new globals are those of `os_selectNext`. -/
theorem TIMER2_COMPA_vect_ok (SP : Nat) (mem : Nat → Nat) (k k1 : Kernel)
    (h : TIMER2_COMPA_vect SP mem k = .ok k1) :
    k.currentProc < 8 ∧ k1.currentProc < 8 ∧
    os_selectNext (tick_storeChecksum mem (tick_storeSP SP k)) = .ok k1 := by
  rw [TIMER2_COMPA_vect_eq] at h
  by_cases h1 : os_isStackInBounds (tick_storeSP SP k) k.currentProc = true
  · simp only [h1, Bool.not_true, Bool.false_eq_true, if_false] at h
    cases hs : os_selectNext (tick_storeChecksum mem (tick_storeSP SP k)) with
    | error e => rw [hs] at h; cases h
    | ok k3 =>
      rw [hs] at h
      dsimp only at h
      split at h
      · cases h
      · split at h
        · cases h
        · rename_i _ h2
          have := Except.ok.inj h
          subst this
          have h2t : os_isStackInBounds k3 k3.currentProc = true := by simpa using h2
          exact ⟨((os_isStackInBounds_iff _ _).mp h1).1, ((os_isStackInBounds_iff _ _).mp h2t).1,
            rfl⟩
  · have h1f : os_isStackInBounds (tick_storeSP SP k) k.currentProc = false := by simpa using h1
    simp only [h1f, Bool.not_false, if_true] at h
    cases h

/-- What a tick without fatal error leaves alone, and the states after it. -/
theorem TIMER2_COMPA_vect_frame (SP : Nat) (mem : Nat → Nat) (k k1 : Kernel)
    (h : TIMER2_COMPA_vect SP mem k = .ok k1) :
    k1.currSchedStrat = k.currSchedStrat ∧ k1.os_programs = k.os_programs ∧
    (k.criticalSectionCount ≤ 255 → k1.criticalSectionCount = k.criticalSectionCount) ∧
    k1.os_autostart = k.os_autostart ∧
    (∀ p, (k1.os_processes p).progID = (k.os_processes p).progID ∧
      (k1.os_processes p).priority = (k.os_processes p).priority ∧
      (k1.os_processes p).state
        = if p = k1.currentProc then OS_PS_RUNNING
          else if p = k.currentProc ∧ (k.os_processes p).state = OS_PS_RUNNING then OS_PS_READY
          else (k.os_processes p).state) := by
  obtain ⟨_, _, hs⟩ := TIMER2_COMPA_vect_ok SP mem k k1 h
  obtain ⟨g1, g2, g3, g4, _, _, g7⟩ := os_selectNext_frame _ _ hs
  refine ⟨g1, g2, g3, g4, fun p => ?_⟩
  obtain ⟨a1, _, a3, _, a5⟩ := g7 p
  obtain ⟨b1, _, _, b4, b5, b6, _⟩ := tick_store_slot SP mem k p
  rw [b1, b4] at a5
  exact ⟨a1.trans b5, a3.trans b6, a5⟩

/-- A tick under the priority strategy keeps the queues in agreement with the
process table, provided the interrupted process is not Ready (it is Running,
or Unused when it has just killed itself); the selected process is Running
afterwards. -/
theorem TIMER2_COMPA_vect_dprr_inv (SP : Nat) (mem : Nat → Nat) (k k1 : Kernel)
    (hinv : dprr_inv k) (hcur : (k.os_processes k.currentProc).state ≠ OS_PS_READY)
    (h : TIMER2_COMPA_vect SP mem k = .ok k1) :
    dprr_inv k1 ∧ (k1.os_processes k1.currentProc).state = OS_PS_RUNNING := by
  obtain ⟨hs, hwf, hcnt, hmem, hrdy, hlvl⟩ := hinv
  obtain ⟨hc8, hc8', hsel⟩ := TIMER2_COMPA_vect_ok SP mem k k1 h
  obtain ⟨fstrat, _, _, _, fslot⟩ := TIMER2_COMPA_vect_frame SP mem k k1 h
  have hcur_notin : k.currentProc ∉ rq_all k := fun hm => hcur (hmem _ hm).2
  have hlen : (rq_all k).length ≤ 7 :=
    pids_length_le _ k.currentProc hc8 hcnt (fun y hy => (hmem y hy).1) hcur_notin
  obtain ⟨hwf1, htup⟩ := os_selectNext_dprr (tick_storeChecksum mem (tick_storeSP SP k)) k1
    hs hwf hlen hsel
  have e1 : (tick_storeChecksum mem (tick_storeSP SP k)).schedulingInfo = k.schedulingInfo := rfl
  have e2 : (tick_storeChecksum mem (tick_storeSP SP k)).currentProc = k.currentProc := rfl
  obtain ⟨_, _, _, e3, _, e4, _⟩ := tick_store_slot SP mem k k.currentProc
  rw [e1, e2, e3, e4] at htup
  generalize hrq : (if k.currentProc ≠ 0 ∧ (k.os_processes k.currentProc).state ≠ OS_PS_UNUSED
      then some (k.os_processes k.currentProc).priority else none) = rq at htup
  generalize hH : rq_contents (k.schedulingInfo.queues_ready OS_PRIO_HIGH) = H at htup
  generalize hN : rq_contents (k.schedulingInfo.queues_ready OS_PRIO_NORMAL) = N at htup
  generalize hL : rq_contents (k.schedulingInfo.queues_ready OS_PRIO_LOW) = L at htup
  have hcount := dprr_abs_count H N L rq k.currentProc
  have hmemA := dprr_abs_mem H N L rq k.currentProc
  generalize hA : dprr_abs H N L rq k.currentProc = A at htup hcount hmemA
  obtain ⟨t1, t23⟩ := Prod.mk.inj htup
  have t2 : A.2 = (rq_contents (k1.schedulingInfo.queues_ready OS_PRIO_HIGH),
      rq_contents (k1.schedulingInfo.queues_ready OS_PRIO_NORMAL),
      rq_contents (k1.schedulingInfo.queues_ready OS_PRIO_LOW)) := t23.symm
  have tH : A.2.1 = rq_contents (k1.schedulingInfo.queues_ready OS_PRIO_HIGH) := by rw [t2]
  have tN : A.2.2.1 = rq_contents (k1.schedulingInfo.queues_ready OS_PRIO_NORMAL) := by rw [t2]
  have tL : A.2.2.2 = rq_contents (k1.schedulingInfo.queues_ready OS_PRIO_LOW) := by rw [t2]
  rw [tH, tN, tL] at hcount hmemA
  have hall : ∀ y, (rq_all k).count y = H.count y + N.count y + L.count y := by
    intro y; rw [rq_all_count, hH, hN, hL]
  have hrq_cur : rq ≠ none → k.currentProc ≠ 0 ∧
      (k.os_processes k.currentProc).state = OS_PS_RUNNING ∧
      rq = some (k.os_processes k.currentProc).priority := by
    intro hne
    rw [← hrq] at hne ⊢
    by_cases hq : k.currentProc ≠ 0 ∧ (k.os_processes k.currentProc).state ≠ OS_PS_UNUSED
    · rw [if_pos hq]
      refine ⟨hq.1, ?_, rfl⟩
      cases hst : (k.os_processes k.currentProc).state
      · exact absurd hst hq.2
      · exact absurd hst hcur
      · rfl
    · rw [if_neg hq] at hne
      exact absurd rfl hne
  have hrq_some : k.currentProc ≠ 0 → (k.os_processes k.currentProc).state = OS_PS_RUNNING →
      rq ≠ none := by
    intro h0 hr
    rw [← hrq, if_pos ⟨h0, by rw [hr]; decide⟩]
    exact fun h => by cases h
  -- the selected pid
  have hsel8 : A.1 < 8 := by
    by_cases hne : H ≠ [] ∨ N ≠ [] ∨ L ≠ [] ∨ rq ≠ none
    · have hc := hcount A.1
      rw [if_pos ⟨hne, rfl⟩] at hc
      by_cases hy : rq ≠ none ∧ A.1 = k.currentProc
      · rw [hy.2]; exact hc8
      · rw [if_neg hy] at hc
        have : 0 < (rq_all k).count A.1 := by rw [hall]; omega
        exact (hmem _ (List.count_pos_iff.mp this)).1
    · have h1 : H = [] := by by_contra hh; exact hne (Or.inl hh)
      have h2 : N = [] := by by_contra hh; exact hne (Or.inr (Or.inl hh))
      have h3 : L = [] := by by_contra hh; exact hne (Or.inr (Or.inr (Or.inl hh)))
      have h4 : rq = none := by by_contra hh; exact hne (Or.inr (Or.inr (Or.inr hh)))
      rw [← hA, h1, h2, h3, h4, dprr_abs_idle]
      decide
  have hcur1 : k1.currentProc = A.1 := by
    rw [t1, if_neg (by unfold INVALID_PROCESS; omega)]
  have hcnt1 : ∀ y, (rq_all k1).count y
      + (if (H ≠ [] ∨ N ≠ [] ∨ L ≠ [] ∨ rq ≠ none) ∧ y = k1.currentProc then 1 else 0)
      = (rq_all k).count y + (if rq ≠ none ∧ y = k.currentProc then 1 else 0) := by
    intro y
    rw [rq_all_count, hall, hcur1]
    exact hcount y
  have hext : ∀ y, (rq_all k).count y + (if rq ≠ none ∧ y = k.currentProc then 1 else 0) ≤ 1 := by
    intro y
    by_cases hy : rq ≠ none ∧ y = k.currentProc
    · rw [if_pos hy, hy.2, List.count_eq_zero_of_not_mem hcur_notin]
    · rw [if_neg hy]
      exact hcnt y
  have hin1 : ∀ y, y ∈ rq_all k1 → y ≠ k1.currentProc ∧
      (y ∈ rq_all k ∨ (rq ≠ none ∧ y = k.currentProc)) := by
    intro y hy
    have hpos : 0 < (rq_all k1).count y := List.count_pos_iff.mpr hy
    have hc := hcnt1 y
    have he := hext y
    have hne : H ≠ [] ∨ N ≠ [] ∨ L ≠ [] ∨ rq ≠ none := by
      by_contra hh
      have h1 : H = [] := by by_contra h; exact hh (Or.inl h)
      have h2 : N = [] := by by_contra h; exact hh (Or.inr (Or.inl h))
      have h3 : L = [] := by by_contra h; exact hh (Or.inr (Or.inr (Or.inl h)))
      have h4 : rq = none := by by_contra h; exact hh (Or.inr (Or.inr (Or.inr h)))
      have := hall y
      rw [h1, h2, h3] at this
      rw [if_neg (fun (h : rq ≠ none ∧ y = k.currentProc) => h.1 h4)] at hc
      simp at this
      omega
    constructor
    · intro hyc
      rw [if_pos ⟨hne, hyc⟩] at hc
      omega
    · by_cases hy2 : rq ≠ none ∧ y = k.currentProc
      · exact Or.inr hy2
      · rw [if_neg hy2] at hc
        exact Or.inl (List.count_pos_iff.mp (by omega))
  have hin2 : ∀ y, y ≠ k1.currentProc →
      (y ∈ rq_all k ∨ (rq ≠ none ∧ y = k.currentProc)) → y ∈ rq_all k1 := by
    intro y hyc hy
    have hc := hcnt1 y
    rw [if_neg (fun h => hyc h.2)] at hc
    apply List.count_pos_iff.mp
    rcases hy with hy | hy
    · have := List.count_pos_iff.mpr hy
      omega
    · rw [if_pos hy] at hc
      omega
  refine ⟨⟨fstrat.trans hs, hwf1, ?_, ?_, ?_, ?_⟩, ?_⟩
  · intro y
    have hc := hcnt1 y
    have he := hext y
    omega
  · intro y hy
    obtain ⟨hyc, hfrom⟩ := hin1 y hy
    obtain ⟨_, _, fst⟩ := fslot y
    rw [fst, if_neg hyc]
    rcases hfrom with hfrom | ⟨hq, hyk⟩
    · obtain ⟨h8, hr⟩ := hmem y hfrom
      refine ⟨h8, ?_⟩
      have hyk : y ≠ k.currentProc := fun h => hcur_notin (h ▸ hfrom)
      rw [if_neg (fun h => hyk h.1)]
      exact hr
    · obtain ⟨_, hrun, _⟩ := hrq_cur hq
      rw [hyk]
      exact ⟨hc8, by rw [if_pos ⟨rfl, hrun⟩]⟩
  · intro y h1 h8 hr
    obtain ⟨_, _, fst⟩ := fslot y
    rw [fst] at hr
    by_cases hyc : y = k1.currentProc
    · rw [if_pos hyc] at hr
      cases hr
    · rw [if_neg hyc] at hr
      apply hin2 y hyc
      by_cases hyk : y = k.currentProc ∧ (k.os_processes y).state = OS_PS_RUNNING
      · exact Or.inr ⟨hrq_some (by rw [← hyk.1]; omega) (by rw [← hyk.1]; exact hyk.2), hyk.1⟩
      · rw [if_neg hyk] at hr
        exact Or.inl (hrdy y h1 h8 hr)
  · intro p y hy
    obtain ⟨_, fpr, _⟩ := fslot y
    rw [fpr]
    have hlvlH := hlvl OS_PRIO_HIGH y
    have hlvlN := hlvl OS_PRIO_NORMAL y
    have hlvlL := hlvl OS_PRIO_LOW y
    rw [hH] at hlvlH
    rw [hN] at hlvlN
    rw [hL] at hlvlL
    obtain ⟨m1, m2, m3⟩ := hmemA y
    have e0 : priority_value OS_PRIO_HIGH = 0 := rfl
    have e1 : priority_value OS_PRIO_NORMAL = 1 := rfl
    have e2 : priority_value OS_PRIO_LOW = 2 := rfl
    cases p
    · rw [e0]; exact Nat.zero_le _
    · rcases m2 hy with hm | hm | ⟨hq, hyk⟩
      · exact hlvlN hm
      · have := hlvlL hm
        rw [e2] at this
        rw [e1]
        omega
      · obtain ⟨_, _, hqq⟩ := hrq_cur (by rw [hq]; exact fun h => by cases h)
        rw [hq] at hqq
        have := Option.some.inj hqq
        rw [hyk, ← this]
    · rcases m3 hy with hm | ⟨hq, hyk⟩
      · exact hlvlL hm
      · obtain ⟨_, _, hqq⟩ := hrq_cur (by rw [hq]; exact fun h => by cases h)
        rw [hq] at hqq
        have := Option.some.inj hqq
        rw [hyk, ← this]
  · obtain ⟨_, _, fst⟩ := fslot k1.currentProc
    rw [fst, if_pos rfl]

/-- What the unwinding loop of `os_kill` leaves alone; the depth is 0 after
it. -/
theorem os_kill_loop_frame : ∀ (fuel : Nat) (k k1 : Kernel), os_kill_loop fuel k = .ok k1 →
    k1.os_processes = k.os_processes ∧ k1.currentProc = k.currentProc ∧
    k1.currSchedStrat = k.currSchedStrat ∧ k1.schedulingInfo = k.schedulingInfo ∧
    k1.os_programs = k.os_programs ∧ k1.os_autostart = k.os_autostart ∧
    k1.criticalSectionCount = 0 := by
  intro fuel
  induction fuel with
  | zero => intro k k1 h; unfold os_kill_loop at h; cases h
  | succ n ih =>
    intro k k1 h
    unfold os_kill_loop at h
    by_cases hc : k.criticalSectionCount > 0
    · rw [if_pos hc] at h
      cases hl : os_leaveCriticalSection k with
      | error e => rw [hl] at h; cases h
      | ok kL =>
        rw [hl] at h
        dsimp only at h
        obtain ⟨l1, l2, l3, l4, l5, l6⟩ := os_leaveCriticalSection_frame k kL hl
        obtain ⟨i1, i2, i3, i4, i5, i6, i7⟩ := ih kL k1 h
        exact ⟨i1.trans l1, i2.trans l2, i3.trans l3, i4.trans l4, i5.trans l5, i6.trans l6, i7⟩
    · rw [if_neg hc] at h
      have := Except.ok.inj h
      subst this
      exact ⟨rfl, rfl, rfl, rfl, rfl, rfl, by omega⟩

/-- A returned `os_kill`: it refuses the call and leaves table and queues
alone; or it marks the slot of another process Unused and tells the strategy;
or the current process kills itself, and after the same two steps the tick
hands the processor over. -/
theorem os_kill_inv (pid SP : Nat) (mem : Nat → Nat) (k k1 : Kernel) (res : Option Bool)
    (h : os_kill pid SP mem k = .ok (res, k1)) :
    (res = some false ∧ (pid ≥ 8 ∨ pid = 0 ∨ (k.os_processes pid).state = OS_PS_UNUSED) ∧
      k1.os_processes = k.os_processes ∧ k1.schedulingInfo = k.schedulingInfo ∧
      k1.currentProc = k.currentProc ∧ k1.currSchedStrat = k.currSchedStrat ∧
      k1.os_programs = k.os_programs ∧ k1.os_autostart = k.os_autostart) ∨
    (1 ≤ pid ∧ pid < 8 ∧ (k.os_processes pid).state ≠ OS_PS_UNUSED ∧
      ∃ kmid kres, kmid.os_processes = write k.os_processes pid
          { (k.os_processes pid) with state := OS_PS_UNUSED } ∧
        kmid.schedulingInfo = k.schedulingInfo ∧
        os_resetProcessSchedulingInformation k.currSchedStrat pid kmid = .ok kres ∧
        kres.os_processes = kmid.os_processes ∧
        ((res = some true ∧ pid ≠ k.currentProc ∧
          k1.os_processes = kmid.os_processes ∧ k1.schedulingInfo = kres.schedulingInfo ∧
          k1.currentProc = k.currentProc ∧ k1.currSchedStrat = k.currSchedStrat ∧
          k1.os_programs = k.os_programs ∧ k1.os_autostart = k.os_autostart) ∨
         (res = none ∧ pid = k.currentProc ∧
          ∃ kT, kT.os_processes = kmid.os_processes ∧ kT.schedulingInfo = kres.schedulingInfo ∧
            kT.currentProc = k.currentProc ∧ kT.currSchedStrat = k.currSchedStrat ∧
            kT.os_programs = k.os_programs ∧ kT.os_autostart = k.os_autostart ∧
            kT.criticalSectionCount = 0 ∧
            TIMER2_COMPA_vect SP mem kT = .ok k1))) := by
  unfold os_kill at h
  by_cases hp : pid ≥ MAX_NUMBER_OF_PROCESSES ∨ pid = 0
  · rw [if_pos hp] at h
    obtain ⟨r1, r2⟩ := Prod.mk.inj (Except.ok.inj h)
    subst r2
    refine Or.inl ⟨r1.symm, ?_, rfl, rfl, rfl, rfl, rfl, rfl⟩
    unfold MAX_NUMBER_OF_PROCESSES at hp
    rcases hp with hp | hp
    · exact Or.inl hp
    · exact Or.inr (Or.inl hp)
  · rw [if_neg hp] at h
    have hp1 : 1 ≤ pid ∧ pid < 8 := by unfold MAX_NUMBER_OF_PROCESSES at hp; omega
    cases he : os_enterCriticalSection k with
    | error e => rw [he] at h; cases h
    | ok kE =>
      rw [he] at h
      dsimp only at h
      obtain ⟨e1, e2, e3, e4, e5, e6⟩ := os_enterCriticalSection_frame k kE he
      by_cases hu : (k.os_processes pid).state = OS_PS_UNUSED
      · rw [e1, if_pos hu] at h
        cases hl : os_leaveCriticalSection kE with
        | error e => rw [hl] at h; cases h
        | ok kL =>
          rw [hl] at h
          obtain ⟨l1, l2, l3, l4, l5, l6⟩ := os_leaveCriticalSection_frame kE kL hl
          obtain ⟨r1, r2⟩ := Prod.mk.inj (Except.ok.inj h)
          subst r2
          exact Or.inl ⟨r1.symm, Or.inr (Or.inr hu), l1.trans e1, l4.trans e4, l2.trans e2,
            l3.trans e3, l5.trans e5, l6.trans e6⟩
      · have hu1 : ¬ (kE.os_processes pid).state = OS_PS_UNUSED := by rw [e1]; exact hu
        rw [if_neg hu1] at h
        generalize hkm : ({ kE with os_processes := (write kE.os_processes pid
            { (kE.os_processes pid) with state := OS_PS_UNUSED }) } : Kernel) = kmid at h
        have m1 : kmid.os_processes = write k.os_processes pid
            { (k.os_processes pid) with state := OS_PS_UNUSED } := by rw [← hkm, ← e1]
        have m2 : kmid.schedulingInfo = k.schedulingInfo := by rw [← hkm]; exact e4
        have m3 : kmid.currentProc = k.currentProc := by rw [← hkm]; exact e2
        have m4 : kmid.currSchedStrat = k.currSchedStrat := by rw [← hkm]; exact e3
        have m5 : kmid.os_programs = k.os_programs := by rw [← hkm]; exact e5
        have m6 : kmid.os_autostart = k.os_autostart := by rw [← hkm]; exact e6
        rw [e3] at h
        cases hr : os_resetProcessSchedulingInformation k.currSchedStrat pid kmid with
        | error e => rw [hr] at h; cases h
        | ok kres =>
          rw [hr] at h
          dsimp only at h
          obtain ⟨q1, q2, q3, q4, q5, _⟩ := os_resetProcessSchedulingInformation_frame _ _ _ _ hr
          refine Or.inr ⟨hp1.1, hp1.2, hu, kmid, kres, m1, m2, hr, q1, ?_⟩
          by_cases hc : pid = kres.currentProc
          · rw [if_pos hc] at h
            cases hk : os_kill_loop 256 kres with
            | error e => rw [hk] at h; cases h
            | ok kU =>
              rw [hk] at h
              dsimp only at h
              obtain ⟨u1, u2, u3, u4, u5, u6, u7⟩ := os_kill_loop_frame 256 kres kU hk
              unfold os_yield at h
              have hz : ¬ ({ kU with SREG_I := true } : Kernel).criticalSectionCount > 0 := by
                dsimp only; omega
              rw [if_neg hz] at h
              cases ht : TIMER2_COMPA_vect SP mem
                  { ({ kU with SREG_I := true } : Kernel) with SREG_I := false } with
              | error e => rw [ht] at h; cases h
              | ok kN =>
                rw [ht] at h
                obtain ⟨r1, r2⟩ := Prod.mk.inj (Except.ok.inj h)
                subst r2
                refine Or.inr ⟨r1.symm, by rw [hc, q2, m3], _, ?_, ?_, ?_, ?_, ?_, ?_, ?_, ht⟩
                · exact u1.trans q1
                · exact u4
                · exact (u2.trans q2).trans m3
                · exact (u3.trans q3).trans m4
                · exact (u5.trans q4).trans m5
                · exact (u6.trans q5).trans m6
                · exact u7
          · rw [if_neg hc] at h
            cases hl : os_leaveCriticalSection kres with
            | error e => rw [hl] at h; cases h
            | ok kL =>
              rw [hl] at h
              obtain ⟨l1, l2, l3, l4, l5, l6⟩ := os_leaveCriticalSection_frame kres kL hl
              obtain ⟨r1, r2⟩ := Prod.mk.inj (Except.ok.inj h)
              subst r2
              refine Or.inl ⟨r1.symm, by rw [← m3, ← q2]; exact hc, l1.trans q1, l4,
                (l2.trans q2).trans m3, (l3.trans q3).trans m4, (l5.trans q4).trans m5,
                (l6.trans q5).trans m6⟩

/-- The loop of `os_resetSchedulingInformation` on well-formed queues with
room for every pid still to be visited: each queue receives, in order, the
Ready pids of its priority. -/
theorem os_resetSchedulingInformation_loop_spec (k : Kernel) :
    ∀ (pids : List Nat) (info : scheduling_information_t),
      (∀ p, rq_wf (info.queues_ready p)) →
      (∀ p, (rq_contents (info.queues_ready p)).length + pids.length ≤ 8) →
      ∃ info1, os_resetSchedulingInformation_loop k pids info = .ok info1 ∧
        (∀ p, rq_wf (info1.queues_ready p)) ∧
        (∀ p, rq_contents (info1.queues_ready p)
          = rq_contents (info.queues_ready p)
            ++ pids.filter (fun pid => decide ((k.os_processes pid).state = OS_PS_READY
                ∧ (k.os_processes pid).priority = p))) := by
  intro pids
  induction pids with
  | nil =>
    intro info hwf _
    exact ⟨info, rfl, hwf, fun p => by simp⟩
  | cons pid rest ih =>
    intro info hwf hlen
    unfold os_resetSchedulingInformation_loop os_getProcessSlot
    by_cases hr : (k.os_processes pid).state = OS_PS_READY
    · rw [if_pos hr]
      have hl := hlen (k.os_processes pid).priority
      simp only [List.length_cons] at hl
      obtain ⟨q, hp, hwq, hcq⟩ := rq_push_contents (info.queues_ready (k.os_processes pid).priority)
        pid (hwf _) (by omega)
      rw [hp]
      dsimp only
      obtain ⟨info1, h1, hw1, hc1⟩ := ih (set_queue info (k.os_processes pid).priority q)
        (by
          intro p
          by_cases hpp : p = (k.os_processes pid).priority
          · rw [hpp, set_queue_same]; exact hwq
          · rw [set_queue_other _ _ _ _ hpp]; exact hwf p)
        (by
          intro p
          have hl2 := hlen p
          simp only [List.length_cons] at hl2
          by_cases hpp : p = (k.os_processes pid).priority
          · rw [hpp, set_queue_same, hcq, List.length_append]
            simp only [List.length_singleton]
            omega
          · rw [set_queue_other _ _ _ _ hpp]; omega)
      refine ⟨info1, h1, hw1, fun p => ?_⟩
      rw [hc1 p]
      by_cases hpp : p = (k.os_processes pid).priority
      · rw [hpp, set_queue_same, hcq, List.filter_cons_of_pos (by simp [hr])]
        simp
      · rw [set_queue_other _ _ _ _ hpp, List.filter_cons_of_neg (by
          simp only [decide_eq_true_eq, not_and]
          exact fun _ h => hpp h.symm)]
    · rw [if_neg hr]
      obtain ⟨info1, h1, hw1, hc1⟩ := ih info hwf (by
        intro p
        have hl2 := hlen p
        simp only [List.length_cons] at hl2
        omega)
      refine ⟨info1, h1, hw1, fun p => ?_⟩
      rw [hc1 p, List.filter_cons_of_neg (by simp [hr])]

/-- Function `os_setSchedulingStrategy` for the priority strategy: it ends
without fatal error whatever the queues held, and the queue of each level
then holds the Ready pids of 1..7 with that priority, in ascending order. -/
theorem os_setSchedulingStrategy_dprr (k : Kernel) :
    ∃ info, os_setSchedulingStrategy OS_SS_DYNAMIC_PRIORITY_ROUND_ROBIN k
        = .ok { k with schedulingInfo := info
                       currSchedStrat := OS_SS_DYNAMIC_PRIORITY_ROUND_ROBIN } ∧
      (∀ p, rq_wf (info.queues_ready p)) ∧
      (∀ p, rq_contents (info.queues_ready p)
        = (List.range' 1 7).filter (fun pid => decide ((k.os_processes pid).state = OS_PS_READY
            ∧ (k.os_processes pid).priority = p))) := by
  obtain ⟨info1, h1, hw1, hc1⟩ := os_resetSchedulingInformation_loop_spec k (List.range' 1 7)
    { queues_ready := fun p => rq_clear (k.schedulingInfo.queues_ready p) }
    (fun p => rq_clear_wf _) (fun p => by
      dsimp only
      rw [rq_clear_contents]
      simp)
  refine ⟨info1, ?_, hw1, fun p => ?_⟩
  · unfold os_setSchedulingStrategy os_resetSchedulingInformation
    rw [if_pos rfl]
    dsimp only
    have e : MAX_NUMBER_OF_PROCESSES - 1 = 7 := rfl
    rw [e, h1]
  · rw [hc1 p]
    dsimp only
    rw [rq_clear_contents, List.nil_append]

/-- Function `os_setSchedulingStrategy` for round-robin. -/
theorem os_setSchedulingStrategy_rr (k : Kernel) :
    os_setSchedulingStrategy OS_SS_ROUND_ROBIN k
      = .ok { k with currSchedStrat := OS_SS_ROUND_ROBIN } := by
  unfold os_setSchedulingStrategy os_resetSchedulingInformation
  rw [if_neg (by decide)]

/-- What `os_setSchedulingStrategy` leaves alone. -/
theorem os_setSchedulingStrategy_frame (strategy : scheduling_strategy_t) (k k1 : Kernel)
    (h : os_setSchedulingStrategy strategy k = .ok k1) :
    k1.os_processes = k.os_processes ∧ k1.currentProc = k.currentProc ∧
    k1.currSchedStrat = strategy ∧ k1.os_programs = k.os_programs ∧
    k1.os_autostart = k.os_autostart ∧ k1.criticalSectionCount = k.criticalSectionCount := by
  cases strategy
  · rw [os_setSchedulingStrategy_rr] at h
    have := Except.ok.inj h
    subst this
    exact ⟨rfl, rfl, rfl, rfl, rfl, rfl⟩
  · obtain ⟨info, h1, _⟩ := os_setSchedulingStrategy_dprr k
    rw [h1] at h
    have := Except.ok.inj h
    subst this
    exact ⟨rfl, rfl, rfl, rfl, rfl, rfl⟩

/-- The three filters of the ready pids by priority count each Ready pid
once. -/
theorem count_filter_priority (processes : Nat → process_t) (y : Nat) :
    ∀ (pids : List Nat),
      (pids.filter (fun pid => decide ((processes pid).state = OS_PS_READY
          ∧ (processes pid).priority = OS_PRIO_HIGH))).count y
      + (pids.filter (fun pid => decide ((processes pid).state = OS_PS_READY
          ∧ (processes pid).priority = OS_PRIO_NORMAL))).count y
      + (pids.filter (fun pid => decide ((processes pid).state = OS_PS_READY
          ∧ (processes pid).priority = OS_PRIO_LOW))).count y
      = (pids.filter (fun pid => decide ((processes pid).state = OS_PS_READY))).count y := by
  intro pids
  induction pids with
  | nil => rfl
  | cons x rest ih =>
    rw [List.filter_cons, List.filter_cons, List.filter_cons, List.filter_cons]
    by_cases hr : (processes x).state = OS_PS_READY
    · cases hp : (processes x).priority <;>
        simp only [hr, hp, true_and, decide_True, decide_False, if_true, if_false, reduceCtorEq,
          List.count_cons, Bool.false_eq_true] <;> omega
    · simp only [hr, false_and, decide_False, if_false, Bool.false_eq_true]
      exact ih

/-- The queues built by `os_setSchedulingStrategy` for the priority strategy
agree with the process table. -/
theorem os_setSchedulingStrategy_dprr_inv (k k1 : Kernel)
    (h : os_setSchedulingStrategy OS_SS_DYNAMIC_PRIORITY_ROUND_ROBIN k = .ok k1) :
    dprr_inv k1 ∧ k1.os_processes = k.os_processes ∧ k1.currentProc = k.currentProc := by
  obtain ⟨info, h1, hwf, hc⟩ := os_setSchedulingStrategy_dprr k
  rw [h1] at h
  have := Except.ok.inj h
  subst this
  have hcount : ∀ y, (rq_all ({ k with
      schedulingInfo := info, currSchedStrat := OS_SS_DYNAMIC_PRIORITY_ROUND_ROBIN } : Kernel)).count y
      = ((List.range' 1 7).filter
          (fun pid => decide ((k.os_processes pid).state = OS_PS_READY))).count y := by
    intro y
    rw [rq_all_count]
    dsimp only
    rw [hc, hc, hc]
    exact count_filter_priority k.os_processes y _
  have hmem : ∀ y, y ∈ rq_all ({ k with
      schedulingInfo := info, currSchedStrat := OS_SS_DYNAMIC_PRIORITY_ROUND_ROBIN } : Kernel)
      ↔ (1 ≤ y ∧ y < 8) ∧ (k.os_processes y).state = OS_PS_READY := by
    intro y
    rw [← List.count_pos_iff, hcount, List.count_pos_iff, List.mem_filter, List.mem_range']
    simp only [decide_eq_true_eq]
    constructor
    · rintro ⟨⟨i, hi, rfl⟩, hr⟩
      exact ⟨⟨by omega, by omega⟩, hr⟩
    · rintro ⟨⟨h1, h8⟩, hr⟩
      exact ⟨⟨y - 1, by omega, by omega⟩, hr⟩
  refine ⟨⟨rfl, hwf, ?_, ?_, ?_, ?_⟩, rfl, rfl⟩
  · intro y
    rw [hcount]
    exact le_trans (List.Sublist.count_le (List.filter_sublist _) y)
      (List.nodup_iff_count_le_one.mp (List.nodup_range' 1 7) y)
  · intro y hy
    obtain ⟨⟨_, h8⟩, hr⟩ := (hmem y).mp hy
    exact ⟨h8, hr⟩
  · intro y h1 h8 hr
    exact (hmem y).mpr ⟨⟨h1, h8⟩, hr⟩
  · intro p y hy
    dsimp only at hy
    rw [hc, List.mem_filter] at hy
    simp only [decide_eq_true_eq] at hy
    dsimp only
    rw [hy.2.2]

/-- The agreement of queues and table depends on the strategy, the queues and
the table only. -/
theorem dprr_inv_congr (k k1 : Kernel) (hs : k1.currSchedStrat = k.currSchedStrat)
    (hi : k1.schedulingInfo = k.schedulingInfo) (hp : k1.os_processes = k.os_processes)
    (hinv : dprr_inv k) : dprr_inv k1 := by
  unfold dprr_inv rq_all at hinv ⊢
  rw [hs, hi, hp]
  exact hinv

theorem rq_contents_count_le (k : Kernel) (p : priority_t) (y : Nat) :
    (rq_contents (k.schedulingInfo.queues_ready p)).count y ≤ (rq_all k).count y := by
  rw [rq_all_count]
  cases p <;> omega

theorem rq_contents_length_le_all (k : Kernel) (p : priority_t) :
    (rq_contents (k.schedulingInfo.queues_ready p)).length ≤ (rq_all k).length := by
  rw [rq_all_length]
  cases p <;> omega

/-- Appending a pid whose slot was Unused to the queue of its priority keeps
queues and table in agreement. -/
theorem dprr_inv_exec (k k2 : Kernel) (r : Nat) (slot : process_t) (hinv : dprr_inv k)
    (hr8 : r < 8) (hun : (k.os_processes r).state = OS_PS_UNUSED)
    (hs : k2.currSchedStrat = k.currSchedStrat)
    (hp : k2.os_processes = write k.os_processes r slot) (hst : slot.state = OS_PS_READY)
    (hwf2 : ∀ p, rq_wf (k2.schedulingInfo.queues_ready p))
    (hc : ∀ p, rq_contents (k2.schedulingInfo.queues_ready p)
      = if p = slot.priority then rq_contents (k.schedulingInfo.queues_ready p) ++ [r]
        else rq_contents (k.schedulingInfo.queues_ready p)) :
    dprr_inv k2 := by
  obtain ⟨hs0, _, hcnt, hmem, hrdy, hlvl⟩ := hinv
  have hr_notin : r ∉ rq_all k := fun hm => by
    have := (hmem r hm).2
    rw [hun] at this
    cases this
  have hcount : ∀ y, (rq_all k2).count y = (rq_all k).count y + (if y = r then 1 else 0) := by
    intro y
    rw [rq_all_count, rq_all_count, hc, hc, hc]
    cases slot.priority <;>
      simp only [if_true, if_false, reduceCtorEq, List.count_append, List.count_cons,
        List.count_nil, beq_iff_eq] <;>
      (by_cases hy : y = r
       · rw [if_pos hy, if_pos hy.symm]; omega
       · rw [if_neg hy, if_neg (fun h => hy h.symm)]; omega)
  have hmem2 : ∀ y, y ∈ rq_all k2 ↔ y ∈ rq_all k ∨ y = r := by
    intro y
    rw [← List.count_pos_iff, hcount, ← List.count_pos_iff]
    by_cases hy : y = r
    · rw [if_pos hy]
      exact ⟨fun _ => Or.inr hy, fun _ => by omega⟩
    · rw [if_neg hy]
      exact ⟨fun h => Or.inl (by omega), fun h => by
        rcases h with h | h
        · omega
        · exact absurd h hy⟩
  refine ⟨hs.trans hs0, hwf2, ?_, ?_, ?_, ?_⟩
  · intro y
    rw [hcount]
    by_cases hy : y = r
    · rw [if_pos hy, hy, List.count_eq_zero_of_not_mem hr_notin]
    · rw [if_neg hy]
      exact hcnt y
  · intro y hy
    rw [hp]
    rcases (hmem2 y).mp hy with h | h
    · have hne : y ≠ r := fun e => hr_notin (e ▸ h)
      rw [write_other _ _ _ _ hne]
      exact hmem y h
    · rw [h, write_same]
      exact ⟨hr8, hst⟩
  · intro y h1 h8 hr
    rw [hp] at hr
    by_cases hy : y = r
    · exact (hmem2 y).mpr (Or.inr hy)
    · rw [write_other _ _ _ _ hy] at hr
      exact (hmem2 y).mpr (Or.inl (hrdy y h1 h8 hr))
  · intro p y hy
    rw [hc] at hy
    rw [hp]
    by_cases hpp : p = slot.priority
    · rw [if_pos hpp, List.mem_append, List.mem_singleton] at hy
      rcases hy with h | h
      · have hne : y ≠ r := fun e => hr_notin (e ▸ (rq_all_mem k y).mpr ⟨p, h⟩)
        rw [write_other _ _ _ _ hne]
        exact hlvl p y h
      · rw [h, write_same, hpp]
    · rw [if_neg hpp] at hy
      have hne : y ≠ r := fun e => hr_notin (e ▸ (rq_all_mem k y).mpr ⟨p, hy⟩)
      rw [write_other _ _ _ _ hne]
      exact hlvl p y hy

/-- Marking a slot Unused and erasing its pid from every queue keeps queues
and table in agreement. -/
theorem dprr_inv_kill (k k2 : Kernel) (pid : Nat) (hinv : dprr_inv k)
    (hs : k2.currSchedStrat = k.currSchedStrat)
    (hp : k2.os_processes = write k.os_processes pid
      { (k.os_processes pid) with state := OS_PS_UNUSED })
    (hwf2 : ∀ p, rq_wf (k2.schedulingInfo.queues_ready p))
    (hc : ∀ p, rq_contents (k2.schedulingInfo.queues_ready p)
      = (rq_contents (k.schedulingInfo.queues_ready p)).erase pid) :
    dprr_inv k2 := by
  obtain ⟨hs0, _, hcnt, hmem, hrdy, hlvl⟩ := hinv
  have hnd : ∀ p, (rq_contents (k.schedulingInfo.queues_ready p)).Nodup := fun p =>
    List.nodup_iff_count_le_one.mpr
      (fun y => le_trans (rq_contents_count_le k p y) (hcnt y))
  have hmemp : ∀ p y, y ∈ rq_contents (k2.schedulingInfo.queues_ready p)
      ↔ y ≠ pid ∧ y ∈ rq_contents (k.schedulingInfo.queues_ready p) := by
    intro p y
    rw [hc, (hnd p).mem_erase_iff]
  have hcle : ∀ y, (rq_all k2).count y ≤ (rq_all k).count y := by
    intro y
    rw [rq_all_count, rq_all_count, hc, hc, hc]
    have h1 := List.Sublist.count_le
      (List.erase_sublist pid (rq_contents (k.schedulingInfo.queues_ready OS_PRIO_HIGH))) y
    have h2 := List.Sublist.count_le
      (List.erase_sublist pid (rq_contents (k.schedulingInfo.queues_ready OS_PRIO_NORMAL))) y
    have h3 := List.Sublist.count_le
      (List.erase_sublist pid (rq_contents (k.schedulingInfo.queues_ready OS_PRIO_LOW))) y
    omega
  have hmem2 : ∀ y, y ∈ rq_all k2 ↔ y ≠ pid ∧ y ∈ rq_all k := by
    intro y
    rw [rq_all_mem, rq_all_mem]
    constructor
    · rintro ⟨p, h⟩
      exact ⟨((hmemp p y).mp h).1, p, ((hmemp p y).mp h).2⟩
    · rintro ⟨hne, p, h⟩
      exact ⟨p, (hmemp p y).mpr ⟨hne, h⟩⟩
  refine ⟨hs.trans hs0, hwf2, fun y => le_trans (hcle y) (hcnt y), ?_, ?_, ?_⟩
  · intro y hy
    obtain ⟨hne, hin⟩ := (hmem2 y).mp hy
    rw [hp, write_other _ _ _ _ hne]
    exact hmem y hin
  · intro y h1 h8 hr
    rw [hp] at hr
    by_cases hy : y = pid
    · rw [hy, write_same] at hr
      cases hr
    · rw [write_other _ _ _ _ hy] at hr
      exact (hmem2 y).mpr ⟨hy, hrdy y h1 h8 hr⟩
  · intro p y hy
    obtain ⟨hne, hin⟩ := (hmemp p y).mp hy
    rw [hp, write_other _ _ _ _ hne]
    exact hlvl p y hin

/-- A returned `os_exec` under the priority strategy keeps queues and table
in agreement and leaves the running process Running. -/
theorem os_exec_dprr_inv (dispatcherAddress programID priority : Nat) (mem mem1 : Nat → Nat)
    (k k1 : Kernel) (r : Nat) (hinv : dprr_inv k)
    (hcur : (k.os_processes k.currentProc).state = OS_PS_RUNNING)
    (h : os_exec dispatcherAddress programID priority mem k = .ok (r, mem1, k1)) :
    dprr_inv k1 ∧ (k1.os_processes k1.currentProc).state = OS_PS_RUNNING := by
  obtain ⟨c1, c2, _, _, hcase⟩ := os_exec_inv _ _ _ _ _ _ _ _ h
  rcases hcase with ⟨_, _, hp, hi, _⟩ |
    ⟨prio, kmid, kres, _, hr8, hun, _, _, _, hproc, hmp, hmi, hreset, hsi⟩
  · exact ⟨dprr_inv_congr k k1 c2 hi hp hinv, by rw [c1, hp]; exact hcur⟩
  · have hinv0 := hinv
    obtain ⟨hs0, hwf, hcnt, hmem, _, _⟩ := hinv
    have hr_notin : r ∉ rq_all k := fun hm => by
      have := (hmem r hm).2
      rw [hun] at this
      cases this
    have hlen : (rq_all k).length ≤ 7 :=
      pids_length_le _ r hr8 hcnt (fun y hy => (hmem y hy).1) hr_notin
    have hslot : kmid.os_processes r
        = { progID := programID, state := OS_PS_READY, priority := prio
            sp := (os_exec_stack dispatcherAddress mem (PROCESS_STACK_BOTTOM r % 65536)).2
            checksum := os_getStackChecksum mem1 k1 r } := by
      rw [hmp, hproc, write_same]
    rw [hs0] at hreset
    obtain ⟨info, hr, hw1, hc1⟩ := os_resetProcessSchedulingInformation_dprr r kmid
      (by rw [hmi]; exact hwf) (by
        intro _
        rw [hmi]
        have h1 := (List.erase_sublist r
          (rq_contents (k.schedulingInfo.queues_ready (kmid.os_processes r).priority))).length_le
        have h2 := rq_contents_length_le_all k (kmid.os_processes r).priority
        omega)
    rw [hr] at hreset
    have hk := Except.ok.inj hreset
    have hinfo : k1.schedulingInfo = info := by rw [hsi, ← hk]
    have hcne : r ≠ k.currentProc := by
      intro e
      rw [← e, hun] at hcur
      cases hcur
    refine ⟨dprr_inv_exec k k1 r _ hinv0 hr8 hun c2 hproc rfl (by rw [hinfo]; exact hw1) ?_, ?_⟩
    · intro p
      rw [hinfo, hc1 p, hmi, hslot]
      dsimp only
      have herase : (rq_contents (k.schedulingInfo.queues_ready p)).erase r
          = rq_contents (k.schedulingInfo.queues_ready p) :=
        List.erase_of_not_mem (fun hm => hr_notin ((rq_all_mem k r).mpr ⟨p, hm⟩))
      rw [herase]
      by_cases hpp : p = prio
      · rw [if_pos ⟨rfl, hpp⟩, if_pos hpp]
      · rw [if_neg (fun h => hpp h.2), if_neg hpp]
    · rw [c1, hproc, write_other _ _ _ _ (fun e => hcne e.symm)]
      exact hcur

/-- A returned `os_kill` under the priority strategy keeps queues and table
in agreement; the process that runs afterwards is Running. -/
theorem os_kill_dprr_inv (pid SP : Nat) (mem : Nat → Nat) (k k1 : Kernel) (res : Option Bool)
    (hinv : dprr_inv k) (hcur : (k.os_processes k.currentProc).state = OS_PS_RUNNING)
    (h : os_kill pid SP mem k = .ok (res, k1)) :
    dprr_inv k1 ∧ (k1.os_processes k1.currentProc).state = OS_PS_RUNNING := by
  rcases os_kill_inv pid SP mem k k1 res h with
    ⟨_, _, hp, hi, hc, hs, _⟩ | ⟨_, _, hne, kmid, kres, hmp, hmi, hreset, hrp, hcase⟩
  · exact ⟨dprr_inv_congr k k1 hs hi hp hinv, by rw [hc, hp]; exact hcur⟩
  · have hinv0 := hinv
    obtain ⟨hs0, hwf, _, _, _, _⟩ := hinv
    rw [hs0] at hreset
    have hst : (kmid.os_processes pid).state = OS_PS_UNUSED := by rw [hmp, write_same]
    obtain ⟨info, hr, hw1, hc1⟩ := os_resetProcessSchedulingInformation_dprr pid kmid
      (by rw [hmi]; exact hwf) (by
        intro hrd
        rw [hst] at hrd
        cases hrd)
    rw [hr] at hreset
    have hk := Except.ok.inj hreset
    have hinfo : kres.schedulingInfo = info := by rw [← hk]
    have hcont : ∀ p, rq_contents (info.queues_ready p)
        = (rq_contents (k.schedulingInfo.queues_ready p)).erase pid := by
      intro p
      rw [hc1 p, hmi, if_neg (fun hh => by rw [hst] at hh; cases hh.1)]
    rcases hcase with ⟨_, hpc, hp1, hi1, hc1', hs1, _⟩ |
      ⟨_, hpc, kT, hpT, hiT, hcT, hsT, _, _, _, htick⟩
    · refine ⟨dprr_inv_kill k k1 pid hinv0 hs1 (hp1.trans hmp)
        (by rw [hi1, hinfo]; exact hw1) (by rw [hi1, hinfo]; exact hcont), ?_⟩
      rw [hc1', hp1, hmp, write_other _ _ _ _ (fun e => hpc e.symm)]
      exact hcur
    · have hinvT : dprr_inv kT := dprr_inv_kill k kT pid hinv0 hsT (hpT.trans hmp)
        (by rw [hiT, hinfo]; exact hw1) (by rw [hiT, hinfo]; exact hcont)
      have hcurT : (kT.os_processes kT.currentProc).state ≠ OS_PS_READY := by
        rw [hcT, ← hpc, hpT, hst]
        exact fun hh => by cases hh
      exact TIMER2_COMPA_vect_dprr_inv SP mem kT k1 hinvT hcurT htick

/-- A returned call of `os_exec` within a sequence of calls. -/
theorem os_call_exec (d programID priority : Nat) (mem : Nat → Nat) (k k2 : Kernel)
    (h : os_call (.exec d programID priority mem) k = .ok k2) :
    ∃ r mem1, os_exec d programID priority mem k = .ok (r, mem1, k2) := by
  cases he : os_exec d programID priority mem k with
  | error e => simp [os_call, he] at h
  | ok res =>
    obtain ⟨r, mem1, k3⟩ := res
    simp only [os_call, he, Except.ok.injEq] at h
    exact ⟨r, mem1, by rw [h]⟩

/-- A returned call of `os_kill` within a sequence of calls. -/
theorem os_call_kill (pid SP : Nat) (mem : Nat → Nat) (k k2 : Kernel)
    (h : os_call (.kill pid SP mem) k = .ok k2) :
    ∃ res, os_kill pid SP mem k = .ok (res, k2) := by
  cases he : os_kill pid SP mem k with
  | error e => simp [os_call, he] at h
  | ok res =>
    obtain ⟨r, k3⟩ := res
    simp only [os_call, he, Except.ok.injEq] at h
    exact ⟨r, by rw [h]⟩

/-- Every sequence of `os_exec`, `os_kill` and ticks that is not stopped by a
fatal error keeps the queues of the priority strategy in agreement with the
process table, starting from a state in which they agree and the current
process is Running. -/
theorem os_calls_dprr_inv : ∀ (calls : List KernelCall) (k k1 : Kernel),
    (∀ c, c ∈ calls → c.isExecKillTick = true) → dprr_inv k →
    (k.os_processes k.currentProc).state = OS_PS_RUNNING →
    os_calls calls k = .ok k1 →
    dprr_inv k1 ∧ (k1.os_processes k1.currentProc).state = OS_PS_RUNNING := by
  intro calls
  induction calls with
  | nil =>
    intro k k1 _ hinv hcur h
    have := Except.ok.inj h
    subst this
    exact ⟨hinv, hcur⟩
  | cons c rest ih =>
    intro k k1 hall hinv hcur h
    unfold os_calls at h
    cases hc : os_call c k with
    | error e => rw [hc] at h; cases h
    | ok k2 =>
      rw [hc] at h
      dsimp only at h
      have hstep : dprr_inv k2 ∧ (k2.os_processes k2.currentProc).state = OS_PS_RUNNING := by
        have hk := hall c (List.mem_cons_self _ _)
        cases c with
        | tick SP mem =>
          exact TIMER2_COMPA_vect_dprr_inv SP mem k k2 hinv (by rw [hcur]; decide) hc
        | yield SP mem => cases hk
        | exec d programID priority mem =>
          obtain ⟨r1, mem1, he⟩ := os_call_exec d programID priority mem k k2 hc
          exact os_exec_dprr_inv d programID priority mem mem1 k k2 r1 hinv hcur he
        | kill pid SP mem =>
          obtain ⟨res, he⟩ := os_call_kill pid SP mem k k2 hc
          exact os_kill_dprr_inv pid SP mem k k2 res hinv hcur he
        | setStrategy s => cases hk
      exact ih k2 k1 (fun c' hc' => hall c' (List.mem_cons_of_mem _ hc')) hstep.1 hstep.2 h

theorem tt_run_some (strategy : scheduling_strategy_t) (calls : List KernelCall) (k : Kernel)
    (h : tt_run strategy calls = some k) :
    ∃ k1, os_setSchedulingStrategy strategy (tt_kernel_registered OS_SS_ROUND_ROBIN) = .ok k1 ∧
      os_calls calls k1 = .ok k := by
  unfold tt_run at h
  cases h1 : os_setSchedulingStrategy strategy (tt_kernel_registered OS_SS_ROUND_ROBIN) with
  | error e => rw [h1] at h; cases h
  | ok k1 =>
    rw [h1] at h
    dsimp only at h
    cases h2 : os_calls calls k1 with
    | error e => rw [h2] at h; cases h
    | ok k2 =>
      rw [h2] at h
      exact ⟨k1, rfl, by rw [h2, Option.some.inj h]⟩

/-- Queue membership after a call of
`os_setSchedulingStrategy(OS_SS_DYNAMIC_PRIORITY_ROUND_ROBIN)` that no
interrupt cuts into: when it
is called while the current process is Running, then after every sequence of
`os_exec`, `os_kill` and ticks that is not stopped by a fatal error every pid
in 1..7 whose slot is Ready occurs exactly once in the three ready queues
taken together, and no pid whose slot is Unused or Running occurs in any
queue. -/
theorem dprr_membership_uninterrupted (k0 k1 k : Kernel) (calls : List KernelCall)
    (hrun : (k0.os_processes k0.currentProc).state = OS_PS_RUNNING)
    (hset : os_setSchedulingStrategy OS_SS_DYNAMIC_PRIORITY_ROUND_ROBIN k0 = .ok k1)
    (hcalls : ∀ c, c ∈ calls → c.isExecKillTick = true)
    (hk : os_calls calls k1 = .ok k) :
    (∀ pid, 1 ≤ pid → pid < 8 → (k.os_processes pid).state = OS_PS_READY →
      (rq_all k).count pid = 1) ∧
    (∀ pid, pid < 8 →
      (k.os_processes pid).state = OS_PS_UNUSED ∨ (k.os_processes pid).state = OS_PS_RUNNING →
      ∀ p, pid ∉ rq_contents (k.schedulingInfo.queues_ready p)) := by
  obtain ⟨hinv1, hp1, hc1⟩ := os_setSchedulingStrategy_dprr_inv k0 k1 hset
  obtain ⟨⟨_, _, hcnt, hmem, hrdy, _⟩, _⟩ := os_calls_dprr_inv calls k1 k hcalls hinv1
    (by rw [hp1, hc1]; exact hrun) hk
  constructor
  · intro pid h1 h8 hr
    have h2 := List.count_pos_iff.mpr (hrdy pid h1 h8 hr)
    have h3 := hcnt pid
    omega
  · intro pid _ hst p hin
    have := (hmem pid ((rq_all_mem k pid).mpr ⟨p, hin⟩)).2
    rw [this] at hst
    rcases hst with h | h <;> cases h

set_option maxRecDepth 100000 in
/-- The run `tt_calls` of the scheduling test as a sample: it ends with
process 1 running, process 2 Ready and held once, and the slots 3 and 4
Unused and held by no queue. -/
theorem dprr_membership_uninterrupted_sample :
    ∃ k, tt_run OS_SS_DYNAMIC_PRIORITY_ROUND_ROBIN tt_calls = some k ∧
      k.currentProc = 1 ∧ rq_all k = [2] ∧
      (∀ pid, 1 ≤ pid → pid < 8 → (k.os_processes pid).state = OS_PS_READY →
        (rq_all k).count pid = 1) ∧
      (∀ pid, pid < 8 →
        (k.os_processes pid).state = OS_PS_UNUSED ∨ (k.os_processes pid).state = OS_PS_RUNNING →
        ∀ p, pid ∉ rq_contents (k.schedulingInfo.queues_ready p)) := by
  have h : ∃ k, tt_run OS_SS_DYNAMIC_PRIORITY_ROUND_ROBIN tt_calls = some k ∧
      k.currentProc = 1 ∧ rq_all k = [2] := ⟨_, rfl, by decide, by decide⟩
  obtain ⟨k, hk, h1, h2⟩ := h
  obtain ⟨k1, hset, hcalls⟩ := tt_run_some _ _ k hk
  exact ⟨k, hk, h1, h2,
    dprr_membership_uninterrupted (tt_kernel_registered OS_SS_ROUND_ROBIN) k1 k tt_calls (by decide) hset
      (by decide) hcalls⟩

/-- C13 (as amended): when
`os_setSchedulingStrategy(OS_SS_DYNAMIC_PRIORITY_ROUND_ROBIN)` is called while
the current process is Running and runs to its end with no interrupt in
between, then after every sequence of `os_exec`,
`os_kill` and ticks that is not stopped by a fatal error a ready queue that
holds a pid has the level of the slot's priority field or a higher level: the
aging step moves a pid to the next higher queue and leaves the priority field
alone. -/
theorem C13_dprr_level (k0 k1 k : Kernel) (calls : List KernelCall)
    (hrun : (k0.os_processes k0.currentProc).state = OS_PS_RUNNING)
    (hset : os_setSchedulingStrategy OS_SS_DYNAMIC_PRIORITY_ROUND_ROBIN k0 = .ok k1)
    (hcalls : ∀ c, c ∈ calls → c.isExecKillTick = true)
    (hk : os_calls calls k1 = .ok k) :
    (∀ p pid, pid ∈ rq_contents (k.schedulingInfo.queues_ready p) →
      priority_value p ≤ priority_value (k.os_processes pid).priority) ∧
    (∀ p pid, pid ∈ rq_contents (k1.schedulingInfo.queues_ready p) →
      p = (k1.os_processes pid).priority) := by
  obtain ⟨hinv1, hp1, hc1⟩ := os_setSchedulingStrategy_dprr_inv k0 k1 hset
  obtain ⟨⟨_, _, _, _, _, hlvl⟩, _⟩ := os_calls_dprr_inv calls k1 k hcalls hinv1
    (by rw [hp1, hc1]; exact hrun) hk
  refine ⟨hlvl, ?_⟩
  intro p pid hin
  obtain ⟨info, h1, _, hc⟩ := os_setSchedulingStrategy_dprr k0
  rw [h1] at hset
  have := Except.ok.inj hset
  subst this
  dsimp only at hin ⊢
  rw [hc, List.mem_filter] at hin
  simp only [decide_eq_true_eq] at hin
  exact hin.2.2.symm

set_option maxRecDepth 100000 in
/-- Counterexample to C13 as stated: after the first tick of the scheduling
test under the priority strategy process 3 is Ready with priority Low and is
held by the queue of level Normal, not by the queue of level Low. -/
theorem C13_dprr_level_counterexample :
    ∃ k, tt_run OS_SS_DYNAMIC_PRIORITY_ROUND_ROBIN
        [.tick (PROCESS_STACK_BOTTOM 1 - 72) (fun _ => 0)] = some k ∧
      (k.os_processes 3).state = OS_PS_READY ∧ (k.os_processes 3).priority = OS_PRIO_LOW ∧
      3 ∈ rq_contents (k.schedulingInfo.queues_ready OS_PRIO_NORMAL) ∧
      3 ∉ rq_contents (k.schedulingInfo.queues_ready OS_PRIO_LOW) ∧
      ¬ (∀ p, 3 ∈ rq_contents (k.schedulingInfo.queues_ready p) →
          p = (k.os_processes 3).priority) := by
  refine ⟨_, rfl, by decide, by decide, by decide, by decide, ?_⟩
  intro h
  have h1 := h OS_PRIO_NORMAL (by decide)
  revert h1
  decide

set_option maxRecDepth 100000 in
/-- Witness of C13: after the run `tt_calls` of the scheduling test process 2,
whose priority is Normal, is held by the queue of level High. -/
theorem C13_dprr_level_witness :
    ∃ k, tt_run OS_SS_DYNAMIC_PRIORITY_ROUND_ROBIN tt_calls = some k ∧
      rq_contents (k.schedulingInfo.queues_ready OS_PRIO_HIGH) = [2] ∧
      (k.os_processes 2).priority = OS_PRIO_NORMAL ∧
      (∀ p pid, pid ∈ rq_contents (k.schedulingInfo.queues_ready p) →
        priority_value p ≤ priority_value (k.os_processes pid).priority) := by
  have h : ∃ k, tt_run OS_SS_DYNAMIC_PRIORITY_ROUND_ROBIN tt_calls = some k ∧
      rq_contents (k.schedulingInfo.queues_ready OS_PRIO_HIGH) = [2] ∧
      (k.os_processes 2).priority = OS_PRIO_NORMAL := ⟨_, rfl, by decide, by decide⟩
  obtain ⟨k, hk, h1, h2⟩ := h
  obtain ⟨k1, hset, hcalls⟩ := tt_run_some _ _ k hk
  exact ⟨k, hk, h1, h2,
    (C13_dprr_level (tt_kernel_registered OS_SS_ROUND_ROBIN) k1 k tt_calls (by decide) hset
      (by decide) hcalls).1⟩

/-- A tick keeps the idle slot. -/
theorem TIMER2_COMPA_vect_idle (SP : Nat) (mem : Nat → Nat) (k k1 : Kernel) (hidle : idle_ok k)
    (h : TIMER2_COMPA_vect SP mem k = .ok k1) : idle_ok k1 := by
  obtain ⟨_, _, _, _, fslot⟩ := TIMER2_COMPA_vect_frame SP mem k k1 h
  obtain ⟨f1, _, f3⟩ := fslot 0
  refine ⟨?_, f1.trans hidle.2⟩
  rw [f3]
  by_cases h0 : 0 = k1.currentProc
  · rw [if_pos h0]; exact Or.inr rfl
  · rw [if_neg h0]
    by_cases h1 : 0 = k.currentProc ∧ (k.os_processes 0).state = OS_PS_RUNNING
    · rw [if_pos h1]; exact Or.inl rfl
    · rw [if_neg h1]; exact hidle.1

/-- After a tick exactly one slot is Running, the one of the selected
process, provided no slot other than the one of the interrupted process was
Running before. -/
theorem TIMER2_COMPA_vect_running (SP : Nat) (mem : Nat → Nat) (k k1 : Kernel)
    (hrun : ∀ pid, pid < 8 → (k.os_processes pid).state = OS_PS_RUNNING → pid = k.currentProc)
    (h : TIMER2_COMPA_vect SP mem k = .ok k1) : single_running k1 := by
  obtain ⟨_, hc8, _⟩ := TIMER2_COMPA_vect_ok SP mem k k1 h
  obtain ⟨_, _, _, _, fslot⟩ := TIMER2_COMPA_vect_frame SP mem k k1 h
  refine ⟨hc8, ?_, ?_⟩
  · rw [(fslot k1.currentProc).2.2, if_pos rfl]
  · intro pid h8 hr
    rw [(fslot pid).2.2] at hr
    by_contra hne
    rw [if_neg hne] at hr
    by_cases h1 : pid = k.currentProc ∧ (k.os_processes pid).state = OS_PS_RUNNING
    · rw [if_pos h1] at hr; cases hr
    · rw [if_neg h1] at hr
      exact h1 ⟨hrun pid h8 hr, hr⟩

/-- A returned `os_exec` keeps the idle slot, and leaves every Running state
as it is. -/
theorem os_exec_slots (dispatcherAddress programID priority : Nat) (mem mem1 : Nat → Nat)
    (k k1 : Kernel) (r : Nat)
    (h : os_exec dispatcherAddress programID priority mem k = .ok (r, mem1, k1)) :
    k1.currentProc = k.currentProc ∧ (idle_ok k → idle_ok k1) ∧
    (∀ pid, (k1.os_processes pid).state = OS_PS_RUNNING ↔
      (k.os_processes pid).state = OS_PS_RUNNING) := by
  obtain ⟨c1, _, _, _, hcase⟩ := os_exec_inv _ _ _ _ _ _ _ _ h
  rcases hcase with ⟨_, _, hp, _⟩ | ⟨prio, kmid, kres, _, _, hun, _, _, _, hproc, _⟩
  · refine ⟨c1, fun hi => ?_, fun pid => by rw [hp]⟩
    unfold idle_ok at hi ⊢
    rw [hp]
    exact hi
  · refine ⟨c1, fun hi => ?_, fun pid => ?_⟩
    · have hne : (0 : Nat) ≠ r := by
        intro e
        rw [← e] at hun
        rcases hi.1 with h0 | h0 <;> rw [hun] at h0 <;> cases h0
      unfold idle_ok at hi ⊢
      rw [hproc, write_other _ _ _ _ hne]
      exact hi
    · rw [hproc]
      by_cases hp : pid = r
      · rw [hp, write_same, hun]
        exact ⟨fun hh => (by cases hh), fun hh => (by cases hh)⟩
      · rw [write_other _ _ _ _ hp]

/-- A returned `os_kill` keeps the idle slot and the single Running slot. -/
theorem os_kill_slots (pid SP : Nat) (mem : Nat → Nat) (k k1 : Kernel) (res : Option Bool)
    (h : os_kill pid SP mem k = .ok (res, k1)) :
    (idle_ok k → idle_ok k1) ∧ (single_running k → single_running k1) := by
  rcases os_kill_inv pid SP mem k k1 res h with
    ⟨_, _, hp, _, hc, _⟩ | ⟨hp1, hp8, _, kmid, kres, hmp, _, _, _, hcase⟩
  · constructor
    · intro hi
      unfold idle_ok at hi ⊢
      rw [hp]; exact hi
    · intro hs
      unfold single_running at hs ⊢
      rw [hp, hc]; exact hs
  · have hne0 : (0 : Nat) ≠ pid := by omega
    rcases hcase with ⟨_, hpc, hpk, _, hck, _⟩ | ⟨_, hpc, kT, hpT, _, hcT, _, _, _, _, htick⟩
    · constructor
      · intro hi
        unfold idle_ok at hi ⊢
        rw [hpk, hmp, write_other _ _ _ _ hne0]; exact hi
      · intro hs
        obtain ⟨s1, s2, s3⟩ := hs
        refine ⟨by rw [hck]; exact s1, ?_, ?_⟩
        · rw [hck, hpk, hmp, write_other _ _ _ _ (fun e => hpc e.symm)]
          exact s2
        · intro q hq hr
          rw [hck]
          rw [hpk, hmp] at hr
          by_cases hqp : q = pid
          · rw [hqp, write_same] at hr; cases hr
          · rw [write_other _ _ _ _ hqp] at hr
            exact s3 q hq hr
    · constructor
      · intro hi
        apply TIMER2_COMPA_vect_idle SP mem kT k1 _ htick
        unfold idle_ok at hi ⊢
        rw [hpT, hmp, write_other _ _ _ _ hne0]; exact hi
      · intro hs
        obtain ⟨_, _, s3⟩ := hs
        apply TIMER2_COMPA_vect_running SP mem kT k1 _ htick
        intro q hq hr
        rw [hcT]
        rw [hpT, hmp] at hr
        by_cases hqp : q = pid
        · rw [hqp, write_same] at hr; cases hr
        · rw [write_other _ _ _ _ hqp] at hr
          exact s3 q hq hr

/-- Every call that returns keeps the idle slot and the single Running
slot. -/
theorem os_call_slots (c : KernelCall) (k k1 : Kernel) (h : os_call c k = .ok k1) :
    (idle_ok k → idle_ok k1) ∧ (single_running k → single_running k1) := by
  cases c with
  | tick SP mem =>
    exact ⟨fun hi => TIMER2_COMPA_vect_idle SP mem k k1 hi h,
      fun hs => TIMER2_COMPA_vect_running SP mem k k1 hs.2.2 h⟩
  | yield SP mem =>
    have hy : os_yield SP mem k = .ok k1 := h
    unfold os_yield at hy
    by_cases hc : k.criticalSectionCount > 0
    · rw [if_pos hc] at hy
      have := Except.ok.inj hy
      subst this
      exact ⟨id, id⟩
    · rw [if_neg hc] at hy
      exact ⟨fun hi => TIMER2_COMPA_vect_idle SP mem { k with SREG_I := false } k1 hi hy,
        fun hs => TIMER2_COMPA_vect_running SP mem { k with SREG_I := false } k1 hs.2.2 hy⟩
  | exec d programID priority mem =>
    obtain ⟨r, mem1, he⟩ := os_call_exec d programID priority mem k k1 h
    obtain ⟨e1, e2, e3⟩ := os_exec_slots d programID priority mem mem1 k k1 r he
    refine ⟨e2, fun hs => ?_⟩
    obtain ⟨s1, s2, s3⟩ := hs
    refine ⟨by rw [e1]; exact s1, by rw [e1]; exact (e3 _).mpr s2, fun q hq hr => ?_⟩
    rw [e1]
    exact s3 q hq ((e3 q).mp hr)
  | kill pid SP mem =>
    obtain ⟨res, he⟩ := os_call_kill pid SP mem k k1 h
    exact os_kill_slots pid SP mem k k1 res he
  | setStrategy s =>
    have hs : os_setSchedulingStrategy s k = .ok k1 := h
    obtain ⟨f1, f2, _⟩ := os_setSchedulingStrategy_frame s k k1 hs
    constructor
    · intro hi
      unfold idle_ok at hi ⊢
      rw [f1]; exact hi
    · intro hr
      unfold single_running at hr ⊢
      rw [f1, f2]; exact hr

/-- Every sequence of calls that is not stopped by a fatal error keeps the
idle slot and the single Running slot. -/
theorem os_calls_slots : ∀ (calls : List KernelCall) (k k1 : Kernel),
    os_calls calls k = .ok k1 →
    (idle_ok k → idle_ok k1) ∧ (single_running k → single_running k1) := by
  intro calls
  induction calls with
  | nil =>
    intro k k1 h
    have := Except.ok.inj h
    subst this
    exact ⟨id, id⟩
  | cons c rest ih =>
    intro k k1 h
    unfold os_calls at h
    cases hc : os_call c k with
    | error e => rw [hc] at h; cases h
    | ok k2 =>
      rw [hc] at h
      dsimp only at h
      obtain ⟨a1, a2⟩ := os_call_slots c k k2 hc
      obtain ⟨b1, b2⟩ := ih k2 k1 h
      exact ⟨fun hi => b1 (a1 hi), fun hs => b2 (a2 hs)⟩

/-- What `os_resetSchedulingInformation` leaves alone. -/
theorem os_resetSchedulingInformation_frame (strategy : scheduling_strategy_t) (k k1 : Kernel)
    (h : os_resetSchedulingInformation strategy k = .ok k1) :
    k1.os_processes = k.os_processes ∧ k1.currentProc = k.currentProc := by
  have hs : os_setSchedulingStrategy strategy k = .ok { k1 with currSchedStrat := strategy } := by
    unfold os_setSchedulingStrategy
    rw [h]
  obtain ⟨f1, f2, _⟩ := os_setSchedulingStrategy_frame strategy k _ hs
  exact ⟨f1, f2⟩

/-- The autostart loop of `os_initScheduler` keeps the idle slot and makes no
slot Running. -/
theorem os_initScheduler_loop_slots (dispatcherAddress : Nat) :
    ∀ (progs : List Nat) (mem mem1 : Nat → Nat) (k k1 : Kernel),
      os_initScheduler_loop dispatcherAddress progs mem k = .ok (mem1, k1) →
      (idle_ok k → idle_ok k1) ∧
      (∀ pid, (k1.os_processes pid).state = OS_PS_RUNNING ↔
        (k.os_processes pid).state = OS_PS_RUNNING) := by
  intro progs
  induction progs with
  | nil =>
    intro mem mem1 k k1 h
    unfold os_initScheduler_loop at h
    obtain ⟨_, r2⟩ := Prod.mk.inj (Except.ok.inj h)
    subst r2
    exact ⟨id, fun _ => Iff.rfl⟩
  | cons progID rest ih =>
    intro mem mem1 k k1 h
    unfold os_initScheduler_loop at h
    by_cases ha : os_checkAutostartProgram k progID = true
    · rw [if_pos ha] at h
      cases he : os_exec dispatcherAddress progID DEFAULT_PRIORITY mem k with
      | error e => rw [he] at h; cases h
      | ok res =>
        obtain ⟨r, mem2, k2⟩ := res
        rw [he] at h
        dsimp only at h
        obtain ⟨_, e2, e3⟩ := os_exec_slots _ _ _ _ _ _ _ _ he
        obtain ⟨i1, i2⟩ := ih mem2 mem1 k2 k1 h
        exact ⟨fun hi => i1 (e2 hi), fun pid => (i2 pid).trans (e3 pid)⟩
    · rw [if_neg ha] at h
      exact ih mem mem1 k k1 h

/-- After `os_initScheduler` slot 0 holds the idle process and none of the
slots 0 to 7 is Running. -/
theorem os_initScheduler_slots (dispatcherAddress : Nat) (mem mem1 : Nat → Nat) (k k1 : Kernel)
    (h : os_initScheduler dispatcherAddress mem k = .ok (mem1, k1)) :
    idle_ok k1 ∧ ∀ pid, pid < 8 → (k1.os_processes pid).state ≠ OS_PS_RUNNING := by
  have heq : os_initScheduler dispatcherAddress mem k
      = if (os_initScheduler_clear k).os_programs 0 = 0 then .error .idle_not_registered
        else
          match os_exec dispatcherAddress 0 (priority_value OS_PRIO_LOW) mem
              (os_initScheduler_clear k) with
          | .error e => .error e
          | .ok (_, mem1, k2) =>
            match os_initScheduler_loop dispatcherAddress
                (List.range' 1 (MAX_NUMBER_OF_PROGRAMS - 1)) mem1 k2 with
            | .error e => .error e
            | .ok (mem2, k3) =>
              match os_resetSchedulingInformation k3.currSchedStrat k3 with
              | .error e => .error e
              | .ok k4 => .ok (mem2, k4) := rfl
  rw [heq] at h
  have hUp : (os_initScheduler_clear k).os_programs = k.os_programs := rfl
  have hU : ∀ pid, pid < 8 → ((os_initScheduler_clear k).os_processes pid).state
      = OS_PS_UNUSED := by
    intro pid hp
    unfold os_initScheduler_clear
    dsimp only
    rw [if_pos (by unfold MAX_NUMBER_OF_PROCESSES; exact hp)]
  generalize os_initScheduler_clear k = kU at h hUp hU
  by_cases hprog : k.os_programs 0 = 0
  · rw [hUp, if_pos hprog] at h; cases h
  · rw [hUp, if_neg hprog] at h
    cases he : os_exec dispatcherAddress 0 (priority_value OS_PRIO_LOW) mem kU with
    | error e => rw [he] at h; cases h
    | ok res =>
      obtain ⟨r, mem2, k2⟩ := res
      rw [he] at h
      dsimp only at h
      cases hl : os_initScheduler_loop dispatcherAddress
          (List.range' 1 (MAX_NUMBER_OF_PROGRAMS - 1)) mem2 k2 with
      | error e => rw [hl] at h; cases h
      | ok res2 =>
        obtain ⟨mem3, k3⟩ := res2
        rw [hl] at h
        dsimp only at h
        cases hr : os_resetSchedulingInformation k3.currSchedStrat k3 with
        | error e => rw [hr] at h; cases h
        | ok k4 =>
          rw [hr] at h
          obtain ⟨_, r2⟩ := Prod.mk.inj (Except.ok.inj h)
          subst r2
          obtain ⟨f1, _⟩ := os_resetSchedulingInformation_frame _ _ _ hr
          obtain ⟨l1, l2⟩ := os_initScheduler_loop_slots _ _ _ _ _ _ hl
          obtain ⟨_, _, e3⟩ := os_exec_slots _ _ _ _ _ _ _ _ he
          obtain ⟨_, _, _, _, hcase⟩ := os_exec_inv _ _ _ _ _ _ _ _ he
          have hloop0 : os_exec_loop kU.os_processes MAX_NUMBER_OF_PROCESSES 0 = 0 := by
            unfold MAX_NUMBER_OF_PROCESSES os_exec_loop
            rw [if_pos (hU 0 (by omega))]
          have hidle2 : idle_ok k2 := by
            rcases hcase with ⟨_, _, _, _, hf⟩ | ⟨prio, kmid, kres, hr0, _, _, _, _, _, hproc, _⟩
            · rcases hf with hf | hf
              · rw [hloop0] at hf
                exact absurd hf (by decide)
              · have : os_lookupProgramFunction kU 0 = k.os_programs 0 := by
                  unfold os_lookupProgramFunction
                  rw [if_neg (by decide), hUp]
                rw [this] at hf
                exact absurd hf hprog
            · rw [hloop0] at hr0
              subst hr0
              unfold idle_ok
              rw [hproc, write_same]
              exact ⟨Or.inl rfl, rfl⟩
          constructor
          · have := l1 hidle2
            unfold idle_ok at this ⊢
            rw [f1]; exact this
          · intro pid hp hrun
            rw [f1] at hrun
            have h2 := (e3 pid).mp ((l2 pid).mp hrun)
            rw [hU pid hp] at h2
            cases h2

/-- After boot exactly one slot is Running, slot 0, and it holds the idle
process. -/
theorem os_boot_slots (dispatcherAddress : Nat) (mem : Nat → Nat) (k kb : Kernel)
    (h : os_boot dispatcherAddress mem k = .ok kb) : idle_ok kb ∧ single_running kb := by
  unfold os_boot at h
  cases hi : os_initScheduler dispatcherAddress mem k with
  | error e => rw [hi] at h; cases h
  | ok res =>
    obtain ⟨mem1, k1⟩ := res
    rw [hi] at h
    have := Except.ok.inj h
    subst this
    obtain ⟨⟨_, i2⟩, hnr⟩ := os_initScheduler_slots _ _ _ _ _ hi
    unfold os_startScheduler idle_ok single_running
    dsimp only
    refine ⟨⟨Or.inr ?_, ?_⟩, by omega, ?_, ?_⟩
    · rw [write_same]
    · rw [write_same]; exact i2
    · rw [write_same]
    · intro pid hp hr
      by_contra hne
      rw [write_other _ _ _ _ hne] at hr
      exact hnr pid hp hr

theorem boot_run_some (calls : List KernelCall) (k : Kernel) (h : boot_run calls = some k) :
    ∃ kb, os_boot 0x123456 (fun _ => 0) boot_kernel = .ok kb ∧ os_calls calls kb = .ok k := by
  unfold boot_run at h
  cases h1 : os_boot 0x123456 (fun _ => 0) boot_kernel with
  | error e => rw [h1] at h; cases h
  | ok kb =>
    rw [h1] at h
    dsimp only at h
    cases h2 : os_calls calls kb with
    | error e => rw [h2] at h; cases h
    | ok k2 =>
      rw [h2] at h
      exact ⟨kb, rfl, by rw [h2, Option.some.inj h]⟩

/-- C14: after boot (`os_initScheduler`, then `os_startScheduler`) and every
sequence of ticks, `os_yield`, `os_exec`, `os_kill` and
`os_setSchedulingStrategy` that is not stopped by a fatal error, under either
strategy, the current process is one of the slots 0 to 7 and a slot is
Running iff it is the slot of the current process. -/
theorem C14_single_running (dispatcherAddress : Nat) (mem : Nat → Nat) (k0 kb k : Kernel)
    (calls : List KernelCall) (hboot : os_boot dispatcherAddress mem k0 = .ok kb)
    (hk : os_calls calls kb = .ok k) :
    k.currentProc < 8 ∧
    ∀ pid, pid < 8 → ((k.os_processes pid).state = OS_PS_RUNNING ↔ pid = k.currentProc) := by
  obtain ⟨_, hs⟩ := os_boot_slots dispatcherAddress mem k0 kb hboot
  obtain ⟨s1, s2, s3⟩ := (os_calls_slots calls kb k hk).2 hs
  refine ⟨s1, fun pid hp => ⟨s3 pid hp, fun e => ?_⟩⟩
  rw [e]
  exact s2

set_option maxRecDepth 100000 in
/-- Witness of C14: the run `boot_calls` after boot on `boot_kernel` ends
with process 1 running. -/
theorem C14_single_running_witness :
    ∃ k, boot_run boot_calls = some k ∧ k.currentProc = 1 ∧
      k.currSchedStrat = OS_SS_DYNAMIC_PRIORITY_ROUND_ROBIN ∧
      k.currentProc < 8 ∧
      ∀ pid, pid < 8 → ((k.os_processes pid).state = OS_PS_RUNNING ↔ pid = k.currentProc) := by
  have h : ∃ k, boot_run boot_calls = some k ∧ k.currentProc = 1 ∧
      k.currSchedStrat = OS_SS_DYNAMIC_PRIORITY_ROUND_ROBIN := ⟨_, rfl, by decide, by decide⟩
  obtain ⟨k, hk, h1, h2⟩ := h
  obtain ⟨kb, hboot, hcalls⟩ := boot_run_some _ k hk
  obtain ⟨h3, h4⟩ := C14_single_running 0x123456 (fun _ => 0) boot_kernel kb k boot_calls hboot
    hcalls
  exact ⟨k, hk, h1, h2, h3, h4⟩

/-- C15: after `os_initScheduler`, and after `os_startScheduler` following
it, every sequence of ticks, `os_yield`, `os_exec`, `os_kill` (with any
argument) and `os_setSchedulingStrategy` that is not stopped by a fatal error
leaves slot 0 Ready or Running, not Unused, with program id 0. -/
theorem C15_idle_slot (dispatcherAddress : Nat) (mem mem1 : Nat → Nat) (k0 k1 : Kernel)
    (hinit : os_initScheduler dispatcherAddress mem k0 = .ok (mem1, k1)) :
    ∀ (calls : List KernelCall) (k : Kernel),
      os_calls calls k1 = .ok k ∨ os_calls calls (os_startScheduler k1) = .ok k →
      ((k.os_processes 0).state = OS_PS_READY ∨ (k.os_processes 0).state = OS_PS_RUNNING) ∧
      (k.os_processes 0).state ≠ OS_PS_UNUSED ∧ (k.os_processes 0).progID = 0 := by
  intro calls k hk
  obtain ⟨hidle, _⟩ := os_initScheduler_slots _ _ _ _ _ hinit
  have hstart : idle_ok (os_startScheduler k1) := by
    unfold idle_ok os_startScheduler
    dsimp only
    rw [write_same]
    exact ⟨Or.inr rfl, hidle.2⟩
  have hfin : idle_ok k := by
    rcases hk with hk | hk
    · exact (os_calls_slots calls k1 k hk).1 hidle
    · exact (os_calls_slots calls _ k hk).1 hstart
  refine ⟨hfin.1, ?_, hfin.2⟩
  rcases hfin.1 with h | h <;> rw [h] <;> decide

set_option maxRecDepth 100000 in
/-- Witness of C15: `os_initScheduler` on `boot_kernel` ends without fatal
error, and after the run `boot_calls`, which includes `os_kill(3)`, slot 0 is
Ready with program id 0; `os_kill(0)` is refused. -/
theorem C15_idle_slot_witness :
    ∃ mem1 k1 k, os_initScheduler 0x123456 (fun _ => 0) boot_kernel = .ok (mem1, k1) ∧
      os_calls (boot_calls ++ [.kill 0 0 (fun _ => 0)]) (os_startScheduler k1) = .ok k ∧
      (k.os_processes 0).state = OS_PS_READY ∧
      ((k.os_processes 0).state = OS_PS_READY ∨ (k.os_processes 0).state = OS_PS_RUNNING) ∧
      (k.os_processes 0).state ≠ OS_PS_UNUSED ∧ (k.os_processes 0).progID = 0 := by
  have h : ∃ mem1 k1 k, os_initScheduler 0x123456 (fun _ => 0) boot_kernel = .ok (mem1, k1) ∧
      os_calls (boot_calls ++ [.kill 0 0 (fun _ => 0)]) (os_startScheduler k1) = .ok k ∧
      (k.os_processes 0).state = OS_PS_READY := ⟨_, _, _, rfl, rfl, by decide⟩
  obtain ⟨mem1, k1, k, hinit, hcalls, h0⟩ := h
  exact ⟨mem1, k1, k, hinit, hcalls, h0,
    C15_idle_slot 0x123456 (fun _ => 0) mem1 boot_kernel k1 hinit _ k (Or.inr hcalls)⟩

/-- One `os_enterCriticalSection` on an 8-bit depth: fatal at 255, otherwise the
depth grows by one, the tick source is masked, the interrupt flag is kept. -/
theorem os_enterCriticalSection_step (k : Kernel) (h : k.criticalSectionCount ≤ 255) :
    (k.criticalSectionCount = 255 →
      os_enterCriticalSection k = .error .crit_section_overflow) ∧
    (k.criticalSectionCount ≠ 255 →
      ∃ k1, os_enterCriticalSection k = .ok k1 ∧
        k1.criticalSectionCount = k.criticalSectionCount + 1 ∧
        k1.TIMSK2_OCIE2A = false ∧ k1.SREG_I = k.SREG_I) := by
  refine ⟨fun h255 => os_enterCriticalSection_error k h255, fun hne => ?_⟩
  have hlt : k.criticalSectionCount < 255 := by omega
  rw [os_enterCriticalSection_ok k hlt]
  exact ⟨_, rfl, rfl, rfl, rfl⟩

/-- One `os_leaveCriticalSection`: fatal at depth 0, otherwise the depth
shrinks by one, the tick source is enabled if the new depth is 0 and kept
otherwise, the interrupt flag is kept. -/
theorem os_leaveCriticalSection_step (k : Kernel) :
    (k.criticalSectionCount = 0 →
      os_leaveCriticalSection k = .error .crit_section_underflow) ∧
    (k.criticalSectionCount ≠ 0 →
      ∃ k1, os_leaveCriticalSection k = .ok k1 ∧
        k1.criticalSectionCount + 1 = k.criticalSectionCount ∧
        k1.TIMSK2_OCIE2A = (if k1.criticalSectionCount = 0 then true else k.TIMSK2_OCIE2A) ∧
        k1.SREG_I = k.SREG_I) := by
  constructor
  · intro h0
    unfold os_leaveCriticalSection
    simp [h0]
  · intro hne
    obtain ⟨d, hd⟩ : ∃ d, k.criticalSectionCount = d + 1 := ⟨k.criticalSectionCount - 1, by omega⟩
    obtain ⟨k5, hl, _, _, _, _, _, g6, _, g8, g9⟩ := os_leaveCriticalSection_entered k d hd
    refine ⟨k5, hl, by omega, ?_, g8⟩
    rw [g9, g6]

/-- A run of `n` calls of `os_enterCriticalSection` that stays within the
8-bit range. -/
theorem os_criticalSection_calls_enter : ∀ (n : Nat) (k : Kernel),
    k.criticalSectionCount + n ≤ 255 →
    ∃ k1, os_criticalSection_calls (List.replicate n .enter) k = .ok k1 ∧
      k1.criticalSectionCount = k.criticalSectionCount + n := by
  intro n
  induction n with
  | zero => intro k _; exact ⟨k, rfl, rfl⟩
  | succ n ih =>
    intro k h
    obtain ⟨k1, h1, h2, _⟩ := (os_enterCriticalSection_step k (by omega)).2 (by omega)
    obtain ⟨k2, h3, h4⟩ := ih k1 (by omega)
    refine ⟨k2, ?_, by omega⟩
    have hc : os_criticalSection_call .enter k = .ok k1 := h1
    rw [List.replicate_succ]
    unfold os_criticalSection_calls
    rw [hc]
    exact h3

/-- One critical-section call that does not fault, on an 8-bit depth. -/
theorem os_criticalSection_call_ok (c : CriticalSectionCall) (k k1 : Kernel)
    (h : k.criticalSectionCount ≤ 255) (hc : os_criticalSection_call c k = .ok k1) :
    k1.criticalSectionCount ≤ 255 ∧ k1.SREG_I = k.SREG_I ∧
    k1.criticalSectionCount + (if c = .leave then 1 else 0)
      = k.criticalSectionCount + (if c = .enter then 1 else 0) ∧
    k1.TIMSK2_OCIE2A
      = (if c = .enter then false
         else if k1.criticalSectionCount = 0 then true else k.TIMSK2_OCIE2A) := by
  cases c with
  | enter =>
    have hc1 : os_enterCriticalSection k = .ok k1 := hc
    by_cases h255 : k.criticalSectionCount = 255
    · rw [(os_enterCriticalSection_step k h).1 h255] at hc1
      cases hc1
    · obtain ⟨k2, e1, e2, e3, e4⟩ := (os_enterCriticalSection_step k h).2 h255
      rw [e1] at hc1
      have := Except.ok.inj hc1
      subst this
      refine ⟨by omega, e4, ?_, ?_⟩
      · simp only [reduceCtorEq, if_false, if_true]; omega
      · simp only [if_true]; exact e3
  | leave =>
    have hc1 : os_leaveCriticalSection k = .ok k1 := hc
    by_cases h0 : k.criticalSectionCount = 0
    · rw [(os_leaveCriticalSection_step k).1 h0] at hc1
      cases hc1
    · obtain ⟨k2, e1, e2, e3, e4⟩ := (os_leaveCriticalSection_step k).2 h0
      rw [e1] at hc1
      have := Except.ok.inj hc1
      subst this
      refine ⟨by omega, e4, ?_, ?_⟩
      · simp only [reduceCtorEq, if_false, if_true]; omega
      · simp only [reduceCtorEq, if_false]; exact e3

/-- A run of critical-section calls that does not fault, from a state in
which the tick source is masked exactly above depth 0. -/
theorem os_criticalSection_calls_ok : ∀ (calls : List CriticalSectionCall) (k k1 : Kernel),
    k.criticalSectionCount ≤ 255 →
    (k.TIMSK2_OCIE2A = false ↔ 0 < k.criticalSectionCount) →
    os_criticalSection_calls calls k = .ok k1 →
    k1.criticalSectionCount ≤ 255 ∧ k1.SREG_I = k.SREG_I ∧
    k1.criticalSectionCount + calls.count .leave = k.criticalSectionCount + calls.count .enter ∧
    (k1.TIMSK2_OCIE2A = false ↔ 0 < k1.criticalSectionCount) := by
  intro calls
  induction calls with
  | nil =>
    intro k k1 h8 hm h
    have := Except.ok.inj h
    subst this
    exact ⟨h8, rfl, rfl, hm⟩
  | cons c rest ih =>
    intro k k1 h8 hm h
    unfold os_criticalSection_calls at h
    cases hc : os_criticalSection_call c k with
    | error e => rw [hc] at h; cases h
    | ok k2 =>
      rw [hc] at h
      obtain ⟨a1, a2, a3, a4⟩ := os_criticalSection_call_ok c k k2 h8 hc
      have hm2 : k2.TIMSK2_OCIE2A = false ↔ 0 < k2.criticalSectionCount := by
        rw [a4]
        cases c with
        | enter =>
          simp only [if_true, true_iff]
          simp only [reduceCtorEq, if_false, if_true] at a3
          omega
        | leave =>
          simp only [reduceCtorEq, if_false]
          by_cases h0 : k2.criticalSectionCount = 0
          · rw [if_pos h0]
            constructor
            · intro hh; cases hh
            · intro hh; omega
          · rw [if_neg h0]
            simp only [reduceCtorEq, if_false, if_true] at a3
            constructor
            · intro _; omega
            · intro _; exact hm.mpr (by omega)
      obtain ⟨b1, b2, b3, b4⟩ := ih k2 k1 a1 hm2 h
      refine ⟨b1, by rw [b2, a2], ?_, b4⟩
      cases c with
      | enter =>
        simp only [reduceCtorEq, if_false, if_true] at a3
        rw [List.count_cons_self, List.count_cons_of_ne (by decide)]
        omega
      | leave =>
        simp only [reduceCtorEq, if_false, if_true] at a3
        rw [List.count_cons_self, List.count_cons_of_ne (by decide)]
        omega

/-- C24: critical-section nesting invariant. From depth 0 with the tick
source enabled, after every sequence of `os_enterCriticalSection` and
`os_leaveCriticalSection` calls that does not fault, the depth plus the number
of leaves is the number of enters, the tick source is masked exactly when the
depth is above 0, and the interrupt flag is the one found at the start. Each
single call keeps the interrupt flag, and a call that turns the tick source
back on is a leave that brings the depth to 0. -/
theorem C24_critical_section_nesting (calls : List CriticalSectionCall) (k k1 : Kernel)
    (h0 : k.criticalSectionCount = 0) (ht : k.TIMSK2_OCIE2A = true)
    (hrun : os_criticalSection_calls calls k = .ok k1) :
    k1.criticalSectionCount + calls.count .leave = calls.count .enter ∧
    (k1.TIMSK2_OCIE2A = false ↔ 0 < k1.criticalSectionCount) ∧
    k1.SREG_I = k.SREG_I ∧
    (∀ (c : CriticalSectionCall) (ka kb : Kernel), ka.criticalSectionCount ≤ 255 →
      os_criticalSection_call c ka = .ok kb →
      kb.SREG_I = ka.SREG_I ∧
      (ka.TIMSK2_OCIE2A = false → kb.TIMSK2_OCIE2A = true →
        c = .leave ∧ kb.criticalSectionCount = 0)) := by
  obtain ⟨_, b2, b3, b4⟩ := os_criticalSection_calls_ok calls k k1 (by omega)
    (by rw [ht, h0]; simp) hrun
  refine ⟨by omega, b4, b2, fun c ka kb h8 hc => ?_⟩
  obtain ⟨_, a2, _, a4⟩ := os_criticalSection_call_ok c ka kb h8 hc
  refine ⟨a2, fun hf ht1 => ?_⟩
  rw [a4] at ht1
  cases c with
  | enter => simp at ht1
  | leave =>
    refine ⟨rfl, ?_⟩
    simp only [reduceCtorEq, if_false] at ht1
    by_cases hz : kb.criticalSectionCount = 0
    · exact hz
    · rw [if_neg hz, hf] at ht1
      cases ht1

theorem C24_critical_section_nesting_witness :
    ∃ k1, os_criticalSection_calls [.enter, .enter, .leave] boot_kernel = .ok k1 ∧
      k1.criticalSectionCount = 1 ∧ k1.TIMSK2_OCIE2A = false ∧
      k1.SREG_I = boot_kernel.SREG_I := by
  have h : ∃ k1, os_criticalSection_calls [.enter, .enter, .leave] boot_kernel = .ok k1 :=
    ⟨_, rfl⟩
  obtain ⟨k1, hk⟩ := h
  obtain ⟨c1, c2, c3, _⟩ := C24_critical_section_nesting [.enter, .enter, .leave] boot_kernel k1
    rfl rfl hk
  have e1 : List.count CriticalSectionCall.leave [.enter, .enter, .leave] = 1 := by decide
  have e2 : List.count CriticalSectionCall.enter [.enter, .enter, .leave] = 2 := by decide
  rw [e1, e2] at c1
  exact ⟨k1, hk, by omega, c2.mpr (by omega), c3⟩

/-- C25: critical-section limits. On an 8-bit depth `os_enterCriticalSection`
ends in the fatal error exactly at depth 255 and otherwise adds exactly 1;
`os_leaveCriticalSection` ends in the fatal error exactly at depth 0 and
otherwise takes exactly 1 off; the new depth is again at most 255, so the
counter never wraps. From depth 0, 255 enters in a row succeed and the next
one is fatal. -/
theorem C25_critical_section_limits (k : Kernel) (h : k.criticalSectionCount ≤ 255) :
    ((∃ e, os_enterCriticalSection k = .error e) ↔ k.criticalSectionCount = 255) ∧
    (k.criticalSectionCount ≠ 255 →
      ∃ k1, os_enterCriticalSection k = .ok k1 ∧
        k1.criticalSectionCount = k.criticalSectionCount + 1 ∧
        k1.criticalSectionCount ≤ 255) ∧
    ((∃ e, os_leaveCriticalSection k = .error e) ↔ k.criticalSectionCount = 0) ∧
    (k.criticalSectionCount ≠ 0 →
      ∃ k1, os_leaveCriticalSection k = .ok k1 ∧
        k1.criticalSectionCount + 1 = k.criticalSectionCount ∧
        k1.criticalSectionCount ≤ 255) ∧
    (k.criticalSectionCount = 0 →
      ∃ k255, os_criticalSection_calls (List.replicate 255 .enter) k = .ok k255 ∧
        k255.criticalSectionCount = 255 ∧
        os_enterCriticalSection k255 = .error .crit_section_overflow) := by
  obtain ⟨e1, e2⟩ := os_enterCriticalSection_step k h
  obtain ⟨l1, l2⟩ := os_leaveCriticalSection_step k
  refine ⟨⟨fun he => ?_, fun h255 => ⟨_, e1 h255⟩⟩, fun hne => ?_,
    ⟨fun he => ?_, fun h0 => ⟨_, l1 h0⟩⟩, fun hne => ?_, fun h0 => ?_⟩
  · by_contra hne
    obtain ⟨k1, hk, _⟩ := e2 hne
    obtain ⟨e, he⟩ := he
    rw [hk] at he
    cases he
  · obtain ⟨k1, hk, hc, _⟩ := e2 hne
    exact ⟨k1, hk, hc, by omega⟩
  · by_contra hne
    obtain ⟨k1, hk, _⟩ := l2 hne
    obtain ⟨e, he⟩ := he
    rw [hk] at he
    cases he
  · obtain ⟨k1, hk, hc, _⟩ := l2 hne
    exact ⟨k1, hk, hc, by omega⟩
  · obtain ⟨k1, hk, hc⟩ := os_criticalSection_calls_enter 255 k (by omega)
    exact ⟨k1, hk, by omega, os_enterCriticalSection_error k1 (by omega)⟩

theorem C25_critical_section_limits_witness :
    (tt_kernel_registered OS_SS_ROUND_ROBIN).criticalSectionCount ≤ 255 ∧
    (∃ k1, os_enterCriticalSection (tt_kernel_registered OS_SS_ROUND_ROBIN) = .ok k1 ∧
      k1.criticalSectionCount = (tt_kernel_registered OS_SS_ROUND_ROBIN).criticalSectionCount + 1 ∧
      k1.criticalSectionCount ≤ 255) ∧
    (∃ k1, os_leaveCriticalSection (tt_kernel_registered OS_SS_ROUND_ROBIN) = .ok k1 ∧
      k1.criticalSectionCount + 1 = (tt_kernel_registered OS_SS_ROUND_ROBIN).criticalSectionCount ∧
      k1.criticalSectionCount ≤ 255) :=
  ⟨by decide,
   (C25_critical_section_limits (tt_kernel_registered OS_SS_ROUND_ROBIN) (by decide)).2.1
     (by decide),
   (C25_critical_section_limits (tt_kernel_registered OS_SS_ROUND_ROBIN) (by decide)).2.2.2.1
     (by decide)⟩

/-- C26: `os_yield` inside a critical section is a no-op. Above depth 0
`os_yield` returns with the globals as they were: the current process, every
process slot, the ready queues and the depth; at depth 0 it is one run of the
tick routine, entered with the interrupts off. -/
theorem C26_yield_critical_section (SP : Nat) (mem : Nat → Nat) (k : Kernel) :
    (0 < k.criticalSectionCount →
      ∃ k1, os_yield SP mem k = .ok k1 ∧ k1 = k ∧ k1.currentProc = k.currentProc ∧
        (∀ pid, (k1.os_processes pid).state = (k.os_processes pid).state ∧
          (k1.os_processes pid).sp = (k.os_processes pid).sp ∧
          (k1.os_processes pid).checksum = (k.os_processes pid).checksum) ∧
        (∀ p, k1.schedulingInfo.queues_ready p = k.schedulingInfo.queues_ready p) ∧
        k1.criticalSectionCount = k.criticalSectionCount) ∧
    (k.criticalSectionCount = 0 →
      os_yield SP mem k = TIMER2_COMPA_vect SP mem { k with SREG_I := false } ∧
      os_call (.yield SP mem) k = os_call (.tick SP mem) { k with SREG_I := false }) := by
  constructor
  · intro h
    refine ⟨k, ?_, rfl, rfl, fun _ => ⟨rfl, rfl, rfl⟩, fun _ => rfl, rfl⟩
    unfold os_yield
    rw [if_pos h]
  · intro h
    have e : os_yield SP mem k = TIMER2_COMPA_vect SP mem { k with SREG_I := false } := by
      unfold os_yield
      rw [if_neg (by omega)]
    exact ⟨e, e⟩

set_option maxRecDepth 100000 in
theorem C26_yield_critical_section_witness :
    (∃ k1, os_yield (PROCESS_STACK_BOTTOM 1 - 72) (fun _ => 0)
        (tt_kernel_registered OS_SS_ROUND_ROBIN) = .ok k1 ∧
      k1 = tt_kernel_registered OS_SS_ROUND_ROBIN) ∧
    (∃ k1, os_yield (PROCESS_STACK_BOTTOM 1 - 72) (fun _ => 0) (tt_kernel OS_SS_ROUND_ROBIN)
        = .ok k1 ∧ k1.currentProc = 2) := by
  have h : ∃ k1, TIMER2_COMPA_vect (PROCESS_STACK_BOTTOM 1 - 72) (fun _ => 0)
      { (tt_kernel OS_SS_ROUND_ROBIN) with SREG_I := false } = .ok k1 ∧ k1.currentProc = 2 :=
    ⟨_, rfl, by decide⟩
  obtain ⟨k1, hk, hc⟩ := h
  obtain ⟨k2, h2, h3, _⟩ := (C26_yield_critical_section (PROCESS_STACK_BOTTOM 1 - 72)
    (fun _ => 0) (tt_kernel_registered OS_SS_ROUND_ROBIN)).1 (by decide)
  refine ⟨⟨k2, h2, h3⟩, k1, ?_, hc⟩
  rw [((C26_yield_critical_section (PROCESS_STACK_BOTTOM 1 - 72) (fun _ => 0)
    (tt_kernel OS_SS_ROUND_ROBIN)).2 rfl).1]
  exact hk

/-- The do-while loop of `os_scheduler_RoundRobin` after `j` of the 8 slots
in the cyclic order have been looked at: it finds the first eligible slot among
the remaining ones, or stops at `current` without one. -/
theorem os_scheduler_RoundRobin_loop_spec (processes : Nat → process_t) (current : Nat)
    (hc : current < 8) : ∀ (fuel j : Nat), j + fuel = 8 → 1 ≤ fuel →
    os_scheduler_RoundRobin_loop processes current fuel ((current + j) % 8)
      = some ((((List.range' (j + 1) fuel).map (fun i => (current + i) % 8)).find?
          (rr_eligible processes)).elim (current, false) (fun i => (i, true))) := by
  intro fuel
  induction fuel with
  | zero => intro j _ h; omega
  | succ n ih =>
    intro j hj _
    have hm : ((current + j) % 8 + 1) % MAX_NUMBER_OF_PROCESSES = (current + (j + 1)) % 8 := by
      unfold MAX_NUMBER_OF_PROCESSES; omega
    unfold os_scheduler_RoundRobin_loop
    rw [hm, List.range'_succ, List.map_cons, List.find?_cons]
    by_cases he : (processes ((current + (j + 1)) % 8)).state = OS_PS_READY
        ∧ (processes ((current + (j + 1)) % 8)).progID ≠ 0
    · have he1 : rr_eligible processes ((current + (j + 1)) % 8) = true := by
        unfold rr_eligible; exact decide_eq_true he
      rw [if_pos he, he1]
      rfl
    · have he1 : rr_eligible processes ((current + (j + 1)) % 8) = false := by
        unfold rr_eligible; exact decide_eq_false he
      rw [if_neg he, he1]
      dsimp only
      by_cases hn : n = 0
      · subst hn
        have hcur : (current + (j + 1)) % 8 = current := by omega
        rw [if_neg (by rw [hcur]; exact fun h => h rfl), hcur]
        rfl
      · have hcur : (current + (j + 1)) % 8 ≠ current := by omega
        rw [if_pos hcur]
        exact ih (j + 1) (by omega) (by omega)

/-- Membership in the cyclic order of `os_scheduler_RoundRobin`. -/
theorem rr_order_mem (current i : Nat) (hc : current < 8) : i ∈ rr_order current ↔ i < 8 := by
  unfold rr_order MAX_NUMBER_OF_PROCESSES
  rw [List.mem_map]
  constructor
  · rintro ⟨j, _, rfl⟩
    omega
  · intro hi
    refine ⟨(i + 8 - current - 1) % 8 + 1, ?_, by omega⟩
    rw [List.mem_range']
    exact ⟨(i + 8 - current - 1) % 8, by omega, by omega⟩

/-- Function `isAnyProcReady`: some slot from 1 to 7 is Ready. -/
theorem isAnyProcReady_iff (processes : Nat → process_t) :
    isAnyProcReady processes = true
      ↔ ∃ i, 1 ≤ i ∧ i < 8 ∧ (processes i).state = OS_PS_READY := by
  unfold isAnyProcReady MAX_NUMBER_OF_PROCESSES
  rw [List.any_eq_true]
  constructor
  · rintro ⟨i, hi, hr⟩
    rw [List.mem_range'] at hi
    obtain ⟨t, ht, rfl⟩ := hi
    exact ⟨1 + 1 * t, by omega, by omega, of_decide_eq_true hr⟩
  · rintro ⟨i, h1, h8, hr⟩
    refine ⟨i, ?_, decide_eq_true hr⟩
    rw [List.mem_range']
    exact ⟨i - 1, by omega, by omega⟩

/-- Function `os_scheduler_RoundRobin` in closed form. -/
theorem os_scheduler_RoundRobin_eq (processes : Nat → process_t) (current : Nat)
    (hc : current < 8) :
    os_scheduler_RoundRobin processes current = some (rr_first processes current) := by
  have hloop := os_scheduler_RoundRobin_loop_spec processes current hc 8 0 rfl (by omega)
  have h0 : (current + 0) % 8 = current := by omega
  rw [h0] at hloop
  have hord : (List.range' (0 + 1) 8).map (fun i => (current + i) % 8) = rr_order current := rfl
  rw [hord] at hloop
  unfold os_scheduler_RoundRobin rr_first
  cases hany : isAnyProcReady processes with
  | false =>
    simp only [Bool.not_false, if_true]
    cases hf : (rr_order current).find? (rr_eligible processes) with
    | none => rfl
    | some i =>
      have hi := List.find?_some hf
      have hmem := (rr_order_mem current i hc).mp (List.mem_of_find?_eq_some hf)
      unfold rr_eligible at hi
      have hr := (of_decide_eq_true hi).1
      by_cases hz : i = 0
      · rw [hz]; rfl
      · have : isAnyProcReady processes = true :=
          (isAnyProcReady_iff processes).mpr ⟨i, by omega, hmem, hr⟩
        rw [hany] at this
        cases this
  | true =>
    simp only [Bool.not_true, Bool.false_eq_true, if_false]
    have e8 : MAX_NUMBER_OF_PROCESSES = 8 := rfl
    rw [e8, hloop]
    cases hf : (rr_order current).find? (rr_eligible processes) with
    | some i => rfl
    | none =>
      have hcur : rr_eligible processes current = false := by
        have := List.find?_eq_none.mp hf current ((rr_order_mem current current hc).mpr hc)
        simpa using this
      unfold rr_eligible at hcur
      have hne := of_decide_eq_false hcur
      simp only [Option.elim, Bool.false_eq_true, if_false]
      rw [if_neg hne]
      rfl

/-- C29: flat round-robin selection. For every process table and every
`current` below 8, `os_scheduler_RoundRobin` returns, and its result is the
first slot in the cyclic order `current + 1`, `current + 2`, ..., `current`
(modulo 8) that is Ready with a non-zero program id, or 0 if there is no such
slot; a result other than 0 is below 8, Ready and not the idle program. -/
theorem C29_round_robin_selection (processes : Nat → process_t) (current : Nat)
    (hc : current < 8) :
    os_scheduler_RoundRobin processes current = some (rr_first processes current) ∧
    rr_first processes current < 8 ∧
    (∀ i, (rr_order current).find? (rr_eligible processes) = some i →
      rr_first processes current = i ∧ (processes i).state = OS_PS_READY ∧
      (processes i).progID ≠ 0) ∧
    ((∀ i, i < 8 → ¬ ((processes i).state = OS_PS_READY ∧ (processes i).progID ≠ 0)) →
      rr_first processes current = 0) ∧
    (rr_first processes current ≠ 0 →
      (processes (rr_first processes current)).state = OS_PS_READY ∧
      (processes (rr_first processes current)).progID ≠ 0) := by
  have hsome : ∀ i, (rr_order current).find? (rr_eligible processes) = some i →
      rr_first processes current = i ∧ i < 8 ∧ (processes i).state = OS_PS_READY ∧
      (processes i).progID ≠ 0 := by
    intro i hf
    have hi := List.find?_some hf
    have hmem := (rr_order_mem current i hc).mp (List.mem_of_find?_eq_some hf)
    unfold rr_eligible at hi
    have hr := of_decide_eq_true hi
    refine ⟨?_, hmem, hr.1, hr.2⟩
    unfold rr_first
    rw [hf]
    rfl
  have hnone : (rr_order current).find? (rr_eligible processes) = none →
      rr_first processes current = 0 := by
    intro hf
    unfold rr_first
    rw [hf]
    rfl
  refine ⟨os_scheduler_RoundRobin_eq processes current hc, ?_,
    fun i hf => ⟨(hsome i hf).1, (hsome i hf).2.2⟩, fun hno => ?_, fun hne => ?_⟩
  · cases hf : (rr_order current).find? (rr_eligible processes) with
    | none => rw [hnone hf]; omega
    | some i => rw [(hsome i hf).1]; exact (hsome i hf).2.1
  · cases hf : (rr_order current).find? (rr_eligible processes) with
    | none => exact hnone hf
    | some i => exact absurd (hsome i hf).2.2 (hno i (hsome i hf).2.1)
  · cases hf : (rr_order current).find? (rr_eligible processes) with
    | none => exact absurd (hnone hf) hne
    | some i => rw [(hsome i hf).1]; exact (hsome i hf).2.2

theorem C29_round_robin_selection_witness :
    (3 : Nat) < 8 ∧
    os_scheduler_RoundRobin (tt_kernel OS_SS_ROUND_ROBIN).os_processes 3 = some 2 ∧
    rr_order 3 = [4, 5, 6, 7, 0, 1, 2, 3] := by
  have h := (C29_round_robin_selection (tt_kernel OS_SS_ROUND_ROBIN).os_processes 3
    (by decide)).1
  have e : rr_first (tt_kernel OS_SS_ROUND_ROBIN).os_processes 3 = 2 := by decide
  rw [e] at h
  exact ⟨by decide, h, by decide⟩

/-- The switch to the priority strategy that no interrupt cuts into. Whatever
the queues held before, `os_setSchedulingStrategy` for the priority strategy
returns, and afterwards the queue of each level is well formed and holds
exactly the pids from 1 to 7 whose slot is Ready with that priority, in
ascending order; the process table and the current process are unchanged and
`os_getSchedulingStrategy` returns the priority strategy. -/
theorem os_setSchedulingStrategy_uninterrupted (k : Kernel) :
    ∃ k1, os_setSchedulingStrategy OS_SS_DYNAMIC_PRIORITY_ROUND_ROBIN k = .ok k1 ∧
      (∀ p, rq_wf (k1.schedulingInfo.queues_ready p) ∧
        rq_contents (k1.schedulingInfo.queues_ready p)
          = (List.range' 1 7).filter (fun pid => decide ((k.os_processes pid).state = OS_PS_READY
              ∧ (k.os_processes pid).priority = p))) ∧
      k1.os_processes = k.os_processes ∧ k1.currentProc = k.currentProc ∧
      os_getSchedulingStrategy k1 = OS_SS_DYNAMIC_PRIORITY_ROUND_ROBIN := by
  obtain ⟨info, h, hwf, hc⟩ := os_setSchedulingStrategy_dprr k
  exact ⟨_, h, fun p => ⟨hwf p, hc p⟩, rfl, rfl, rfl⟩

/-- The first loop of `os_registerProgram`: the index found is the first one
that holds `program`. -/
theorem os_registerProgram_find_some (programs : Nat → Nat) (program : Nat) :
    ∀ (slots i r : Nat), os_registerProgram_find programs program slots i = some r →
      i ≤ r ∧ r < i + slots ∧ programs r = program ∧
      ∀ j, i ≤ j → j < r → programs j ≠ program := by
  intro slots
  induction slots with
  | zero => intro i r h; cases h
  | succ n ih =>
    intro i r h
    unfold os_registerProgram_find at h
    by_cases he : program = programs i
    · rw [if_pos he] at h
      have := Option.some.inj h
      subst this
      exact ⟨le_refl _, by omega, he.symm, fun j h1 h2 => by omega⟩
    · rw [if_neg he] at h
      obtain ⟨a1, a2, a3, a4⟩ := ih (i + 1) r h
      refine ⟨by omega, by omega, a3, fun j h1 h2 => ?_⟩
      by_cases hj : j = i
      · rw [hj]; exact fun hh => he hh.symm
      · exact a4 j (by omega) h2

/-- The first loop of `os_registerProgram` finds nothing exactly when no
index holds `program`. -/
theorem os_registerProgram_find_none (programs : Nat → Nat) (program : Nat) :
    ∀ (slots i : Nat), os_registerProgram_find programs program slots i = none ↔
      ∀ j, i ≤ j → j < i + slots → programs j ≠ program := by
  intro slots
  induction slots with
  | zero =>
    intro i
    exact ⟨fun _ j h1 h2 => by omega, fun _ => rfl⟩
  | succ n ih =>
    intro i
    unfold os_registerProgram_find
    by_cases he : program = programs i
    · rw [if_pos he]
      constructor
      · intro h; cases h
      · intro h; exact absurd he.symm (h i (le_refl _) (by omega))
    · rw [if_neg he, ih (i + 1)]
      constructor
      · intro h j h1 h2
        by_cases hj : j = i
        · rw [hj]; exact fun hh => he hh.symm
        · exact h j (by omega) (by omega)
      · intro h j h1 h2
        exact h j (by omega) (by omega)

/-- The first loop of `os_registerProgram` returns the first index that holds
`program`. -/
theorem os_registerProgram_find_first (programs : Nat → Nat) (program : Nat) :
    ∀ (slots i r : Nat), i ≤ r → r < i + slots → programs r = program →
      (∀ j, i ≤ j → j < r → programs j ≠ program) →
      os_registerProgram_find programs program slots i = some r := by
  intro slots
  induction slots with
  | zero => intro i r h1 h2; omega
  | succ n ih =>
    intro i r h1 h2 h3 h4
    unfold os_registerProgram_find
    by_cases hi : i = r
    · rw [hi, if_pos h3.symm]
    · have he : ¬ program = programs i := fun hh => h4 i (le_refl _) (by omega) hh.symm
      rw [if_neg he]
      exact ih (i + 1) r (by omega) (by omega) h3 (fun j h5 h6 => h4 j (by omega) h6)

/-- The second loop of `os_registerProgram` is the first loop for `NULL`. -/
theorem os_registerProgram_free_eq (programs : Nat → Nat) :
    ∀ (slots i : Nat),
      os_registerProgram_free programs slots i = os_registerProgram_find programs 0 slots i := by
  intro slots
  induction slots with
  | zero => intro i; rfl
  | succ n ih =>
    intro i
    unfold os_registerProgram_free os_registerProgram_find
    by_cases he : programs i = 0
    · rw [if_pos he, if_pos he.symm]
    · rw [if_neg he, if_neg (fun hh => he hh.symm)]
      exact ih (i + 1)

/-- Function `os_registerProgram` with the idle program installed: the three
ways in which it returns. -/
theorem os_registerProgram_spec (program : Nat) (k : Kernel) (hidle : k.os_programs 0 ≠ 0) :
    (∃ i, i < 16 ∧ k.os_programs i = program ∧ (∀ j, j < i → k.os_programs j ≠ program) ∧
      os_registerProgram program k = .ok (i, k)) ∨
    ((∀ j, j < 16 → k.os_programs j ≠ program) ∧
      ∃ i, 1 ≤ i ∧ i < 16 ∧ k.os_programs i = 0 ∧
        (∀ j, 1 ≤ j → j < i → k.os_programs j ≠ 0) ∧
        os_registerProgram program k
          = .ok (i, { k with os_programs := write k.os_programs i program })) ∨
    ((∀ j, j < 16 → k.os_programs j ≠ program) ∧
      (∀ j, 1 ≤ j → j < 16 → k.os_programs j ≠ 0) ∧
      os_registerProgram program k = .ok (INVALID_PROGRAM, k)) := by
  have e16 : MAX_NUMBER_OF_PROGRAMS = 16 := rfl
  unfold os_registerProgram
  rw [if_neg hidle, e16]
  cases hf : os_registerProgram_find k.os_programs program 16 0 with
  | some i =>
    obtain ⟨_, a2, a3, a4⟩ := os_registerProgram_find_some _ _ _ _ _ hf
    exact Or.inl ⟨i, by omega, a3, fun j hj => a4 j (by omega) hj, rfl⟩
  | none =>
    have hn := (os_registerProgram_find_none _ _ _ _).mp hf
    have hnew : ∀ j, j < 16 → k.os_programs j ≠ program := fun j hj => hn j (by omega) (by omega)
    refine Or.inr ?_
    dsimp only
    have e15 : 16 - 1 = 15 := rfl
    rw [e15, os_registerProgram_free_eq]
    cases hg : os_registerProgram_find k.os_programs 0 15 1 with
    | some i =>
      obtain ⟨b1, b2, b3, b4⟩ := os_registerProgram_find_some _ _ _ _ _ hg
      exact Or.inl ⟨hnew, i, b1, by omega, b3, fun j h1 h2 => b4 j h1 h2, rfl⟩
    | none =>
      have hm := (os_registerProgram_find_none _ _ _ _).mp hg
      exact Or.inr ⟨hnew, fun j h1 h2 => hm j h1 (by omega), rfl⟩

/-- C27: `os_registerProgram` is idempotent. With the idle program installed
at index 0, `os_registerProgram` returns for every program, and a second call
with the same program returns the same id and leaves the globals as the first
call left them. -/
theorem C27_register_program_idempotent (program : Nat) (k : Kernel)
    (hidle : k.os_programs 0 ≠ 0) :
    ∃ id k1, os_registerProgram program k = .ok (id, k1) ∧
      os_registerProgram program k1 = .ok (id, k1) ∧
      (id = INVALID_PROGRAM ∨ (id < 16 ∧ k1.os_programs id = program)) := by
  rcases os_registerProgram_spec program k hidle with
    ⟨i, h1, h2, h3, h4⟩ | ⟨hnew, i, h1, h2, h3, h4, h5⟩ | ⟨hnew, hfull, h5⟩
  · exact ⟨i, k, h4, h4, Or.inr ⟨h1, h2⟩⟩
  · refine ⟨i, _, h5, ?_, Or.inr ⟨h2, write_same _ _ _⟩⟩
    have hidle1 : write k.os_programs i program 0 ≠ 0 := by
      rw [write_other _ _ _ _ (by omega)]
      exact hidle
    have e16 : MAX_NUMBER_OF_PROGRAMS = 16 := rfl
    unfold os_registerProgram
    dsimp only
    rw [if_neg hidle1, e16, os_registerProgram_find_first _ program 16 0 i (by omega) (by omega)
      (write_same _ _ _) (fun j _ hj => by
        rw [write_other _ _ _ _ (by omega)]
        exact hnew j (by omega))]
  · exact ⟨INVALID_PROGRAM, k, h5, h5, Or.inl rfl⟩

theorem C27_register_program_idempotent_witness :
    (tt_kernel_registered OS_SS_ROUND_ROBIN).os_programs 0 ≠ 0 ∧
    ∃ k1, os_registerProgram 0x200 (tt_kernel_registered OS_SS_ROUND_ROBIN) = .ok (4, k1) ∧
      os_registerProgram 0x200 k1 = .ok (4, k1) ∧ k1.os_programs 4 = 0x200 := by
  refine ⟨by decide, ?_⟩
  obtain ⟨id, k1, h1, h2, h3⟩ := C27_register_program_idempotent 0x200
    (tt_kernel_registered OS_SS_ROUND_ROBIN) (by decide)
  have h4 : ∃ k2, os_registerProgram 0x200 (tt_kernel_registered OS_SS_ROUND_ROBIN)
      = .ok (4, k2) := ⟨_, rfl⟩
  obtain ⟨k2, h5⟩ := h4
  rw [h5] at h1
  obtain ⟨e1, e2⟩ := Prod.mk.inj (Except.ok.inj h1)
  subst e1
  subst e2
  refine ⟨k2, h5, h2, ?_⟩
  rcases h3 with h3 | h3
  · exact absurd h3 (by decide)
  · exact h3.2

/-- C28: `os_registerProgram` placement. With the idle program installed at
index 0 and `program` not yet in the registry: if some index from 1 to 15 is
empty, the call returns the least such index, stores `program` there and
changes no other entry, so that `os_lookupProgramFunction` of that index is
`program`; if no index from 1 to 15 is empty, it returns INVALID_PROGRAM and
changes nothing. Whatever program is registered, the entry at index 0 stays
as it was. -/
theorem C28_register_program_placement (program : Nat) (k : Kernel)
    (hidle : k.os_programs 0 ≠ 0) (hnew : ∀ j, j < 16 → k.os_programs j ≠ program) :
    ((∃ i, 1 ≤ i ∧ i < 16 ∧ k.os_programs i = 0) →
      ∃ i k1, 1 ≤ i ∧ i < 16 ∧ k.os_programs i = 0 ∧
        (∀ j, 1 ≤ j → j < i → k.os_programs j ≠ 0) ∧
        os_registerProgram program k = .ok (i, k1) ∧
        k1.os_programs i = program ∧ (∀ j, j ≠ i → k1.os_programs j = k.os_programs j) ∧
        os_lookupProgramFunction k1 i = program ∧
        k1 = { k with os_programs := write k.os_programs i program }) ∧
    ((∀ i, 1 ≤ i → i < 16 → k.os_programs i ≠ 0) →
      os_registerProgram program k = .ok (INVALID_PROGRAM, k)) ∧
    (∀ (q r : Nat) (k1 : Kernel), os_registerProgram q k = .ok (r, k1) →
      k1.os_programs 0 = k.os_programs 0) := by
  refine ⟨fun hfree => ?_, fun hfull => ?_, fun q r k1 hq => ?_⟩
  · rcases os_registerProgram_spec program k hidle with
      ⟨i, h1, h2, _, _⟩ | ⟨_, i, h1, h2, h3, h4, h5⟩ | ⟨_, hfull, _⟩
    · exact absurd h2 (hnew i h1)
    · refine ⟨i, _, h1, h2, h3, h4, h5, write_same _ _ _,
        fun j hj => write_other _ _ _ _ hj, ?_, rfl⟩
      unfold os_lookupProgramFunction MAX_NUMBER_OF_PROGRAMS
      rw [if_neg (by omega)]
      exact write_same _ _ _
    · obtain ⟨i, h1, h2, h3⟩ := hfree
      exact absurd h3 (hfull i h1 h2)
  · rcases os_registerProgram_spec program k hidle with
      ⟨i, h1, h2, _, _⟩ | ⟨_, i, h1, h2, h3, _, _⟩ | ⟨_, _, h5⟩
    · exact absurd h2 (hnew i h1)
    · exact absurd h3 (hfull i h1 h2)
    · exact h5
  · rcases os_registerProgram_spec q k hidle with
      ⟨i, _, _, _, h4⟩ | ⟨_, i, h1, _, _, _, h5⟩ | ⟨_, _, h5⟩
    · rw [h4] at hq
      obtain ⟨_, e2⟩ := Prod.mk.inj (Except.ok.inj hq)
      rw [← e2]
    · rw [h5] at hq
      obtain ⟨_, e2⟩ := Prod.mk.inj (Except.ok.inj hq)
      rw [← e2]
      exact write_other _ _ _ _ (by omega)
    · rw [h5] at hq
      obtain ⟨_, e2⟩ := Prod.mk.inj (Except.ok.inj hq)
      rw [← e2]

theorem C28_register_program_placement_witness :
    (tt_kernel_registered OS_SS_ROUND_ROBIN).os_programs 0 ≠ 0 ∧
    (∀ j, j < 16 → (tt_kernel_registered OS_SS_ROUND_ROBIN).os_programs j ≠ 0x200) ∧
    ∃ i k1, 1 ≤ i ∧ i < 16 ∧
      os_registerProgram 0x200 (tt_kernel_registered OS_SS_ROUND_ROBIN) = .ok (i, k1) ∧
      os_lookupProgramFunction k1 i = 0x200 := by
  have hnew : ∀ j, j < 16 → (tt_kernel_registered OS_SS_ROUND_ROBIN).os_programs j ≠ 0x200 := by
    decide
  refine ⟨by decide, hnew, ?_⟩
  obtain ⟨i, k1, h1, h2, _, _, h5, _, _, h8, _⟩ := (C28_register_program_placement 0x200
    (tt_kernel_registered OS_SS_ROUND_ROBIN) (by decide) hnew).1 ⟨4, by decide, by decide, rfl⟩
  exact ⟨i, k1, h1, h2, h5, h8⟩

/-- Function `os_kill` for the idle process, an id out of range or an Unused
slot, below the depth 255: it returns false, and the globals are those before
the call. -/
theorem os_kill_refused (pid SP : Nat) (mem : Nat → Nat) (k : Kernel)
    (hcount : k.criticalSectionCount < 255)
    (hpid : pid = 0 ∨ pid ≥ 8 ∨ (k.os_processes pid).state = OS_PS_UNUSED) :
    ∃ k1, os_kill pid SP mem k = .ok (some false, k1) ∧
      k1.os_processes = k.os_processes ∧ k1.schedulingInfo = k.schedulingInfo ∧
      k1.currentProc = k.currentProc ∧ k1.currSchedStrat = k.currSchedStrat ∧
      k1.os_programs = k.os_programs ∧ k1.criticalSectionCount = k.criticalSectionCount ∧
      k1.os_autostart = k.os_autostart ∧ k1.SREG_I = k.SREG_I ∧
      (0 < k.criticalSectionCount → k1.TIMSK2_OCIE2A = k.TIMSK2_OCIE2A ∨
        k1.TIMSK2_OCIE2A = false) := by
  unfold os_kill
  by_cases hp : pid ≥ MAX_NUMBER_OF_PROCESSES ∨ pid = 0
  · rw [if_pos hp]
    exact ⟨k, rfl, rfl, rfl, rfl, rfl, rfl, rfl, rfl, rfl, fun _ => Or.inl rfl⟩
  · rw [if_neg hp, os_enterCriticalSection_ok k hcount]
    dsimp only
    have hu : (k.os_processes pid).state = OS_PS_UNUSED := by
      rcases hpid with h | h | h
      · exact absurd (Or.inr h) hp
      · exact absurd (Or.inl h) hp
      · exact h
    rw [if_pos hu]
    obtain ⟨k5, hl, g1, g2, g3, g4, g5, g6, g7, g8, g9⟩ := os_leaveCriticalSection_entered
      { k with criticalSectionCount := k.criticalSectionCount + 1, TIMSK2_OCIE2A := false }
      k.criticalSectionCount rfl
    rw [hl]
    refine ⟨k5, rfl, g1, g4, g2, g3, g5, g6, g7, g8, fun hpos => Or.inr ?_⟩
    rw [g9, if_neg (by omega)]

/-- Function `os_kill` for a used slot from 1 to 7 that is not the current
process, below the depth 255 and, under the priority strategy, on well-formed
queues: it returns true, the slot becomes Unused, and under the priority
strategy the first occurrence of the pid leaves each queue. -/
theorem os_kill_other (pid SP : Nat) (mem : Nat → Nat) (k : Kernel)
    (hcount : k.criticalSectionCount < 255) (h1 : 1 ≤ pid) (h8 : pid < 8)
    (hu : (k.os_processes pid).state ≠ OS_PS_UNUSED) (hne : pid ≠ k.currentProc)
    (hq : k.currSchedStrat = OS_SS_DYNAMIC_PRIORITY_ROUND_ROBIN →
      ∀ p, rq_wf (k.schedulingInfo.queues_ready p)) :
    ∃ k1, os_kill pid SP mem k = .ok (some true, k1) ∧
      k1.os_processes = write k.os_processes pid
        { (k.os_processes pid) with state := OS_PS_UNUSED } ∧
      k1.currentProc = k.currentProc ∧ k1.currSchedStrat = k.currSchedStrat ∧
      k1.os_programs = k.os_programs ∧ k1.criticalSectionCount = k.criticalSectionCount ∧
      k1.os_autostart = k.os_autostart ∧ k1.SREG_I = k.SREG_I ∧
      k1.TIMSK2_OCIE2A = (if k.criticalSectionCount = 0 then true else false) ∧
      (k.currSchedStrat = OS_SS_ROUND_ROBIN → k1.schedulingInfo = k.schedulingInfo) ∧
      (k.currSchedStrat = OS_SS_DYNAMIC_PRIORITY_ROUND_ROBIN →
        ∀ p, rq_wf (k1.schedulingInfo.queues_ready p) ∧
          rq_contents (k1.schedulingInfo.queues_ready p)
            = (rq_contents (k.schedulingInfo.queues_ready p)).erase pid) := by
  unfold os_kill
  have hp : ¬ (pid ≥ MAX_NUMBER_OF_PROCESSES ∨ pid = 0) := by
    unfold MAX_NUMBER_OF_PROCESSES; omega
  rw [if_neg hp, os_enterCriticalSection_ok k hcount]
  dsimp only
  rw [if_neg hu]
  cases hstrat : k.currSchedStrat with
  | OS_SS_ROUND_ROBIN =>
    rw [os_resetProcessSchedulingInformation_rr]
    dsimp only
    rw [if_neg hne, os_leaveCriticalSection_ok _ (Nat.succ_pos _)]
    refine ⟨_, rfl, rfl, rfl, rfl, rfl, Nat.add_sub_cancel _ _, rfl, rfl, ?_, fun _ => rfl,
      fun h => by cases h⟩
    dsimp only
    rw [Nat.add_sub_cancel]
  | OS_SS_DYNAMIC_PRIORITY_ROUND_ROBIN =>
    obtain ⟨info, hr, hw1, hc1⟩ := os_resetProcessSchedulingInformation_dprr pid
      { k with
        criticalSectionCount := k.criticalSectionCount + 1, TIMSK2_OCIE2A := false
        currSchedStrat := OS_SS_DYNAMIC_PRIORITY_ROUND_ROBIN
        os_processes := (write k.os_processes pid
          { (k.os_processes pid) with state := OS_PS_UNUSED }) }
      (hq hstrat) (by
        intro hrd
        dsimp only at hrd
        rw [write_same] at hrd
        cases hrd)
    rw [hr]
    dsimp only
    rw [if_neg hne, os_leaveCriticalSection_ok _ (Nat.succ_pos _)]
    refine ⟨_, rfl, rfl, rfl, rfl, rfl, Nat.add_sub_cancel _ _, rfl, rfl, ?_,
      (fun h => by cases h), fun _ p => ?_⟩
    · dsimp only
      rw [Nat.add_sub_cancel]
    · dsimp only
      refine ⟨hw1 p, ?_⟩
      rw [hc1 p]
      dsimp only
      rw [write_same, if_neg (fun h => by cases h.1)]

/-- C21: `os_kill` result and effect. Below the depth 255 and, under the
priority strategy, on well-formed queues: for pid 0, a pid of 8 or more, or an
Unused slot, `os_kill` returns false and the process table, the ready queues
and the current process are those before the call; for every other pid that
is not the current process it returns true, the slot is Unused afterwards,
every other slot and the current process are unchanged, under round-robin
the queues are unchanged, and under the priority strategy each queue has lost
its first occurrence of the pid, so that a queue that held the pid at most
once no longer holds it. -/
theorem C21_kill_result (pid SP : Nat) (mem : Nat → Nat) (k : Kernel)
    (hcount : k.criticalSectionCount < 255)
    (hq : k.currSchedStrat = OS_SS_DYNAMIC_PRIORITY_ROUND_ROBIN →
      ∀ p, rq_wf (k.schedulingInfo.queues_ready p)) :
    ((pid = 0 ∨ pid ≥ 8 ∨ (k.os_processes pid).state = OS_PS_UNUSED) →
      ∃ k1, os_kill pid SP mem k = .ok (some false, k1) ∧
        k1.os_processes = k.os_processes ∧ k1.schedulingInfo = k.schedulingInfo ∧
        k1.currentProc = k.currentProc) ∧
    (1 ≤ pid → pid < 8 → (k.os_processes pid).state ≠ OS_PS_UNUSED → pid ≠ k.currentProc →
      ∃ k1, os_kill pid SP mem k = .ok (some true, k1) ∧
        (k1.os_processes pid).state = OS_PS_UNUSED ∧
        (∀ q, q ≠ pid → k1.os_processes q = k.os_processes q) ∧
        k1.currentProc = k.currentProc ∧
        (k.currSchedStrat = OS_SS_ROUND_ROBIN → k1.schedulingInfo = k.schedulingInfo) ∧
        (k.currSchedStrat = OS_SS_DYNAMIC_PRIORITY_ROUND_ROBIN →
          ∀ p, rq_wf (k1.schedulingInfo.queues_ready p) ∧
            rq_contents (k1.schedulingInfo.queues_ready p)
              = (rq_contents (k.schedulingInfo.queues_ready p)).erase pid ∧
            ((rq_contents (k.schedulingInfo.queues_ready p)).count pid ≤ 1 →
              pid ∉ rq_contents (k1.schedulingInfo.queues_ready p)))) := by
  constructor
  · intro hp
    obtain ⟨k1, h, g1, g2, g3, _⟩ := os_kill_refused pid SP mem k hcount hp
    exact ⟨k1, h, g1, g2, g3⟩
  · intro h1 h8 hu hne
    obtain ⟨k1, h, g1, g2, _, _, _, _, _, _, g10, g11⟩ :=
      os_kill_other pid SP mem k hcount h1 h8 hu hne hq
    refine ⟨k1, h, by rw [g1, write_same], fun q hqp => by rw [g1, write_other _ _ _ _ hqp],
      g2, g10, fun hs p => ⟨(g11 hs p).1, (g11 hs p).2, fun hc hm => ?_⟩⟩
    rw [(g11 hs p).2] at hm
    have h0 : ((rq_contents (k.schedulingInfo.queues_ready p)).erase pid).count pid = 0 := by
      rw [List.count_erase_self]
      omega
    exact absurd (List.count_pos_iff.mpr hm) (by omega)

set_option maxRecDepth 100000 in
theorem C21_kill_result_witness :
    (∃ k1, os_kill 5 0 (fun _ => 0) (tt_kernel_registered OS_SS_ROUND_ROBIN)
        = .ok (some false, k1) ∧
      k1.os_processes = (tt_kernel_registered OS_SS_ROUND_ROBIN).os_processes) ∧
    (∃ k1, os_kill 3 0 (fun _ => 0) (tt_kernel_registered OS_SS_ROUND_ROBIN)
        = .ok (some true, k1) ∧
      (k1.os_processes 3).state = OS_PS_UNUSED ∧ k1.currentProc = 1) ∧
    (∃ k k1, tt_run OS_SS_DYNAMIC_PRIORITY_ROUND_ROBIN [] = some k ∧
      os_kill 3 0 (fun _ => 0) k = .ok (some true, k1) ∧
      rq_contents (k.schedulingInfo.queues_ready OS_PRIO_LOW) = [3] ∧
      3 ∉ rq_contents (k1.schedulingInfo.queues_ready OS_PRIO_LOW)) := by
  have hrr := C21_kill_result 3 0 (fun _ => 0) (tt_kernel_registered OS_SS_ROUND_ROBIN)
    (by decide) (fun h => absurd h (by decide))
  have hrr5 := C21_kill_result 5 0 (fun _ => 0) (tt_kernel_registered OS_SS_ROUND_ROBIN)
    (by decide) (fun h => absurd h (by decide))
  obtain ⟨k1, a1, a2, _⟩ := hrr5.1 (Or.inr (Or.inr (by decide)))
  obtain ⟨k2, b1, b2, _, b4, _⟩ := hrr.2 (by decide) (by decide) (by decide) (by decide)
  have hd : ∃ k, tt_run OS_SS_DYNAMIC_PRIORITY_ROUND_ROBIN [] = some k ∧
      k.criticalSectionCount < 255 ∧
      rq_wf (k.schedulingInfo.queues_ready OS_PRIO_HIGH) ∧
      rq_wf (k.schedulingInfo.queues_ready OS_PRIO_NORMAL) ∧
      rq_wf (k.schedulingInfo.queues_ready OS_PRIO_LOW) ∧
      (k.os_processes 3).state ≠ OS_PS_UNUSED ∧ 3 ≠ k.currentProc ∧
      k.currSchedStrat = OS_SS_DYNAMIC_PRIORITY_ROUND_ROBIN ∧
      rq_contents (k.schedulingInfo.queues_ready OS_PRIO_LOW) = [3] :=
    ⟨_, rfl, by decide, by decide, by decide, by decide, by decide, by decide, by decide,
      by decide⟩
  obtain ⟨k, d1, d2, d3, d4, d5, d6, d7, d8, d9⟩ := hd
  obtain ⟨k3, c1, _, _, _, _, c6⟩ := (C21_kill_result 3 0 (fun _ => 0) k d2
    (fun _ p => by cases p <;> assumption)).2 (by decide) (by decide) d6 d7
  refine ⟨⟨k1, a1, a2⟩, ⟨k2, b1, b2, b4⟩, k, k3, d1, c1, d9, (c6 d8 OS_PRIO_LOW).2.2 ?_⟩
  rw [d9]
  decide

/-- What a successful `os_enterCriticalSection` does to the depth and the two
register bits, on an 8-bit depth. -/
theorem os_enterCriticalSection_inv (k k1 : Kernel) (h8 : k.criticalSectionCount ≤ 255)
    (h : os_enterCriticalSection k = .ok k1) :
    k1.criticalSectionCount = k.criticalSectionCount + 1 ∧ k1.TIMSK2_OCIE2A = false ∧
    k1.SREG_I = k.SREG_I := by
  by_cases h255 : k.criticalSectionCount = 255
  · rw [(os_enterCriticalSection_step k h8).1 h255] at h
    cases h
  · obtain ⟨k2, e1, e2, e3, e4⟩ := (os_enterCriticalSection_step k h8).2 h255
    rw [e1] at h
    have := Except.ok.inj h
    subst this
    exact ⟨e2, e3, e4⟩

/-- What a successful `os_leaveCriticalSection` does to the depth and the two
register bits. -/
theorem os_leaveCriticalSection_inv (k k1 : Kernel) (h : os_leaveCriticalSection k = .ok k1) :
    k1.criticalSectionCount + 1 = k.criticalSectionCount ∧
    k1.TIMSK2_OCIE2A = (if k1.criticalSectionCount = 0 then true else k.TIMSK2_OCIE2A) ∧
    k1.SREG_I = k.SREG_I := by
  by_cases h0 : k.criticalSectionCount = 0
  · rw [(os_leaveCriticalSection_step k).1 h0] at h
    cases h
  · obtain ⟨k2, e1, e2, e3, e4⟩ := (os_leaveCriticalSection_step k).2 h0
    rw [e1] at h
    have := Except.ok.inj h
    subst this
    exact ⟨e2, e3, e4⟩

/-- An `os_enterCriticalSection` followed, after steps that keep the depth and
the two register bits, by an `os_leaveCriticalSection`. -/
theorem os_criticalSection_pair (k kE kM kL : Kernel) (h8 : k.criticalSectionCount ≤ 255)
    (he : os_enterCriticalSection k = .ok kE)
    (hm : kM.criticalSectionCount = kE.criticalSectionCount ∧ kM.SREG_I = kE.SREG_I ∧
      kM.TIMSK2_OCIE2A = kE.TIMSK2_OCIE2A)
    (hl : os_leaveCriticalSection kM = .ok kL) :
    kL.criticalSectionCount = k.criticalSectionCount ∧ kL.SREG_I = k.SREG_I ∧
    kL.TIMSK2_OCIE2A = (if k.criticalSectionCount = 0 then true else false) := by
  obtain ⟨a1, a2, a3⟩ := os_enterCriticalSection_inv k kE h8 he
  obtain ⟨b1, b2, b3⟩ := os_leaveCriticalSection_inv kM kL hl
  obtain ⟨m1, m2, m3⟩ := hm
  have hc : kL.criticalSectionCount = k.criticalSectionCount := by omega
  refine ⟨hc, by rw [b3, m2, a3], ?_⟩
  rw [b2, hc, m3, a2]

/-- A returning `os_exec` leaves the depth and the interrupt flag as they
were; the tick source is enabled afterwards exactly at depth 0. -/
theorem os_exec_depth (dispatcherAddress programID priority : Nat) (mem mem1 : Nat → Nat)
    (k k1 : Kernel) (r : Nat) (h8 : k.criticalSectionCount ≤ 255)
    (h : os_exec dispatcherAddress programID priority mem k = .ok (r, mem1, k1)) :
    k1.criticalSectionCount = k.criticalSectionCount ∧ k1.SREG_I = k.SREG_I ∧
    k1.TIMSK2_OCIE2A = (if k.criticalSectionCount = 0 then true else false) := by
  rw [os_exec_eq] at h
  cases he : os_enterCriticalSection k with
  | error e => rw [he] at h; cases h
  | ok kE =>
    rw [he] at h
    dsimp only at h
    generalize os_exec_loop kE.os_processes MAX_NUMBER_OF_PROCESSES 0 = pid at h
    by_cases hfull : pid = MAX_NUMBER_OF_PROCESSES
    · rw [if_pos hfull] at h
      cases hl : os_leaveCriticalSection kE with
      | error e => rw [hl] at h; cases h
      | ok kL =>
        rw [hl] at h
        obtain ⟨_, r23⟩ := Prod.mk.inj (Except.ok.inj h)
        obtain ⟨_, r3⟩ := Prod.mk.inj r23
        subst r3
        exact os_criticalSection_pair k kE kE kL h8 he ⟨rfl, rfl, rfl⟩ hl
    · rw [if_neg hfull] at h
      by_cases hp : os_lookupProgramFunction kE programID = 0
      · rw [if_pos hp] at h
        cases hl : os_leaveCriticalSection kE with
        | error e => rw [hl] at h; cases h
        | ok kL =>
          rw [hl] at h
          obtain ⟨_, r23⟩ := Prod.mk.inj (Except.ok.inj h)
          obtain ⟨_, r3⟩ := Prod.mk.inj r23
          subst r3
          exact os_criticalSection_pair k kE kE kL h8 he ⟨rfl, rfl, rfl⟩ hl
      · rw [if_neg hp] at h
        cases hpr : priority_of_value priority with
        | none => rw [hpr] at h; cases h
        | some prio =>
          rw [hpr] at h
          dsimp only at h
          obtain ⟨_, hs2⟩ := os_exec_init_spec dispatcherAddress programID prio pid mem kE
          generalize os_exec_init dispatcherAddress programID prio pid mem kE = R at hs2 h
          cases hr : os_resetProcessSchedulingInformation kE.currSchedStrat pid R.2 with
          | error e => rw [hr] at h; cases h
          | ok kres =>
            rw [hr] at h
            dsimp only at h
            cases hl : os_leaveCriticalSection kres with
            | error e => rw [hl] at h; cases h
            | ok kL =>
              rw [hl] at h
              obtain ⟨_, _, _, _, _, q6, q7, q8, _⟩ :=
                os_resetProcessSchedulingInformation_frame _ _ _ _ hr
              obtain ⟨_, r23⟩ := Prod.mk.inj (Except.ok.inj h)
              obtain ⟨_, r3⟩ := Prod.mk.inj r23
              subst r3
              have f1 : R.2.criticalSectionCount = kE.criticalSectionCount := by
                have h := congrArg Kernel.criticalSectionCount hs2
                exact h
              have f2 : R.2.SREG_I = kE.SREG_I := by
                have h := congrArg Kernel.SREG_I hs2
                exact h
              have f3 : R.2.TIMSK2_OCIE2A = kE.TIMSK2_OCIE2A := by
                have h := congrArg Kernel.TIMSK2_OCIE2A hs2
                exact h
              exact os_criticalSection_pair k kE kres kL h8 he
                ⟨q6.trans f1, q7.trans f2, q8.trans f3⟩ hl

/-- An `os_kill` of a process other than the current one returns a value, and
leaves the depth and the interrupt flag as they were; the tick source is as it
was or, if a critical section was entered, enabled exactly at depth 0. -/
theorem os_kill_depth (pid SP : Nat) (mem : Nat → Nat) (k k1 : Kernel) (res : Option Bool)
    (h8 : k.criticalSectionCount ≤ 255) (hne : pid ≠ k.currentProc)
    (h : os_kill pid SP mem k = .ok (res, k1)) :
    res ≠ none ∧ k1.criticalSectionCount = k.criticalSectionCount ∧ k1.SREG_I = k.SREG_I ∧
    (k1.TIMSK2_OCIE2A = k.TIMSK2_OCIE2A ∨
      k1.TIMSK2_OCIE2A = (if k.criticalSectionCount = 0 then true else false)) := by
  unfold os_kill at h
  by_cases hp : pid ≥ MAX_NUMBER_OF_PROCESSES ∨ pid = 0
  · rw [if_pos hp] at h
    obtain ⟨r1, r2⟩ := Prod.mk.inj (Except.ok.inj h)
    subst r2
    exact ⟨(by rw [← r1]; exact fun hh => by cases hh), rfl, rfl, Or.inl rfl⟩
  · rw [if_neg hp] at h
    cases he : os_enterCriticalSection k with
    | error e => rw [he] at h; cases h
    | ok kE =>
      rw [he] at h
      dsimp only at h
      obtain ⟨_, e2, _⟩ := os_enterCriticalSection_frame k kE he
      by_cases hu : (kE.os_processes pid).state = OS_PS_UNUSED
      · rw [if_pos hu] at h
        cases hl : os_leaveCriticalSection kE with
        | error e => rw [hl] at h; cases h
        | ok kL =>
          rw [hl] at h
          obtain ⟨r1, r2⟩ := Prod.mk.inj (Except.ok.inj h)
          subst r2
          obtain ⟨c1, c2, c3⟩ := os_criticalSection_pair k kE kE kL h8 he ⟨rfl, rfl, rfl⟩ hl
          exact ⟨(by rw [← r1]; exact fun hh => by cases hh), c1, c2, Or.inr c3⟩
      · rw [if_neg hu] at h
        generalize hkm : ({ kE with os_processes := (write kE.os_processes pid
            { (kE.os_processes pid) with state := OS_PS_UNUSED }) } : Kernel) = kmid at h
        have m1 : kmid.criticalSectionCount = kE.criticalSectionCount := by rw [← hkm]
        have m2 : kmid.SREG_I = kE.SREG_I := by rw [← hkm]
        have m3 : kmid.TIMSK2_OCIE2A = kE.TIMSK2_OCIE2A := by rw [← hkm]
        have m4 : kmid.currentProc = kE.currentProc := by rw [← hkm]
        cases hr : os_resetProcessSchedulingInformation kE.currSchedStrat pid kmid with
        | error e => rw [hr] at h; cases h
        | ok kres =>
          rw [hr] at h
          dsimp only at h
          obtain ⟨_, q2, _, _, _, q6, q7, q8, _⟩ :=
            os_resetProcessSchedulingInformation_frame _ _ _ _ hr
          have hc : ¬ pid = kres.currentProc := by rw [q2, m4, e2]; exact hne
          rw [if_neg hc] at h
          cases hl : os_leaveCriticalSection kres with
          | error e => rw [hl] at h; cases h
          | ok kL =>
            rw [hl] at h
            obtain ⟨r1, r2⟩ := Prod.mk.inj (Except.ok.inj h)
            subst r2
            obtain ⟨c1, c2, c3⟩ := os_criticalSection_pair k kE kres kL h8 he
              ⟨q6.trans m1, q7.trans m2, q8.trans m3⟩ hl
            exact ⟨(by rw [← r1]; exact fun hh => by cases hh), c1, c2, Or.inr c3⟩

/-- C23: killing another process does not leave the caller's critical
sections. With a depth `d` from 1 to 255 held by the caller and a pid other
than the current process: when `os_exec` has returned the depth is `d`, the
tick source is masked and the current process is the same; when the
`os_kill` that follows has returned, it has returned a value, the depth is
still `d`, the tick source is still masked and the interrupt flag is the one
found at the start. The same holds for an `os_kill` alone in a critical
section whose tick source is masked. -/
theorem C23_kill_keeps_critical_sections (dispatcherAddress programID priority pid SP d r : Nat)
    (mem mem1 mem2 : Nat → Nat) (k k1 k2 : Kernel) (res : Option Bool)
    (hd : 1 ≤ d) (h8 : d ≤ 255) (hdepth : k.criticalSectionCount = d)
    (hpid : pid ≠ k.currentProc)
    (hexec : os_exec dispatcherAddress programID priority mem k = .ok (r, mem1, k1))
    (hkill : os_kill pid SP mem2 k1 = .ok (res, k2)) :
    k1.criticalSectionCount = d ∧ k1.TIMSK2_OCIE2A = false ∧ k1.currentProc = k.currentProc ∧
    res ≠ none ∧ k2.criticalSectionCount = d ∧ k2.TIMSK2_OCIE2A = false ∧
    k2.SREG_I = k.SREG_I ∧
    (∀ (kb : Kernel) (resb : Option Bool), k.TIMSK2_OCIE2A = false →
      os_kill pid SP mem2 k = .ok (resb, kb) →
      resb ≠ none ∧ kb.criticalSectionCount = d ∧ kb.TIMSK2_OCIE2A = false) := by
  obtain ⟨a1, a2, a3⟩ := os_exec_depth dispatcherAddress programID priority mem mem1 k k1 r
    (by omega) hexec
  obtain ⟨a4, _⟩ := os_exec_inv dispatcherAddress programID priority mem mem1 k k1 r hexec
  have hm1 : k1.TIMSK2_OCIE2A = false := by rw [a3, if_neg (by omega)]
  obtain ⟨b1, b2, b3, b4⟩ := os_kill_depth pid SP mem2 k1 k2 res (by omega)
    (by rw [a4]; exact hpid) hkill
  refine ⟨by omega, hm1, a4, b1, by omega, ?_, by rw [b3, a2], fun kb resb hm hk => ?_⟩
  · rcases b4 with b4 | b4
    · rw [b4, hm1]
    · rw [b4, if_neg (by omega)]
  · obtain ⟨c1, c2, _, c4⟩ := os_kill_depth pid SP mem2 k kb resb (by omega) hpid hk
    refine ⟨c1, by omega, ?_⟩
    rcases c4 with c4 | c4
    · rw [c4, hm]
    · rw [c4, if_neg (by omega)]

set_option maxRecDepth 100000 in
theorem C23_kill_keeps_critical_sections_witness :
    ∃ mem1 k1 k2, os_exec 0x123456 2 2 (fun _ => 0) (tt_kernel_registered OS_SS_ROUND_ROBIN)
        = .ok (4, mem1, k1) ∧
      os_kill 4 0 mem1 k1 = .ok (some true, k2) ∧
      (tt_kernel_registered OS_SS_ROUND_ROBIN).criticalSectionCount = 2 ∧
      k2.criticalSectionCount = 2 ∧ k2.TIMSK2_OCIE2A = false := by
  have h : ∃ mem1 k1 k2, os_exec 0x123456 2 2 (fun _ => 0)
        (tt_kernel_registered OS_SS_ROUND_ROBIN) = .ok (4, mem1, k1) ∧
      os_kill 4 0 mem1 k1 = .ok (some true, k2) := ⟨_, _, _, rfl, rfl⟩
  obtain ⟨mem1, k1, k2, h1, h2⟩ := h
  obtain ⟨_, _, _, _, c5, c6, _⟩ := C23_kill_keeps_critical_sections 0x123456 2 2 4 0 2 4
    (fun _ => 0) mem1 mem1 (tt_kernel_registered OS_SS_ROUND_ROBIN) k1 k2 (some true)
    (by decide) (by decide) (by decide) (by decide) h1 h2
  exact ⟨mem1, k1, k2, h1, h2, by decide, c5, c6⟩

/-- The do-while loop of `os_scheduler_RoundRobin` stops with `found` only at
a slot that is Ready with a non-zero program id. -/
theorem os_scheduler_RoundRobin_loop_found (processes : Nat → process_t) (current : Nat) :
    ∀ (fuel n m : Nat),
      os_scheduler_RoundRobin_loop processes current fuel n = some (m, true) →
      (processes m).state = OS_PS_READY ∧ (processes m).progID ≠ 0 := by
  intro fuel
  induction fuel with
  | zero => intro n m h; cases h
  | succ f ih =>
    intro n m h
    unfold os_scheduler_RoundRobin_loop at h
    by_cases he : (processes ((n + 1) % MAX_NUMBER_OF_PROCESSES)).state = OS_PS_READY
        ∧ (processes ((n + 1) % MAX_NUMBER_OF_PROCESSES)).progID ≠ 0
    · rw [if_pos he] at h
      obtain ⟨r1, _⟩ := Prod.mk.inj (Option.some.inj h)
      rw [← r1]
      exact he
    · rw [if_neg he] at h
      by_cases hn : (n + 1) % MAX_NUMBER_OF_PROCESSES ≠ current
      · rw [if_pos hn] at h
        exact ih _ m h
      · rw [if_neg hn] at h
        obtain ⟨_, r2⟩ := Prod.mk.inj (Option.some.inj h)
        cases r2

/-- Function `os_scheduler_RoundRobin` returns 0 or a Ready slot, for every
table and every `current`. -/
theorem os_scheduler_RoundRobin_ready (processes : Nat → process_t) (current r : Nat)
    (h : os_scheduler_RoundRobin processes current = some r) :
    r = 0 ∨ (processes r).state = OS_PS_READY := by
  unfold os_scheduler_RoundRobin at h
  cases hany : isAnyProcReady processes with
  | false =>
    rw [hany] at h
    simp only [Bool.not_false, if_true] at h
    exact Or.inl (Option.some.inj h).symm
  | true =>
    rw [hany] at h
    simp only [Bool.not_true, Bool.false_eq_true, if_false] at h
    cases hl : os_scheduler_RoundRobin_loop processes current MAX_NUMBER_OF_PROCESSES current with
    | none => rw [hl] at h; cases h
    | some res =>
      obtain ⟨m, found⟩ := res
      rw [hl] at h
      dsimp only at h
      cases found with
      | true =>
        simp only [if_true] at h
        have := Option.some.inj h
        subst this
        exact Or.inr (os_scheduler_RoundRobin_loop_found processes current _ _ _ hl).1
      | false =>
        simp only [Bool.false_eq_true, if_false] at h
        by_cases hc : (processes current).state = OS_PS_READY ∧ (processes current).progID ≠ 0
        · rw [if_pos hc] at h
          have := Option.some.inj h
          subst this
          exact Or.inr hc.1
        · rw [if_neg hc] at h
          exact Or.inl (Option.some.inj h).symm

/-- The process selected by steps 4 to 6 of the tick under round-robin is the
idle process, the interrupted process, or a process that was Ready. -/
theorem os_selectNext_rr_selected (k k1 : Kernel) (hs : k.currSchedStrat = OS_SS_ROUND_ROBIN)
    (h : os_selectNext k = .ok k1) :
    k1.currentProc = 0 ∨ k1.currentProc = k.currentProc ∨
    (k.os_processes k1.currentProc).state = OS_PS_READY := by
  rw [os_selectNext_eq] at h
  obtain ⟨f1, f2, _⟩ := tick_deschedule_frame k
  cases hc : os_callStrategy (tick_deschedule k) with
  | error e1 => rw [hc] at h; cases h
  | ok r =>
    obtain ⟨pid, info⟩ := r
    rw [hc] at h
    dsimp only at h
    have hk := Except.ok.inj h
    subst hk
    dsimp only
    unfold os_callStrategy at hc
    rw [f2, hs, if_neg (by decide)] at hc
    cases hr : os_scheduler_RoundRobin (tick_deschedule k).os_processes
        (tick_deschedule k).currentProc with
    | none => rw [hr] at hc; cases hc
    | some q =>
      rw [hr] at hc
      obtain ⟨r1, _⟩ := Prod.mk.inj (Except.ok.inj hc)
      subst r1
      rcases os_scheduler_RoundRobin_ready _ _ _ hr with h0 | hrdy
      · left
        rw [h0]
        rfl
      · by_cases h255 : q = INVALID_PROCESS
        · left
          rw [if_pos h255]
        · rw [if_neg h255]
          obtain ⟨_, _, _, _, s5⟩ := tick_deschedule_slot k q
          rw [s5] at hrdy
          by_cases hq : q = k.currentProc ∧ (k.os_processes q).state = OS_PS_RUNNING
          · exact Or.inr (Or.inl hq.1)
          · rw [if_neg hq] at hrdy
            exact Or.inr (Or.inr hrdy)

/-- The process selected by a tick under the priority strategy, on queues
that agree with the table, is the idle process, the interrupted process, or a
pid held by a queue. -/
theorem TIMER2_COMPA_vect_dprr_selected (SP : Nat) (mem : Nat → Nat) (k k1 : Kernel)
    (hinv : dprr_inv k) (hcur : (k.os_processes k.currentProc).state ≠ OS_PS_READY)
    (h : TIMER2_COMPA_vect SP mem k = .ok k1) :
    k1.currentProc = 0 ∨ k1.currentProc = k.currentProc ∨ k1.currentProc ∈ rq_all k := by
  obtain ⟨hs, hwf, hcnt, hmem, hrdy, hlvl⟩ := hinv
  obtain ⟨hc8, hc8', hsel⟩ := TIMER2_COMPA_vect_ok SP mem k k1 h
  have hcur_notin : k.currentProc ∉ rq_all k := fun hm => hcur (hmem _ hm).2
  have hlen : (rq_all k).length ≤ 7 :=
    pids_length_le _ k.currentProc hc8 hcnt (fun y hy => (hmem y hy).1) hcur_notin
  obtain ⟨hwf1, htup⟩ := os_selectNext_dprr (tick_storeChecksum mem (tick_storeSP SP k)) k1
    hs hwf hlen hsel
  have e1 : (tick_storeChecksum mem (tick_storeSP SP k)).schedulingInfo = k.schedulingInfo := rfl
  have e2 : (tick_storeChecksum mem (tick_storeSP SP k)).currentProc = k.currentProc := rfl
  obtain ⟨_, _, _, e3, _, e4, _⟩ := tick_store_slot SP mem k k.currentProc
  rw [e1, e2, e3, e4] at htup
  generalize hrq : (if k.currentProc ≠ 0 ∧ (k.os_processes k.currentProc).state ≠ OS_PS_UNUSED
      then some (k.os_processes k.currentProc).priority else none) = rq at htup
  have hall : ∀ y, (rq_all k).count y
      = (rq_contents (k.schedulingInfo.queues_ready OS_PRIO_HIGH)).count y
        + (rq_contents (k.schedulingInfo.queues_ready OS_PRIO_NORMAL)).count y
        + (rq_contents (k.schedulingInfo.queues_ready OS_PRIO_LOW)).count y :=
    fun y => rq_all_count k y
  generalize rq_contents (k.schedulingInfo.queues_ready OS_PRIO_HIGH) = H at htup hall
  generalize rq_contents (k.schedulingInfo.queues_ready OS_PRIO_NORMAL) = N at htup hall
  generalize rq_contents (k.schedulingInfo.queues_ready OS_PRIO_LOW) = L at htup hall
  have hcount := dprr_abs_count H N L rq k.currentProc
  have hidle : H = [] → N = [] → L = [] → rq = none →
      (dprr_abs H N L rq k.currentProc).1 = 0 := by
    intro a b c d
    rw [a, b, c, d]
    rfl
  generalize dprr_abs H N L rq k.currentProc = A at htup hcount hidle
  obtain ⟨t1, _⟩ := Prod.mk.inj htup
  rw [t1]
  by_cases h255 : A.1 = INVALID_PROCESS
  · left
    rw [if_pos h255]
  · rw [if_neg h255]
    by_cases hne : H ≠ [] ∨ N ≠ [] ∨ L ≠ [] ∨ rq ≠ none
    · have hc := hcount A.1
      rw [if_pos ⟨hne, rfl⟩] at hc
      by_cases hy : rq ≠ none ∧ A.1 = k.currentProc
      · exact Or.inr (Or.inl hy.2)
      · rw [if_neg hy] at hc
        have : 0 < (rq_all k).count A.1 := by rw [hall]; omega
        exact Or.inr (Or.inr (List.count_pos_iff.mp this))
    · left
      have hH : H = [] := by by_contra hh; exact hne (Or.inl hh)
      have hN : N = [] := by by_contra hh; exact hne (Or.inr (Or.inl hh))
      have hL : L = [] := by by_contra hh; exact hne (Or.inr (Or.inr (Or.inl hh)))
      have hR : rq = none := by by_contra hh; exact hne (Or.inr (Or.inr (Or.inr hh)))
      exact hidle hH hN hL hR

/-- A tick never selects an Unused slot other than the idle slot: a process
`p` that is Unused and not current stays so. Under the priority strategy the
queues agree with the table before and after. -/
theorem TIMER2_COMPA_vect_killed (p SP : Nat) (mem : Nat → Nat) (k k1 : Kernel)
    (hp : p ≠ 0) (hc : k.currentProc ≠ p) (hu : (k.os_processes p).state = OS_PS_UNUSED)
    (hd : k.currSchedStrat = OS_SS_DYNAMIC_PRIORITY_ROUND_ROBIN →
      dprr_inv k ∧ (k.os_processes k.currentProc).state = OS_PS_RUNNING)
    (h : TIMER2_COMPA_vect SP mem k = .ok k1) :
    k1.currentProc ≠ p ∧ (k1.os_processes p).state = OS_PS_UNUSED ∧
    (k1.currSchedStrat = OS_SS_DYNAMIC_PRIORITY_ROUND_ROBIN →
      dprr_inv k1 ∧ (k1.os_processes k1.currentProc).state = OS_PS_RUNNING) := by
  obtain ⟨fstrat, _, _, _, fslot⟩ := TIMER2_COMPA_vect_frame SP mem k k1 h
  have hsel : k1.currentProc = 0 ∨ k1.currentProc = k.currentProc ∨
      (k.os_processes k1.currentProc).state = OS_PS_READY := by
    cases hstrat : k.currSchedStrat with
    | OS_SS_ROUND_ROBIN =>
      obtain ⟨_, _, hs⟩ := TIMER2_COMPA_vect_ok SP mem k k1 h
      have hsK : (tick_storeChecksum mem (tick_storeSP SP k)).currSchedStrat
          = OS_SS_ROUND_ROBIN := hstrat
      rcases os_selectNext_rr_selected (tick_storeChecksum mem (tick_storeSP SP k)) k1 hsK hs
        with h0 | h1 | h2
      · exact Or.inl h0
      · exact Or.inr (Or.inl h1)
      · obtain ⟨_, _, _, e3, _⟩ := tick_store_slot SP mem k k1.currentProc
        rw [e3] at h2
        exact Or.inr (Or.inr h2)
    | OS_SS_DYNAMIC_PRIORITY_ROUND_ROBIN =>
      obtain ⟨hinv, hrun⟩ := hd hstrat
      rcases TIMER2_COMPA_vect_dprr_selected SP mem k k1 hinv
        (by rw [hrun]; exact fun hh => by cases hh) h with h0 | h1 | h2
      · exact Or.inl h0
      · exact Or.inr (Or.inl h1)
      · exact Or.inr (Or.inr (hinv.2.2.2.1 _ h2).2)
  have hne : k1.currentProc ≠ p := by
    rcases hsel with h0 | h1 | h2
    · rw [h0]; exact fun hh => hp hh.symm
    · rw [h1]; exact hc
    · intro hh
      rw [hh, hu] at h2
      cases h2
  refine ⟨hne, ?_, fun hs => ?_⟩
  · rw [(fslot p).2.2, if_neg (fun hh => hne hh.symm), if_neg (fun hh => hc hh.1.symm)]
    exact hu
  · obtain ⟨hinv, hrun⟩ := hd (fstrat ▸ hs)
    exact TIMER2_COMPA_vect_dprr_inv SP mem k k1 hinv
      (by rw [hrun]; exact fun hh => by cases hh) h

/-- A run of ticks and yields keeps a process that is Unused and not current
in that state. -/
theorem os_calls_killed (p : Nat) (hp : p ≠ 0) : ∀ (calls : List KernelCall) (k k1 : Kernel),
    (∀ c, c ∈ calls → c.isTickYield = true) →
    k.currentProc ≠ p → (k.os_processes p).state = OS_PS_UNUSED →
    (k.currSchedStrat = OS_SS_DYNAMIC_PRIORITY_ROUND_ROBIN →
      dprr_inv k ∧ (k.os_processes k.currentProc).state = OS_PS_RUNNING) →
    os_calls calls k = .ok k1 →
    k1.currentProc ≠ p ∧ (k1.os_processes p).state = OS_PS_UNUSED := by
  intro calls
  induction calls with
  | nil =>
    intro k k1 _ hc hu _ h
    have := Except.ok.inj h
    subst this
    exact ⟨hc, hu⟩
  | cons c rest ih =>
    intro k k1 hall hc hu hd h
    unfold os_calls at h
    cases hcall : os_call c k with
    | error e => rw [hcall] at h; cases h
    | ok k2 =>
      rw [hcall] at h
      dsimp only at h
      have hstep : k2.currentProc ≠ p ∧ (k2.os_processes p).state = OS_PS_UNUSED ∧
          (k2.currSchedStrat = OS_SS_DYNAMIC_PRIORITY_ROUND_ROBIN →
            dprr_inv k2 ∧ (k2.os_processes k2.currentProc).state = OS_PS_RUNNING) := by
        have hty := hall c (List.mem_cons_self _ _)
        cases c with
        | tick SP mem => exact TIMER2_COMPA_vect_killed p SP mem k k2 hp hc hu hd hcall
        | yield SP mem =>
          have hy : os_yield SP mem k = .ok k2 := hcall
          unfold os_yield at hy
          by_cases hcs : k.criticalSectionCount > 0
          · rw [if_pos hcs] at hy
            have := Except.ok.inj hy
            subst this
            exact ⟨hc, hu, hd⟩
          · rw [if_neg hcs] at hy
            exact TIMER2_COMPA_vect_killed p SP mem { k with SREG_I := false } k2 hp hc hu hd hy
        | exec d programID priority mem => cases hty
        | kill pid SP mem => cases hty
        | setStrategy s => cases hty
      exact ih k2 k1 (fun c1 hc1 => hall c1 (List.mem_cons_of_mem _ hc1)) hstep.1 hstep.2.1
        hstep.2.2 h

/-- C22: kill is synchronous. After `os_kill` of a pid `p` has returned true
(so `p` is not the current process), every run of scheduler ticks and
`os_yield` calls that follows, under either scheduling strategy, ends with a
current process other than `p` and with the slot `p` Unused. Under the
priority strategy the queues agree with the table and the current process is
Running when `os_kill` is called. -/
theorem C22_kill_synchronous (p SP : Nat) (mem : Nat → Nat) (k0 k1 k2 : Kernel)
    (calls : List KernelCall)
    (hq : k0.currSchedStrat = OS_SS_DYNAMIC_PRIORITY_ROUND_ROBIN →
      dprr_inv k0 ∧ (k0.os_processes k0.currentProc).state = OS_PS_RUNNING)
    (hkill : os_kill p SP mem k0 = .ok (some true, k1))
    (hcalls : ∀ c, c ∈ calls → c.isTickYield = true)
    (hrun : os_calls calls k1 = .ok k2) :
    p ≠ k0.currentProc ∧ (k1.os_processes p).state = OS_PS_UNUSED ∧
    k2.currentProc ≠ p ∧ (k2.os_processes p).state = OS_PS_UNUSED := by
  rcases os_kill_inv p SP mem k0 k1 (some true) hkill with
    ⟨hf, _⟩ | ⟨h1, h8, hu, kmid, kres, m1, _, _, _, hres⟩
  · cases hf
  · rcases hres with ⟨_, hne, r1, _, r3, r4, _⟩ | ⟨hn, _⟩
    · have hu1 : (k1.os_processes p).state = OS_PS_UNUSED := by
        rw [r1, m1, write_same]
      have hd : k1.currSchedStrat = OS_SS_DYNAMIC_PRIORITY_ROUND_ROBIN →
          dprr_inv k1 ∧ (k1.os_processes k1.currentProc).state = OS_PS_RUNNING := by
        intro hs
        obtain ⟨hinv, hrun0⟩ := hq (r4 ▸ hs)
        exact os_kill_dprr_inv p SP mem k0 k1 (some true) hinv hrun0 hkill
      obtain ⟨c1, c2⟩ := os_calls_killed p (by omega) calls k1 k2 hcalls
        (by rw [r3]; exact fun hh => hne hh.symm) hu1 hd hrun
      exact ⟨hne, hu1, c1, c2⟩
    · cases hn

set_option maxRecDepth 100000 in
theorem C22_kill_synchronous_witness :
    (∃ k1 k2, os_kill 3 0 (fun _ => 0) (tt_kernel_registered OS_SS_ROUND_ROBIN)
        = .ok (some true, k1) ∧
      os_calls tt_ticks k1 = .ok k2 ∧ k2.currentProc = 1 ∧
      k2.currentProc ≠ 3 ∧ (k2.os_processes 3).state = OS_PS_UNUSED) ∧
    (∃ k0 k1 k2, tt_run OS_SS_DYNAMIC_PRIORITY_ROUND_ROBIN [] = some k0 ∧
      os_kill 3 0 (fun _ => 0) k0 = .ok (some true, k1) ∧
      os_calls tt_ticks k1 = .ok k2 ∧ k2.currentProc = 1 ∧
      k2.currentProc ≠ 3 ∧ (k2.os_processes 3).state = OS_PS_UNUSED) := by
  have hr : ∃ k1 k2, os_kill 3 0 (fun _ => 0) (tt_kernel_registered OS_SS_ROUND_ROBIN)
        = .ok (some true, k1) ∧
      os_calls tt_ticks k1 = .ok k2 ∧ k2.currentProc = 1 := ⟨_, _, rfl, rfl, by decide⟩
  have hd : ∃ k0 k1 k2, tt_run OS_SS_DYNAMIC_PRIORITY_ROUND_ROBIN [] = some k0 ∧
      os_kill 3 0 (fun _ => 0) k0 = .ok (some true, k1) ∧
      os_calls tt_ticks k1 = .ok k2 ∧ k2.currentProc = 1 ∧
      (k0.os_processes k0.currentProc).state = OS_PS_RUNNING :=
    ⟨_, _, _, rfl, rfl, rfl, by decide, by decide⟩
  obtain ⟨k1, k2, a1, a2, a3⟩ := hr
  obtain ⟨j0, j1, j2, b0, b1, b2, b3, b4⟩ := hd
  obtain ⟨_, _, c3, c4⟩ := C22_kill_synchronous 3 0 (fun _ => 0)
    (tt_kernel_registered OS_SS_ROUND_ROBIN) k1 k2 tt_ticks (fun h => absurd h (by decide)) a1
    (by decide) a2
  obtain ⟨js, hset, hnil⟩ := tt_run_some _ _ j0 b0
  have hjs : js = j0 := Except.ok.inj hnil
  subst hjs
  obtain ⟨_, _, d3, d4⟩ := C22_kill_synchronous 3 0 (fun _ => 0) js j1 j2 tt_ticks
    (fun _ => ⟨(os_setSchedulingStrategy_dprr_inv _ _ hset).1, b4⟩) b1 (by decide) b2
  exact ⟨⟨k1, k2, a1, a2, a3, c3, c4⟩, js, j1, j2, b0, b1, b2, b3, d3, d4⟩

/-! ### Idle scheduling, command dispatch, framing edge cases, the dispatcher,
the priority decision, the stack fingerprint and the stack layout -/

/-- The priority strategy on empty queues with a `current` that is not
requeued: the queues stay as they are, the text " IDLE " goes to the terminal
and 0 is returned. -/
theorem os_scheduler_DynamicPriorityRoundRobin_idle (k : Kernel) (processes : Nat → process_t)
    (current : Nat) (he : ∀ p, rq_isEmpty (k.schedulingInfo.queues_ready p) = true)
    (hc : ¬ (current ≠ 0 ∧ (processes current).state = OS_PS_READY)) :
    os_scheduler_DynamicPriorityRoundRobin k processes current
      = (terminal_writeProgString k).map (fun k1 => ((0 : Nat), k1)) := by
  unfold os_scheduler_DynamicPriorityRoundRobin promote
  rw [he OS_PRIO_NORMAL]
  simp only [Bool.not_true, Bool.false_eq_true, if_false]
  rw [he OS_PRIO_LOW]
  simp only [Bool.not_true, Bool.false_eq_true, if_false]
  unfold requeue_current
  rw [if_neg hc]
  dsimp only
  unfold select_head
  dsimp only
  rw [he OS_PRIO_HIGH, he OS_PRIO_NORMAL, he OS_PRIO_LOW]
  simp only [Bool.not_true, Bool.false_eq_true, if_false]
  have hk : ({ k with schedulingInfo := k.schedulingInfo } : Kernel) = k := rfl
  rw [hk]
  cases terminal_writeProgString k <;> rfl

/-- Function `os_scheduler_RoundRobin` on a table without a Ready slot from
1 to 7. -/
theorem os_scheduler_RoundRobin_idle (processes : Nat → process_t) (current : Nat)
    (h : ∀ i, 1 ≤ i → i < 8 → (processes i).state ≠ OS_PS_READY) :
    os_scheduler_RoundRobin processes current = some 0 := by
  have hany : isAnyProcReady processes = false := by
    cases hb : isAnyProcReady processes with
    | false => rfl
    | true =>
      obtain ⟨i, h1, h8, hr⟩ := (isAnyProcReady_iff processes).mp hb
      exact absurd hr (h i h1 h8)
  unfold os_scheduler_RoundRobin
  rw [hany]
  simp only [Bool.not_false, if_true]

/-- A tick whose strategy call returns 0 or INVALID_PROCESS makes slot 0 the
current process and Running. -/
theorem TIMER2_COMPA_vect_none (SP : Nat) (mem : Nat → Nat) (k k1 : Kernel) (pid : Nat)
    (k2 : Kernel)
    (h : TIMER2_COMPA_vect SP mem k = .ok k1)
    (hs : os_callStrategy (tick_deschedule (tick_storeChecksum mem (tick_storeSP SP k)))
      = .ok (pid, k2))
    (hpid : pid = 0 ∨ pid = INVALID_PROCESS) :
    k1.currentProc = 0 ∧ (k1.os_processes 0).state = OS_PS_RUNNING := by
  obtain ⟨_, _, hsel⟩ := TIMER2_COMPA_vect_ok SP mem k k1 h
  rw [os_selectNext_eq, hs] at hsel
  have hk := Except.ok.inj hsel
  have hnext : (if pid = INVALID_PROCESS then 0 else pid) = 0 := by
    rcases hpid with h0 | h255
    · rw [h0]; rfl
    · rw [if_pos h255]
  rw [hnext] at hk
  subst hk
  exact ⟨rfl, by dsimp only; rw [write_same]⟩

/-- C31: idle is scheduled when nothing is runnable. With every slot Unused,
`os_scheduler_RoundRobin` returns 0 for every `current`, and after
`os_resetSchedulingInformation` for the priority strategy (which returns)
`os_scheduler_DynamicPriorityRoundRobin` returns 0 for every `current` below
8 and leaves the queues as they are; that call writes " IDLE " to the
terminal inside a critical section, so it returns at a critical-section depth
below 255, with the tick source enabled afterwards exactly at depth 0, and
ends in the fatal critical-section overflow at the depth 255. A tick that
returns and whose strategy call returned 0 or INVALID_PROCESS leaves slot 0 as
the current process, in state Running; this is so under round-robin when no
slot from 1 to 7 is Ready and the interrupted process is the idle process or
has ended (its slot is Unused), and under the priority strategy when the
queues are empty and the interrupted process is the idle process or has
ended. -/
theorem C31_idle_when_nothing_runnable :
    (∀ (processes : Nat → process_t) (current : Nat),
      (∀ i, i < 8 → (processes i).state = OS_PS_UNUSED) →
      os_scheduler_RoundRobin processes current = some 0) ∧
    (∀ (k : Kernel) (current : Nat), (∀ i, i < 8 → (k.os_processes i).state = OS_PS_UNUSED) →
      current < 8 →
      ∃ k1, os_resetSchedulingInformation OS_SS_DYNAMIC_PRIORITY_ROUND_ROBIN k = .ok k1 ∧
        k1.os_processes = k.os_processes ∧
        (∀ p, rq_contents (k1.schedulingInfo.queues_ready p) = []) ∧
        (k.criticalSectionCount < 255 →
          os_scheduler_DynamicPriorityRoundRobin k1 k1.os_processes current
            = .ok (0, { k1 with TIMSK2_OCIE2A := decide (k1.criticalSectionCount = 0) })) ∧
        (k.criticalSectionCount = 255 →
          os_scheduler_DynamicPriorityRoundRobin k1 k1.os_processes current
            = .error .crit_section_overflow)) ∧
    (∀ (SP : Nat) (mem : Nat → Nat) (k k1 k2 : Kernel) (pid : Nat),
      TIMER2_COMPA_vect SP mem k = .ok k1 →
      os_callStrategy (tick_deschedule (tick_storeChecksum mem (tick_storeSP SP k)))
        = .ok (pid, k2) →
      pid = 0 ∨ pid = INVALID_PROCESS →
      k1.currentProc = 0 ∧ (k1.os_processes 0).state = OS_PS_RUNNING) ∧
    (∀ (SP : Nat) (mem : Nat → Nat) (k k1 : Kernel),
      TIMER2_COMPA_vect SP mem k = .ok k1 →
      (k.currSchedStrat = OS_SS_ROUND_ROBIN ∧
          ∀ i, 1 ≤ i → i < 8 → (k.os_processes i).state ≠ OS_PS_READY) ∨
        (k.currSchedStrat = OS_SS_DYNAMIC_PRIORITY_ROUND_ROBIN ∧
          ∀ p, rq_isEmpty (k.schedulingInfo.queues_ready p) = true) →
      k.currentProc = 0 ∨ (k.os_processes k.currentProc).state = OS_PS_UNUSED →
      k1.currentProc = 0 ∧ (k1.os_processes 0).state = OS_PS_RUNNING) := by
  refine ⟨fun processes current h => ?_, fun k current h hc => ?_,
    fun SP mem k k1 k2 pid h hs hpid => TIMER2_COMPA_vect_none SP mem k k1 pid k2 h hs hpid,
    fun SP mem k k1 h hstrat hcur => ?_⟩
  · exact os_scheduler_RoundRobin_idle processes current
      (fun i _ h8 => by rw [h i h8]; exact fun hh => by cases hh)
  · obtain ⟨info1, h1, hw1, hc1⟩ := os_resetSchedulingInformation_loop_spec k (List.range' 1 7)
      { queues_ready := fun p => rq_clear (k.schedulingInfo.queues_ready p) }
      (fun p => rq_clear_wf _) (fun p => by
        dsimp only
        rw [rq_clear_contents]
        simp)
    have hempty : ∀ p, rq_contents (info1.queues_ready p) = [] := by
      intro p
      rw [hc1 p]
      dsimp only
      rw [rq_clear_contents, List.nil_append, List.filter_eq_nil_iff]
      intro pid hpid
      rw [List.mem_range'] at hpid
      obtain ⟨t, ht, rfl⟩ := hpid
      rw [h (1 + 1 * t) (by omega)]
      simp
    have hidle : os_scheduler_DynamicPriorityRoundRobin { k with schedulingInfo := info1 }
        k.os_processes current
        = (terminal_writeProgString { k with schedulingInfo := info1 }).map
            (fun k1 => ((0 : Nat), k1)) := by
      apply os_scheduler_DynamicPriorityRoundRobin_idle
      · intro p
        rw [rq_isEmpty_iff _ (hw1 p)]
        exact hempty p
      · rintro ⟨_, hr⟩
        rw [h current hc] at hr
        cases hr
    refine ⟨{ k with schedulingInfo := info1 }, ?_, rfl, hempty, fun h8 => ?_, fun h8 => ?_⟩
    · unfold os_resetSchedulingInformation
      rw [if_pos rfl]
      dsimp only
      have e : MAX_NUMBER_OF_PROCESSES - 1 = 7 := rfl
      rw [e, h1]
    · dsimp only
      rw [hidle, terminal_writeProgString_ok { k with schedulingInfo := info1 } h8]
      rfl
    · dsimp only
      rw [hidle, terminal_writeProgString_overflow { k with schedulingInfo := info1 } h8]
      rfl
  · have hslot : ∀ p, ((tick_deschedule (tick_storeChecksum mem (tick_storeSP SP k))).os_processes
        p).state = if p = k.currentProc ∧ (k.os_processes p).state = OS_PS_RUNNING
          then OS_PS_READY else (k.os_processes p).state := by
      intro p
      obtain ⟨_, _, _, _, s5⟩ := tick_deschedule_slot (tick_storeChecksum mem (tick_storeSP SP k)) p
      obtain ⟨e1, _, _, e3, _⟩ := tick_store_slot SP mem k p
      rw [s5, e1, e3]
    have hnot : ∀ p, p ≠ 0 →
        ((tick_deschedule (tick_storeChecksum mem (tick_storeSP SP k))).os_processes p).state
          = (k.os_processes p).state := by
      intro p hp
      rw [hslot p]
      by_cases hq : p = k.currentProc ∧ (k.os_processes p).state = OS_PS_RUNNING
      · rcases hcur with h0 | hr
        · exact absurd (hq.1.trans h0) hp
        · have hq2 := hq.2
          rw [hq.1, hr] at hq2
          cases hq2
      · rw [if_neg hq]
    obtain ⟨f1, f2, f3, _⟩ := tick_deschedule_frame (tick_storeChecksum mem (tick_storeSP SP k))
    have g1 : (tick_storeChecksum mem (tick_storeSP SP k)).currSchedStrat = k.currSchedStrat := rfl
    have g2 : (tick_storeChecksum mem (tick_storeSP SP k)).schedulingInfo = k.schedulingInfo := rfl
    have g3 : (tick_storeChecksum mem (tick_storeSP SP k)).currentProc = k.currentProc := rfl
    rcases hstrat with ⟨hs, hr⟩ | ⟨hs, he⟩
    · refine TIMER2_COMPA_vect_none SP mem k k1 0
        (tick_deschedule (tick_storeChecksum mem (tick_storeSP SP k))) h ?_
        (Or.inl rfl)
      unfold os_callStrategy
      rw [f2, g1, hs, if_neg (by decide), os_scheduler_RoundRobin_idle _ _
        (fun i h1 h8 => by rw [hnot i (by omega)]; exact hr i h1 h8)]
    · have hcs : os_callStrategy (tick_deschedule (tick_storeChecksum mem (tick_storeSP SP k)))
          = (terminal_writeProgString
              (tick_deschedule (tick_storeChecksum mem (tick_storeSP SP k)))).map
              (fun k1 => ((0 : Nat), k1)) := by
        unfold os_callStrategy
        rw [f2, g1, hs, if_pos rfl]
        apply os_scheduler_DynamicPriorityRoundRobin_idle
        · intro p
          rw [f3, g2]
          exact he p
        · rintro ⟨hne, hrd⟩
          rw [f1, g3] at hne hrd
          rw [hnot _ hne] at hrd
          rcases hcur with h0 | hun
          · exact hne h0
          · rw [hun] at hrd
            cases hrd
      cases ht : terminal_writeProgString
          (tick_deschedule (tick_storeChecksum mem (tick_storeSP SP k))) with
      | error e =>
        obtain ⟨_, _, hsel⟩ := TIMER2_COMPA_vect_ok SP mem k k1 h
        rw [os_selectNext_eq, hcs, ht] at hsel
        cases hsel
      | ok kt =>
        exact TIMER2_COMPA_vect_none SP mem k k1 0 kt h (by rw [hcs, ht]; rfl) (Or.inl rfl)

set_option maxRecDepth 100000 in
/-- C31 on the table in which only the idle process is left: a tick makes slot 0
the current Running process under both strategies. -/
theorem C31_idle_when_nothing_runnable_witness :
    (∃ k1, TIMER2_COMPA_vect (PROCESS_STACK_BOTTOM 3 - 72) (fun _ => 0)
        (idle_only_kernel OS_SS_ROUND_ROBIN) = .ok k1 ∧
      k1.currentProc = 0 ∧ (k1.os_processes 0).state = OS_PS_RUNNING) ∧
    (∃ k1, TIMER2_COMPA_vect (PROCESS_STACK_BOTTOM 3 - 72) (fun _ => 0)
        (idle_only_kernel OS_SS_DYNAMIC_PRIORITY_ROUND_ROBIN) = .ok k1 ∧
      k1.currentProc = 0 ∧ (k1.os_processes 0).state = OS_PS_RUNNING) := by
  have h1 : ∃ k1, TIMER2_COMPA_vect (PROCESS_STACK_BOTTOM 3 - 72) (fun _ => 0)
      (idle_only_kernel OS_SS_ROUND_ROBIN) = .ok k1 := ⟨_, rfl⟩
  have h2 : ∃ k1, TIMER2_COMPA_vect (PROCESS_STACK_BOTTOM 3 - 72) (fun _ => 0)
      (idle_only_kernel OS_SS_DYNAMIC_PRIORITY_ROUND_ROBIN) = .ok k1 := ⟨_, rfl⟩
  obtain ⟨k1, a1⟩ := h1
  obtain ⟨k2, a2⟩ := h2
  exact ⟨⟨k1, a1, C31_idle_when_nothing_runnable.2.2.2 _ _ _ k1 a1
      (Or.inl ⟨rfl, by decide⟩) (Or.inr (by decide))⟩,
    ⟨k2, a2, C31_idle_when_nothing_runnable.2.2.2 _ _ _ k2 a2
      (Or.inr ⟨rfl, fun p => by cases p <;> rfl⟩) (Or.inr (by decide))⟩⟩

/-- C32: command dispatch by exact length. `serialAdapter_processFrame`
calls at most one handler; it calls one exactly for command 0x01 with inner
length 2, command 0x02 or 0x10 with length 1, command 0x11 with length 3, and
command 0x12 with length `2 + L` and `L` at most 32, where `L` is the first
payload byte; the handler is then the one of that command, with the payload
bytes as its data. Every other frame, whatever its command byte, calls no
handler. LCD_PRINT with `L = 0` is accepted with an empty text, and `L = 33`
is rejected. -/
theorem C32_dispatch_by_length (frame : frame_t) :
    (serialAdapter_processFrame frame).length ≤ 1 ∧
    ((serialAdapter_processFrame frame).length = 1 ↔
      (frame.innerFrame 0 = 0x01 ∧ frame.header.length = 2) ∨
      (frame.innerFrame 0 = 0x02 ∧ frame.header.length = 1) ∨
      (frame.innerFrame 0 = 0x10 ∧ frame.header.length = 1) ∨
      (frame.innerFrame 0 = 0x11 ∧ frame.header.length = 3) ∨
      (frame.innerFrame 0 = 0x12 ∧ frame.header.length = 2 + frame.innerFrame 1
        ∧ frame.innerFrame 1 ≤ 32)) ∧
    (frame.innerFrame 0 = 0x01 → frame.header.length = 2 →
      serialAdapter_processFrame frame = [.receiveSetLed (frame.innerFrame 1)]) ∧
    (frame.innerFrame 0 = 0x02 → frame.header.length = 1 →
      serialAdapter_processFrame frame = [.receiveToggleLed]) ∧
    (frame.innerFrame 0 = 0x10 → frame.header.length = 1 →
      serialAdapter_processFrame frame = [.receiveLcdClear]) ∧
    (frame.innerFrame 0 = 0x11 → frame.header.length = 3 →
      serialAdapter_processFrame frame
        = [.receiveLcdGoto (frame.innerFrame 1) (frame.innerFrame 2)]) ∧
    (frame.innerFrame 0 = 0x12 → frame.header.length = 2 + frame.innerFrame 1 →
      frame.innerFrame 1 ≤ 32 →
      serialAdapter_processFrame frame
        = [.receiveLcdPrint (frame.innerFrame 1)
            ((List.range (frame.innerFrame 1)).map (fun i => frame.innerFrame (2 + i)))]) ∧
    (frame.innerFrame 0 = 0x12 → frame.innerFrame 1 = 0 → frame.header.length = 2 →
      serialAdapter_processFrame frame = [.receiveLcdPrint 0 []]) ∧
    (frame.innerFrame 0 = 0x12 → frame.innerFrame 1 = 33 →
      serialAdapter_processFrame frame = []) ∧
    ((serialAdapter_processFrame frame).length ≠ 1 → serialAdapter_processFrame frame = []) := by
  have hprint : ∀ L, (List.range L).map (fun i => frame.innerFrame (1 + (1 + i)))
      = (List.range L).map (fun i => frame.innerFrame (2 + i)) := by
    intro L
    apply List.map_congr_left
    intro i _
    rw [← Nat.add_assoc]
  have h1 : frame.innerFrame 0 = 0x01 → frame.header.length = 2 →
      serialAdapter_processFrame frame = [.receiveSetLed (frame.innerFrame 1)] := by
    intro hc hl
    simp [serialAdapter_processFrame, hc, hl, CMD_SET_LED]
  have h2 : frame.innerFrame 0 = 0x02 → frame.header.length = 1 →
      serialAdapter_processFrame frame = [.receiveToggleLed] := by
    intro hc hl
    simp [serialAdapter_processFrame, hc, hl, CMD_SET_LED, CMD_TOGGLE_LED]
  have h3 : frame.innerFrame 0 = 0x10 → frame.header.length = 1 →
      serialAdapter_processFrame frame = [.receiveLcdClear] := by
    intro hc hl
    simp [serialAdapter_processFrame, hc, hl, CMD_SET_LED, CMD_TOGGLE_LED, CMD_LCD_CLEAR]
  have h4 : frame.innerFrame 0 = 0x11 → frame.header.length = 3 →
      serialAdapter_processFrame frame
        = [.receiveLcdGoto (frame.innerFrame 1) (frame.innerFrame 2)] := by
    intro hc hl
    simp [serialAdapter_processFrame, hc, hl, CMD_SET_LED, CMD_TOGGLE_LED, CMD_LCD_CLEAR,
      CMD_LCD_GOTO]
  have h5 : frame.innerFrame 0 = 0x12 → frame.header.length = 2 + frame.innerFrame 1 →
      frame.innerFrame 1 ≤ 32 →
      serialAdapter_processFrame frame
        = [.receiveLcdPrint (frame.innerFrame 1)
            ((List.range (frame.innerFrame 1)).map (fun i => frame.innerFrame (2 + i)))] := by
    intro hc hl hL
    rw [← hprint]
    have ha : ¬ (2 + frame.innerFrame 1 < 1) := by omega
    have hb : 2 + frame.innerFrame 1 ≥ 1 + 1 := by omega
    have hd : 2 + frame.innerFrame 1 = 1 + 1 + frame.innerFrame 1 := by omega
    unfold serialAdapter_processFrame
    rw [hl, if_neg ha]
    simp only [hc, CMD_SET_LED, CMD_TOGGLE_LED, CMD_LCD_CLEAR, CMD_LCD_GOTO, CMD_LCD_PRINT,
      Nat.add_zero]
    rw [if_pos trivial, if_pos hb, if_pos trivial, if_pos hL, if_neg (by decide),
      if_neg (by decide), if_neg (by decide), if_neg (by decide)]
  have hcases : serialAdapter_processFrame frame = [] ∨
      ((frame.innerFrame 0 = 0x01 ∧ frame.header.length = 2) ∨
      (frame.innerFrame 0 = 0x02 ∧ frame.header.length = 1) ∨
      (frame.innerFrame 0 = 0x10 ∧ frame.header.length = 1) ∨
      (frame.innerFrame 0 = 0x11 ∧ frame.header.length = 3) ∨
      (frame.innerFrame 0 = 0x12 ∧ frame.header.length = 2 + frame.innerFrame 1
        ∧ frame.innerFrame 1 ≤ 32)) := by
    unfold serialAdapter_processFrame
    simp only [CMD_SET_LED, CMD_TOGGLE_LED, CMD_LCD_CLEAR, CMD_LCD_GOTO, CMD_LCD_PRINT,
      CMD_SENSOR_DATA, Nat.add_zero]
    split_ifs <;> first
      | exact Or.inl rfl
      | (right; omega)
  have hone : ((frame.innerFrame 0 = 0x01 ∧ frame.header.length = 2) ∨
      (frame.innerFrame 0 = 0x02 ∧ frame.header.length = 1) ∨
      (frame.innerFrame 0 = 0x10 ∧ frame.header.length = 1) ∨
      (frame.innerFrame 0 = 0x11 ∧ frame.header.length = 3) ∨
      (frame.innerFrame 0 = 0x12 ∧ frame.header.length = 2 + frame.innerFrame 1
        ∧ frame.innerFrame 1 ≤ 32)) → (serialAdapter_processFrame frame).length = 1 := by
    rintro (⟨a, b⟩ | ⟨a, b⟩ | ⟨a, b⟩ | ⟨a, b⟩ | ⟨a, b, c⟩)
    · rw [h1 a b]; rfl
    · rw [h2 a b]; rfl
    · rw [h3 a b]; rfl
    · rw [h4 a b]; rfl
    · rw [h5 a b c]; rfl
  refine ⟨?_, ⟨fun hl => ?_, hone⟩, h1, h2, h3, h4, h5, fun hc hL hl => ?_, fun hc hL => ?_,
    fun hne => ?_⟩
  · rcases hcases with h | h
    · rw [h]; simp
    · rw [hone h]
  · rcases hcases with h | h
    · rw [h] at hl; cases hl
    · exact h
  · rw [h5 hc (by rw [hl, hL]) (by rw [hL]; omega), hL]
    rfl
  · rcases hcases with h | h
    · exact h
    · rcases h with ⟨a, _⟩ | ⟨a, _⟩ | ⟨a, _⟩ | ⟨a, _⟩ | ⟨_, _, c⟩
      · rw [hc] at a; cases a
      · rw [hc] at a; cases a
      · rw [hc] at a; cases a
      · rw [hc] at a; cases a
      · rw [hL] at c; omega
  · rcases hcases with h | h
    · exact h
    · exact absurd (hone h) hne

/-- C32 at two LCD_PRINT frames without text bytes: the one of inner length 2
that declares `L = 0` calls the handler with an empty text, the one that
declares `L = 33` calls no handler. -/
theorem C32_dispatch_by_length_witness :
    serialAdapter_processFrame
        { header := { startFlag := 0x5246, srcAddr := 8, destAddr := 255, length := 2 }
          innerFrame := fun i => if i = 0 then 0x12 else 0, footer := { checksum := 0 } }
      = [.receiveLcdPrint 0 []] ∧
    serialAdapter_processFrame
        { header := { startFlag := 0x5246, srcAddr := 8, destAddr := 255, length := 35 }
          innerFrame := fun i => if i = 0 then 0x12 else 33, footer := { checksum := 0 } }
      = [] :=
  ⟨(C32_dispatch_by_length
      { header := { startFlag := 0x5246, srcAddr := 8, destAddr := 255, length := 2 }
        innerFrame := fun i => if i = 0 then 0x12 else 0,
        footer := { checksum := 0 } }).2.2.2.2.2.2.2.1 rfl rfl rfl,
   (C32_dispatch_by_length
      { header := { startFlag := 0x5246, srcAddr := 8, destAddr := 255, length := 35 }
        innerFrame := fun i => if i = 0 then 0x12 else 33,
        footer := { checksum := 0 } }).2.2.2.2.2.2.2.2.1 rfl rfl⟩

/-- A ring without pending error whose first byte is not 0x46, with a second
byte behind it: the worker drops the first byte and returns, without a yield
and without a handler call. -/
theorem serialAdapter_worker_resync_low (addr low high : Nat) (frame : frame_t)
    (b b2 : Nat) (rest : List Nat) (now : Nat) (script : List EnvStep)
    (hb : b < 256) (hne : b ≠ 0x46) :
    serialAdapter_worker addr low high frame
        { rx := { pending := b :: b2 :: rest, lastRxError := 0 }, now := now, script := script }
      = some { world := { rx := { pending := b2 :: rest, lastRxError := 0 }, now := now,
                          script := script }
               passed := none, calls := [] } := by
  have hw1 : serialAdapter_waitForData 2 now
      { rx := { pending := b :: b2 :: rest, lastRxError := 0 }, now := now, script := script }
      = some (true, { rx := { pending := b :: b2 :: rest, lastRxError := 0 }, now := now,
                      script := script }) :=
    serialAdapter_waitForData_ready 2 now _ (by simp)
  have hflag : (70 : Nat) = serialAdapter_startFlag % 256 := by decide
  unfold serialAdapter_worker
  dsimp only
  rw [hw1]
  dsimp only
  rw [xbee_readBuffer_one b hb]
  dsimp only
  rw [if_pos (by
    simp only [Nat.zero_lt_one, if_true]
    rw [← hflag]
    exact hne)]

/-- A ring without pending error that holds 0x46 and then a byte other than
0x52: the worker drops both bytes and returns, without a yield and without a
handler call. -/
theorem serialAdapter_worker_resync_high (addr low high : Nat) (frame : frame_t)
    (b2 : Nat) (rest : List Nat) (now : Nat) (script : List EnvStep)
    (hb : b2 < 256) (hne : b2 ≠ 0x52) :
    serialAdapter_worker addr low high frame
        { rx := { pending := 0x46 :: b2 :: rest, lastRxError := 0 }, now := now,
          script := script }
      = some { world := { rx := { pending := rest, lastRxError := 0 }, now := now,
                          script := script }
               passed := none, calls := [] } := by
  have hw1 : serialAdapter_waitForData 2 now
      { rx := { pending := 0x46 :: b2 :: rest, lastRxError := 0 }, now := now,
        script := script }
      = some (true, { rx := { pending := 0x46 :: b2 :: rest, lastRxError := 0 }, now := now,
                      script := script }) :=
    serialAdapter_waitForData_ready 2 now _ (by simp)
  have hflag1 : ¬ (70 ≠ serialAdapter_startFlag % 256) := by decide
  have hflag2 : (82 : Nat) = serialAdapter_startFlag >>> 8 := by decide
  unfold serialAdapter_worker
  dsimp only
  rw [hw1]
  dsimp only
  rw [xbee_readBuffer_one 0x46 (by omega)]
  dsimp only
  rw [if_neg (by simp only [Nat.zero_lt_one, if_true]; exact hflag1)]
  rw [xbee_readBuffer_one b2 hb]
  dsimp only
  rw [if_pos (by
    simp only [Nat.zero_lt_one, if_true]
    rw [← hflag2]
    exact hne)]

/-- Function `xbee_readBuffer` on an empty ring: nothing is read. -/
theorem xbee_readBuffer_empty (buffer : Nat → Nat) (e : Nat) :
    xbee_readBuffer { pending := [], lastRxError := e } buffer 1
      = (XBEE_DATA_MISSING, buffer, { pending := [], lastRxError := e }) := by
  unfold xbee_readBuffer xbee_getNumberOfBytesReceived uart1_getrxcount
  rw [if_pos (by simp)]

/-- A ring without pending error that holds the start flag and fewer than
three header bytes: the worker reads what is there and returns at once,
without a yield and without a handler call, leaving the ring empty. -/
theorem serialAdapter_worker_short_header (addr low high : Nat) (frame : frame_t)
    (hdr : List Nat) (now : Nat) (script : List EnvStep)
    (hlen : hdr.length < 3) (hb : ∀ b ∈ hdr, b < 256) :
    serialAdapter_worker addr low high frame
        { rx := { pending := 0x46 :: 0x52 :: hdr, lastRxError := 0 }, now := now,
          script := script }
      = some { world := { rx := { pending := [], lastRxError := 0 }, now := now,
                          script := script }
               passed := none, calls := [] } := by
  have hw1 : serialAdapter_waitForData 2 now
      { rx := { pending := 0x46 :: 0x52 :: hdr, lastRxError := 0 }, now := now,
        script := script }
      = some (true, { rx := { pending := 0x46 :: 0x52 :: hdr, lastRxError := 0 }, now := now,
                      script := script }) :=
    serialAdapter_waitForData_ready 2 now _ (by simp)
  have hflag1 : ¬ (70 ≠ serialAdapter_startFlag % 256) := by decide
  have hflag2 : ¬ (82 ≠ serialAdapter_startFlag >>> 8) := by decide
  have hmiss : XBEE_DATA_MISSING ≠ XBEE_SUCCESS := by decide
  have hok : ¬ (XBEE_SUCCESS ≠ XBEE_SUCCESS) := fun h => h rfl
  unfold serialAdapter_worker
  dsimp only
  rw [hw1]
  dsimp only
  rw [xbee_readBuffer_one 0x46 (by omega)]
  dsimp only
  rw [if_neg (by simp only [Nat.zero_lt_one, if_true]; exact hflag1)]
  rw [xbee_readBuffer_one 0x52 (by omega)]
  dsimp only
  rw [if_neg (by simp only [Nat.zero_lt_one, if_true]; exact hflag2)]
  match hdr, hlen, hb with
  | [], _, _ =>
    rw [xbee_readBuffer_empty]
    dsimp only
    rw [if_pos hmiss]
  | [s], _, hb =>
    rw [xbee_readBuffer_one s (hb s (by simp))]
    dsimp only
    rw [if_neg hok, xbee_readBuffer_empty]
    dsimp only
    rw [if_pos hmiss]
  | [s, d], _, hb =>
    rw [xbee_readBuffer_one s (hb s (by simp))]
    dsimp only
    rw [if_neg hok, xbee_readBuffer_one d (hb d (by simp))]
    dsimp only
    rw [if_neg hok, xbee_readBuffer_empty]
    dsimp only
    rw [if_pos hmiss]
  | _ :: _ :: _ :: _, h, _ => exact absurd h (by simp only [List.length_cons]; omega)

/-- Function `serialAdapter_processFrame` on a frame of inner length 0. -/
theorem serialAdapter_processFrame_empty (frame : frame_t) (h : frame.header.length = 0) :
    serialAdapter_processFrame frame = [] := by
  unfold serialAdapter_processFrame
  rw [if_pos (by omega)]

/-- A ring without pending error that holds a header with the length byte 0:
whatever follows and whatever arrives during the wait for the footer, a
worker call that returns has called no handler. -/
theorem serialAdapter_worker_zero_length (addr low high : Nat) (frame : frame_t)
    (src dst : Nat) (rest : List Nat) (now : Nat) (script : List EnvStep) (r : WorkerResult)
    (hsrc : src < 256) (hdst : dst < 256)
    (h : serialAdapter_worker addr low high frame
        { rx := { pending := 0x46 :: 0x52 :: src :: dst :: 0 :: rest, lastRxError := 0 },
          now := now, script := script } = some r) :
    r.calls = [] := by
  have hw1 : serialAdapter_waitForData 2 now
      { rx := { pending := 0x46 :: 0x52 :: src :: dst :: 0 :: rest, lastRxError := 0 },
        now := now, script := script }
      = some (true, { rx := { pending := 0x46 :: 0x52 :: src :: dst :: 0 :: rest,
                              lastRxError := 0 }, now := now, script := script }) :=
    serialAdapter_waitForData_ready 2 now _ (by simp)
  have hflag1 : ¬ (70 ≠ serialAdapter_startFlag % 256) := by decide
  have hflag2 : ¬ (82 ≠ serialAdapter_startFlag >>> 8) := by decide
  have hok : ¬ (XBEE_SUCCESS ≠ XBEE_SUCCESS) := fun h => h rfl
  have hmax : ¬ (0 > COMM_MAX_INNER_FRAME_LENGTH) := by decide
  unfold serialAdapter_worker at h
  dsimp only at h
  rw [hw1] at h
  dsimp only at h
  rw [xbee_readBuffer_one 0x46 (by omega)] at h
  dsimp only at h
  rw [if_neg (by simp only [Nat.zero_lt_one, if_true]; exact hflag1)] at h
  rw [xbee_readBuffer_one 0x52 (by omega)] at h
  dsimp only at h
  rw [if_neg (by simp only [Nat.zero_lt_one, if_true]; exact hflag2)] at h
  rw [xbee_readBuffer_one src hsrc] at h
  dsimp only at h
  rw [if_neg hok, xbee_readBuffer_one dst hdst] at h
  dsimp only at h
  rw [if_neg hok, xbee_readBuffer_one 0 (by omega)] at h
  dsimp only at h
  rw [if_neg hok] at h
  simp only [Nat.zero_lt_one, if_true] at h
  rw [if_neg hmax] at h
  split at h
  · cases h
  · have := Option.some.inj h
    subst this
    rfl
  · rename_i w7 _
    generalize xbee_readBuffer w7.rx frame.innerFrame 0 = rb6 at h
    generalize xbee_readBuffer rb6.2.2 (fun _ => frame.footer.checksum) 1 = rb7 at h
    by_cases h7 : rb6.1 ≠ XBEE_SUCCESS
    · rw [if_pos h7] at h
      have := Option.some.inj h
      subst this
      rfl
    rw [if_neg h7] at h
    by_cases h8 : rb7.1 ≠ XBEE_SUCCESS
    · rw [if_pos h8] at h
      have := Option.some.inj h
      subst this
      rfl
    rw [if_neg h8] at h
    split_ifs at h
    · have := Option.some.inj h
      subst this
      rfl
    · have := Option.some.inj h
      subst this
      rfl
    · have := Option.some.inj h
      subst this
      dsimp only
      apply serialAdapter_processFrame_empty
      rfl

/-- C33: out-of-range inner lengths are rejected. On a receive ring without
pending error that holds `46 52 src dest len`: if `len = 0`, a worker call
that returns has invoked no handler, whatever follows in the ring and
whatever arrives during the wait for the footer; with the footer byte
buffered the call returns without a yield, has read the footer, and invokes no
handler even when the footer is the correct checksum and the frame is
addressed to this node, in which case the frame does reach
`serialAdapter_processFrame`; if `50 ≤ len`, the call returns right after the
length byte, without a yield and without a handler, and every byte behind the
length byte is still in the ring. -/
theorem C33_length_out_of_range (addr low high : Nat) (frame : frame_t) (src dst : Nat)
    (now : Nat) (script : List EnvStep) (hsrc : src < 256) (hdst : dst < 256) :
    (∀ (rest : List Nat) (r : WorkerResult),
      serialAdapter_worker addr low high frame
          { rx := { pending := 0x46 :: 0x52 :: src :: dst :: 0 :: rest, lastRxError := 0 },
            now := now, script := script } = some r →
        r.calls = []) ∧
    (∀ (footer : Nat) (rest : List Nat), footer < 256 →
      ∃ r, serialAdapter_worker addr low high frame
          { rx := { pending := 0x46 :: 0x52 :: src :: dst :: 0 :: footer :: rest,
                    lastRxError := 0 },
            now := now, script := script } = some r ∧
        r.calls = [] ∧
        r.world = { rx := { pending := rest, lastRxError := 0 }, now := now,
                    script := script } ∧
        (serialAdapter_calculateFrameChecksum (received_frame frame src dst [] footer) = footer
            ∧ (dst = addr ∨ dst = ADDRESS_BROADCAST) →
          r.passed = some (received_frame frame src dst [] footer))) ∧
    (∀ (len : Nat) (tail : List Nat), 50 ≤ len → len < 256 →
      serialAdapter_worker addr low high frame
          { rx := { pending := 0x46 :: 0x52 :: src :: dst :: len :: tail, lastRxError := 0 },
            now := now, script := script }
        = some { world := { rx := { pending := tail, lastRxError := 0 }, now := now,
                            script := script }
                 passed := none, calls := [] }) := by
  refine ⟨?_, ?_, ?_⟩
  · intro rest r h
    exact serialAdapter_worker_zero_length addr low high frame src dst rest now script r
      hsrc hdst h
  · intro footer rest hfooter
    have hb := serialAdapter_worker_buffered addr low high frame src dst footer [] rest now
      script hsrc hdst hfooter (by simp) (by simp)
    have hwire : wire_frame src dst [] footer ++ rest
        = 0x46 :: 0x52 :: src :: dst :: 0 :: footer :: rest := rfl
    rw [hwire] at hb
    rw [hb]
    by_cases hc : serialAdapter_calculateFrameChecksum (received_frame frame src dst [] footer)
        = footer ∧ (dst = addr ∨ dst = ADDRESS_BROADCAST)
    · rw [if_pos hc]
      refine ⟨_, rfl, ?_, rfl, fun _ => rfl⟩
      exact serialAdapter_processFrame_empty (received_frame frame src dst [] footer) rfl
    · rw [if_neg hc]
      exact ⟨_, rfl, rfl, rfl, fun h => absurd h hc⟩
  · intro len tail hlen hl256
    exact serialAdapter_worker_long addr low high frame src dst len tail now script hsrc hdst
      (by omega) hl256

/-- C33 at concrete inputs: on node 8, the frame `46 52 08 08 00 14` with the
correct checksum 0x14 is read whole and reaches no handler, and after the
header `46 52 08 08 32` (length 50) the bytes `02 01` stay in the ring. -/
theorem C33_length_out_of_range_witness :
    (8 < 256 ∧ 8 < 256) ∧
    (∃ r, serialAdapter_worker 8 0 0 frame_zero
        { rx := { pending := [0x46, 0x52, 8, 8, 0, 0x14], lastRxError := 0 },
          now := 0, script := [] } = some r ∧
      r.calls = [] ∧
      r.world = { rx := { pending := [], lastRxError := 0 }, now := 0, script := [] } ∧
      r.passed = some (received_frame frame_zero 8 8 [] 0x14)) ∧
    serialAdapter_worker 8 0 0 frame_zero
        { rx := { pending := [0x46, 0x52, 8, 8, 50, 2, 1], lastRxError := 0 },
          now := 0, script := [] }
      = some { world := { rx := { pending := [2, 1], lastRxError := 0 }, now := 0,
                          script := [] }
               passed := none, calls := [] } := by
  have h := C33_length_out_of_range 8 0 0 frame_zero 8 8 0 [] (by decide) (by decide)
  refine ⟨⟨by decide, by decide⟩, ?_, h.2.2 50 [2, 1] (by decide) (by decide)⟩
  obtain ⟨r, hr, hcalls, hworld, hpassed⟩ := h.2.1 0x14 [] (by decide)
  exact ⟨r, hr, hcalls, hworld, hpassed ⟨by decide, Or.inl rfl⟩⟩

/-- The lines of `os_dispatcher` behind the call `program()`, for slot 0: with
the globals `kret` at that point, `os_kill(0)` refuses and returns false
without touching the globals, and control stays in the final `while (1)`. The
program of slot 0 under `src` is the idle program, an endless loop, so the
dispatcher of slot 0 stays inside `program()` (last part) and these lines are
not reached for it. -/
theorem os_dispatcher_slot_zero (SP : Nat) (mem : Nat → Nat) (k kret : Kernel)
    (hcur : k.currentProc = 0)
    (hprog : os_lookupProgramFunction k (k.os_processes 0).progID ≠ 0) :
    os_kill 0 SP mem kret = .ok (some false, kret) ∧
    os_dispatcher SP mem (some kret) k = .ok (.endless_loop, kret) ∧
    (∀ e, os_dispatcher SP mem (some kret) k ≠ .error e) ∧
    os_dispatcher SP mem none k = .ok (.program_running, k) := by
  have hk : os_kill 0 SP mem kret = .ok (some false, kret) := by
    unfold os_kill
    rw [if_pos (Or.inr rfl)]
  have hd : os_dispatcher SP mem (some kret) k = .ok (.endless_loop, kret) := by
    unfold os_dispatcher
    dsimp only
    rw [hcur, if_neg hprog, hk]
  refine ⟨hk, hd, fun e he => ?_, ?_⟩
  · rw [hd] at he
    cases he
  · unfold os_dispatcher
    dsimp only
    rw [hcur, if_neg hprog]

set_option maxRecDepth 100000 in
/-- The dispatcher of slot 0 after boot on `boot_kernel`: the idle program is
registered and the dispatcher stays inside it. -/
theorem os_dispatcher_slot_zero_sample :
    boot_idle.currentProc = 0 ∧
    os_lookupProgramFunction boot_idle (boot_idle.os_processes 0).progID ≠ 0 ∧
    os_dispatcher 0 (fun _ => 0) none boot_idle = .ok (.program_running, boot_idle) :=
  ⟨by decide, by decide,
    (os_dispatcher_slot_zero 0 (fun _ => 0) boot_idle boot_idle (by decide) (by decide)).2.2.2⟩

/-- The one-shot form `dprr_abs` of a priority decision is the three-step
reference. -/
theorem dprr_abs_eq_reference (H N L : List Nat) (requeue : Option priority_t) (current : Nat) :
    dprr_abs H N L requeue current = dprr_reference H N L requeue current := by
  cases H <;> cases N <;> cases L <;> cases requeue <;>
    (try rename_i p; cases p) <;>
    simp [dprr_abs, append_head, dprr_reference, dprr_reference_aging, dprr_reference_requeue,
      dprr_reference_select]

/-- C35: one priority decision equals its three-step reference. On
well-formed queues that hold at most 7 pids in total,
`os_scheduler_DynamicPriorityRoundRobin` returns, the queues stay well formed,
the process table is untouched, and the returned pid with the new queue
contents is `dprr_reference` of the old contents: aging (head of Normal to
the tail of High, then head of Low to the tail of Normal), requeue of
`current` at the priority of its slot iff `current` is not 0 and its slot is
Ready, and removal of the head of the first non-empty queue, or 0 with
unchanged queues if all are empty. A pid held only by the Low queue is not in
the High queue afterwards. In the case of three empty queues and nothing to
requeue the function writes " IDLE " to the terminal inside a critical
section before it returns 0: there the return needs a critical-section depth
below 255, and at the depth 255 the call ends in the fatal critical-section
overflow. -/
theorem C35_dprr_decision_reference (k : Kernel) (processes : Nat → process_t) (current : Nat)
    (hwf : ∀ p, rq_wf (k.schedulingInfo.queues_ready p))
    (hlen : (rq_contents (k.schedulingInfo.queues_ready OS_PRIO_HIGH)).length
          + (rq_contents (k.schedulingInfo.queues_ready OS_PRIO_NORMAL)).length
          + (rq_contents (k.schedulingInfo.queues_ready OS_PRIO_LOW)).length ≤ 7) :
    ((k.criticalSectionCount < 255 ∨
        ¬ ((∀ p, rq_contents (k.schedulingInfo.queues_ready p) = []) ∧
          ¬ (current ≠ 0 ∧ (processes current).state = OS_PS_READY))) →
      ∃ pid kS, os_scheduler_DynamicPriorityRoundRobin k processes current = .ok (pid, kS) ∧
        (∀ p, rq_wf (kS.schedulingInfo.queues_ready p)) ∧
        kS.os_processes = k.os_processes ∧
        (pid, rq_contents (kS.schedulingInfo.queues_ready OS_PRIO_HIGH),
              rq_contents (kS.schedulingInfo.queues_ready OS_PRIO_NORMAL),
              rq_contents (kS.schedulingInfo.queues_ready OS_PRIO_LOW))
          = dprr_reference (rq_contents (k.schedulingInfo.queues_ready OS_PRIO_HIGH))
              (rq_contents (k.schedulingInfo.queues_ready OS_PRIO_NORMAL))
              (rq_contents (k.schedulingInfo.queues_ready OS_PRIO_LOW))
              (if current ≠ 0 ∧ (processes current).state = OS_PS_READY
                then some (os_getProcessSlot k current).priority else none) current ∧
        (∀ y, y ∈ rq_contents (k.schedulingInfo.queues_ready OS_PRIO_LOW) →
          y ∉ rq_contents (k.schedulingInfo.queues_ready OS_PRIO_HIGH) →
          y ∉ rq_contents (k.schedulingInfo.queues_ready OS_PRIO_NORMAL) → y ≠ current →
          y ∉ rq_contents (kS.schedulingInfo.queues_ready OS_PRIO_HIGH)) ∧
        ((∀ p, rq_contents (k.schedulingInfo.queues_ready p) = []) →
          ¬ (current ≠ 0 ∧ (processes current).state = OS_PS_READY) →
          pid = 0 ∧ ∀ p, rq_contents (kS.schedulingInfo.queues_ready p) = [])) ∧
    ((∀ p, rq_contents (k.schedulingInfo.queues_ready p) = []) →
      ¬ (current ≠ 0 ∧ (processes current).state = OS_PS_READY) →
      k.criticalSectionCount = 255 →
      os_scheduler_DynamicPriorityRoundRobin k processes current
        = .error .crit_section_overflow) := by
  constructor
  · intro hret
    obtain ⟨pid, kS, h1⟩ := dprr_contents_returns k processes current hwf hlen hret
    obtain ⟨hw, he⟩ := dprr_contents_ok k kS processes current pid hwf hlen h1
    have hproc : kS.os_processes = k.os_processes := by
      unfold os_scheduler_DynamicPriorityRoundRobin at h1
      cases p1 : promote k.schedulingInfo OS_PRIO_NORMAL OS_PRIO_HIGH with
      | error e1 => rw [p1] at h1; cases h1
      | ok info1 =>
        rw [p1] at h1; dsimp only at h1
        cases p2 : promote info1 OS_PRIO_LOW OS_PRIO_NORMAL with
        | error e1 => rw [p2] at h1; cases h1
        | ok info2 =>
          rw [p2] at h1; dsimp only at h1
          cases p3 : requeue_current k processes current info2 with
          | error e1 => rw [p3] at h1; cases h1
          | ok info3 =>
            rw [p3] at h1; dsimp only at h1
            exact (select_head_frame { k with schedulingInfo := info3 } kS pid h1).1
    refine ⟨pid, kS, h1, hw, hproc, by rw [he, dprr_abs_eq_reference],
      fun y hL hH hN hc hy => ?_, fun hempty hnr => ?_⟩
    · have hm := (dprr_abs_mem (rq_contents (k.schedulingInfo.queues_ready OS_PRIO_HIGH))
        (rq_contents (k.schedulingInfo.queues_ready OS_PRIO_NORMAL))
        (rq_contents (k.schedulingInfo.queues_ready OS_PRIO_LOW))
        (if current ≠ 0 ∧ (processes current).state = OS_PS_READY
          then some (os_getProcessSlot k current).priority else none) current y).1
      rw [← he] at hm
      rcases hm hy with h | h | h
      · exact hH h
      · exact hN h
      · exact hc h.2
    · rw [hempty OS_PRIO_HIGH, hempty OS_PRIO_NORMAL, hempty OS_PRIO_LOW, if_neg hnr] at he
      have he2 : (pid, rq_contents (kS.schedulingInfo.queues_ready OS_PRIO_HIGH),
          rq_contents (kS.schedulingInfo.queues_ready OS_PRIO_NORMAL),
          rq_contents (kS.schedulingInfo.queues_ready OS_PRIO_LOW)) = (0, [], [], []) := he
      obtain ⟨a, b⟩ := Prod.mk.inj he2
      obtain ⟨b1, b2⟩ := Prod.mk.inj b
      obtain ⟨b3, b4⟩ := Prod.mk.inj b2
      exact ⟨a, fun p => by cases p <;> assumption⟩
  · intro hempty hnr h255
    rw [(dprr_contents k processes current hwf hlen).1 ⟨hempty, hnr⟩,
      terminal_writeProgString_overflow k h255]
    rfl

set_option maxRecDepth 100000 in
/-- C35 on the queues after the sample run: the hypotheses hold and the decision
is the one of the reference. -/
theorem C35_dprr_decision_reference_witness :
    ∃ k kS, tt_run OS_SS_DYNAMIC_PRIORITY_ROUND_ROBIN [] = some k ∧
      rq_contents (k.schedulingInfo.queues_ready OS_PRIO_HIGH) = [] ∧
      rq_contents (k.schedulingInfo.queues_ready OS_PRIO_NORMAL) = [2] ∧
      rq_contents (k.schedulingInfo.queues_ready OS_PRIO_LOW) = [3] ∧
      os_scheduler_DynamicPriorityRoundRobin k (tick_deschedule k).os_processes 1
        = .ok (2, kS) ∧
      rq_contents (kS.schedulingInfo.queues_ready OS_PRIO_HIGH) = [1] ∧
      rq_contents (kS.schedulingInfo.queues_ready OS_PRIO_NORMAL) = [3] ∧
      rq_contents (kS.schedulingInfo.queues_ready OS_PRIO_LOW) = [] := by
  have h : ∃ k, tt_run OS_SS_DYNAMIC_PRIORITY_ROUND_ROBIN [] = some k ∧
      rq_wf (k.schedulingInfo.queues_ready OS_PRIO_HIGH) ∧
      rq_wf (k.schedulingInfo.queues_ready OS_PRIO_NORMAL) ∧
      rq_wf (k.schedulingInfo.queues_ready OS_PRIO_LOW) ∧
      rq_contents (k.schedulingInfo.queues_ready OS_PRIO_HIGH) = [] ∧
      rq_contents (k.schedulingInfo.queues_ready OS_PRIO_NORMAL) = [2] ∧
      rq_contents (k.schedulingInfo.queues_ready OS_PRIO_LOW) = [3] ∧
      ((tick_deschedule k).os_processes 1).state = OS_PS_READY ∧
      (os_getProcessSlot k 1).priority = OS_PRIO_HIGH ∧
      k.criticalSectionCount < 255 :=
    ⟨_, rfl, by decide, by decide, by decide, by decide, by decide, by decide, by decide,
      by decide, by decide⟩
  obtain ⟨k, hk, w1, w2, w3, c1, c2, c3, hr, hp, hd⟩ := h
  obtain ⟨pid, kS, h1, _, _, he, _⟩ := (C35_dprr_decision_reference k
    (tick_deschedule k).os_processes 1 (fun p => by cases p <;> assumption)
    (by rw [c1, c2, c3]; decide)).1 (Or.inl hd)
  rw [c1, c2, c3, if_pos ⟨by decide, hr⟩, hp] at he
  have he2 : (pid, rq_contents (kS.schedulingInfo.queues_ready OS_PRIO_HIGH),
      rq_contents (kS.schedulingInfo.queues_ready OS_PRIO_NORMAL),
      rq_contents (kS.schedulingInfo.queues_ready OS_PRIO_LOW)) = (2, [1], [3], []) := he
  obtain ⟨a, b⟩ := Prod.mk.inj he2
  obtain ⟨b1, b2⟩ := Prod.mk.inj b
  obtain ⟨b3, b4⟩ := Prod.mk.inj b2
  rw [a] at h1
  exact ⟨k, kS, hk, c1, c2, c3, h1, b1, b3, b4⟩

set_option maxRecDepth 100000 in
theorem frame_error_status : ∀ b, b < 256 →
    (((0x10 <<< 8) + b) % 65536) &&& 0xFF00 = 0x1000 := by decide

/-- Reading one byte while a frame error is pending: the byte leaves the ring,
nothing is stored through the pointer, the status is `XBEE_READ_ERROR`. -/
theorem xbee_readBuffer_frame_error (b : Nat) (hb : b < 256) (buffer : Nat → Nat)
    (rest : List Nat) :
    xbee_readBuffer { pending := b :: rest, lastRxError := 0x10 } buffer 1
      = (XBEE_READ_ERROR, buffer, { pending := rest, lastRxError := 0 }) := by
  have hn : ¬ ((b :: rest).length < 1) := by simp
  have h1 : (0x1000 : Nat) ≠ 0 := by decide
  have h2 : (0x1000 : Nat) &&& UART_FRAME_ERROR ≠ 0 := by decide
  have h3 : XBEE_READ_ERROR ≠ XBEE_SUCCESS := by decide
  unfold xbee_readBuffer xbee_getNumberOfBytesReceived uart1_getrxcount
  rw [if_neg hn]
  unfold xbee_readBuffer_loop xbee_read uart1_getc
  dsimp only
  rw [frame_error_status b hb, if_neg h1, if_pos h2]
  dsimp only
  rw [if_pos h3]

/-- The status of the read into `low` is not looked at: with a frame error
pending and the stale value 0x46 in `low`, a worker call goes on exactly as a
call on a ring without pending error whose first byte is 0x46. -/
theorem serialAdapter_worker_stale_low (addr low high : Nat) (frame : frame_t)
    (b b2 : Nat) (rest : List Nat) (now : Nat) (script : List EnvStep) (hb : b < 256) :
    serialAdapter_worker addr 0x46 high frame
        { rx := { pending := b :: b2 :: rest, lastRxError := 0x10 }, now := now,
          script := script }
      = serialAdapter_worker addr low high frame
        { rx := { pending := 0x46 :: b2 :: rest, lastRxError := 0 }, now := now,
          script := script } := by
  have hw1 : serialAdapter_waitForData 2 now
      { rx := { pending := b :: b2 :: rest, lastRxError := 0x10 }, now := now,
        script := script }
      = some (true, { rx := { pending := b :: b2 :: rest, lastRxError := 0x10 }, now := now,
                      script := script }) :=
    serialAdapter_waitForData_ready 2 now _ (by simp)
  have hw2 : serialAdapter_waitForData 2 now
      { rx := { pending := 0x46 :: b2 :: rest, lastRxError := 0 }, now := now,
        script := script }
      = some (true, { rx := { pending := 0x46 :: b2 :: rest, lastRxError := 0 }, now := now,
                      script := script }) :=
    serialAdapter_waitForData_ready 2 now _ (by simp)
  have hflag1 : ¬ (70 ≠ serialAdapter_startFlag % 256) := by decide
  unfold serialAdapter_worker
  dsimp only
  rw [hw1, hw2]
  dsimp only
  rw [xbee_readBuffer_frame_error b hb, xbee_readBuffer_one 0x46 (by omega)]
  dsimp only
  rw [if_neg hflag1]
  conv_rhs => rw [if_neg (by simp only [Nat.zero_lt_one, if_true]; exact hflag1)]

/-- C36, evaluated at the ring `00 52 08 FF 01 02 E0`, at least two bytes and
a first byte other than 0x46. Without a pending receive error the worker drops
exactly the first byte and invokes no handler, as the claim says. With a frame
error pending in `UART1_LastRxError` (status bit 4, set by the receive
interrupt) the read of the first byte takes the byte from the ring, stores
nothing in `low` and returns `XBEE_READ_ERROR`; the worker does not look at
that status, and with the stale value 0x46 in `low` it reads on through the
whole ring and invokes the TOGGLE_LED handler. -/
theorem C36_start_flag_read_unchecked (addr high : Nat) (frame : frame_t) (now : Nat)
    (script : List EnvStep) :
    serialAdapter_worker addr 0x46 high frame
        { rx := { pending := [0x00, 0x52, 0x08, 0xFF, 0x01, 0x02, 0xE0], lastRxError := 0 },
          now := now, script := script }
      = some { world := { rx := { pending := [0x52, 0x08, 0xFF, 0x01, 0x02, 0xE0],
                                  lastRxError := 0 },
                          now := now, script := script }
               passed := none, calls := [] } ∧
    UART1_RECEIVE_INTERRUPT { pending := [0x00, 0x52, 0x08, 0xFF, 0x01, 0x02],
                              lastRxError := 0 } 0xE0 0x10
      = { pending := [0x00, 0x52, 0x08, 0xFF, 0x01, 0x02, 0xE0], lastRxError := 0x10 } ∧
    xbee_readBuffer { pending := [0x00, 0x52, 0x08, 0xFF, 0x01, 0x02, 0xE0],
                      lastRxError := 0x10 } (fun _ => 0x46) 1
      = (XBEE_READ_ERROR, fun _ => 0x46,
         { pending := [0x52, 0x08, 0xFF, 0x01, 0x02, 0xE0], lastRxError := 0 }) ∧
    ∃ r, serialAdapter_worker addr 0x46 high frame
        { rx := { pending := [0x00, 0x52, 0x08, 0xFF, 0x01, 0x02, 0xE0],
                  lastRxError := 0x10 },
          now := now, script := script } = some r ∧
      r.calls = [.receiveToggleLed] ∧
      r.world = { rx := { pending := [], lastRxError := 0 }, now := now, script := script } := by
  refine ⟨serialAdapter_worker_resync_low addr 0x46 high frame 0x00 0x52 _ now script
    (by decide) (by decide), rfl, xbee_readBuffer_frame_error 0x00 (by decide) _ _, ?_⟩
  rw [serialAdapter_worker_stale_low addr 0x46 high frame 0x00 0x52 _ now script (by decide)]
  have hb := serialAdapter_worker_buffered addr 0x46 high frame 0x08 0xFF 0xE0 [0x02] [] now
    script (by decide) (by decide) (by decide) (by decide) (by decide)
  have hwire : wire_frame 0x08 0xFF [0x02] 0xE0 ++ []
      = [0x46, 0x52, 0x08, 0xFF, 0x01, 0x02, 0xE0] := rfl
  rw [hwire] at hb
  rw [hb, if_pos ⟨by rw [received_frame_checksum]; decide, Or.inr rfl⟩]
  refine ⟨_, rfl, ?_, rfl⟩
  show serialAdapter_processFrame (received_frame frame 0x08 0xFF [CMD_TOGGLE_LED] 0xE0) = _
  simp [serialAdapter_processFrame, received_frame, CMD_TOGGLE_LED, CMD_SET_LED]

/-- The sampling loop of `os_getStackChecksum` from the sample number `j` on,
when the remaining samples stay at or below the stack bottom: no clamping
takes place and the loop XORs the bytes at `sp + (j + i) * step`. -/
theorem os_getStackChecksum_loop_samples (mem : Nat → Nat) (sp bottom step : Nat)
    (hb : bottom + step < 65536) :
    ∀ (r j c : Nat), sp + (j + r - 1) * step ≤ bottom →
      os_getStackChecksum_loop mem bottom step r (sp + j * step) c
        = ((List.range r).map (fun i => sp + (j + i) * step)).foldl
            (fun c a => c ^^^ (mem a % 256)) c := by
  intro r
  induction r with
  | zero => intro j c _; rfl
  | succ r ih =>
    intro j c hle
    unfold os_getStackChecksum_loop
    rw [List.range_succ_eq_map, List.map_cons, List.foldl_cons, List.map_map]
    by_cases hr : r = 0
    · subst hr
      rfl
    · have h1 : (j + 1) * step ≤ (j + (r + 1) - 1) * step :=
        Nat.mul_le_mul_right step (by omega)
      have h2 : sp + j * step + step = sp + (j + 1) * step := by
        rw [Nat.add_mul, Nat.one_mul, Nat.add_assoc]
      have h3 : (sp + j * step + step) % 65536 = sp + (j + 1) * step := by
        rw [h2]
        apply Nat.mod_eq_of_lt
        omega
      rw [h3, if_neg (by omega)]
      have h4 := ih (j + 1) (c ^^^ mem (sp + j * step) % 256) (by
        have : j + 1 + r - 1 = j + (r + 1) - 1 := by omega
        rw [this]
        exact hle)
      rw [Nat.add_zero] at *
      rw [h4]
      congr 1
      apply List.map_congr_left
      intro i _
      simp only [Function.comp, Nat.succ_eq_add_one]
      rw [Nat.add_assoc j 1 i, Nat.add_comm 1 i]

/-- The spacing times the number of gaps stays inside the stack. -/
theorem checksum_step_bound (size : Nat) :
    (min 16 size - 1) * (if min 16 size > 1 then (size - 1) / (min 16 size - 1) else 0)
      ≤ size - 1 := by
  by_cases h : min 16 size > 1
  · rw [if_pos h]
    exact Nat.mul_div_le _ _
  · rw [if_neg h]
    omega

/-- Function `os_getStackChecksum` in closed form for a slot with
`sp ≤ bottom`. -/
theorem os_getStackChecksum_eq (mem : Nat → Nat) (k : Kernel) (pid : Nat) (hp : pid < 8)
    (hsp : (k.os_processes pid).sp ≤ PROCESS_STACK_BOTTOM pid) :
    os_getStackChecksum mem k pid
      = checksum_xor mem (checksum_samples (k.os_processes pid).sp (PROCESS_STACK_BOTTOM pid)) := by
  obtain ⟨_, hb2, _⟩ := PROCESS_STACK_BOTTOM_bounds pid hp
  generalize hB : PROCESS_STACK_BOTTOM pid = bottom at hsp hb2
  generalize hS : (k.os_processes pid).sp = sp at hsp
  have hbm : bottom % 65536 = bottom := Nat.mod_eq_of_lt (by omega)
  have hsz : (bottom - sp + 1) % 65536 = bottom - sp + 1 := Nat.mod_eq_of_lt (by omega)
  have hmin : (if bottom - sp + 1 < 16 then bottom - sp + 1 else 16) = min 16 (bottom - sp + 1) := by
    by_cases h : bottom - sp + 1 < 16
    · rw [if_pos h]; omega
    · rw [if_neg h]; omega
  have hbound := checksum_step_bound (bottom - sp + 1)
  unfold os_getStackChecksum
  rw [if_neg (by unfold MAX_NUMBER_OF_PROCESSES; omega)]
  dsimp only
  rw [hB, hS, hbm, if_neg (by omega), hsz, hmin]
  unfold checksum_xor checksum_samples
  generalize hstep : (if min 16 (bottom - sp + 1) > 1
      then (bottom - sp + 1 - 1) / (min 16 (bottom - sp + 1) - 1) else 0) = step at hbound ⊢
  have hstep_le : step ≤ bottom - sp := by
    rw [← hstep]
    by_cases h : min 16 (bottom - sp + 1) > 1
    · rw [if_pos h]
      exact le_trans (Nat.div_le_self _ _) (by omega)
    · rw [if_neg h]
      omega
  have h0 := os_getStackChecksum_loop_samples mem sp bottom step (by omega)
    (min 16 (bottom - sp + 1)) 0 0 (by
      rw [Nat.zero_add]
      omega)
  simp only [Nat.zero_mul, Nat.add_zero, Nat.zero_add] at h0
  exact h0

/-- Membership in `checksum_samples`. -/
theorem checksum_samples_mem (sp bottom a : Nat) :
    a ∈ checksum_samples sp bottom ↔
      ∃ i, i < min 16 (bottom - sp + 1) ∧
        a = sp + i * (if min 16 (bottom - sp + 1) > 1
          then (bottom - sp + 1 - 1) / (min 16 (bottom - sp + 1) - 1) else 0) := by
  unfold checksum_samples
  rw [List.mem_map]
  constructor
  · rintro ⟨i, hi, rfl⟩
    exact ⟨i, List.mem_range.mp hi, rfl⟩
  · rintro ⟨i, hi, rfl⟩
    exact ⟨i, List.mem_range.mpr hi, rfl⟩

/-- Stack fingerprint sampling in general. For a slot below 8
with `sp ≤ bottom` and `size = bottom - sp + 1`, `os_getStackChecksum` is the
XOR of the `min 16 size` bytes at the addresses `sp + i * step` with
`step = (size - 1) / (samples - 1)`, or 0 for a single sample; every sampled
address lies from `sp` to `bottom`, and the first sample is the byte at `sp`.
The byte at `bottom` is sampled exactly when `size` is at most 16 or 15
divides `size - 1`: the last sample is `sp + (samples - 1) * step`, which the
rounded spacing leaves below `bottom` otherwise. -/
theorem os_getStackChecksum_sampling (mem : Nat → Nat) (k : Kernel) (pid : Nat) (hp : pid < 8)
    (hsp : (k.os_processes pid).sp ≤ PROCESS_STACK_BOTTOM pid) :
    os_getStackChecksum mem k pid
      = checksum_xor mem
          (checksum_samples (k.os_processes pid).sp (PROCESS_STACK_BOTTOM pid)) ∧
    (checksum_samples (k.os_processes pid).sp (PROCESS_STACK_BOTTOM pid)).length
      = min 16 (PROCESS_STACK_BOTTOM pid - (k.os_processes pid).sp + 1) ∧
    (∀ a, a ∈ checksum_samples (k.os_processes pid).sp (PROCESS_STACK_BOTTOM pid) →
      (k.os_processes pid).sp ≤ a ∧ a ≤ PROCESS_STACK_BOTTOM pid) ∧
    (k.os_processes pid).sp
      ∈ checksum_samples (k.os_processes pid).sp (PROCESS_STACK_BOTTOM pid) ∧
    (PROCESS_STACK_BOTTOM pid
        ∈ checksum_samples (k.os_processes pid).sp (PROCESS_STACK_BOTTOM pid)
      ↔ PROCESS_STACK_BOTTOM pid - (k.os_processes pid).sp + 1 ≤ 16
        ∨ (PROCESS_STACK_BOTTOM pid - (k.os_processes pid).sp) % 15 = 0) := by
  refine ⟨os_getStackChecksum_eq mem k pid hp hsp, ?_, ?_, ?_, ?_⟩
  · unfold checksum_samples
    rw [List.length_map, List.length_range]
  · intro a ha
    obtain ⟨i, hi, rfl⟩ := (checksum_samples_mem _ _ a).mp ha
    have hb := checksum_step_bound (PROCESS_STACK_BOTTOM pid - (k.os_processes pid).sp + 1)
    generalize (if min 16 (PROCESS_STACK_BOTTOM pid - (k.os_processes pid).sp + 1) > 1
      then (PROCESS_STACK_BOTTOM pid - (k.os_processes pid).sp + 1 - 1)
        / (min 16 (PROCESS_STACK_BOTTOM pid - (k.os_processes pid).sp + 1) - 1) else 0) = step
      at hb ⊢
    have h1 : i * step
        ≤ (min 16 (PROCESS_STACK_BOTTOM pid - (k.os_processes pid).sp + 1) - 1) * step :=
      Nat.mul_le_mul_right step (by omega)
    omega
  · refine (checksum_samples_mem _ _ _).mpr ⟨0, by omega, ?_⟩
    rw [Nat.zero_mul, Nat.add_zero]
  · generalize PROCESS_STACK_BOTTOM pid = bottom at hsp ⊢
    generalize (k.os_processes pid).sp = sp at hsp ⊢
    rw [checksum_samples_mem]
    constructor
    · rintro ⟨i, hi, he⟩
      by_cases h16 : bottom - sp + 1 ≤ 16
      · exact Or.inl h16
      · right
        have hm : min 16 (bottom - sp + 1) = 16 := by omega
        rw [hm, if_pos (by omega)] at he
        rw [hm] at hi
        have h1 : i * ((bottom - sp + 1 - 1) / (16 - 1))
            ≤ 15 * ((bottom - sp + 1 - 1) / (16 - 1)) := Nat.mul_le_mul_right _ (by omega)
        generalize i * ((bottom - sp + 1 - 1) / (16 - 1)) = t at he h1
        omega
    · rintro (h16 | h15)
      · have hm : min 16 (bottom - sp + 1) = bottom - sp + 1 := by omega
        rw [hm]
        by_cases h1 : bottom - sp + 1 > 1
        · rw [if_pos h1]
          refine ⟨bottom - sp, by omega, ?_⟩
          have hd : (bottom - sp + 1 - 1) / (bottom - sp + 1 - 1) = 1 :=
            Nat.div_self (by omega)
          rw [hd]
          omega
        · rw [if_neg h1]
          exact ⟨0, by omega, by omega⟩
      · by_cases h16 : bottom - sp + 1 ≤ 16
        · have hm : min 16 (bottom - sp + 1) = bottom - sp + 1 := by omega
          rw [hm]
          by_cases h1 : bottom - sp + 1 > 1
          · rw [if_pos h1]
            refine ⟨bottom - sp, by omega, ?_⟩
            have hd : (bottom - sp + 1 - 1) / (bottom - sp + 1 - 1) = 1 :=
              Nat.div_self (by omega)
            rw [hd]
            omega
          · rw [if_neg h1]
            exact ⟨0, by omega, by omega⟩
        · have hm : min 16 (bottom - sp + 1) = 16 := by omega
          rw [hm, if_pos (by omega)]
          refine ⟨15, by omega, ?_⟩
          omega

/-- The XOR of the samples depends only on the bytes at the sampled addresses. -/
theorem checksum_xor_congr (mem mem1 : Nat → Nat) (addrs : List Nat)
    (h : ∀ a, a ∈ addrs → mem a = mem1 a) :
    checksum_xor mem addrs = checksum_xor mem1 addrs := by
  unfold checksum_xor
  suffices hs : ∀ c, addrs.foldl (fun c a => c ^^^ (mem a % 256)) c
      = addrs.foldl (fun c a => c ^^^ (mem1 a % 256)) c from hs 0
  induction addrs with
  | nil => intro c; rfl
  | cons x xs ih =>
    intro c
    simp only [List.foldl_cons]
    rw [h x (List.mem_cons_self _ _)]
    exact ih (fun a ha => h a (List.mem_cons_of_mem _ ha)) _

set_option maxRecDepth 100000 in
/-- C37, evaluated at the stack that `os_exec` has just built (slot 4 of
`tt_exec`, the 37 bytes from `bottom - 36` to `bottom`, with the dispatcher
address `56 34 12` at `bottom`, `bottom - 1`, `bottom - 2`).
`os_getStackChecksum` returns the XOR of the 16 bytes at `sp`, `sp + 2`, ...,
`sp + 30`, which is the closed form of the claim for the size 37 and the
spacing 2. The byte at `bottom` is not one of the sampled bytes, although the
comment of the function names the stack bottom as the first byte to sample:
none of the six bytes from `bottom - 5` to `bottom` is read, and the
fingerprint is the same whatever the byte at `bottom` holds. -/
theorem C37_checksum_sampling :
    tt_exec.1 = 4 ∧
    (tt_exec.2.2.os_processes 4).sp = PROCESS_STACK_BOTTOM 4 - 36 ∧
    tt_exec.2.1 (PROCESS_STACK_BOTTOM 4) = 0x56 ∧
    tt_exec.2.1 (PROCESS_STACK_BOTTOM 4 - 1) = 0x34 ∧
    tt_exec.2.1 (PROCESS_STACK_BOTTOM 4 - 2) = 0x12 ∧
    checksum_samples (tt_exec.2.2.os_processes 4).sp (PROCESS_STACK_BOTTOM 4)
      = (List.range 16).map (fun i => PROCESS_STACK_BOTTOM 4 - 36 + 2 * i) ∧
    (∀ mem : Nat → Nat, os_getStackChecksum mem tt_exec.2.2 4
      = checksum_xor mem
          ((List.range 16).map (fun i => PROCESS_STACK_BOTTOM 4 - 36 + 2 * i))) ∧
    (∀ j, j < 6 → PROCESS_STACK_BOTTOM 4 - j
      ∉ checksum_samples (tt_exec.2.2.os_processes 4).sp (PROCESS_STACK_BOTTOM 4)) ∧
    (∀ v : Nat, os_getStackChecksum (write tt_exec.2.1 (PROCESS_STACK_BOTTOM 4) v) tt_exec.2.2 4
      = os_getStackChecksum tt_exec.2.1 tt_exec.2.2 4) := by
  have hsp : (tt_exec.2.2.os_processes 4).sp = PROCESS_STACK_BOTTOM 4 - 36 := by decide
  have hle : (tt_exec.2.2.os_processes 4).sp ≤ PROCESS_STACK_BOTTOM 4 := by decide
  have hl : checksum_samples (tt_exec.2.2.os_processes 4).sp (PROCESS_STACK_BOTTOM 4)
      = (List.range 16).map (fun i => PROCESS_STACK_BOTTOM 4 - 36 + 2 * i) := by decide
  have hclosed : ∀ mem : Nat → Nat, os_getStackChecksum mem tt_exec.2.2 4
      = checksum_xor mem
          ((List.range 16).map (fun i => PROCESS_STACK_BOTTOM 4 - 36 + 2 * i)) := by
    intro mem
    rw [os_getStackChecksum_eq mem tt_exec.2.2 4 (by decide) hle, hl]
  have hbottom : PROCESS_STACK_BOTTOM 4
      ∉ (List.range 16).map (fun i => PROCESS_STACK_BOTTOM 4 - 36 + 2 * i) := by decide
  refine ⟨by decide, hsp, by decide, by decide, by decide, hl, hclosed, ?_, ?_⟩
  · intro j hj
    rw [hl]
    interval_cases j <;> decide
  · intro v
    rw [hclosed, hclosed]
    refine checksum_xor_congr _ _ _ (fun a ha => ?_)
    exact write_other _ _ _ _ (fun e => hbottom (e ▸ ha))

/-- The only fatal error of `os_enterCriticalSection`. -/
theorem os_enterCriticalSection_fault (k : Kernel) (e : Fault)
    (h : os_enterCriticalSection k = .error e) : e = .crit_section_overflow := by
  unfold os_enterCriticalSection at h
  dsimp only at h
  by_cases hc : k.criticalSectionCount = 255
  · rw [if_pos hc] at h
    exact (Except.error.inj h).symm
  · rw [if_neg hc] at h
    cases h

/-- The only fatal error of `os_leaveCriticalSection`. -/
theorem os_leaveCriticalSection_fault (k : Kernel) (e : Fault)
    (h : os_leaveCriticalSection k = .error e) : e = .crit_section_underflow := by
  unfold os_leaveCriticalSection at h
  dsimp only at h
  by_cases hc : k.criticalSectionCount = 0
  · rw [if_pos hc] at h
    exact (Except.error.inj h).symm
  · rw [if_neg hc] at h
    cases h

/-- Steps 4 to 6 of the tick under the priority strategy, on well-formed
queues that hold at most 7 pids, end in a fatal error only through the
critical section of the terminal call. -/
theorem os_selectNext_dprr_fault (k : Kernel) (e : Fault)
    (hs : k.currSchedStrat = OS_SS_DYNAMIC_PRIORITY_ROUND_ROBIN)
    (hwf : ∀ p, rq_wf (k.schedulingInfo.queues_ready p)) (hlen : (rq_all k).length ≤ 7)
    (h : os_selectNext k = .error e) :
    e = .crit_section_overflow ∨ e = .crit_section_underflow := by
  obtain ⟨f1, f2, f3, _⟩ := tick_deschedule_frame k
  obtain ⟨d1, d2⟩ := dprr_contents (tick_deschedule k)
    (tick_deschedule k).os_processes (tick_deschedule k).currentProc
    (by rw [f3]; exact hwf) (by rw [f3, ← rq_all_length]; exact hlen)
  rw [os_selectNext_eq] at h
  unfold os_callStrategy at h
  rw [f2, hs, if_pos rfl] at h
  by_cases hidle : (∀ p, rq_contents ((tick_deschedule k).schedulingInfo.queues_ready p) = []) ∧
      ¬ ((tick_deschedule k).currentProc ≠ 0 ∧
        ((tick_deschedule k).os_processes (tick_deschedule k).currentProc).state = OS_PS_READY)
  · rw [d1 hidle] at h
    cases ht : terminal_writeProgString (tick_deschedule k) with
    | error e1 =>
      rw [ht] at h
      have he : e1 = e := Except.error.inj h
      rw [← he]
      exact terminal_writeProgString_error _ _ ht
    | ok kt => rw [ht] at h; cases h
  · obtain ⟨pid, info1, h1, _, _⟩ := d2 hidle
    rw [h1] at h
    cases h

/-- A tick under the priority strategy, on queues that agree with the table,
ends in a fatal error only through one of the two stack checks or the
critical section of the terminal call. -/
theorem TIMER2_COMPA_vect_dprr_fault (SP : Nat) (mem : Nat → Nat) (k : Kernel) (e : Fault)
    (hinv : dprr_inv k) (hcur : (k.os_processes k.currentProc).state ≠ OS_PS_READY)
    (h : TIMER2_COMPA_vect SP mem k = .error e) :
    e = .stack_overflow ∨ e = .stack_corruption ∨ e = .crit_section_overflow
      ∨ e = .crit_section_underflow := by
  obtain ⟨hs, hwf, hcnt, hmem, _, _⟩ := hinv
  rw [TIMER2_COMPA_vect_eq] at h
  by_cases h1 : os_isStackInBounds (tick_storeSP SP k) k.currentProc = true
  · have hc8 : k.currentProc < 8 := ((os_isStackInBounds_iff _ _).mp h1).1
    have hcur_notin : k.currentProc ∉ rq_all k := fun hm => hcur (hmem _ hm).2
    have hlen : (rq_all k).length ≤ 7 :=
      pids_length_le _ k.currentProc hc8 hcnt (fun y hy => (hmem y hy).1) hcur_notin
    simp only [h1, Bool.not_true, Bool.false_eq_true, if_false] at h
    cases h3 : os_selectNext (tick_storeChecksum mem (tick_storeSP SP k)) with
    | error e3 =>
      rw [h3] at h
      have he : e3 = e := Except.error.inj h
      rw [← he]
      exact Or.inr (Or.inr (os_selectNext_dprr_fault
        (tick_storeChecksum mem (tick_storeSP SP k)) e3 hs hwf hlen h3))
    | ok k3 =>
      rw [h3] at h
      dsimp only at h
      split at h
      · exact Or.inr (Or.inl (Except.error.inj h).symm)
      · split at h
        · exact Or.inl (Except.error.inj h).symm
        · cases h
  · have h1f : os_isStackInBounds (tick_storeSP SP k) k.currentProc = false := by simpa using h1
    simp only [h1f, Bool.not_false, if_true] at h
    exact Or.inl (Except.error.inj h).symm

/-- Function `os_exec` under the priority strategy, on queues that agree with
the table, ends in a fatal error only through the critical-section counter or
the priority check. -/
theorem os_exec_dprr_fault (dispatcherAddress programID priority : Nat) (mem : Nat → Nat)
    (k : Kernel) (e : Fault) (hinv : dprr_inv k)
    (h : os_exec dispatcherAddress programID priority mem k = .error e) :
    e = .crit_section_overflow ∨ e = .crit_section_underflow ∨ e = .exec_priority := by
  obtain ⟨hs0, hwf, hcnt, hmem, _, _⟩ := hinv
  rw [os_exec_eq] at h
  cases he : os_enterCriticalSection k with
  | error e1 =>
    rw [he] at h
    rw [← Except.error.inj h]
    exact Or.inl (os_enterCriticalSection_fault k e1 he)
  | ok kE =>
    rw [he] at h
    dsimp only at h
    obtain ⟨e1, e2, e3, e4, e5, e6⟩ := os_enterCriticalSection_frame k kE he
    rw [e1] at h
    obtain ⟨_, _, t3⟩ := os_exec_loop_table k.os_processes
    generalize os_exec_loop k.os_processes MAX_NUMBER_OF_PROCESSES 0 = pid at h t3
    by_cases h8 : pid = MAX_NUMBER_OF_PROCESSES
    · rw [if_pos h8] at h
      cases hl : os_leaveCriticalSection kE with
      | error e2 =>
        rw [hl] at h
        rw [← Except.error.inj h]
        exact Or.inr (Or.inl (os_leaveCriticalSection_fault kE e2 hl))
      | ok kL => rw [hl] at h; cases h
    · rw [if_neg h8] at h
      by_cases hp : os_lookupProgramFunction kE programID = 0
      · rw [if_pos hp] at h
        cases hl : os_leaveCriticalSection kE with
        | error e2 =>
          rw [hl] at h
          rw [← Except.error.inj h]
          exact Or.inr (Or.inl (os_leaveCriticalSection_fault kE e2 hl))
        | ok kL => rw [hl] at h; cases h
      · rw [if_neg hp] at h
        cases hpr : priority_of_value priority with
        | none =>
          rw [hpr] at h
          exact Or.inr (Or.inr (Except.error.inj h).symm)
        | some prio =>
          rw [hpr] at h
          dsimp only at h
          obtain ⟨_, hs2⟩ := os_exec_init_spec dispatcherAddress programID prio pid mem kE
          generalize os_exec_init dispatcherAddress programID prio pid mem kE = R at hs2 h
          have f4 : R.2.schedulingInfo = k.schedulingInfo := by
            have hh := congrArg Kernel.schedulingInfo hs2
            exact hh.trans e4
          have hnotin : pid ∉ rq_all k := fun hm => by
            have := (hmem pid hm).2
            rw [(t3 h8).2] at this
            cases this
          have hlen : (rq_all k).length ≤ 7 :=
            pids_length_le _ pid (t3 h8).1 hcnt (fun y hy => (hmem y hy).1) hnotin
          obtain ⟨info, hr, _, _⟩ := os_resetProcessSchedulingInformation_dprr pid R.2
            (by rw [f4]; exact hwf) (by
              intro _
              rw [f4]
              have h1 := (List.erase_sublist pid
                (rq_contents (k.schedulingInfo.queues_ready (R.2.os_processes pid).priority))).length_le
              have h2 := rq_contents_length_le_all k (R.2.os_processes pid).priority
              omega)
          rw [e3, hs0, hr] at h
          dsimp only at h
          cases hl : os_leaveCriticalSection { R.2 with schedulingInfo := info } with
          | error e2 =>
            rw [hl] at h
            rw [← Except.error.inj h]
            exact Or.inr (Or.inl (os_leaveCriticalSection_fault _ e2 hl))
          | ok kL => rw [hl] at h; cases h

/-- The fatal errors of the loop of `os_kill` that leaves the critical
sections. -/
theorem os_kill_loop_fault : ∀ (fuel : Nat) (k : Kernel) (e : Fault),
    os_kill_loop fuel k = .error e → e = .crit_section_underflow ∨ e = .hang := by
  intro fuel
  induction fuel with
  | zero =>
    intro k e h
    unfold os_kill_loop at h
    exact Or.inr (Except.error.inj h).symm
  | succ n ih =>
    intro k e h
    unfold os_kill_loop at h
    by_cases hc : k.criticalSectionCount > 0
    · rw [if_pos hc] at h
      cases hl : os_leaveCriticalSection k with
      | error e2 =>
        rw [hl] at h
        rw [← Except.error.inj h]
        exact Or.inl (os_leaveCriticalSection_fault k e2 hl)
      | ok kL =>
        rw [hl] at h
        exact ih kL e h
    · rw [if_neg hc] at h
      cases h

/-- Function `os_kill` under the priority strategy, on queues that agree with
the table, never ends in one of the two fatal errors of the ready queue. -/
theorem os_kill_dprr_fault (pid SP : Nat) (mem : Nat → Nat) (k : Kernel) (e : Fault)
    (hinv : dprr_inv k) (h : os_kill pid SP mem k = .error e) :
    e ≠ .rq_push_full ∧ e ≠ .rq_pop_empty := by
  have hinv0 := hinv
  obtain ⟨hs0, hwf, _, _, _, _⟩ := hinv
  unfold os_kill at h
  by_cases hp : pid ≥ MAX_NUMBER_OF_PROCESSES ∨ pid = 0
  · rw [if_pos hp] at h
    cases h
  · rw [if_neg hp] at h
    cases he : os_enterCriticalSection k with
    | error e1 =>
      rw [he] at h
      rw [← Except.error.inj h, os_enterCriticalSection_fault k e1 he]
      exact ⟨by decide, by decide⟩
    | ok kE =>
      rw [he] at h
      dsimp only at h
      obtain ⟨e1, e2, e3, e4, e5, e6⟩ := os_enterCriticalSection_frame k kE he
      by_cases hu : (kE.os_processes pid).state = OS_PS_UNUSED
      · rw [if_pos hu] at h
        cases hl : os_leaveCriticalSection kE with
        | error e2 =>
          rw [hl] at h
          rw [← Except.error.inj h, os_leaveCriticalSection_fault kE e2 hl]
          exact ⟨by decide, by decide⟩
        | ok kL => rw [hl] at h; cases h
      · rw [if_neg hu] at h
        generalize hkm : ({ kE with os_processes := (write kE.os_processes pid
            { (kE.os_processes pid) with state := OS_PS_UNUSED }) } : Kernel) = kmid at h
        have m1 : kmid.os_processes = write k.os_processes pid
            { (k.os_processes pid) with state := OS_PS_UNUSED } := by rw [← hkm, ← e1]
        have m2 : kmid.schedulingInfo = k.schedulingInfo := by rw [← hkm]; exact e4
        have m3 : kmid.currentProc = k.currentProc := by rw [← hkm]; exact e2
        have m4 : kmid.currSchedStrat = k.currSchedStrat := by rw [← hkm]; exact e3
        have hst : (kmid.os_processes pid).state = OS_PS_UNUSED := by rw [m1, write_same]
        obtain ⟨info, hr, hw1, hc1⟩ := os_resetProcessSchedulingInformation_dprr pid kmid
          (by rw [m2]; exact hwf) (by
            intro hrd
            rw [hst] at hrd
            cases hrd)
        have hcont : ∀ p, rq_contents (info.queues_ready p)
            = (rq_contents (k.schedulingInfo.queues_ready p)).erase pid := by
          intro p
          rw [hc1 p, m2, if_neg (fun hh => by rw [hst] at hh; cases hh.1)]
        rw [e3, hs0, hr] at h
        dsimp only at h
        by_cases hc : pid = kmid.currentProc
        · rw [if_pos hc] at h
          cases hk : os_kill_loop 256 { kmid with schedulingInfo := info } with
          | error e2 =>
            rw [hk] at h
            rw [← Except.error.inj h]
            rcases os_kill_loop_fault _ _ _ hk with h1 | h1
            · rw [h1]; exact ⟨by decide, by decide⟩
            · rw [h1]; exact ⟨by decide, by decide⟩
          | ok kU =>
            rw [hk] at h
            dsimp only at h
            obtain ⟨u1, u2, u3, u4, _, _, u7⟩ := os_kill_loop_frame 256 _ kU hk
            unfold os_yield at h
            have hz : ¬ ({ kU with SREG_I := true } : Kernel).criticalSectionCount > 0 := by
              dsimp only; omega
            rw [if_neg hz] at h
            cases ht : TIMER2_COMPA_vect SP mem
                { ({ kU with SREG_I := true } : Kernel) with SREG_I := false } with
            | ok kN => rw [ht] at h; cases h
            | error e2 =>
              rw [ht] at h
              rw [← Except.error.inj h]
              have hinvT : dprr_inv
                  { ({ kU with SREG_I := true } : Kernel) with SREG_I := false } :=
                dprr_inv_kill k _ pid hinv0 (u3.trans m4) (u1.trans m1)
                  (by
                    intro p
                    have : ({ ({ kU with SREG_I := true } : Kernel) with
                        SREG_I := false } : Kernel).schedulingInfo = info := u4
                    rw [this]
                    exact hw1 p)
                  (by
                    intro p
                    have : ({ ({ kU with SREG_I := true } : Kernel) with
                        SREG_I := false } : Kernel).schedulingInfo = info := u4
                    rw [this]
                    exact hcont p)
              have hcurT : (({ ({ kU with SREG_I := true } : Kernel) with
                  SREG_I := false } : Kernel).os_processes
                  ({ ({ kU with SREG_I := true } : Kernel) with
                    SREG_I := false } : Kernel).currentProc).state ≠ OS_PS_READY := by
                have a1 : ({ ({ kU with SREG_I := true } : Kernel) with
                    SREG_I := false } : Kernel).os_processes = kmid.os_processes := u1
                have a2 : ({ ({ kU with SREG_I := true } : Kernel) with
                    SREG_I := false } : Kernel).currentProc = kmid.currentProc := u2
                rw [a1, a2, ← hc, hst]
                exact fun hh => by cases hh
              rcases TIMER2_COMPA_vect_dprr_fault SP mem _ e2 hinvT hcurT ht with
                h1 | h1 | h1 | h1
              · rw [h1]; exact ⟨by decide, by decide⟩
              · rw [h1]; exact ⟨by decide, by decide⟩
              · rw [h1]; exact ⟨by decide, by decide⟩
              · rw [h1]; exact ⟨by decide, by decide⟩
        · rw [if_neg hc] at h
          cases hl : os_leaveCriticalSection { kmid with schedulingInfo := info } with
          | error e2 =>
            rw [hl] at h
            rw [← Except.error.inj h, os_leaveCriticalSection_fault _ e2 hl]
            exact ⟨by decide, by decide⟩
          | ok kL => rw [hl] at h; cases h

/-- One call of `os_exec`, `os_kill` or the tick under the priority strategy,
on queues that agree with the table, never ends in one of the two fatal errors
of the ready queue. -/
theorem os_call_dprr_fault (c : KernelCall) (k : Kernel) (e : Fault)
    (hc : c.isExecKillTick = true) (hinv : dprr_inv k)
    (hcur : (k.os_processes k.currentProc).state = OS_PS_RUNNING)
    (h : os_call c k = .error e) : e ≠ .rq_push_full ∧ e ≠ .rq_pop_empty := by
  cases c with
  | tick SP mem =>
    have ht : TIMER2_COMPA_vect SP mem k = .error e := h
    rcases TIMER2_COMPA_vect_dprr_fault SP mem k e hinv
      (by rw [hcur]; exact fun hh => by cases hh) ht with h1 | h1 | h1 | h1
    · rw [h1]; exact ⟨by decide, by decide⟩
    · rw [h1]; exact ⟨by decide, by decide⟩
    · rw [h1]; exact ⟨by decide, by decide⟩
    · rw [h1]; exact ⟨by decide, by decide⟩
  | yield SP mem => cases hc
  | exec d programID priority mem =>
    have he : os_exec d programID priority mem k = .error e := by
      cases hx : os_exec d programID priority mem k with
      | error e1 =>
        simp [os_call, hx] at h
        rw [h]
      | ok r => simp [os_call, hx] at h
    rcases os_exec_dprr_fault d programID priority mem k e hinv he with h1 | h1 | h1
    · rw [h1]; exact ⟨by decide, by decide⟩
    · rw [h1]; exact ⟨by decide, by decide⟩
    · rw [h1]; exact ⟨by decide, by decide⟩
  | kill pid SP mem =>
    have he : os_kill pid SP mem k = .error e := by
      cases hx : os_kill pid SP mem k with
      | error e1 =>
        simp [os_call, hx] at h
        rw [h]
      | ok r => simp [os_call, hx] at h
    exact os_kill_dprr_fault pid SP mem k e hinv he
  | setStrategy s => cases hc

/-- A run of `os_exec`, `os_kill` and ticks under the priority strategy, from
queues that agree with the table, never ends in one of the two fatal errors of
the ready queue. -/
theorem os_calls_dprr_fault : ∀ (calls : List KernelCall) (k : Kernel) (e : Fault),
    (∀ c, c ∈ calls → c.isExecKillTick = true) → dprr_inv k →
    (k.os_processes k.currentProc).state = OS_PS_RUNNING →
    os_calls calls k = .error e → e ≠ .rq_push_full ∧ e ≠ .rq_pop_empty := by
  intro calls
  induction calls with
  | nil => intro k e _ _ _ h; cases h
  | cons c rest ih =>
    intro k e hall hinv hcur h
    unfold os_calls at h
    cases hc : os_call c k with
    | error e1 =>
      rw [hc] at h
      rw [← Except.error.inj h]
      exact os_call_dprr_fault c k e1 (hall c (List.mem_cons_self _ _)) hinv hcur hc
    | ok k2 =>
      rw [hc] at h
      dsimp only at h
      have hone : os_calls [c] k = .ok k2 := by
        unfold os_calls
        rw [hc]
        rfl
      obtain ⟨i1, i2⟩ := os_calls_dprr_inv [c] k k2 (fun c1 hc1 => by
        rw [List.mem_singleton] at hc1
        rw [hc1]
        exact hall c (List.mem_cons_self _ _)) hinv hcur hone
      exact ih k2 e (fun c1 hc1 => hall c1 (List.mem_cons_of_mem _ hc1)) i1 i2 h

/-- The ready-queue faults after a switch to the priority strategy that no
interrupt cuts into. Run from its first to its last statement,
`os_setSchedulingStrategy` for the priority strategy always returns. From its
result, reached while the current process is Running, no run of `os_exec`,
`os_kill` and ticks ends in the fatal error of `rq_push` on a full queue or of
`rq_pop` on an empty queue, and in every state that such a run reaches no
further call of `os_exec`, `os_kill` or the tick ends in one of them. -/
theorem rq_faults_uninterrupted (k0 k1 : Kernel) (calls : List KernelCall)
    (hrun : (k0.os_processes k0.currentProc).state = OS_PS_RUNNING)
    (hset : os_setSchedulingStrategy OS_SS_DYNAMIC_PRIORITY_ROUND_ROBIN k0 = .ok k1)
    (hcalls : ∀ c, c ∈ calls → c.isExecKillTick = true) :
    (∀ k : Kernel, ∃ k2, os_setSchedulingStrategy OS_SS_DYNAMIC_PRIORITY_ROUND_ROBIN k = .ok k2) ∧
    (∀ e, os_calls calls k1 = .error e → e ≠ .rq_push_full ∧ e ≠ .rq_pop_empty) ∧
    (∀ k, os_calls calls k1 = .ok k → ∀ c e, c.isExecKillTick = true →
      os_call c k = .error e → e ≠ .rq_push_full ∧ e ≠ .rq_pop_empty) ∧
    (∀ k, os_calls calls k1 = .ok k →
      (∀ p, rq_wf (k.schedulingInfo.queues_ready p)) ∧
      ∀ p, (rq_contents (k.schedulingInfo.queues_ready p)).length ≤ 8) := by
  obtain ⟨hinv1, hp1, hc1⟩ := os_setSchedulingStrategy_dprr_inv k0 k1 hset
  have hcur1 : (k1.os_processes k1.currentProc).state = OS_PS_RUNNING := by
    rw [hc1, hp1]; exact hrun
  refine ⟨fun k => ?_, fun e he => os_calls_dprr_fault calls k1 e hcalls hinv1 hcur1 he,
    fun k hk c e hc he => ?_, fun k hk => ?_⟩
  · obtain ⟨info, h, _⟩ := os_setSchedulingStrategy_dprr k
    exact ⟨_, h⟩
  · obtain ⟨i1, i2⟩ := os_calls_dprr_inv calls k1 k hcalls hinv1 hcur1 hk
    exact os_call_dprr_fault c k e hc i1 i2 he
  · obtain ⟨i1, i2⟩ := os_calls_dprr_inv calls k1 k hcalls hinv1 hcur1 hk
    exact ⟨i1.2.1, fun p => rq_contents_length_le _ (i1.2.1 p)⟩

set_option maxRecDepth 100000 in
/-- The sample run `tt_calls`: the hypotheses hold, and the run and the calls
after it end in no ready-queue fault. -/
theorem rq_faults_uninterrupted_sample :
    ∃ k1 k, os_setSchedulingStrategy OS_SS_DYNAMIC_PRIORITY_ROUND_ROBIN
        (tt_kernel_registered OS_SS_ROUND_ROBIN) = .ok k1 ∧
      os_calls tt_calls k1 = .ok k ∧
      (∀ c e, c.isExecKillTick = true → os_call c k = .error e →
        e ≠ .rq_push_full ∧ e ≠ .rq_pop_empty) := by
  have h : ∃ k, tt_run OS_SS_DYNAMIC_PRIORITY_ROUND_ROBIN tt_calls = some k := ⟨_, rfl⟩
  obtain ⟨k, hk⟩ := h
  obtain ⟨k1, hset, hcalls⟩ := tt_run_some _ _ k hk
  exact ⟨k1, k, hset, hcalls,
    (rq_faults_uninterrupted (tt_kernel_registered OS_SS_ROUND_ROBIN) k1 tt_calls (by decide)
      hset (by decide)).2.2.1 k hcalls⟩

/-- C39: stack layout arithmetic. With the configured constants the process
stacks are 871 bytes each, the stack of process `p` is the interval from
`PROCESS_STACK_BOTTOM p - STACK_SIZE_PROC + 1` to `PROCESS_STACK_BOTTOM p`,
two different processes below 8 share no address, every process stack lies at
or above `AVR_SRAM_START + STACK_OFFSET` and strictly below the scheduler
stack, which runs from `BOTTOM_OF_PROCS_STACK + 1` to `BOTTOM_OF_ISR_STACK`,
every address of the layout fits in 16 bits, and `os_isStackInBounds` accepts
exactly the stack pointers inside the interval of the process. -/
theorem C39_stack_layout :
    AVR_SRAM_START + STACK_OFFSET = 1512 ∧ STACK_SIZE_PROC = 871 ∧
    BOTTOM_OF_PROCS_STACK = 8479 ∧ BOTTOM_OF_ISR_STACK = 8671 ∧ AVR_SRAM_LAST = 8703 ∧
    AVR_SRAM_LAST < 65536 ∧
    (∀ p, p < 8 →
      AVR_SRAM_START + STACK_OFFSET ≤ PROCESS_STACK_BOTTOM p - STACK_SIZE_PROC + 1 ∧
      PROCESS_STACK_BOTTOM p - STACK_SIZE_PROC + 1 ≤ PROCESS_STACK_BOTTOM p ∧
      PROCESS_STACK_BOTTOM p < BOTTOM_OF_PROCS_STACK + 1 ∧
      BOTTOM_OF_PROCS_STACK + 1 ≤ BOTTOM_OF_ISR_STACK ∧
      PROCESS_STACK_BOTTOM p < 65536) ∧
    (∀ p q, p < 8 → q < 8 → p < q →
      PROCESS_STACK_BOTTOM q < PROCESS_STACK_BOTTOM p - STACK_SIZE_PROC + 1) ∧
    (∀ p q a, p < 8 → q < 8 → sp_in_slot p a → sp_in_slot q a → p = q) ∧
    (∀ (k : Kernel) p, os_isStackInBounds k p = true
      ↔ p < 8 ∧ sp_in_slot p (k.os_processes p).sp) := by
  have hs : STACK_SIZE_PROC = 871 := by decide
  have hb : BOTTOM_OF_PROCS_STACK = 8479 := by decide
  have hi : BOTTOM_OF_ISR_STACK = 8671 := by decide
  have h0 : AVR_SRAM_START + STACK_OFFSET = 1512 := by decide
  refine ⟨h0, hs, hb, hi, by decide, by decide, fun p hp => ?_, fun p q hp hq hpq => ?_,
    fun p q a hp hq ha hb1 => ?_, fun k p => os_isStackInBounds_iff k p⟩
  · obtain ⟨_, _, e⟩ := PROCESS_STACK_BOTTOM_bounds p hp
    rw [h0, hs, hb, hi, e]
    omega
  · obtain ⟨_, _, e1⟩ := PROCESS_STACK_BOTTOM_bounds p hp
    obtain ⟨_, _, e2⟩ := PROCESS_STACK_BOTTOM_bounds q hq
    rw [hs, e1, e2]
    omega
  · obtain ⟨_, _, e1⟩ := PROCESS_STACK_BOTTOM_bounds p hp
    obtain ⟨_, _, e2⟩ := PROCESS_STACK_BOTTOM_bounds q hq
    unfold sp_in_slot at ha hb1
    rw [hs, e1] at ha
    rw [hs, e2] at hb1
    omega

/-- C39 at process 7, the lowest stack: its interval starts at 1512, the first
address behind the offset, and ends below the stack of process 6. -/
theorem C39_stack_layout_witness :
    (7 : Nat) < 8 ∧
    PROCESS_STACK_BOTTOM 7 - STACK_SIZE_PROC + 1 = 1512 ∧ PROCESS_STACK_BOTTOM 7 = 2382 ∧
    PROCESS_STACK_BOTTOM 0 = 8479 ∧
    AVR_SRAM_START + STACK_OFFSET ≤ PROCESS_STACK_BOTTOM 7 - STACK_SIZE_PROC + 1 ∧
    PROCESS_STACK_BOTTOM 7 < PROCESS_STACK_BOTTOM 6 - STACK_SIZE_PROC + 1 :=
  ⟨by decide, by decide, by decide, by decide,
    (C39_stack_layout.2.2.2.2.2.2.1 7 (by decide)).1,
    C39_stack_layout.2.2.2.2.2.2.2.1 6 7 (by decide) (by decide) (by decide)⟩

/-- Calls of the worker on a ring without pending error drop one byte per
call while the first buffered byte is not 0x46 and another byte is behind it:
no handler runs, no yield is taken. -/
theorem serialAdapter_worker_run_resync (addr low high : Nat) (frame : frame_t)
    (now : Nat) (script : List EnvStep) :
    ∀ (rem rest : List Nat), (∀ b ∈ rem, b < 256 ∧ b ≠ 0x46) → rest ≠ [] →
      serialAdapter_worker_run addr low high frame rem.length
          { rx := { pending := rem ++ rest, lastRxError := 0 }, now := now, script := script }
        = some ([], { rx := { pending := rest, lastRxError := 0 }, now := now,
                      script := script }) := by
  intro rem
  induction rem with
  | nil =>
    intro rest _ _
    rfl
  | cons b rem ih =>
    intro rest hb hrest
    have hb0 := hb b (List.mem_cons_self _ _)
    have hbs : ∀ x ∈ rem, x < 256 ∧ x ≠ 0x46 := fun x hx => hb x (List.mem_cons_of_mem _ hx)
    obtain ⟨b2, t, ht⟩ : ∃ b2 t, rem ++ rest = b2 :: t := by
      cases hr : rem ++ rest with
      | nil => exact absurd (List.append_eq_nil.mp hr).2 hrest
      | cons b2 t => exact ⟨b2, t, rfl⟩
    have hstep := serialAdapter_worker_resync_low addr low high frame b b2 t now script
      hb0.1 hb0.2
    rw [← ht] at hstep
    have hrun := ih rest hbs hrest
    show serialAdapter_worker_run addr low high frame (rem.length + 1)
      { rx := { pending := b :: (rem ++ rest), lastRxError := 0 }, now := now,
        script := script } = _
    unfold serialAdapter_worker_run
    rw [hstep]
    dsimp only
    rw [hrun]
    rfl

/-- C40, as the code has it: on a receive ring without pending error that
holds the start flag `46 52` and fewer than three further bytes, one worker
call returns at once, with the clock and the script of coming yields
untouched, has taken the start flag and every buffered header byte from the
ring and invokes no handler. The worker keeps nothing between calls: when the
rest of the frame arrives, later calls parse it from the start of the ring,
and as long as the first buffered byte is not 0x46 and another byte is behind
it each call drops exactly one byte and invokes no handler. -/
theorem C40_header_not_awaited (addr low high : Nat) (frame : frame_t) (hdr : List Nat)
    (now : Nat) (script : List EnvStep) (hlen : hdr.length < 3) (hb : ∀ b ∈ hdr, b < 256) :
    serialAdapter_worker addr low high frame
        { rx := { pending := 0x46 :: 0x52 :: hdr, lastRxError := 0 }, now := now,
          script := script }
      = some { world := { rx := { pending := [], lastRxError := 0 }, now := now,
                          script := script }
               passed := none, calls := [] } ∧
    ∀ (rem rest : List Nat) (now1 : Nat) (script1 : List EnvStep),
      (∀ b ∈ rem, b < 256 ∧ b ≠ 0x46) → rest ≠ [] →
      serialAdapter_worker_run addr low high frame rem.length
          { rx := { pending := rem ++ rest, lastRxError := 0 }, now := now1,
            script := script1 }
        = some ([], { rx := { pending := rest, lastRxError := 0 }, now := now1,
                      script := script1 }) :=
  ⟨serialAdapter_worker_short_header addr low high frame hdr now script hlen hb,
   fun rem rest now1 script1 hrem hrest =>
     serialAdapter_worker_run_resync addr low high frame now1 script1 rem rest hrem hrest⟩

/-- C40 at a concrete input: with `46 52 08` buffered the call returns with an
empty ring; when the rest `FF 01 02 E0` of that TOGGLE_LED frame is in the
ring, two further calls drop `FF 01` and leave `02 E0`. -/
theorem C40_header_not_awaited_witness :
    (([8] : List Nat).length < 3 ∧ ∀ b ∈ ([8] : List Nat), b < 256) ∧
    serialAdapter_worker 8 0 0 frame_zero
        { rx := { pending := [0x46, 0x52, 8], lastRxError := 0 }, now := 0, script := [] }
      = some { world := { rx := { pending := [], lastRxError := 0 }, now := 0, script := [] }
               passed := none, calls := [] } ∧
    serialAdapter_worker_run 8 0 0 frame_zero 2
        { rx := { pending := [0xFF, 0x01, 0x02, 0xE0], lastRxError := 0 }, now := 7,
          script := [] }
      = some ([], { rx := { pending := [0x02, 0xE0], lastRxError := 0 }, now := 7,
                    script := [] }) := by
  have h := C40_header_not_awaited 8 0 0 frame_zero [8] 0 [] (by decide) (by decide)
  exact ⟨⟨by decide, by decide⟩, h.1,
    h.2 [0xFF, 0x01] [0x02, 0xE0] 7 [] (by decide) (by decide)⟩

set_option maxRecDepth 100000 in
/-- C40, the last clause of the claim fails: the well-formed LCD_PRINT frame
`46 52 08 FF 09 | 12 07 46 52 08 FF 01 02 E0 | FF` from node 8 to all nodes,
of which only `46 52 08` is buffered at the first worker call. That call
returns with an empty ring. When the remaining bytes are in the ring, four
calls drop `FF 09 12 07` and the fifth call reads the text bytes
`46 52 08 FF 01 02 E0` as a frame and invokes the TOGGLE_LED handler. -/
theorem C40_header_not_awaited_counterexample :
    wire_frame 0x08 0xFF [0x12, 0x07, 0x46, 0x52, 0x08, 0xFF, 0x01, 0x02, 0xE0] 0xFF
      = [0x46, 0x52, 0x08] ++
        [0xFF, 0x09, 0x12, 0x07, 0x46, 0x52, 0x08, 0xFF, 0x01, 0x02, 0xE0, 0xFF] ∧
    xor_bytes [0x46, 0x52, 0x08, 0xFF, 0x09, 0x12, 0x07, 0x46, 0x52, 0x08, 0xFF, 0x01, 0x02,
      0xE0] = 0xFF ∧
    serialAdapter_worker 8 0 0 frame_zero
        { rx := { pending := [0x46, 0x52, 0x08], lastRxError := 0 }, now := 0, script := [] }
      = some { world := { rx := { pending := [], lastRxError := 0 }, now := 0, script := [] }
               passed := none, calls := [] } ∧
    serialAdapter_worker_run 8 0 0 frame_zero 5
        { rx := { pending := [0xFF, 0x09, 0x12, 0x07, 0x46, 0x52, 0x08, 0xFF, 0x01, 0x02,
                              0xE0, 0xFF],
                  lastRxError := 0 }, now := 0, script := [] }
      = some ([.receiveToggleLed],
              { rx := { pending := [0xFF], lastRxError := 0 }, now := 0, script := [] }) := by
  refine ⟨by decide, by decide,
    serialAdapter_worker_short_header 8 0 0 frame_zero [8] 0 [] (by decide) (by decide), ?_⟩
  rfl

/-! ### The strategy switch with the timer interrupt enabled:
`os_setSchedulingStrategy` holds no critical section -/

/-- The loop of `os_resetSchedulingInformation` reads the process table of the
globals only. -/
theorem os_resetSchedulingInformation_loop_congr (k k1 : Kernel)
    (h : k1.os_processes = k.os_processes) :
    ∀ (pids : List Nat) (info : scheduling_information_t),
      os_resetSchedulingInformation_loop k1 pids info
        = os_resetSchedulingInformation_loop k pids info := by
  intro pids
  induction pids with
  | nil => intro info; rfl
  | cons pid rest ih =>
    intro info
    unfold os_resetSchedulingInformation_loop os_getProcessSlot
    rw [h]
    by_cases hr : (k.os_processes pid).state = OS_PS_READY
    · rw [if_pos hr, if_pos hr]
      generalize rq_push (info.queues_ready (k.os_processes pid).priority) pid = r
      cases r with
      | error e => rfl
      | ok queue => exact ih _
    · rw [if_neg hr, if_neg hr]
      exact ih _

/-- With no call between the rounds the preempted loop is the loop of
`os_resetSchedulingInformation`. -/
theorem os_resetSchedulingInformation_preempted_nil :
    ∀ (pids : List Nat) (k : Kernel),
      os_resetSchedulingInformation_preempted (fun _ => []) pids k
        = (os_resetSchedulingInformation_loop k pids k.schedulingInfo).map
            (fun info => { k with schedulingInfo := info }) := by
  intro pids
  induction pids with
  | nil => intro k; rfl
  | cons pid rest ih =>
    intro k
    unfold os_resetSchedulingInformation_preempted os_resetSchedulingInformation_loop
      os_resetSchedulingInformation_round os_calls
    dsimp only
    by_cases hr : (os_getProcessSlot k pid).state = OS_PS_READY
    · rw [if_pos hr, if_pos hr]
      generalize rq_push (k.schedulingInfo.queues_ready (os_getProcessSlot k pid).priority) pid
        = r
      cases r with
      | error e => rfl
      | ok queue =>
        dsimp only
        rw [ih, os_resetSchedulingInformation_loop_congr k
          { k with schedulingInfo :=
              set_queue k.schedulingInfo (os_getProcessSlot k pid).priority queue } rfl]
    · rw [if_neg hr, if_neg hr]
      dsimp only
      exact ih k

/-- A call of `os_setSchedulingStrategy` that no interrupt cuts into is the
function run from its first to its last statement. -/
theorem os_setSchedulingStrategy_preempted_nil (strategy : scheduling_strategy_t) (k : Kernel) :
    os_setSchedulingStrategy_preempted (fun _ => []) strategy k
      = os_setSchedulingStrategy strategy k := by
  unfold os_setSchedulingStrategy_preempted os_setSchedulingStrategy
    os_resetSchedulingInformation
  by_cases hs : strategy = OS_SS_DYNAMIC_PRIORITY_ROUND_ROBIN
  · rw [if_pos hs, if_pos hs, os_resetSchedulingInformation_preempted_nil,
      os_resetSchedulingInformation_loop_congr k
        { k with schedulingInfo :=
            { queues_ready := fun p => rq_clear (k.schedulingInfo.queues_ready p) } } rfl]
    dsimp only
    generalize os_resetSchedulingInformation_loop k (List.range' 1 (MAX_NUMBER_OF_PROCESSES - 1))
      { queues_ready := fun p => rq_clear (k.schedulingInfo.queues_ready p) } = r
    cases r with
    | error e => rfl
    | ok info => rfl
  · rw [if_neg hs, if_neg hs]

set_option maxRecDepth 100000 in
/-- C12, evaluated at a call of `os_setSchedulingStrategy` that the tick cuts
into. After boot on `boot_kernel` and two ticks process 2 runs under
round-robin and process 1 is Ready. Process 2 calls
`os_setSchedulingStrategy(OS_SS_DYNAMIC_PRIORITY_ROUND_ROBIN)`: the queues are
cleared and the round for pid 1 pushes 1 onto the queue Low. Before the round
for pid 2 a tick hands the processor to process 1, which ends through
`os_kill(1)`; round-robin is still the strategy, so `os_kill` leaves the
queues as they are, and its tick gives the processor back to process 2. The
call returns with the priority strategy set, slot 1 Unused and pid 1 held by
the queue Low, and the next tick selects pid 1: the process that has ended is
Running again. -/
theorem C12_dprr_membership :
    ∃ kb k0 k1 k2 k3 k4,
      os_boot 0x123456 (fun _ => 0) boot_kernel = .ok kb ∧
      os_calls [.tick (PROCESS_STACK_BOTTOM 0 - 72) (fun _ => 0),
                .tick (PROCESS_STACK_BOTTOM 1 - 72) (fun _ => 0)] kb = .ok k0 ∧
      k0.currSchedStrat = OS_SS_ROUND_ROBIN ∧ k0.currentProc = 2 ∧
      (k0.os_processes 2).state = OS_PS_RUNNING ∧ (k0.os_processes 1).state = OS_PS_READY ∧
      os_resetSchedulingInformation_round 1
          { k0 with schedulingInfo :=
              { queues_ready := fun p => rq_clear (k0.schedulingInfo.queues_ready p) } }
        = .ok k1 ∧
      rq_contents (k1.schedulingInfo.queues_ready OS_PRIO_LOW) = [1] ∧
      os_calls (away_kill 2) k1 = .ok k2 ∧
      k2.currSchedStrat = OS_SS_ROUND_ROBIN ∧ k2.currentProc = 2 ∧
      (k2.os_processes 2).state = OS_PS_RUNNING ∧ (k2.os_processes 1).state = OS_PS_UNUSED ∧
      rq_contents (k2.schedulingInfo.queues_ready OS_PRIO_LOW) = [1] ∧
      os_setSchedulingStrategy_preempted away_kill OS_SS_DYNAMIC_PRIORITY_ROUND_ROBIN k0
        = .ok k3 ∧
      k3.currSchedStrat = OS_SS_DYNAMIC_PRIORITY_ROUND_ROBIN ∧ k3.currentProc = 2 ∧
      (k3.os_processes 2).state = OS_PS_RUNNING ∧ (k3.os_processes 1).state = OS_PS_UNUSED ∧
      rq_all k3 = [1] ∧
      ¬ (∀ pid, pid < 8 →
          (k3.os_processes pid).state = OS_PS_UNUSED
            ∨ (k3.os_processes pid).state = OS_PS_RUNNING →
          ∀ p, pid ∉ rq_contents (k3.schedulingInfo.queues_ready p)) ∧
      TIMER2_COMPA_vect (PROCESS_STACK_BOTTOM 2 - 72) (fun _ => 0) k3 = .ok k4 ∧
      k4.currentProc = 1 ∧ (k4.os_processes 1).state = OS_PS_RUNNING ∧
      (k4.os_processes 2).state = OS_PS_READY ∧ rq_all k4 = [2] := by
  refine ⟨_, _, _, _, _, _, rfl, rfl, by decide, by decide, by decide, by decide, rfl,
    by decide, rfl, by decide, by decide, by decide, by decide, by decide, rfl, by decide,
    by decide, by decide, by decide, by decide, ?_, rfl, by decide, by decide, by decide,
    by decide⟩
  intro h
  exact h 1 (by decide) (Or.inl (by decide)) OS_PRIO_LOW (by decide)

set_option maxRecDepth 100000 in
/-- C30, evaluated at a call of `os_setSchedulingStrategy` that the tick cuts
into. After boot on `boot_kernel` and one tick process 1 runs under
round-robin and process 2 is Ready. Process 1 calls
`os_setSchedulingStrategy(OS_SS_DYNAMIC_PRIORITY_ROUND_ROBIN)`: the queues are
cleared and the rounds for the pids 1 to 6 push pid 2 onto the queue Low; slot
3 is Unused in its round. Before the round for pid 7 a tick hands the
processor to process 2, which starts program 3 with priority High in slot 3;
round-robin is still the strategy, so `os_exec` pushes nothing, and two ticks
give the processor to process 3 and back to process 1. The call returns with
the priority strategy set and slot 3 Ready with priority High, but the queue
High is empty: pid 3 is held by no queue. -/
theorem C30_set_strategy_rebuilds_queues :
    ∃ kb k0 k1 k2 k3,
      os_boot 0x123456 (fun _ => 0) boot_kernel = .ok kb ∧
      os_calls [.tick (PROCESS_STACK_BOTTOM 0 - 72) (fun _ => 0)] kb = .ok k0 ∧
      k0.currSchedStrat = OS_SS_ROUND_ROBIN ∧ k0.currentProc = 1 ∧
      (k0.os_processes 1).state = OS_PS_RUNNING ∧ (k0.os_processes 2).state = OS_PS_READY ∧
      (k0.os_processes 3).state = OS_PS_UNUSED ∧
      os_resetSchedulingInformation_preempted away_exec [1, 2, 3, 4, 5, 6]
          { k0 with schedulingInfo :=
              { queues_ready := fun p => rq_clear (k0.schedulingInfo.queues_ready p) } }
        = .ok k1 ∧
      rq_all k1 = [2] ∧
      os_calls (away_exec 7) k1 = .ok k2 ∧
      k2.currSchedStrat = OS_SS_ROUND_ROBIN ∧ k2.currentProc = 1 ∧
      (k2.os_processes 1).state = OS_PS_RUNNING ∧ (k2.os_processes 3).state = OS_PS_READY ∧
      rq_all k2 = [2] ∧
      os_setSchedulingStrategy_preempted away_exec OS_SS_DYNAMIC_PRIORITY_ROUND_ROBIN k0
        = .ok k3 ∧
      os_getSchedulingStrategy k3 = OS_SS_DYNAMIC_PRIORITY_ROUND_ROBIN ∧ k3.currentProc = 1 ∧
      (k3.os_processes 1).state = OS_PS_RUNNING ∧
      (k3.os_processes 3).state = OS_PS_READY ∧
      (k3.os_processes 3).priority = OS_PRIO_HIGH ∧
      (List.range' 1 7).filter (fun pid => decide ((k3.os_processes pid).state = OS_PS_READY
        ∧ (k3.os_processes pid).priority = OS_PRIO_HIGH)) = [3] ∧
      rq_contents (k3.schedulingInfo.queues_ready OS_PRIO_HIGH) = [] ∧
      rq_all k3 = [2] := by
  refine ⟨_, _, _, _, _, rfl, rfl, by decide, by decide, by decide, by decide, by decide, rfl,
    by decide, rfl, by decide, by decide, by decide, by decide, by decide, rfl, by decide,
    by decide, by decide, by decide, by decide, by decide, by decide, by decide⟩

set_option maxRecDepth 100000 in
/-- C38, evaluated at a call of `os_setSchedulingStrategy` that the tick cuts
into. After boot on `boot_kernel`, one tick and
`os_setSchedulingStrategy(OS_SS_DYNAMIC_PRIORITY_ROUND_ROBIN)` process 1 runs
under the priority strategy, process 2 is Ready and held by the queue Low, and
queues and table agree. Process 1 calls `os_setSchedulingStrategy` for the
priority strategy once more: the queues are cleared and the round for pid 2
pushes 2. Before the round for pid 3 a tick hands the processor to process 2,
which starts program 3 five times; each `os_exec` pushes the new pid, and the
next tick requeues 2 and gives the processor back to process 1 with the six
pids 3, 4, 5, 6, 7, 2 in the queue Low. The rounds for the pids 3 and 4 push
these two pids once more, and the `rq_push` of the round for pid 5 finds the
queue Low full: the call ends in the fatal error of `rq_push`. -/
theorem C38_rq_faults_unreachable :
    ∃ kb ka k0 k1 k2 k3 k4,
      os_boot 0x123456 (fun _ => 0) boot_kernel = .ok kb ∧
      TIMER2_COMPA_vect (PROCESS_STACK_BOTTOM 0 - 72) (fun _ => 0) kb = .ok ka ∧
      os_setSchedulingStrategy OS_SS_DYNAMIC_PRIORITY_ROUND_ROBIN ka = .ok k0 ∧
      k0.currSchedStrat = OS_SS_DYNAMIC_PRIORITY_ROUND_ROBIN ∧ k0.currentProc = 1 ∧
      (k0.os_processes 1).state = OS_PS_RUNNING ∧ (k0.os_processes 2).state = OS_PS_READY ∧
      rq_all k0 = [2] ∧ dprr_inv k0 ∧
      os_resetSchedulingInformation_preempted away_spawn [1, 2]
          { k0 with schedulingInfo :=
              { queues_ready := fun p => rq_clear (k0.schedulingInfo.queues_ready p) } }
        = .ok k1 ∧
      rq_contents (k1.schedulingInfo.queues_ready OS_PRIO_LOW) = [2] ∧
      os_calls (away_spawn 3) k1 = .ok k2 ∧
      k2.currentProc = 1 ∧ (k2.os_processes 1).state = OS_PS_RUNNING ∧
      (∀ pid, 2 ≤ pid → pid < 8 → (k2.os_processes pid).state = OS_PS_READY
        ∧ (k2.os_processes pid).priority = OS_PRIO_LOW) ∧
      rq_contents (k2.schedulingInfo.queues_ready OS_PRIO_LOW) = [3, 4, 5, 6, 7, 2] ∧
      os_resetSchedulingInformation_round 3 k2 = .ok k3 ∧
      os_resetSchedulingInformation_round 4 k3 = .ok k4 ∧
      rq_contents (k4.schedulingInfo.queues_ready OS_PRIO_LOW) = [3, 4, 5, 6, 7, 2, 3, 4] ∧
      rq_isFull (k4.schedulingInfo.queues_ready OS_PRIO_LOW) = true ∧
      os_resetSchedulingInformation_round 5 k4 = .error .rq_push_full ∧
      os_setSchedulingStrategy_preempted away_spawn OS_SS_DYNAMIC_PRIORITY_ROUND_ROBIN k0
        = .error .rq_push_full := by
  have h : ∃ kb ka k0,
      os_boot 0x123456 (fun _ => 0) boot_kernel = .ok kb ∧
      TIMER2_COMPA_vect (PROCESS_STACK_BOTTOM 0 - 72) (fun _ => 0) kb = .ok ka ∧
      os_setSchedulingStrategy OS_SS_DYNAMIC_PRIORITY_ROUND_ROBIN ka = .ok k0 ∧
      k0.currSchedStrat = OS_SS_DYNAMIC_PRIORITY_ROUND_ROBIN ∧ k0.currentProc = 1 ∧
      (k0.os_processes 1).state = OS_PS_RUNNING ∧ (k0.os_processes 2).state = OS_PS_READY ∧
      rq_all k0 = [2] ∧
      ∃ k1 k2 k3 k4,
      os_resetSchedulingInformation_preempted away_spawn [1, 2]
          { k0 with schedulingInfo :=
              { queues_ready := fun p => rq_clear (k0.schedulingInfo.queues_ready p) } }
        = .ok k1 ∧
      rq_contents (k1.schedulingInfo.queues_ready OS_PRIO_LOW) = [2] ∧
      os_calls (away_spawn 3) k1 = .ok k2 ∧
      k2.currentProc = 1 ∧ (k2.os_processes 1).state = OS_PS_RUNNING ∧
      (∀ pid, 2 ≤ pid → pid < 8 → (k2.os_processes pid).state = OS_PS_READY
        ∧ (k2.os_processes pid).priority = OS_PRIO_LOW) ∧
      rq_contents (k2.schedulingInfo.queues_ready OS_PRIO_LOW) = [3, 4, 5, 6, 7, 2] ∧
      os_resetSchedulingInformation_round 3 k2 = .ok k3 ∧
      os_resetSchedulingInformation_round 4 k3 = .ok k4 ∧
      rq_contents (k4.schedulingInfo.queues_ready OS_PRIO_LOW) = [3, 4, 5, 6, 7, 2, 3, 4] ∧
      rq_isFull (k4.schedulingInfo.queues_ready OS_PRIO_LOW) = true ∧
      os_resetSchedulingInformation_round 5 k4 = .error .rq_push_full ∧
      os_setSchedulingStrategy_preempted away_spawn OS_SS_DYNAMIC_PRIORITY_ROUND_ROBIN k0
        = .error .rq_push_full :=
    ⟨_, _, _, rfl, rfl, rfl, by decide, by decide, by decide, by decide, by decide,
      _, _, _, _, rfl, by decide, rfl, by decide, by decide, by decide, by decide, rfl, rfl,
      by decide, by decide, rfl, rfl⟩
  obtain ⟨kb, ka, k0, h1, h2, h3, h4, h5, h6, h7, h8, k1, k2, k3, k4, r⟩ := h
  have hinv : dprr_inv k0 := (os_setSchedulingStrategy_dprr_inv ka k0 h3).1
  exact ⟨kb, ka, k0, k1, k2, k3, k4, h1, h2, h3, h4, h5, h6, h7, h8, hinv, r⟩

set_option maxRecDepth 100000 in
/-- The queue levels after a call of `os_setSchedulingStrategy` that the tick
cuts into. After boot on `boot_kernel` and two ticks process 2 calls
`os_setSchedulingStrategy(OS_SS_DYNAMIC_PRIORITY_ROUND_ROBIN)`; the round for
pid 1 pushes 1 onto the queue Low, and before the round for pid 2 process 1
ends and slot 1 is given to a new process with priority High (`away_respawn`,
all under round-robin, which leaves the queues alone). The call returns with
pid 1 Ready, its priority High, and held by the queue Low: a queue of a lower
level than the priority of the slot. -/
theorem dprr_level_preempted_sample :
    ∃ kb k0 k3,
      os_boot 0x123456 (fun _ => 0) boot_kernel = .ok kb ∧
      os_calls [.tick (PROCESS_STACK_BOTTOM 0 - 72) (fun _ => 0),
                .tick (PROCESS_STACK_BOTTOM 1 - 72) (fun _ => 0)] kb = .ok k0 ∧
      k0.currentProc = 2 ∧ (k0.os_processes 2).state = OS_PS_RUNNING ∧
      os_setSchedulingStrategy_preempted away_respawn OS_SS_DYNAMIC_PRIORITY_ROUND_ROBIN k0
        = .ok k3 ∧
      k3.currSchedStrat = OS_SS_DYNAMIC_PRIORITY_ROUND_ROBIN ∧ k3.currentProc = 2 ∧
      (k3.os_processes 2).state = OS_PS_RUNNING ∧
      (k3.os_processes 1).state = OS_PS_READY ∧ (k3.os_processes 1).priority = OS_PRIO_HIGH ∧
      rq_contents (k3.schedulingInfo.queues_ready OS_PRIO_HIGH) = [3] ∧
      rq_contents (k3.schedulingInfo.queues_ready OS_PRIO_NORMAL) = [] ∧
      rq_contents (k3.schedulingInfo.queues_ready OS_PRIO_LOW) = [1] ∧
      ¬ (∀ p pid, pid ∈ rq_contents (k3.schedulingInfo.queues_ready p) →
          priority_value p ≤ priority_value (k3.os_processes pid).priority) := by
  refine ⟨_, _, _, rfl, rfl, by decide, by decide, rfl, by decide, by decide, by decide,
    by decide, by decide, by decide, by decide, by decide, ?_⟩
  intro h
  have h1 := h OS_PRIO_LOW 1 (by decide)
  revert h1
  decide

/-! ### Saved stack pointers on the tables that the kernel builds -/

/-- A returned `rq_push` on a well-formed queue has appended the pid. -/
theorem rq_push_ok (q q1 : ready_queue_t) (pid : Nat) (hwf : rq_wf q)
    (h : rq_push q pid = .ok q1) :
    rq_wf q1 ∧ rq_contents q1 = rq_contents q ++ [pid] := by
  by_cases hc : (rq_contents q).length < 8
  · obtain ⟨q2, h2, w2, c2⟩ := rq_push_contents q pid hwf hc
    rw [h2] at h
    have := Except.ok.inj h
    subst this
    exact ⟨w2, c2⟩
  · have hfull : rq_isFull q = true :=
      (rq_isFull_iff q hwf).mpr (by have := rq_contents_length_le q hwf; omega)
    unfold rq_push at h
    rw [if_pos hfull] at h
    cases h

/-- A returned `rq_pop` on a well-formed queue has taken the head. -/
theorem rq_pop_ok (q q1 : ready_queue_t) (pid : Nat) (hwf : rq_wf q)
    (h : rq_pop q = .ok (pid, q1)) :
    rq_wf q1 ∧ rq_contents q = pid :: rq_contents q1 := by
  by_cases hc : rq_contents q = []
  · have he : rq_isEmpty q = true := (rq_isEmpty_iff q hwf).mpr hc
    unfold rq_pop at h
    rw [if_pos he] at h
    cases h
  · obtain ⟨pid2, q2, h2, w2, c2⟩ := rq_pop_contents q hwf hc
    rw [h2] at h
    have := Except.ok.inj h
    cases this
    exact ⟨w2, c2⟩

/-- A weaker predicate holds of the same queues. -/
theorem queues_all_mono (info : scheduling_information_t) (P Q : Nat → Prop)
    (h : ∀ y, P y → Q y) (ha : queues_all info P) : queues_all info Q :=
  ⟨ha.1, fun p y hy => h y (ha.2 p y hy)⟩

/-- Storing a well-formed queue whose pids satisfy the predicate keeps
`queues_all`. -/
theorem queues_all_set (info : scheduling_information_t) (P : Nat → Prop) (p : priority_t)
    (q : ready_queue_t) (ha : queues_all info P) (hw : rq_wf q)
    (hq : ∀ y, y ∈ rq_contents q → P y) : queues_all (set_queue info p q) P := by
  refine ⟨fun p1 => ?_, fun p1 y hy => ?_⟩
  · by_cases hp : p1 = p
    · rw [hp, set_queue_same]
      exact hw
    · rw [set_queue_other _ _ _ _ hp]
      exact ha.1 p1
  · by_cases hp : p1 = p
    · rw [hp, set_queue_same] at hy
      exact hq y hy
    · rw [set_queue_other _ _ _ _ hp] at hy
      exact ha.2 p1 y hy

/-- A returned push onto one of the queues keeps `queues_all` when the pushed
pid satisfies the predicate. -/
theorem queues_all_push (info : scheduling_information_t) (P : Nat → Prop) (p : priority_t)
    (q : ready_queue_t) (pid : Nat) (ha : queues_all info P) (hp : P pid)
    (h : rq_push (info.queues_ready p) pid = .ok q) : queues_all (set_queue info p q) P := by
  obtain ⟨w, c⟩ := rq_push_ok _ _ _ (ha.1 p) h
  refine queues_all_set info P p q ha w (fun y hy => ?_)
  rw [c, List.mem_append, List.mem_singleton] at hy
  rcases hy with hy | hy
  · exact ha.2 p y hy
  · rw [hy]
    exact hp

/-- A returned aging step keeps `queues_all`. -/
theorem promote_all (info info1 : scheduling_information_t) (lower upper : priority_t)
    (P : Nat → Prop) (ha : queues_all info P) (h : promote info lower upper = .ok info1) :
    queues_all info1 P := by
  unfold promote at h
  by_cases he : rq_isEmpty (info.queues_ready lower) = true
  · simp only [he, Bool.not_true, Bool.false_eq_true, if_false] at h
    have := Except.ok.inj h
    subst this
    exact ha
  · have hf : rq_isEmpty (info.queues_ready lower) = false := by simpa using he
    simp only [hf, Bool.not_false, if_true] at h
    cases hp : rq_pop (info.queues_ready lower) with
    | error e => rw [hp] at h; cases h
    | ok r =>
      obtain ⟨pid, queue⟩ := r
      rw [hp] at h
      dsimp only at h
      obtain ⟨w, c⟩ := rq_pop_ok _ _ _ (ha.1 lower) hp
      have hpid : P pid := ha.2 lower pid (by rw [c]; exact List.mem_cons_self _ _)
      have ha1 : queues_all (set_queue info lower queue) P :=
        queues_all_set info P lower queue ha w
          (fun y hy => ha.2 lower y (by rw [c]; exact List.mem_cons_of_mem _ hy))
      cases hq : rq_push ((set_queue info lower queue).queues_ready upper) pid with
      | error e => rw [hq] at h; cases h
      | ok queue1 =>
        rw [hq] at h
        have := Except.ok.inj h
        subst this
        exact queues_all_push _ P upper queue1 pid ha1 hpid hq

/-- A returned requeue step keeps `queues_all` when the requeued pid satisfies
the predicate. -/
theorem requeue_current_all (k : Kernel) (processes : Nat → process_t) (current : Nat)
    (info info1 : scheduling_information_t) (P : Nat → Prop) (ha : queues_all info P)
    (hc : current ≠ 0 → (processes current).state = OS_PS_READY → P current)
    (h : requeue_current k processes current info = .ok info1) : queues_all info1 P := by
  unfold requeue_current at h
  by_cases hr : current ≠ 0 ∧ (processes current).state = OS_PS_READY
  · rw [if_pos hr] at h
    cases hq : rq_push (info.queues_ready (os_getProcessSlot k current).priority) current with
    | error e => rw [hq] at h; cases h
    | ok queue =>
      rw [hq] at h
      have := Except.ok.inj h
      subst this
      exact queues_all_push _ P _ queue current ha (hc hr.1 hr.2) hq
  · rw [if_neg hr] at h
    have := Except.ok.inj h
    subst this
    exact ha

/-- A returned selection step keeps `queues_all`, and the selected pid is 0 or
satisfies the predicate. -/
theorem select_head_all (k k2 : Kernel) (pid : Nat) (P : Nat → Prop)
    (ha : queues_all k.schedulingInfo P) (h : select_head k = .ok (pid, k2)) :
    queues_all k2.schedulingInfo P ∧ (pid = 0 ∨ P pid) := by
  have hstep : ∀ p : priority_t, ∀ r : Nat × ready_queue_t,
      rq_pop (k.schedulingInfo.queues_ready p) = .ok r →
      queues_all (set_queue k.schedulingInfo p r.2) P ∧ P r.1 := by
    intro p r hp
    obtain ⟨pid1, queue⟩ := r
    obtain ⟨w, c⟩ := rq_pop_ok _ _ _ (ha.1 p) hp
    exact ⟨queues_all_set _ P p queue ha w
        (fun y hy => ha.2 p y (by rw [c]; exact List.mem_cons_of_mem _ hy)),
      ha.2 p pid1 (by rw [c]; exact List.mem_cons_self _ _)⟩
  unfold select_head at h
  split at h
  · cases hp : rq_pop (k.schedulingInfo.queues_ready OS_PRIO_HIGH) with
    | error e => rw [hp] at h; cases h
    | ok r =>
      rw [hp] at h
      have hk := Except.ok.inj h
      cases hk
      exact ⟨(hstep _ r hp).1, Or.inr (hstep _ r hp).2⟩
  · split at h
    · cases hp : rq_pop (k.schedulingInfo.queues_ready OS_PRIO_NORMAL) with
      | error e => rw [hp] at h; cases h
      | ok r =>
        rw [hp] at h
        have hk := Except.ok.inj h
        cases hk
        exact ⟨(hstep _ r hp).1, Or.inr (hstep _ r hp).2⟩
    · split at h
      · cases hp : rq_pop (k.schedulingInfo.queues_ready OS_PRIO_LOW) with
        | error e => rw [hp] at h; cases h
        | ok r =>
          rw [hp] at h
          have hk := Except.ok.inj h
          cases hk
          exact ⟨(hstep _ r hp).1, Or.inr (hstep _ r hp).2⟩
      · cases ht : terminal_writeProgString k with
        | error e => rw [ht] at h; cases h
        | ok k1 =>
          rw [ht] at h
          have hk := Except.ok.inj h
          cases hk
          rw [(terminal_writeProgString_frame k k2 ht).2.2.2.1]
          exact ⟨ha, Or.inl rfl⟩

/-- A returned decision of the priority strategy keeps `queues_all`, and the
selected pid is 0 or satisfies the predicate. -/
theorem os_scheduler_DynamicPriorityRoundRobin_all (k k2 : Kernel)
    (processes : Nat → process_t) (current pid : Nat) (P : Nat → Prop)
    (ha : queues_all k.schedulingInfo P)
    (hc : current ≠ 0 → (processes current).state = OS_PS_READY → P current)
    (h : os_scheduler_DynamicPriorityRoundRobin k processes current = .ok (pid, k2)) :
    queues_all k2.schedulingInfo P ∧ (pid = 0 ∨ P pid) := by
  unfold os_scheduler_DynamicPriorityRoundRobin at h
  cases h1 : promote k.schedulingInfo OS_PRIO_NORMAL OS_PRIO_HIGH with
  | error e => rw [h1] at h; cases h
  | ok info1 =>
    rw [h1] at h
    dsimp only at h
    cases h2 : promote info1 OS_PRIO_LOW OS_PRIO_NORMAL with
    | error e => rw [h2] at h; cases h
    | ok info2 =>
      rw [h2] at h
      dsimp only at h
      cases h3 : requeue_current k processes current info2 with
      | error e => rw [h3] at h; cases h
      | ok info3 =>
        rw [h3] at h
        dsimp only at h
        have a1 := promote_all _ _ _ _ P ha h1
        have a2 := promote_all _ _ _ _ P a1 h2
        have a3 := requeue_current_all k processes current _ _ P a2 hc h3
        exact select_head_all { k with schedulingInfo := info3 } k2 pid P a3 h

/-- The pid chosen by round-robin is below 8. -/
theorem os_scheduler_RoundRobin_lt (processes : Nat → process_t) (current r : Nat)
    (hc : current < 8) (h : os_scheduler_RoundRobin processes current = some r) : r < 8 := by
  rw [os_scheduler_RoundRobin_eq processes current hc] at h
  have hr := Option.some.inj h
  rw [← hr]
  unfold rr_first
  cases hf : (rr_order current).find? (rr_eligible processes) with
  | none => exact Nat.succ_pos 7
  | some i => exact (rr_order_mem current i hc).mp (List.mem_of_find?_eq_some hf)

/-- Writing the state of a slot leaves every saved stack pointer alone. -/
theorem write_state_sp (processes : Nat → process_t) (pid y : Nat) (s : process_state_t) :
    ((write processes pid { (processes pid) with state := s }) y).sp = (processes y).sp := by
  by_cases hy : y = pid
  · rw [hy, write_same]
  · rw [write_other _ _ _ _ hy]

/-- The strategy call of the tick on a table with `stack_inv`: the queues it
leaves keep the invariant, and the pid it returns is below 8 with its saved
stack pointer inside its slot. -/
theorem os_callStrategy_stack (k k2 : Kernel) (pid : Nat) (hcur : k.currentProc < 8)
    (hcsp : sp_in_slot k.currentProc (k.os_processes k.currentProc).sp)
    (h0 : (k.os_processes 0).state ≠ OS_PS_UNUSED) (hinv : stack_inv k)
    (h : os_callStrategy k = .ok (pid, k2)) :
    stack_inv k2 ∧ pid < 8 ∧ sp_in_slot pid (k.os_processes pid).sp := by
  have hproc := (os_callStrategy_frame k k2 pid h).1
  have hzero : sp_in_slot 0 (k.os_processes 0).sp := hinv.2 0 (by decide) h0
  unfold os_callStrategy at h
  by_cases hs : k.currSchedStrat = OS_SS_DYNAMIC_PRIORITY_ROUND_ROBIN
  · rw [if_pos hs] at h
    obtain ⟨a, hp⟩ := os_scheduler_DynamicPriorityRoundRobin_all k k2 k.os_processes
      k.currentProc pid (fun y => y < 8 ∧ sp_in_slot y (k.os_processes y).sp) hinv.1
      (fun _ _ => ⟨hcur, hcsp⟩) h
    refine ⟨⟨?_, ?_⟩, ?_⟩
    · rw [hproc]
      exact a
    · rw [hproc]
      exact hinv.2
    · rcases hp with hp | hp
      · rw [hp]
        exact ⟨by decide, hzero⟩
      · exact hp
  · rw [if_neg hs] at h
    cases hr : os_scheduler_RoundRobin k.os_processes k.currentProc with
    | none => rw [hr] at h; cases h
    | some r =>
      rw [hr] at h
      have hk := Except.ok.inj h
      cases hk
      have hlt := os_scheduler_RoundRobin_lt _ _ _ hcur hr
      refine ⟨hinv, hlt, ?_⟩
      rcases os_scheduler_RoundRobin_ready _ _ _ hr with h1 | h1
      · rw [h1]
        exact hzero
      · exact hinv.2 pid hlt (by rw [h1]; decide)

/-- Steps 4 to 6 of the tick on a table with `stack_inv` whose current
process has its saved stack pointer inside its slot: the invariant is kept,
and the process selected is below 8 with its saved stack pointer inside its
slot. -/
theorem os_selectNext_stack (k k1 : Kernel) (hcur : k.currentProc < 8)
    (hcsp : sp_in_slot k.currentProc (k.os_processes k.currentProc).sp)
    (h0 : (k.os_processes 0).state ≠ OS_PS_UNUSED) (hinv : stack_inv k)
    (h : os_selectNext k = .ok k1) :
    stack_inv k1 ∧ k1.currentProc < 8 ∧
      sp_in_slot k1.currentProc (k1.os_processes k1.currentProc).sp := by
  rw [os_selectNext_eq] at h
  obtain ⟨f1, _, f3, _⟩ := tick_deschedule_frame k
  have hst : ∀ p, ((tick_deschedule k).os_processes p).state ≠ OS_PS_UNUSED →
      (k.os_processes p).state ≠ OS_PS_UNUSED := by
    intro p hs hu
    apply hs
    rw [(tick_deschedule_slot k p).2.2.2.2, hu, if_neg (fun hh => by cases hh.2)]
  have hd : stack_inv (tick_deschedule k) := by
    refine ⟨?_, fun pid hp hs => ?_⟩
    · rw [f3]
      exact queues_all_mono _ _ _
        (fun y hy => ⟨hy.1, by rw [(tick_deschedule_slot k y).2.1]; exact hy.2⟩) hinv.1
    · rw [(tick_deschedule_slot k pid).2.1]
      exact hinv.2 pid hp (hst pid hs)
  cases hc : os_callStrategy (tick_deschedule k) with
  | error e => rw [hc] at h; cases h
  | ok r =>
    obtain ⟨pid, k2⟩ := r
    rw [hc] at h
    dsimp only at h
    obtain ⟨hk2, hpid, hsp⟩ := os_callStrategy_stack (tick_deschedule k) k2 pid
      (by rw [f1]; exact hcur)
      (by rw [f1, (tick_deschedule_slot k _).2.1]; exact hcsp)
      (fun hu => h0 (by
        have := (tick_deschedule_slot k 0).2.2.2.2
        rw [hu] at this
        by_cases hh : 0 = k.currentProc ∧ (k.os_processes 0).state = OS_PS_RUNNING
        · rw [if_pos hh] at this; cases this
        · rw [if_neg hh] at this; exact this.symm)) hd hc
    have hproc := (os_callStrategy_frame _ _ _ hc).1
    have hne : pid ≠ INVALID_PROCESS := by unfold INVALID_PROCESS; omega
    simp only [if_neg hne] at h
    have hk := Except.ok.inj h
    subst hk
    rw [← hproc] at hsp
    refine ⟨⟨?_, fun y hy hs => ?_⟩, hpid, ?_⟩
    · exact queues_all_mono _ _ _
        (fun y hy => ⟨hy.1, by dsimp only; rw [write_state_sp]; exact hy.2⟩) hk2.1
    · dsimp only at hs ⊢
      rw [write_state_sp]
      by_cases hyp : y = pid
      · rw [hyp]
        exact hsp
      · rw [write_other _ _ _ _ hyp] at hs
        exact hk2.2 y hy hs
    · dsimp only
      rw [write_state_sp]
      exact hsp

/-- The tick on a table with `stack_inv` whose first bounds check passes: the
process that the strategy selects is below 8 and its saved stack pointer lies
inside its slot, and the table keeps the invariant. -/
theorem tick_selected_stack (SP : Nat) (mem : Nat → Nat) (k k3 : Kernel)
    (h0 : (k.os_processes 0).state ≠ OS_PS_UNUSED) (hinv : stack_inv k)
    (hin : k.currentProc < 8 ∧ sp_in_slot k.currentProc (SP % 65536))
    (hs : os_selectNext (tick_storeChecksum mem (tick_storeSP SP k)) = .ok k3) :
    stack_inv k3 ∧ k3.currentProc < 8 ∧
      sp_in_slot k3.currentProc (k3.os_processes k3.currentProc).sp := by
  have hsp : ∀ y, y < 8 → sp_in_slot y (k.os_processes y).sp →
      sp_in_slot y ((tick_storeChecksum mem (tick_storeSP SP k)).os_processes y).sp := by
    intro y _ hy
    rw [(tick_store_slot SP mem k y).2.1]
    by_cases hc : y = k.currentProc
    · rw [if_pos hc, hc]
      exact hin.2
    · rw [if_neg hc]
      exact hy
  have hi : (tick_storeChecksum mem (tick_storeSP SP k)).schedulingInfo = k.schedulingInfo := rfl
  refine os_selectNext_stack _ k3 ?_ ?_ ?_ ⟨?_, fun pid hp hst => ?_⟩ hs
  · rw [(tick_store_slot SP mem k 0).1]
    exact hin.1
  · rw [(tick_store_slot SP mem k 0).1, (tick_store_slot SP mem k k.currentProc).2.1, if_pos rfl]
    exact hin.2
  · rw [(tick_store_slot SP mem k 0).2.2.2.1]
    exact h0
  · rw [hi]
    exact queues_all_mono _ _ _ (fun y hy => ⟨hy.1, hsp y hy.1 hy.2⟩) hinv.1
  · rw [(tick_store_slot SP mem k pid).2.2.2.1] at hst
    exact hsp pid hp (hinv.2 pid hp hst)

/-- A returned tick keeps `stack_inv`. -/
theorem TIMER2_COMPA_vect_stack (SP : Nat) (mem : Nat → Nat) (k k1 : Kernel)
    (h0 : (k.os_processes 0).state ≠ OS_PS_UNUSED) (hinv : stack_inv k)
    (h : TIMER2_COMPA_vect SP mem k = .ok k1) : stack_inv k1 := by
  obtain ⟨hc, _, hs⟩ := TIMER2_COMPA_vect_ok SP mem k k1 h
  have hin : k.currentProc < 8 ∧ sp_in_slot k.currentProc (SP % 65536) := by
    rw [TIMER2_COMPA_vect_eq] at h
    by_cases h1 : os_isStackInBounds (tick_storeSP SP k) k.currentProc = true
    · have := (os_isStackInBounds_iff _ _).mp h1
      rw [(tick_store_slot SP mem k k.currentProc).2.2.2.2.2.2, if_pos rfl] at this
      exact this
    · have h1f : os_isStackInBounds (tick_storeSP SP k) k.currentProc = false := by
        simpa using h1
      simp only [h1f, Bool.not_false, if_true] at h
      cases h
  exact (tick_selected_stack SP mem k k1 h0 hinv hin hs).1

/-- The invariant `stack_inv` reads the process table and the queues only. -/
theorem stack_inv_congr (k k1 : Kernel) (hp : k1.os_processes = k.os_processes)
    (hi : k1.schedulingInfo = k.schedulingInfo) (hinv : stack_inv k) : stack_inv k1 := by
  unfold stack_inv at hinv ⊢
  rw [hp, hi]
  exact hinv

/-- The idle slot is in use. -/
theorem idle_ok_used (k : Kernel) (h : idle_ok k) : (k.os_processes 0).state ≠ OS_PS_UNUSED := by
  rcases h.1 with h1 | h1 <;> rw [h1] <;> decide

/-- A returned `os_resetProcessSchedulingInformation` keeps `queues_all` when
the pid satisfies the predicate in case its slot is Ready. -/
theorem os_resetProcessSchedulingInformation_all (strategy : scheduling_strategy_t) (id : Nat)
    (k k1 : Kernel) (P : Nat → Prop) (ha : queues_all k.schedulingInfo P)
    (hp : (k.os_processes id).state = OS_PS_READY → P id)
    (h : os_resetProcessSchedulingInformation strategy id k = .ok k1) :
    queues_all k1.schedulingInfo P := by
  unfold os_resetProcessSchedulingInformation at h
  by_cases hs : strategy = OS_SS_DYNAMIC_PRIORITY_ROUND_ROBIN
  · rw [if_pos hs] at h
    obtain ⟨info1, hl, w1, c1⟩ :=
      os_resetProcessSchedulingInformation_loop_spec id k.schedulingInfo ha.1
    rw [hl] at h
    dsimp only at h
    have a1 : queues_all info1 P :=
      ⟨w1, fun p y hy => ha.2 p y (by rw [c1 p] at hy; exact List.mem_of_mem_erase hy)⟩
    by_cases hr : (os_getProcessSlot k id).state = OS_PS_READY
    · rw [if_pos hr] at h
      cases hq : rq_push (info1.queues_ready (os_getProcessSlot k id).priority) id with
      | error e => rw [hq] at h; cases h
      | ok queue =>
        rw [hq] at h
        have := Except.ok.inj h
        subst this
        exact queues_all_push info1 P _ queue id a1 (hp hr) hq
    · rw [if_neg hr] at h
      have := Except.ok.inj h
      subst this
      exact a1
  · rw [if_neg hs] at h
    have := Except.ok.inj h
    subst this
    exact ha

/-- The stack pointer that `os_exec` stores lies inside the slot. -/
theorem os_exec_stack_in_slot (dispatcherAddress : Nat) (mem : Nat → Nat) (r : Nat)
    (hr : r < 8) :
    sp_in_slot r (os_exec_stack dispatcherAddress mem (PROCESS_STACK_BOTTOM r % 65536)).2 := by
  obtain ⟨b1, b2, _⟩ := PROCESS_STACK_BOTTOM_bounds r hr
  have hm : PROCESS_STACK_BOTTOM r % 65536 = PROCESS_STACK_BOTTOM r := Nat.mod_eq_of_lt (by omega)
  rw [hm, (os_exec_stack_spec dispatcherAddress mem (PROCESS_STACK_BOTTOM r) (by omega)
    (by omega)).1]
  unfold sp_in_slot
  rw [STACK_SIZE_PROC_eq]
  omega

/-- A returned `os_exec` keeps `stack_inv`. -/
theorem os_exec_stack_inv (dispatcherAddress programID priority : Nat) (mem mem1 : Nat → Nat)
    (k k1 : Kernel) (r : Nat) (hinv : stack_inv k)
    (h : os_exec dispatcherAddress programID priority mem k = .ok (r, mem1, k1)) :
    stack_inv k1 := by
  obtain ⟨_, _, _, _, hcase⟩ := os_exec_inv _ _ _ _ _ _ _ _ h
  rcases hcase with ⟨_, _, hp, hi, _⟩ |
    ⟨prio, kmid, kres, _, hr8, _, _, _, _, hproc, hmp, hmi, hreset, hinfo⟩
  · exact stack_inv_congr k k1 hp hi hinv
  · have hsp : ∀ y, y < 8 → sp_in_slot y (k.os_processes y).sp →
        sp_in_slot y (k1.os_processes y).sp := by
      intro y _ hy
      rw [hproc]
      by_cases hyr : y = r
      · rw [hyr, write_same]
        exact os_exec_stack_in_slot dispatcherAddress mem r hr8
      · rw [write_other _ _ _ _ hyr]
        exact hy
    have hnew : sp_in_slot r (k1.os_processes r).sp := by
      rw [hproc, write_same]
      exact os_exec_stack_in_slot dispatcherAddress mem r hr8
    have a0 : queues_all kmid.schedulingInfo
        (fun y => y < 8 ∧ sp_in_slot y (k1.os_processes y).sp) := by
      rw [hmi]
      exact queues_all_mono _ _ _ (fun y hy => ⟨hy.1, hsp y hy.1 hy.2⟩) hinv.1
    have a1 := os_resetProcessSchedulingInformation_all _ r kmid kres _ a0
      (fun _ => ⟨hr8, hnew⟩) hreset
    refine ⟨?_, fun pid hp hst => ?_⟩
    · rw [hinfo]
      exact a1
    · by_cases hpr : pid = r
      · rw [hpr]
        exact hnew
      · refine hsp pid hp (hinv.2 pid hp ?_)
        rw [hproc, write_other _ _ _ _ hpr] at hst
        exact hst

/-- A returned `os_kill` keeps `stack_inv` on a table whose idle slot is in
use. -/
theorem os_kill_stack_inv (pid SP : Nat) (mem : Nat → Nat) (k k1 : Kernel) (res : Option Bool)
    (h0 : (k.os_processes 0).state ≠ OS_PS_UNUSED) (hinv : stack_inv k)
    (h : os_kill pid SP mem k = .ok (res, k1)) : stack_inv k1 := by
  rcases os_kill_inv pid SP mem k k1 res h with
    ⟨_, _, hp, hi, _⟩ | ⟨h1, _, _, kmid, kres, hmp, hmi, hreset, hrp, hcase⟩
  · exact stack_inv_congr k k1 hp hi hinv
  · have hsp : ∀ y, (kmid.os_processes y).sp = (k.os_processes y).sp := by
      intro y
      rw [hmp]
      exact write_state_sp _ _ _ _
    have a0 : queues_all kmid.schedulingInfo
        (fun y => y < 8 ∧ sp_in_slot y (kmid.os_processes y).sp) := by
      rw [hmi]
      exact queues_all_mono _ _ _ (fun y hy => ⟨hy.1, by rw [hsp]; exact hy.2⟩) hinv.1
    have a1 := os_resetProcessSchedulingInformation_all _ pid kmid kres _ a0
      (fun hrd => by
        rw [hmp, write_same] at hrd
        cases hrd) hreset
    have hmid : ∀ (kx : Kernel), kx.os_processes = kmid.os_processes →
        kx.schedulingInfo = kres.schedulingInfo → stack_inv kx := by
      intro kx hx1 hx2
      unfold stack_inv
      rw [hx1, hx2]
      refine ⟨a1, fun y hy hst => ?_⟩
      rw [hsp]
      refine hinv.2 y hy ?_
      by_cases hyp : y = pid
      · rw [hmp, hyp, write_same] at hst
        exact absurd rfl hst
      · rw [hmp, write_other _ _ _ _ hyp] at hst
        exact hst
    rcases hcase with ⟨_, _, hp1, hi1, _⟩ | ⟨_, _, kT, hpT, hiT, _, _, _, _, _, htick⟩
    · exact hmid k1 hp1 hi1
    · refine TIMER2_COMPA_vect_stack SP mem kT k1 ?_ (hmid kT hpT hiT) htick
      rw [hpT, hmp, write_other _ _ _ _ (by omega)]
      exact h0

/-- A returned round of the second loop of `os_resetSchedulingInformation`
keeps `stack_inv` and the process table. -/
theorem os_resetSchedulingInformation_round_stack (pid : Nat) (k k1 : Kernel) (hp : pid < 8)
    (hinv : stack_inv k) (h : os_resetSchedulingInformation_round pid k = .ok k1) :
    stack_inv k1 ∧ k1.os_processes = k.os_processes := by
  unfold os_resetSchedulingInformation_round at h
  by_cases hr : (os_getProcessSlot k pid).state = OS_PS_READY
  · rw [if_pos hr] at h
    cases hq : rq_push (k.schedulingInfo.queues_ready (os_getProcessSlot k pid).priority) pid with
    | error e => rw [hq] at h; cases h
    | ok queue =>
      rw [hq] at h
      have := Except.ok.inj h
      subst this
      refine ⟨⟨?_, hinv.2⟩, rfl⟩
      exact queues_all_push _ _ _ queue pid hinv.1
        ⟨hp, hinv.2 pid hp (by
          have : (k.os_processes pid).state = OS_PS_READY := hr
          rw [this]
          decide)⟩ hq
  · rw [if_neg hr] at h
    have := Except.ok.inj h
    subst this
    exact ⟨hinv, rfl⟩

/-- The rounds of `os_resetSchedulingInformation` with calls in between keep
every property that the calls and the rounds keep. -/
theorem os_resetSchedulingInformation_preempted_keeps (I : Kernel → Prop)
    (away : Nat → List KernelCall)
    (hcalls : ∀ pid k k1, I k → os_calls (away pid) k = .ok k1 → I k1)
    (hround : ∀ pid k k1, pid < 8 → I k → os_resetSchedulingInformation_round pid k = .ok k1 →
      I k1) :
    ∀ (pids : List Nat) (k k1 : Kernel), (∀ pid, pid ∈ pids → pid < 8) → I k →
      os_resetSchedulingInformation_preempted away pids k = .ok k1 → I k1 := by
  intro pids
  induction pids with
  | nil =>
    intro k k1 _ hi h
    have := Except.ok.inj h
    subst this
    exact hi
  | cons pid rest ih =>
    intro k k1 hall hi h
    unfold os_resetSchedulingInformation_preempted at h
    cases hc : os_calls (away pid) k with
    | error e => rw [hc] at h; cases h
    | ok ka =>
      rw [hc] at h
      dsimp only at h
      cases hr : os_resetSchedulingInformation_round pid ka with
      | error e => rw [hr] at h; cases h
      | ok kb =>
        rw [hr] at h
        dsimp only at h
        exact ih kb k1 (fun q hq => hall q (List.mem_cons_of_mem _ hq))
          (hround pid ka kb (hall pid (List.mem_cons_self _ _)) (hcalls pid k ka hi hc) hr) h

/-- A returned call of `os_setSchedulingStrategy`, with whatever calls between
its rounds, keeps the idle slot and `stack_inv` if the calls in between keep
them. -/
theorem os_setSchedulingStrategy_preempted_stack (away : Nat → List KernelCall)
    (strategy : scheduling_strategy_t) (k k1 : Kernel)
    (hcalls : ∀ pid k k1, idle_ok k ∧ stack_inv k → os_calls (away pid) k = .ok k1 →
      idle_ok k1 ∧ stack_inv k1)
    (hinv : idle_ok k ∧ stack_inv k)
    (h : os_setSchedulingStrategy_preempted away strategy k = .ok k1) :
    idle_ok k1 ∧ stack_inv k1 := by
  unfold os_setSchedulingStrategy_preempted at h
  by_cases hs : strategy = OS_SS_DYNAMIC_PRIORITY_ROUND_ROBIN
  · rw [if_pos hs] at h
    cases hl : os_resetSchedulingInformation_preempted away
        (List.range' 1 (MAX_NUMBER_OF_PROCESSES - 1))
        { k with schedulingInfo :=
            { queues_ready := fun p => rq_clear (k.schedulingInfo.queues_ready p) } } with
    | error e => rw [hl] at h; cases h
    | ok k2 =>
      rw [hl] at h
      have := Except.ok.inj h
      subst this
      have h2 := os_resetSchedulingInformation_preempted_keeps
        (fun k => idle_ok k ∧ stack_inv k) away hcalls
        (fun pid ka kb hp hi hr => by
          obtain ⟨s1, s2⟩ := os_resetSchedulingInformation_round_stack pid ka kb hp hi.2 hr
          refine ⟨?_, s1⟩
          have := hi.1
          unfold idle_ok at this ⊢
          rw [s2]
          exact this)
        (List.range' 1 (MAX_NUMBER_OF_PROCESSES - 1))
        { k with schedulingInfo :=
            { queues_ready := fun p => rq_clear (k.schedulingInfo.queues_ready p) } } k2
        (fun pid hp => by
          rw [List.mem_range'_1] at hp
          unfold MAX_NUMBER_OF_PROCESSES at hp
          omega)
        ⟨hinv.1, ⟨⟨fun p => rq_clear_wf _, fun p y hy => by
          have hy1 : y ∈ rq_contents (rq_clear (k.schedulingInfo.queues_ready p)) := hy
          rw [rq_clear_contents] at hy1
          cases hy1⟩, hinv.2.2⟩⟩ hl
      exact ⟨h2.1, stack_inv_congr k2 _ rfl rfl h2.2⟩
  · rw [if_neg hs] at h
    have := Except.ok.inj h
    subst this
    exact ⟨hinv.1, stack_inv_congr k _ rfl rfl hinv.2⟩

/-- A returned call keeps the idle slot and `stack_inv`. -/
theorem os_call_stack (c : KernelCall) (k k1 : Kernel) (hinv : idle_ok k ∧ stack_inv k)
    (h : os_call c k = .ok k1) : idle_ok k1 ∧ stack_inv k1 := by
  refine ⟨(os_call_slots c k k1 h).1 hinv.1, ?_⟩
  have h0 := idle_ok_used k hinv.1
  cases c with
  | tick SP mem => exact TIMER2_COMPA_vect_stack SP mem k k1 h0 hinv.2 h
  | yield SP mem =>
    have hy : os_yield SP mem k = .ok k1 := h
    unfold os_yield at hy
    by_cases hc : k.criticalSectionCount > 0
    · rw [if_pos hc] at hy
      have := Except.ok.inj hy
      subst this
      exact hinv.2
    · rw [if_neg hc] at hy
      exact TIMER2_COMPA_vect_stack SP mem { k with SREG_I := false } k1 h0
        (stack_inv_congr k _ rfl rfl hinv.2) hy
  | exec d programID priority mem =>
    obtain ⟨r, mem1, he⟩ := os_call_exec d programID priority mem k k1 h
    exact os_exec_stack_inv d programID priority mem mem1 k k1 r hinv.2 he
  | kill pid SP mem =>
    obtain ⟨res, he⟩ := os_call_kill pid SP mem k k1 h
    exact os_kill_stack_inv pid SP mem k k1 res h0 hinv.2 he
  | setStrategy s =>
    have hs : os_setSchedulingStrategy s k = .ok k1 := h
    rw [← os_setSchedulingStrategy_preempted_nil] at hs
    exact (os_setSchedulingStrategy_preempted_stack (fun _ => []) s k k1
      (fun pid ka kb hi hc => by
        have := Except.ok.inj hc
        subst this
        exact hi) hinv hs).2

/-- Every sequence of calls that is not stopped by a fatal error keeps the
idle slot and `stack_inv`. -/
theorem os_calls_stack : ∀ (calls : List KernelCall) (k k1 : Kernel),
    idle_ok k ∧ stack_inv k → os_calls calls k = .ok k1 → idle_ok k1 ∧ stack_inv k1 := by
  intro calls
  induction calls with
  | nil =>
    intro k k1 hinv h
    have := Except.ok.inj h
    subst this
    exact hinv
  | cons c rest ih =>
    intro k k1 hinv h
    unfold os_calls at h
    cases hc : os_call c k with
    | error e => rw [hc] at h; cases h
    | ok k2 =>
      rw [hc] at h
      dsimp only at h
      exact ih k2 k1 (os_call_stack c k k2 hinv hc) h

/-- A call of `os_setSchedulingStrategy` that returns keeps the idle slot and
`stack_inv`, whatever calls the kernel serves between its rounds. -/
theorem os_setSchedulingStrategy_preempted_stack_inv (away : Nat → List KernelCall)
    (strategy : scheduling_strategy_t) (k k1 : Kernel) (hinv : idle_ok k ∧ stack_inv k)
    (h : os_setSchedulingStrategy_preempted away strategy k = .ok k1) :
    idle_ok k1 ∧ stack_inv k1 :=
  os_setSchedulingStrategy_preempted_stack away strategy k k1
    (fun pid ka kb hi hc => os_calls_stack (away pid) ka kb hi hc) hinv h

/-- The autostart loop of `os_initScheduler` keeps `stack_inv`. -/
theorem os_initScheduler_loop_stack (dispatcherAddress : Nat) :
    ∀ (progs : List Nat) (mem mem1 : Nat → Nat) (k k1 : Kernel), stack_inv k →
      os_initScheduler_loop dispatcherAddress progs mem k = .ok (mem1, k1) → stack_inv k1 := by
  intro progs
  induction progs with
  | nil =>
    intro mem mem1 k k1 hinv h
    obtain ⟨_, r⟩ := Prod.mk.inj (Except.ok.inj h)
    subst r
    exact hinv
  | cons progID rest ih =>
    intro mem mem1 k k1 hinv h
    unfold os_initScheduler_loop at h
    by_cases ha : os_checkAutostartProgram k progID = true
    · rw [if_pos ha] at h
      cases he : os_exec dispatcherAddress progID DEFAULT_PRIORITY mem k with
      | error e => rw [he] at h; cases h
      | ok res =>
        obtain ⟨r, mem2, k2⟩ := res
        rw [he] at h
        dsimp only at h
        exact ih mem2 mem1 k2 k1 (os_exec_stack_inv _ _ _ _ _ _ _ _ hinv he) h
    · rw [if_neg ha] at h
      exact ih mem mem1 k k1 hinv h

/-- After `os_initScheduler` on globals whose ready queues are empty, as the
startup code leaves them, the table has `stack_inv`. -/
theorem os_initScheduler_stack (dispatcherAddress : Nat) (mem mem1 : Nat → Nat) (k k1 : Kernel)
    (hq : ∀ p, rq_wf (k.schedulingInfo.queues_ready p)
      ∧ rq_contents (k.schedulingInfo.queues_ready p) = [])
    (h : os_initScheduler dispatcherAddress mem k = .ok (mem1, k1)) : stack_inv k1 := by
  have hidle := (os_initScheduler_slots dispatcherAddress mem mem1 k k1 h).1
  have heq : os_initScheduler dispatcherAddress mem k
      = if (os_initScheduler_clear k).os_programs 0 = 0 then .error .idle_not_registered
        else
          match os_exec dispatcherAddress 0 (priority_value OS_PRIO_LOW) mem
              (os_initScheduler_clear k) with
          | .error e => .error e
          | .ok (_, mem1, k2) =>
            match os_initScheduler_loop dispatcherAddress
                (List.range' 1 (MAX_NUMBER_OF_PROGRAMS - 1)) mem1 k2 with
            | .error e => .error e
            | .ok (mem2, k3) =>
              match os_resetSchedulingInformation k3.currSchedStrat k3 with
              | .error e => .error e
              | .ok k4 => .ok (mem2, k4) := rfl
  rw [heq] at h
  have hU : stack_inv (os_initScheduler_clear k) := by
    refine ⟨⟨fun p => (hq p).1, fun p y hy => ?_⟩, fun pid hp hst => ?_⟩
    · have hy1 : y ∈ rq_contents (k.schedulingInfo.queues_ready p) := hy
      rw [(hq p).2] at hy1
      cases hy1
    · exfalso
      apply hst
      unfold os_initScheduler_clear
      dsimp only
      rw [if_pos (by unfold MAX_NUMBER_OF_PROCESSES; exact hp)]
  generalize os_initScheduler_clear k = kU at h hU
  split at h
  · cases h
  · cases he : os_exec dispatcherAddress 0 (priority_value OS_PRIO_LOW) mem kU with
    | error e => rw [he] at h; cases h
    | ok res =>
      obtain ⟨r, mem2, k2⟩ := res
      rw [he] at h
      dsimp only at h
      cases hl : os_initScheduler_loop dispatcherAddress
          (List.range' 1 (MAX_NUMBER_OF_PROGRAMS - 1)) mem2 k2 with
      | error e => rw [hl] at h; cases h
      | ok res2 =>
        obtain ⟨mem3, k3⟩ := res2
        rw [hl] at h
        dsimp only at h
        cases hr : os_resetSchedulingInformation k3.currSchedStrat k3 with
        | error e => rw [hr] at h; cases h
        | ok k4 =>
          rw [hr] at h
          obtain ⟨_, r2⟩ := Prod.mk.inj (Except.ok.inj h)
          subst r2
          obtain ⟨f1, _⟩ := os_resetSchedulingInformation_frame _ _ _ hr
          have h3 : stack_inv k3 := os_initScheduler_loop_stack _ _ _ _ _ _
            (os_exec_stack_inv _ _ _ _ _ _ _ _ hU he) hl
          have hidle3 : idle_ok k3 := by
            unfold idle_ok at hidle ⊢
            rw [← f1]
            exact hidle
          have hset : os_setSchedulingStrategy k3.currSchedStrat k3
              = .ok { k4 with currSchedStrat := k3.currSchedStrat } := by
            unfold os_setSchedulingStrategy
            rw [hr]
          exact stack_inv_congr _ k4 rfl rfl
            (os_call_stack (.setStrategy k3.currSchedStrat) k3 _ ⟨hidle3, h3⟩ hset).2

/-- After boot on globals whose ready queues are empty the idle slot is in use
and the table has `stack_inv`. -/
theorem os_boot_stack (dispatcherAddress : Nat) (mem : Nat → Nat) (k kb : Kernel)
    (hq : ∀ p, rq_wf (k.schedulingInfo.queues_ready p)
      ∧ rq_contents (k.schedulingInfo.queues_ready p) = [])
    (h : os_boot dispatcherAddress mem k = .ok kb) : idle_ok kb ∧ stack_inv kb := by
  refine ⟨(os_boot_slots dispatcherAddress mem k kb h).1, ?_⟩
  unfold os_boot at h
  cases hi : os_initScheduler dispatcherAddress mem k with
  | error e => rw [hi] at h; cases h
  | ok res =>
    obtain ⟨mem1, k1⟩ := res
    rw [hi] at h
    have := Except.ok.inj h
    subst this
    have h1 := os_initScheduler_stack dispatcherAddress mem mem1 k k1 hq hi
    have h0 := idle_ok_used k1 (os_initScheduler_slots _ _ _ _ _ hi).1
    unfold os_startScheduler
    refine ⟨?_, fun pid hp hst => ?_⟩
    · exact queues_all_mono _ _ _
        (fun y hy => ⟨hy.1, by dsimp only; rw [write_state_sp]; exact hy.2⟩) h1.1
    · dsimp only at hst ⊢
      rw [write_state_sp]
      by_cases hp0 : pid = 0
      · rw [hp0]
        exact h1.2 0 (by decide) h0
      · rw [write_other _ _ _ _ hp0] at hst
        exact h1.2 pid hp hst

/-- C19: `os_isStackInBounds(pid)` is true iff pid < 8 and the saved stack
pointer lies in [bottom - STACK_SIZE_PROC + 1, bottom]. On a table that the
kernel has built (`idle_ok` and `stack_inv`, which boot establishes and every
returning call keeps) a tick ends in the fatal stack-overflow error iff the
stack pointer saved for the interrupted process, or the saved stack pointer
of the process selected to run next, lies outside its slot; on such a table
the second case does not occur, since the stack pointer of every process that
a strategy can select has passed a bounds check or was set by `os_exec`.
After a tick without fatal error the saved stack pointers of the interrupted
and of the selected process lie inside their slots, and the table is again
one that the kernel has built. -/
theorem C19_stack_bounds (SP : Nat) (mem : Nat → Nat) (k : Kernel)
    (hidle : idle_ok k) (hinv : stack_inv k) :
    (∀ pid, os_isStackInBounds k pid = true ↔ pid < 8 ∧ sp_in_slot pid (k.os_processes pid).sp) ∧
    (TIMER2_COMPA_vect SP mem k = .error .stack_overflow ↔
      ¬ (k.currentProc < 8 ∧ sp_in_slot k.currentProc (SP % 65536)) ∨
      ∃ k3, os_selectNext (tick_storeChecksum mem (tick_storeSP SP k)) = .ok k3 ∧
        ¬ (k3.currentProc < 8 ∧ sp_in_slot k3.currentProc (k3.os_processes k3.currentProc).sp)) ∧
    (TIMER2_COMPA_vect SP mem k = .error .stack_overflow ↔
      ¬ (k.currentProc < 8 ∧ sp_in_slot k.currentProc (SP % 65536))) ∧
    (∀ k3, k.currentProc < 8 ∧ sp_in_slot k.currentProc (SP % 65536) →
      os_selectNext (tick_storeChecksum mem (tick_storeSP SP k)) = .ok k3 →
      k3.currentProc < 8 ∧ sp_in_slot k3.currentProc (k3.os_processes k3.currentProc).sp) ∧
    (∀ k1, TIMER2_COMPA_vect SP mem k = .ok k1 →
      (k1.os_processes k.currentProc).sp = SP % 65536 ∧
      k.currentProc < 8 ∧ sp_in_slot k.currentProc (k1.os_processes k.currentProc).sp ∧
      k1.currentProc < 8 ∧ sp_in_slot k1.currentProc (k1.os_processes k1.currentProc).sp ∧
      idle_ok k1 ∧ stack_inv k1) := by
  have h0 := idle_ok_used k hidle
  have hfirst : os_isStackInBounds (tick_storeSP SP k) k.currentProc = true ↔
      k.currentProc < 8 ∧ sp_in_slot k.currentProc (SP % 65536) := by
    rw [os_isStackInBounds_iff, (tick_store_slot SP mem k k.currentProc).2.2.2.2.2.2, if_pos rfl]
  have sel : ∀ k3, k.currentProc < 8 ∧ sp_in_slot k.currentProc (SP % 65536) →
      os_selectNext (tick_storeChecksum mem (tick_storeSP SP k)) = .ok k3 →
      k3.currentProc < 8 ∧ sp_in_slot k3.currentProc (k3.os_processes k3.currentProc).sp :=
    fun k3 hin hs => (tick_selected_stack SP mem k k3 h0 hinv hin hs).2
  have key : TIMER2_COMPA_vect SP mem k = .error .stack_overflow ↔
      ¬ (k.currentProc < 8 ∧ sp_in_slot k.currentProc (SP % 65536)) := by
    rw [TIMER2_COMPA_vect_eq]
    by_cases h1 : os_isStackInBounds (tick_storeSP SP k) k.currentProc = true
    · have hin := hfirst.mp h1
      simp only [h1, Bool.not_true, Bool.false_eq_true, if_false]
      refine ⟨fun h => ?_, fun h => absurd hin h⟩
      exfalso
      cases hs : os_selectNext (tick_storeChecksum mem (tick_storeSP SP k)) with
      | error e =>
        rw [hs] at h
        have he := Except.error.inj h
        rcases os_selectNext_error _ _ hs with h | h | h | h | h <;> rw [h] at he <;> cases he
      | ok k3 =>
        rw [hs] at h
        dsimp only at h
        have h2 : os_isStackInBounds k3 k3.currentProc = true :=
          (os_isStackInBounds_iff _ _).mpr (sel k3 hin hs)
        by_cases hck : os_getStackChecksum mem k3 k3.currentProc
            = (k3.os_processes k3.currentProc).checksum
        · rw [if_neg (not_not.mpr hck)] at h
          simp only [h2, Bool.not_true, Bool.false_eq_true, if_false] at h
          cases h
        · rw [if_pos hck] at h
          cases h
    · have h1f : os_isStackInBounds (tick_storeSP SP k) k.currentProc = false := by simpa using h1
      simp only [h1f, Bool.not_false, if_true, true_iff]
      exact fun hc => h1 (hfirst.mpr hc)
  refine ⟨fun pid => os_isStackInBounds_iff k pid, ⟨fun h => Or.inl (key.mp h), ?_⟩, key, sel, ?_⟩
  · rintro (h | ⟨k3, hs, hout⟩)
    · exact key.mpr h
    · exact key.mpr (fun hin => hout (sel k3 hin hs))
  · intro k1 hk1
    have hidle1 := TIMER2_COMPA_vect_idle SP mem k k1 hidle hk1
    have hinv1 := TIMER2_COMPA_vect_stack SP mem k k1 h0 hinv hk1
    obtain ⟨_, _, hs⟩ := TIMER2_COMPA_vect_ok SP mem k k1 hk1
    have hin : k.currentProc < 8 ∧ sp_in_slot k.currentProc (SP % 65536) := by
      by_contra hn
      rw [key.mpr hn] at hk1
      cases hk1
    have hsp : (k1.os_processes k.currentProc).sp = SP % 65536 := by
      rw [((os_selectNext_frame _ _ hs).2.2.2.2.2.2 k.currentProc).2.1,
        (tick_store_slot SP mem k k.currentProc).2.1, if_pos rfl]
    have h3 := sel k1 hin hs
    exact ⟨hsp, hin.1, by rw [hsp]; exact hin.2, h3.1, h3.2, hidle1, hinv1⟩

set_option maxRecDepth 100000 in
/-- Witness of C19: the table after boot on `boot_kernel` is one that the
kernel has built; the first tick, which interrupts the idle process with 72
bytes on its stack, selects process 1 and leaves both saved stack pointers
inside their slots, and a tick that finds the stack pointer of the idle
process one above its stack bottom ends in the stack-overflow error. -/
theorem C19_stack_bounds_witness :
    idle_ok boot_idle ∧ stack_inv boot_idle ∧
    (∃ k1, TIMER2_COMPA_vect (PROCESS_STACK_BOTTOM 0 - 72) (fun _ => 0) boot_idle = .ok k1 ∧
      k1.currentProc = 1 ∧
      (k1.os_processes 0).sp = PROCESS_STACK_BOTTOM 0 - 72 ∧
      sp_in_slot 0 (k1.os_processes 0).sp ∧
      sp_in_slot 1 (k1.os_processes 1).sp) ∧
    TIMER2_COMPA_vect (PROCESS_STACK_BOTTOM 0 + 1) (fun _ => 0) boot_idle
      = .error .stack_overflow := by
  have hb : os_boot 0x123456 (fun _ => 0) boot_kernel = .ok boot_idle := rfl
  have hinv := os_boot_stack 0x123456 (fun _ => 0) boot_kernel boot_idle
    (fun p => ⟨by cases p <;> decide, by cases p <;> decide⟩) hb
  have ht : ∃ k1, TIMER2_COMPA_vect (PROCESS_STACK_BOTTOM 0 - 72) (fun _ => 0) boot_idle = .ok k1 ∧
      k1.currentProc = 1 ∧ boot_idle.currentProc = 0 := ⟨_, rfl, by decide, by decide⟩
  obtain ⟨k1, h1, h2, h3⟩ := ht
  have hc := (C19_stack_bounds (PROCESS_STACK_BOTTOM 0 - 72) (fun _ => 0) boot_idle hinv.1
    hinv.2).2.2.2.2 k1 h1
  rw [h2, h3] at hc
  refine ⟨hinv.1, hinv.2, ⟨k1, h1, h2, ?_, hc.2.2.1, hc.2.2.2.2.1⟩, ?_⟩
  · rw [hc.1]
    decide
  · exact (C19_stack_bounds (PROCESS_STACK_BOTTOM 0 + 1) (fun _ => 0) boot_idle hinv.1
      hinv.2).2.2.1.mpr (by
        rw [h3]
        decide)

end DEOS
